import Mathlib

/-!
# NuPlayer::GenericSource — a shallow embedding

The development follows `media/libmediaplayerservice/nuplayer/GenericSource.cpp`.
The object state of `NuPlayer::GenericSource` becomes a record that is passed
explicitly; every member function becomes a function from a state to a result
and a new state.  Three kinds of events that the C++ code produces on other
objects are recorded in the state as chronological traces: the reads issued on
the elementary-stream readers (`reads`), the messages posted on the looper
(`posted`) and the notifications sent to the player (`notified`).

Process-ending events (a failed `CHECK`, `TRESPASS()`, a call through a NULL
strong pointer, the use of an out-parameter that was never written) are
results of type `Fault`.  The retry loop of `readBuffer` is bounded by a fuel
argument; running out of fuel is the fault `outOfFuel`.

Timestamps are `int64_t` values, carried as integers; the two delays that the
subtitle handlers compute from them are reduced to the range of `int64_t`
(`wrapInt64`), as the subtraction of the compiled code is.  The subtitle
generation is carried as the mathematical count of the invalidations, which is
the value of the `int32_t` member `mFetchSubtitleDataGeneration` as long as
that stays below `INT32_MAX`; the theorems about an increment assume this
bound of the state they start from.

A second, independent part embeds the routing of `MuxOMX` from
`media/libstagefright/OMXClient.cpp`; its definitions follow those of
`GenericSource` and its theorems close the file.
-/

namespace NuPlayer

/-! ## Status codes and enumerations (platform headers) -/

/-- The type `status_t` of `utils/Errors.h`. -/
abbrev status_t := Int

/-- Value of `OK`. -/
abbrev OK : status_t := 0
/-- Value of `WOULD_BLOCK`, which is `-EWOULDBLOCK`. -/
abbrev WOULD_BLOCK : status_t := -11
/-- Value of `INVALID_OPERATION`, which is `-ENOSYS`. -/
abbrev INVALID_OPERATION : status_t := -38
/-- Value of `BAD_INDEX`, which is `-EOVERFLOW`. -/
abbrev BAD_INDEX : status_t := -75
/-- Value of `ERROR_END_OF_STREAM` (`MEDIA_ERROR_BASE - 11`). -/
abbrev ERROR_END_OF_STREAM : status_t := -1011
/-- Value of `INFO_FORMAT_CHANGED` (`MEDIA_ERROR_BASE - 12`). -/
abbrev INFO_FORMAT_CHANGED : status_t := -1012
/-- Value of `INFO_DISCONTINUITY` (`MEDIA_ERROR_BASE - 13`). -/
abbrev INFO_DISCONTINUITY : status_t := -1013

/-- The enumeration `media_track_type` of `media/mediaplayer.h`. -/
inductive media_track_type where
  | MEDIA_TRACK_TYPE_UNKNOWN
  | MEDIA_TRACK_TYPE_VIDEO
  | MEDIA_TRACK_TYPE_AUDIO
  | MEDIA_TRACK_TYPE_TIMEDTEXT
  | MEDIA_TRACK_TYPE_SUBTITLE
  deriving DecidableEq, Repr

open media_track_type

/-- The three discontinuity kinds of `ATSParser::DiscontinuityType` that
`readBuffer` uses. -/
inductive DiscontinuityType where
  | DISCONTINUITY_NONE
  | DISCONTINUITY_SEEK
  | DISCONTINUITY_FORMATCHANGE
  deriving DecidableEq, Repr

open DiscontinuityType

/-- Seek modes of `MediaSource::ReadOptions`. -/
inductive SeekMode where
  | SEEK_PREVIOUS_SYNC
  | SEEK_NEXT_SYNC
  | SEEK_CLOSEST_SYNC
  | SEEK_CLOSEST
  deriving DecidableEq, Repr

open SeekMode

/-- Ways in which a call ends the process or fails to return. -/
inductive Fault where
  /-- a failed `CHECK` or a `TRESPASS()` -/
  | abort
  /-- a member call through a NULL strong pointer -/
  | nullDeref
  /-- use of a local that no callee has written -/
  | uninitialized
  /-- the retry loop of `readBuffer` did not finish within the fuel -/
  | outOfFuel
  deriving DecidableEq, Repr

/-! ## Strings -/

/-- The C function `strncasecmp`: only whether the result is zero is modelled
(0 when the first `n` characters agree up to ASCII case, 1 otherwise). -/
def strncasecmp (a b : String) (n : Nat) : Int :=
  if (a.toList.take n).map Char.toLower = (b.toList.take n).map Char.toLower then 0 else 1

/-- The C function `strcasecmp`: only whether the result is zero is modelled. -/
def strcasecmp (a b : String) : Int :=
  if a.toList.map Char.toLower = b.toList.map Char.toLower then 0 else 1

/-! ## Collaborators: meta data, raw samples, access units, readers -/

/-- The keys of a reader's `MetaData` that `GenericSource` looks up. -/
structure MetaData where
  kKeyMIMEType : Option String := none
  kKeyDuration : Option Int := none
  kKeyMediaLanguage : Option String := none
  kKeyTrackIsAutoselect : Option Int := none
  kKeyTrackIsDefault : Option Int := none
  kKeyTrackIsForced : Option Int := none
  kKeyWidth : Option Int := none
  kKeyHeight : Option Int := none

/-- A raw sample (`MediaBuffer`): its storage, its range and the keys of its
meta data that the converter looks up. -/
structure MediaBuffer where
  data : List Nat := []
  range_offset : Nat := 0
  range_length : Nat := 0
  kKeyTime : Option Int := none
  kKeyDuration : Option Int := none
  kKeyValidSamples : Option Int := none
  deriving DecidableEq, Repr

/-- The bytes `[range_offset, range_offset + range_length)` of a raw sample. -/
def MediaBuffer.range (mb : MediaBuffer) : List Nat :=
  (mb.data.drop mb.range_offset).take mb.range_length

/-- The entries of an access unit's `meta()` message that this code writes or
reads. -/
structure BufferMeta where
  timeUs : Option Int := none
  durationUs : Option Int := none
  trackIndex : Option Nat := none
  mediaBuffer : Option MediaBuffer := none
  discontinuity : Option DiscontinuityType := none
  deriving DecidableEq, Repr

/-- An `ABuffer`: `mData` is `none` for a NULL data pointer, `mOwnsData` tells
whether the buffer allocated its bytes itself (`ABuffer(capacity)`) or wraps
foreign memory (`ABuffer(data, capacity)`). -/
structure ABuffer where
  mData : Option (List Nat) := none
  mCapacity : Nat := 0
  mOwnsData : Bool := false
  «meta» : BufferMeta := {}
  deriving DecidableEq, Repr

/-- The constructor `ABuffer(size_t capacity)` once its bytes are written. -/
def ABuffer.alloc (capacity : Nat) (bytes : List Nat) : ABuffer :=
  { mData := some bytes, mCapacity := capacity, mOwnsData := true }

/-- The constructor `ABuffer(void *data, size_t capacity)` on a NULL pointer. -/
def ABuffer.wrapNull (capacity : Nat) : ABuffer :=
  { mData := none, mCapacity := capacity, mOwnsData := false }

/-- The access unit with `timeUs` set in its meta data. -/
def ABuffer.stamp (ab : ABuffer) (t : Int) : ABuffer :=
  { ab with «meta» := { ab.meta with timeUs := some t } }

/-- The bytes an access unit owns. -/
def ABuffer.ownedPayload (ab : ABuffer) : List Nat :=
  if ab.mOwnsData then ab.mData.getD [] else []

/-- The options of one `MediaSource::read` call. -/
structure ReadOptions where
  seekTo : Option (Int × SeekMode) := none
  nonBlocking : Bool := false
  deriving DecidableEq, Repr

/-- The setter `ReadOptions::setSeekTo`. -/
def ReadOptions.setSeekTo (o : ReadOptions) (t : Int) (mode : SeekMode) : ReadOptions :=
  { o with seekTo := some (t, mode) }

/-- The setter `ReadOptions::clearSeekTo`. -/
def ReadOptions.clearSeekTo (o : ReadOptions) : ReadOptions :=
  { o with seekTo := none }

/-- The setter `ReadOptions::setNonBlocking`. -/
def ReadOptions.setNonBlocking (o : ReadOptions) : ReadOptions :=
  { o with nonBlocking := true }

/-- Modelled from the spec: the ElementaryStreamReader contract (`MediaSource`),
whose implementation is not part of this layer.  A reader has an identity
(`id`, the object a strong pointer refers to), its format meta data and a
deterministic `read`: the answer (status and raw sample) to a read is a
function of the options of the reads it received before and of the options of
this read.  The answers are `sample | would-block | format-changed | end/error`
as status codes. -/
structure MediaSource where
  id : Nat
  format : MetaData
  respond : List ReadOptions → ReadOptions → status_t × Option MediaBuffer

/-- One entry of the trace of reads: the reader and the options it was given. -/
abbrev ReadEvent := Nat × ReadOptions

/-- The options of the reads a reader has received, oldest first. -/
def historyOf (id : Nat) (reads : List ReadEvent) : List ReadOptions :=
  (reads.filter (fun e => e.1 = id)).map (fun e => e.2)

/-- The answer of `source->read(&mbuf, &options)` after the reads in `reads`. -/
def MediaSource.read (src : MediaSource) (reads : List ReadEvent) (options : ReadOptions) :
    status_t × Option MediaBuffer :=
  src.respond (historyOf src.id reads) options

/-- Modelled from the spec: one track of the container as the extractor
(`MediaExtractor`, external to this layer) presents it during the
initialization scan: the meta data of `getTrackMetaData(i)`, the reader of
`getTrack(i)` (`none` for a NULL reader) and the status its `start()`
returns. -/
structure ExtractorTrack where
  «meta» : MetaData := {}
  track : Option MediaSource := none
  startStatus : status_t := OK

/-- Modelled from the spec: the container as the extractor presents it, its
container-level meta data (`getMetaData()`, `none` for NULL) and its tracks in
container order. -/
structure MediaExtractor where
  fileMeta : Option MetaData := none
  tracks : List ExtractorTrack := []

/-- Modelled from the spec: the container-sniff-and-create factory on a data
source.  `sniffWVM` is the answer of `SniffWVM` (success and MIME type),
`wvmExtractor` the DRM-aware extractor built on the source in secure mode and
`created` the result of `MediaExtractor::Create` (`none` for NULL). -/
structure DataSource where
  sniffWVM : Bool × String := (false, "")
  wvmExtractor : MediaExtractor := {}
  created : Option MediaExtractor := none

/-- The entries of the `AMessage` that `getTrackInfo` returns; an entry the
function did not set is `none`. -/
structure TrackInfo where
  type : media_track_type
  language : String
  mime : Option String := none
  auto : Option Int := none
  default : Option Int := none
  forced : Option Int := none
  deriving DecidableEq, Repr

/-! ## The packet queue -/

/-- Modelled from the spec: the PacketQueue (`AnotherPacketSource`), a class of
this repository whose source is not at hand.  It is the ordered sequence of
access units and in-band discontinuity markers (`mBuffers`), the terminal
status of an ended queue (`mEOSResult`, `OK` while not ended) and the meta data
that was stamped last (`mLatestEnqueuedMeta`). -/
structure AnotherPacketSource where
  mBuffers : List ABuffer := []
  mEOSResult : status_t := OK
  mLatestEnqueuedMeta : Option BufferMeta := none
  deriving DecidableEq, Repr

namespace AnotherPacketSource

/-- Modelled from the spec: the has-available query of the PacketQueue, which
returns whether any entry is ready, and the terminal status of the queue for
the caller to use when none is. -/
def hasBufferAvailable (q : AnotherPacketSource) : Bool × status_t :=
  (!q.mBuffers.isEmpty, q.mEOSResult)

/-- Modelled from the spec: the status of a pop by the kind of the entry that
leaves the PacketQueue, `OK` for an access unit and `INFO_DISCONTINUITY` for
an in-band discontinuity marker. -/
def popStatus (b : ABuffer) : status_t :=
  if b.meta.discontinuity.isSome then INFO_DISCONTINUITY else OK

/-- Modelled from the spec: dequeue-one of the PacketQueue.  The oldest entry
leaves the queue; an access unit is returned with `OK`, a discontinuity marker
with `INFO_DISCONTINUITY`.  On an empty queue (a case `GenericSource` never
produces, each pop following a successful has-available query) the terminal
status is returned, would-block when the queue has not ended. -/
def dequeueAccessUnit (q : AnotherPacketSource) : status_t × Option ABuffer × AnotherPacketSource :=
  match q.mBuffers with
  | [] => (if q.mEOSResult = OK then WOULD_BLOCK else q.mEOSResult, none, q)
  | b :: rest => (popStatus b, some b, { q with mBuffers := rest })

/-- Modelled from the spec: queueing an access unit on the PacketQueue appends
it and makes its meta data the latest stamped meta data. -/
def queueAccessUnit (q : AnotherPacketSource) (buffer : ABuffer) : AnotherPacketSource :=
  { q with mBuffers := q.mBuffers ++ [buffer], mLatestEnqueuedMeta := some buffer.meta }

/-- The in-band marker entry of a discontinuity. -/
def marker (type : DiscontinuityType) : ABuffer :=
  { ABuffer.alloc 0 [] with «meta» := { discontinuity := some type } }

/-- Modelled from the spec: queueing a discontinuity on the PacketQueue appends
a marker of the given kind.  The spec describes the queue as append-only and
names no effect of the `discard` argument, which is carried and not used. -/
def queueDiscontinuity (q : AnotherPacketSource) (type : DiscontinuityType) (_discard : Bool) :
    AnotherPacketSource :=
  { q with mBuffers := q.mBuffers ++ [marker type] }

/-- Modelled from the spec: signalling end-of-stream with a status code on the
PacketQueue records the code as the terminal status. -/
def signalEOS (q : AnotherPacketSource) (result : status_t) : AnotherPacketSource :=
  { q with mEOSResult := result }

/-- Modelled from the spec: clear of the PacketQueue empties it and forgets the
terminal status and the latest stamped meta data. -/
def clear (_q : AnotherPacketSource) : AnotherPacketSource :=
  { mBuffers := [], mEOSResult := OK, mLatestEnqueuedMeta := none }

/-- Modelled from the spec: the latest-metadata lookup of the PacketQueue. -/
def getLatestMeta (q : AnotherPacketSource) : Option BufferMeta :=
  q.mLatestEnqueuedMeta

/-- Modelled from the spec: the timestamp of the oldest buffered entry of the
PacketQueue; a non-OK status when nothing is buffered, a failed check when
the oldest entry carries no timestamp. -/
def nextBufferTime (q : AnotherPacketSource) : Except Fault (status_t × Int) :=
  match q.mBuffers with
  | [] => .ok (if q.mEOSResult = OK then WOULD_BLOCK else q.mEOSResult, 0)
  | b :: _ =>
    match b.meta.timeUs with
    | none => .error Fault.abort
    | some t => .ok (OK, t)

end AnotherPacketSource

/-! ## The object state -/

/-- The struct `Track` of `GenericSource.h`. -/
structure Track where
  mIndex : Nat := 0
  mSource : Option MediaSource := none
  mPackets : Option AnotherPacketSource := none

/-- The messages `GenericSource` posts to itself, with the entries they carry.
The handlers `CHECK` that each entry is present, which holds for every message
this class builds; `trackIndex` travels as an `int32_t`, wide enough for any
catalog. -/
inductive Message where
  | kWhatFetchSubtitleData (generation : Int) (timeUs : Int)
  | kWhatSendSubtitleData (generation : Int)
  | kWhatChangeAVSource (trackIndex : Nat)
  deriving DecidableEq, Repr

open Message

/-- The notifications sent to the player through `dupNotify()`. -/
inductive Notification where
  | kWhatSubtitleData (buffer : ABuffer)
  | kWhatVideoSizeChanged (width height : Int)
  | kWhatFlagsChanged (flags : Nat)
  | kWhatPrepared
  deriving DecidableEq, Repr

/-- The members of `NuPlayer::GenericSource` and the three traces. -/
structure GenericSource where
  mSources : List MediaSource := []
  mAudioTrack : Track := {}
  mVideoTrack : Track := {}
  mSubtitleTrack : Track := {}
  mFetchSubtitleDataGeneration : Int := 0
  mDurationUs : Int := 0
  mAudioIsVorbis : Bool := false
  mIsWidevine : Bool := false
  /-- every `MediaSource::read` issued so far, oldest first -/
  reads : List ReadEvent := []
  /-- every message posted so far with its delay in microseconds, oldest first -/
  posted : List (Message × Int) := []
  /-- every notification posted so far, oldest first -/
  notified : List Notification := []

namespace GenericSource

/-- The `switch (trackType)` that opens `readBuffer`: the slot a track type
names, `none` standing for the `TRESPASS()` of the default case. -/
def trackOf (s : GenericSource) : media_track_type → Option Track
  | MEDIA_TRACK_TYPE_VIDEO => some s.mVideoTrack
  | MEDIA_TRACK_TYPE_AUDIO => some s.mAudioTrack
  | MEDIA_TRACK_TYPE_SUBTITLE => some s.mSubtitleTrack
  | _ => none

/-- Assignment to `track->mPackets` contents for the slot a track type names. -/
def setPackets (s : GenericSource) (trackType : media_track_type) (q : AnotherPacketSource) :
    GenericSource :=
  match trackType with
  | MEDIA_TRACK_TYPE_VIDEO => { s with mVideoTrack := { s.mVideoTrack with mPackets := some q } }
  | MEDIA_TRACK_TYPE_AUDIO => { s with mAudioTrack := { s.mAudioTrack with mPackets := some q } }
  | MEDIA_TRACK_TYPE_SUBTITLE =>
    { s with mSubtitleTrack := { s.mSubtitleTrack with mPackets := some q } }
  | _ => s

/-- The four bytes of an `int32_t` as `memcpy` lays them out (little endian,
two's complement). -/
def int32Bytes (v : Int) : List Nat :=
  let u := (v % 4294967296).toNat
  [u % 256, u / 256 % 256, u / 65536 % 256, u / 16777216 % 256]

/-- The converter `mediaBufferToABuffer`.  Returns the access unit and the
timestamp written through `actualTimeUs`.  The reference counting of the raw
sample (`add_ref`, `release`) has no effect on the values computed here. -/
def mediaBufferToABuffer (s : GenericSource) (mb : MediaBuffer) (trackType : media_track_type) :
    Except Fault (ABuffer × Int) :=
  let audio : Bool := trackType = MEDIA_TRACK_TYPE_AUDIO
  let outLength : Nat :=
    if audio && s.mAudioIsVorbis then mb.range_length + 4 else mb.range_length
  let ab : ABuffer :=
    if s.mIsWidevine && !audio then
      let ab0 := ABuffer.wrapNull mb.range_length
      { ab0 with «meta» := { ab0.meta with mediaBuffer := some mb } }
    else
      ABuffer.alloc outLength mb.range
  let ab : ABuffer :=
    if audio && s.mAudioIsVorbis then
      let numPageSamples : Int := mb.kKeyValidSamples.getD (-1)
      { ab with mData := ab.mData.map (fun d => d ++ int32Bytes numPageSamples) }
    else ab
  match mb.kKeyTime with
  | none => .error Fault.abort
  | some timeUs =>
    let m := { ab.meta with timeUs := some timeUs }
    let m := match mb.kKeyDuration with
      | some durationUs => { m with durationUs := some durationUs }
      | none => m
    let m := if trackType = MEDIA_TRACK_TYPE_SUBTITLE then
        { m with trackIndex := some s.mSubtitleTrack.mIndex }
      else m
    .ok ({ ab with «meta» := m }, timeUs)

/-- The choice of the discontinuity kind in `readBuffer`. -/
def discontinuityFor (seeking formatChange : Bool) : DiscontinuityType :=
  if formatChange then
    (if seeking then DISCONTINUITY_FORMATCHANGE else DISCONTINUITY_NONE)
  else DISCONTINUITY_SEEK

/-- The marker table as the specification words it: the markers queued ahead
of the access unit for each pair `(seeking, formatChange)`. -/
def specMarkers : Bool → Bool → List DiscontinuityType
  | true, true => [DISCONTINUITY_FORMATCHANGE]
  | false, true => [DISCONTINUITY_NONE]
  | true, false => [DISCONTINUITY_SEEK]
  | false, false => []

/-- The entries the specification has the pump queue ahead of an access unit:
the table's marker for an audio or video track, nothing for another track. -/
def markersAhead (trackType : media_track_type) (seeking formatChange : Bool) : List ABuffer :=
  if trackType = MEDIA_TRACK_TYPE_SUBTITLE then []
  else (specMarkers seeking formatChange).map AnotherPacketSource.marker

/-- The queue of the slot a track type names, `none` when the type names no
slot or the slot has no queue. -/
def packetsOf (s : GenericSource) (trackType : media_track_type) : Option AnotherPacketSource :=
  (s.trackOf trackType).bind (fun t => t.mPackets)

/-- Lines 605 to 612 of `readBuffer`: the discontinuity marker queued ahead of
a sample. -/
def queueMarker (s : GenericSource) (trackType : media_track_type)
    (seeking formatChange : Bool) : Except Fault GenericSource :=
  if (seeking || formatChange) && trackType ≠ MEDIA_TRACK_TYPE_SUBTITLE then
    match s.packetsOf trackType with
    | none => .error Fault.nullDeref
    | some q =>
      .ok (s.setPackets trackType
        (q.queueDiscontinuity (discontinuityFor seeking formatChange) true))
  else .ok s

/-- Lines 602 to 615 of `readBuffer`: the branch `err == OK` of the loop, which
queues the marker (if any) and the converted sample.  The second component of
the result is the timestamp written through `actualTimeUs`. -/
def queueSample (s : GenericSource) (trackType : media_track_type)
    (seeking formatChange : Bool) (mbuf : MediaBuffer) : Except Fault (GenericSource × Int) :=
  match s.queueMarker trackType seeking formatChange with
  | .error f => .error f
  | .ok s =>
    match s.mediaBufferToABuffer mbuf trackType with
    | .error f => .error f
    | .ok (buffer, timeUs) =>
      match s.packetsOf trackType with
      | none => .error Fault.nullDeref
      | some q => .ok (s.setPackets trackType (q.queueAccessUnit buffer), timeUs)

/-- Line 627 of `readBuffer`: the last branch of the loop, `signalEOS(err)`. -/
def endStream (s : GenericSource) (trackType : media_track_type) (err : status_t) :
    Except Fault GenericSource :=
  match s.packetsOf trackType with
  | none => .error Fault.nullDeref
  | some q => .ok (s.setPackets trackType (q.signalEOS err))

/-- The `for (;;)` loop of `readBuffer`, at most `fuel` reads.  `actualTimeUs`
is the value the out-parameter holds on entry; the second component of the
result is the value it holds on exit. -/
def readLoop (fuel : Nat) (src : MediaSource) (trackType : media_track_type)
    (seeking formatChange : Bool) (options : ReadOptions) (actualTimeUs : Int)
    (s : GenericSource) : Except Fault (GenericSource × Int) :=
  match fuel with
  | 0 => .error Fault.outOfFuel
  | fuel + 1 =>
    let r := src.read s.reads options
    let s := { s with reads := s.reads ++ [(src.id, options)] }
    let options := options.clearSeekTo
    if r.1 = OK then
      match r.2 with
      | none => .error Fault.nullDeref
      | some mbuf => s.queueSample trackType seeking formatChange mbuf
    else if r.1 = WOULD_BLOCK then
      .ok (s, actualTimeUs)
    else if r.1 = INFO_FORMAT_CHANGED then
      readLoop fuel src trackType seeking formatChange options actualTimeUs s
    else
      match s.endStream trackType r.1 with
      | .error f => .error f
      | .ok s => .ok (s, actualTimeUs)

/-- Lines 582 to 593 of `readBuffer`: the options of the first read. -/
def pumpOptions (s : GenericSource) (trackType : media_track_type) (seekTimeUs : Int) :
    ReadOptions :=
  let options : ReadOptions := {}
  let options := if seekTimeUs ≥ 0 then options.setSeekTo seekTimeUs SEEK_PREVIOUS_SYNC
    else options
  if s.mIsWidevine && trackType ≠ MEDIA_TRACK_TYPE_AUDIO then options.setNonBlocking
  else options

/-- The pump `readBuffer(trackType, seekTimeUs, actualTimeUs, formatChange)`.
The second component of the result is what the out-parameter holds afterwards:
`none` when the function returned without writing it. -/
def readBuffer (fuel : Nat) (trackType : media_track_type) (seekTimeUs : Int)
    (formatChange : Bool) (s : GenericSource) : Except Fault (GenericSource × Option Int) :=
  match s.trackOf trackType with
  | none => .error Fault.abort
  | some track =>
    match track.mSource with
    | none => .ok (s, none)
    | some src =>
      -- `seeking` is set exactly when `seekTimeUs >= 0`
      match readLoop fuel src trackType (decide (seekTimeUs ≥ 0)) formatChange
          (s.pumpOptions trackType seekTimeUs) seekTimeUs s with
      | .error f => .error f
      | .ok (s, t) => .ok (s, some t)

/-- The slot `audio ? &mAudioTrack : &mVideoTrack`. -/
def avTrack (s : GenericSource) ( audio : Bool) : Track :=
  if audio then s.mAudioTrack else s.mVideoTrack

/-- The track type `dequeueAccessUnit` pumps for its `audio` argument. -/
def typeOf ( audio : Bool) : media_track_type :=
  if audio then MEDIA_TRACK_TYPE_AUDIO else MEDIA_TRACK_TYPE_VIDEO

/-- Lines 338 to 341 of `dequeueAccessUnit`: in Widevine mode a video request
first pumps one audio unit. -/
def widevineAudioPump (fuel : Nat) ( audio : Bool) (s : GenericSource) :
    Except Fault GenericSource :=
  if s.mIsWidevine && !audio then
    -- try to read a buffer as we may not have been able to the last time
    match s.readBuffer fuel MEDIA_TRACK_TYPE_AUDIO (-1) false with
    | .error f => .error f
    | .ok r => .ok r.1
  else .ok s

/-- Lines 354 to 375 of `dequeueAccessUnit`: the subtitle side effect, given
the status and the unit of the pop.  The increment of
`mFetchSubtitleDataGeneration` (line 361) is an increment of the mathematical
count, which is the `int32_t` member as long as it is below `INT32_MAX` before
the call. -/
def subtitleSideEffect (result : status_t) (accessUnit : Option ABuffer) (s : GenericSource) :
    Except Fault (status_t × Option ABuffer × GenericSource) :=
  match s.mSubtitleTrack.mSource with
  | none => .ok (result, accessUnit, s)
  | some _ =>
    match s.mSubtitleTrack.mPackets with
    | none => .error Fault.abort
    | some sq =>
      if result ≠ OK then
        .ok (result, accessUnit,
          { s with
            mSubtitleTrack := { s.mSubtitleTrack with mPackets := some sq.clear }
            mFetchSubtitleDataGeneration := s.mFetchSubtitleDataGeneration + 1 })
      else
        match accessUnit with
        | none => .error Fault.nullDeref
        | some au =>
          match au.meta.timeUs with
          | none => .error Fault.abort
          | some timeUs =>
            if !sq.hasBufferAvailable.1 then
              .ok (result, accessUnit,
                { s with posted := s.posted ++
                    [(kWhatFetchSubtitleData s.mFetchSubtitleDataGeneration timeUs, 0)] })
            else .ok (result, accessUnit, s)

/-- The states and pop results on which the subtitle side effect passes its
checks: no subtitle track is selected, or the subtitle slot has its queue and
a pop that returned `OK` left a unit that carries a timestamp. -/
def subtitleReady (s : GenericSource) (result : status_t) (accessUnit : Option ABuffer) : Prop :=
  s.mSubtitleTrack.mSource = none ∨
  (s.mSubtitleTrack.mPackets ≠ none ∧
    (result = OK → ∃ au t, accessUnit = some au ∧ au.meta.timeUs = some t))

/-- Lines 343 to 352 of `dequeueAccessUnit`: the query, the pop and the
read-ahead on the requested slot, followed by the subtitle side effect when
an entry was popped. -/
def popAndReadAhead (fuel : Nat) ( audio : Bool) (s : GenericSource) :
    Except Fault (status_t × Option ABuffer × GenericSource) :=
  match (s.avTrack audio).mPackets with
  | none => .error Fault.nullDeref
  | some q =>
    if !q.hasBufferAvailable.1 then
      let finalResult := q.hasBufferAvailable.2
      .ok (if finalResult = OK then WOULD_BLOCK else finalResult, none, s)
    else
      let r := q.dequeueAccessUnit
      let s := s.setPackets (typeOf audio) r.2.2
      if !r.2.2.hasBufferAvailable.1 then
        match s.readBuffer fuel (typeOf audio) (-1) false with
        | .error f => .error f
        | .ok p => subtitleSideEffect r.1 r.2.1 p.1
      else subtitleSideEffect r.1 r.2.1 s

/-- The consumer-facing `dequeueAccessUnit(audio, accessUnit)`: the status, the
value left in `*accessUnit` and the new state. -/
def dequeueAccessUnit (fuel : Nat) ( audio : Bool) (s : GenericSource) :
    Except Fault (status_t × Option ABuffer × GenericSource) :=
  match (s.avTrack audio).mSource with
  | none => .ok (WOULD_BLOCK, none, s)
  | some _ =>
    match widevineAudioPump fuel audio s with
    | .error f => .error f
    | .ok s => popAndReadAhead fuel audio s

/-- A run of `n` consecutive `dequeueAccessUnit` calls on one slot: the results
of the calls in order and the final state. -/
def dequeueRepeat (fuel : Nat) ( audio : Bool) :
    Nat → GenericSource → Except Fault (List (status_t × Option ABuffer) × GenericSource)
  | 0, s => .ok ([], s)
  | n + 1, s =>
    match dequeueAccessUnit fuel audio s with
    | .error f => .error f
    | .ok (r, a, s1) =>
      match dequeueRepeat fuel audio n s1 with
      | .error f => .error f
      | .ok (rs, s2) => .ok ((r, a) :: rs, s2)

/-- The delay handed to `AMessage::post`: `delayUs < 0 ? 0 : delayUs`. -/
def clampDelay (delayUs : Int) : Int :=
  if delayUs < 0 then 0 else delayUs

/-- The value an `int64_t` holds after an operation whose mathematical result
is `x`: `x` reduced modulo `2^64` into `[-2^63, 2^63)`. -/
def wrapInt64 (x : Int) : Int :=
  (x + 9223372036854775808) % 18446744073709551616 - 9223372036854775808

/-- The mathematical result `x` is representable as an `int64_t`. -/
def inInt64 (x : Int) : Prop :=
  -9223372036854775808 ≤ x ∧ x ≤ 9223372036854775807

instance (x : Int) : Decidable (inInt64 x) := by
  unfold inInt64
  infer_instance

/-- Value of `INT32_MAX`, the largest value of the `int32_t` member
`mFetchSubtitleDataGeneration`. -/
abbrev INT32_MAX : Int := 2147483647

/-- The case `kWhatFetchSubtitleData` of `onMessageReceived`.  The delay of
line 226 is computed in `int64_t`. -/
def onFetchSubtitleData (fuel : Nat) (generation timeUs : Int) (s : GenericSource) :
    Except Fault GenericSource :=
  if generation ≠ s.mFetchSubtitleDataGeneration then
    -- stale
    .ok s
  else
    match s.mSubtitleTrack.mPackets with
    | none => .error Fault.nullDeref
    | some q =>
      if q.hasBufferAvailable.1 then .ok s
      else
        match s.readBuffer fuel MEDIA_TRACK_TYPE_SUBTITLE timeUs false with
        | .error f => .error f
        | .ok (_, none) => .error Fault.uninitialized
        | .ok (s, some subTimeUs) =>
          let oneSecUs : Int := 1000000
          let delayUs : Int := wrapInt64 (wrapInt64 (subTimeUs - timeUs) - oneSecUs)
          .ok { s with
                posted := s.posted ++ [(kWhatSendSubtitleData generation, clampDelay delayUs)] }

/-- The case `kWhatSendSubtitleData` of `onMessageReceived`.  The delay of
line 263 is computed in `int64_t`. -/
def onSendSubtitleData (fuel : Nat) (generation : Int) (s : GenericSource) :
    Except Fault GenericSource :=
  if generation ≠ s.mFetchSubtitleDataGeneration then
    -- stale
    .ok s
  else
    match s.mSubtitleTrack.mPackets with
    | none => .error Fault.nullDeref
    | some q =>
      match q.nextBufferTime with
      | .error f => .error f
      | .ok (status, subTimeUs) =>
        if status ≠ OK then .ok s
        else
          match s.readBuffer fuel MEDIA_TRACK_TYPE_SUBTITLE (-1) false with
          | .error f => .error f
          | .ok (s, nextSubTimeUs) =>
            match s.mSubtitleTrack.mPackets with
            | none => .error Fault.nullDeref
            | some q =>
              let r := q.dequeueAccessUnit
              let s := { s with mSubtitleTrack := { s.mSubtitleTrack with mPackets := some r.2.2 } }
              if r.1 ≠ OK then .ok s
              else
                match r.2.1 with
                | none => .error Fault.nullDeref
                | some buffer =>
                  let s := { s with
                             notified := s.notified ++ [Notification.kWhatSubtitleData buffer] }
                  match nextSubTimeUs with
                  | none => .error Fault.uninitialized
                  | some nextSubTimeUs =>
                    let delayUs : Int := wrapInt64 (nextSubTimeUs - subTimeUs)
                    .ok { s with
                          posted := s.posted ++
                            [(kWhatSendSubtitleData generation, clampDelay delayUs)] }

/-- Lines 281 to 290 of `onMessageReceived`: whether the reader named by a
`kWhatChangeAVSource` message goes to the audio slot (`true`) or to the video
slot (`false`); any other MIME type fails the `CHECK`.  The track type of the
target is `typeOf` of the result and the counterpart type is `typeOf` of its
negation. -/
def switchTarget (mime : String) : Except Fault Bool :=
  if strncasecmp mime "audio/" 6 = 0 then .ok true
  else if strncasecmp mime "video/" 6 = 0 then .ok false
  else .error Fault.abort

/-- Lines 293 and 294 of `onMessageReceived`: `track->mSource = source` and
`track->mIndex = trackIndex` on the target slot. -/
def installSource (s : GenericSource) (isAudio : Bool) (source : MediaSource)
    (trackIndex : Nat) : GenericSource :=
  if isAudio then
    { s with mAudioTrack := { s.mAudioTrack with mSource := some source, mIndex := trackIndex } }
  else
    { s with mVideoTrack := { s.mVideoTrack with mSource := some source, mIndex := trackIndex } }

/-- The case `kWhatChangeAVSource` of `onMessageReceived`. -/
def onChangeAVSource (fuel : Nat) (trackIndex : Nat) (s : GenericSource) :
    Except Fault GenericSource :=
  match s.mSources[trackIndex]? with
  | none => .error Fault.abort
  | some source =>
    match source.format.kKeyMIMEType with
    | none => .error Fault.uninitialized
    | some mime =>
      match switchTarget mime with
      | .error f => .error f
      | .ok isAudio =>
        let s := s.installSource isAudio source trackIndex
        match (s.avTrack isAudio).mPackets with
        | none => .error Fault.nullDeref
        | some q =>
          if !q.hasBufferAvailable.1 then
            -- sync from other source
            .error Fault.abort
          else
            match q.getLatestMeta.bind (fun m => m.timeUs) with
            | none => .error Fault.abort
            | some timeUs =>
              match s.readBuffer fuel (typeOf isAudio) timeUs true with
              | .error f => .error f
              | .ok p =>
                match p.1.readBuffer fuel (typeOf (!isAudio)) (-1) true with
                | .error f => .error f
                | .ok p => .ok p.1

/-- Lines 272 to 306 of `onMessageReceived`: what a `kWhatChangeAVSource`
message goes through before the handler pumps.  The result is the state with
the new reader installed, whether the target is the audio slot, and the latest
stamped timestamp of the target queue. -/
def resyncPoint (trackIndex : Nat) (s : GenericSource) :
    Except Fault (GenericSource × Bool × Int) :=
  match s.mSources[trackIndex]? with
  | none => .error Fault.abort
  | some source =>
    match source.format.kKeyMIMEType with
    | none => .error Fault.uninitialized
    | some mime =>
      match switchTarget mime with
      | .error f => .error f
      | .ok isAudio =>
        let s := s.installSource isAudio source trackIndex
        match (s.avTrack isAudio).mPackets with
        | none => .error Fault.nullDeref
        | some q =>
          if !q.hasBufferAvailable.1 then
            -- sync from other source
            .error Fault.abort
          else
            match q.getLatestMeta.bind (fun m => m.timeUs) with
            | none => .error Fault.abort
            | some timeUs => .ok (s, isAudio, timeUs)

/-- The handler `onMessageReceived` for the three messages of this class. -/
def onMessageReceived (fuel : Nat) (msg : Message) (s : GenericSource) :
    Except Fault GenericSource :=
  match msg with
  | kWhatFetchSubtitleData generation timeUs => s.onFetchSubtitleData fuel generation timeUs
  | kWhatSendSubtitleData generation => s.onSendSubtitleData fuel generation
  | kWhatChangeAVSource trackIndex => s.onChangeAVSource fuel trackIndex

/-- The member `getTrackCount`. -/
def getTrackCount (s : GenericSource) : Nat :=
  s.mSources.length

/-- The member `selectTrack(trackIndex, select)`.  The two increments of
`mFetchSubtitleDataGeneration` (lines 445 and 465) are increments of the
mathematical count, which is the `int32_t` member as long as it is below
`INT32_MAX` before the call. -/
def selectTrack (trackIndex : Nat) (select : Bool) (s : GenericSource) :
    Except Fault (status_t × GenericSource) :=
  if trackIndex ≥ s.mSources.length then .ok (BAD_INDEX, s)
  else if !select then
    if s.mSubtitleTrack.mSource.isNone || trackIndex ≠ s.mSubtitleTrack.mIndex then
      .ok (INVALID_OPERATION, s)
    else
      match s.mSubtitleTrack.mPackets with
      | none => .error Fault.nullDeref
      | some q =>
        .ok (OK,
          { s with
            mSubtitleTrack := { s.mSubtitleTrack with mSource := none, mPackets := some q.clear }
            mFetchSubtitleDataGeneration := s.mFetchSubtitleDataGeneration + 1 })
  else
    match s.mSources[trackIndex]? with
    | none => .error Fault.abort
    | some source =>
      match source.format.kKeyMIMEType with
      | none => .error Fault.abort
      | some mime =>
        if strncasecmp mime "text/" 5 = 0 then
          if s.mSubtitleTrack.mSource.isSome && s.mSubtitleTrack.mIndex = trackIndex then
            .ok (OK, s)
          else
            .ok (OK,
              { s with
                mSubtitleTrack :=
                  { mIndex := trackIndex, mSource := some source,
                    mPackets := some (match s.mSubtitleTrack.mPackets with
                      | none => {}
                      | some q => q.clear) }
                mFetchSubtitleDataGeneration := s.mFetchSubtitleDataGeneration + 1 })
        else if strncasecmp mime "audio/" 6 = 0 || strncasecmp mime "video/" 6 = 0 then
          if (s.avTrack (strncasecmp mime "audio/" 6 = 0)).mSource.isSome &&
              (s.avTrack (strncasecmp mime "audio/" 6 = 0)).mIndex = trackIndex then
            .ok (OK, s)
          else
            .ok (OK, { s with posted := s.posted ++ [(kWhatChangeAVSource trackIndex, 0)] })
        else .ok (INVALID_OPERATION, s)

/-- Lines 491 to 495 of `seekTo`: the audio pump at the seek time that the
video part left, and the return of `OK`. -/
def seekAudio (fuel : Nat) (seekTimeUs : Int) (s : GenericSource) :
    Except Fault (status_t × GenericSource) :=
  match s.mAudioTrack.mSource with
  | some _ =>
    match s.readBuffer fuel MEDIA_TRACK_TYPE_AUDIO seekTimeUs false with
    | .error f => .error f
    | .ok p => .ok (OK, p.1)
  | none => .ok (OK, s)

/-- The member `seekTo(seekTimeUs)`. -/
def seekTo (fuel : Nat) (seekTimeUs : Int) (s : GenericSource) :
    Except Fault (status_t × GenericSource) :=
  match s.mVideoTrack.mSource with
  | some _ =>
    match s.readBuffer fuel MEDIA_TRACK_TYPE_VIDEO seekTimeUs false with
    | .error f => .error f
    | .ok (_, none) => .error Fault.uninitialized
    | .ok (s, some actualTimeUs) => s.seekAudio fuel actualTimeUs
  | none => s.seekAudio fuel seekTimeUs

/-- Lines 184 to 189 and 191 to 196 of `start`: the slot gets a new queue and
its first unit is pumped. -/
def startTrack (fuel : Nat) ( audio : Bool) (s : GenericSource) : Except Fault GenericSource :=
  match (s.avTrack audio).mSource with
  | none => .ok s
  | some _ =>
    match (s.setPackets (typeOf audio) {}).readBuffer fuel (typeOf audio) (-1) false with
    | .error f => .error f
    | .ok p => .ok p.1

/-- The member `start`. -/
def start (fuel : Nat) (s : GenericSource) : Except Fault GenericSource :=
  match s.startTrack fuel true with
  | .error f => .error f
  | .ok s => s.startTrack fuel false

/-- The calls made on a `GenericSource` after its construction: the four members
the player calls and the delivery by the looper of a message posted earlier
(the `n`-th entry of the trace of posted messages). -/
inductive Call where
  | start
  | dequeueAccessUnit ( audio : Bool)
  | selectTrack (trackIndex : Nat) (select : Bool)
  | seekTo (seekTimeUs : Int)
  | deliver (n : Nat)
  deriving DecidableEq, Repr

/-- The state after one call; the delivery of a message that was never posted
does nothing. -/
def perform (fuel : Nat) (c : Call) (s : GenericSource) : Except Fault GenericSource :=
  match c with
  | Call.start => s.start fuel
  | Call.dequeueAccessUnit audio =>
    match s.dequeueAccessUnit fuel audio with
    | .error f => .error f
    | .ok r => .ok r.2.2
  | Call.selectTrack trackIndex select =>
    match s.selectTrack trackIndex select with
    | .error f => .error f
    | .ok r => .ok r.2
  | Call.seekTo seekTimeUs =>
    match s.seekTo fuel seekTimeUs with
    | .error f => .error f
    | .ok r => .ok r.2
  | Call.deliver n =>
    match s.posted[n]? with
    | none => .ok s
    | some m => s.onMessageReceived fuel m.1

/-- The state after a sequence of calls. -/
def performAll (fuel : Nat) : List Call → GenericSource → Except Fault GenericSource
  | [], s => .ok s
  | c :: cs, s =>
    match perform fuel c s with
    | .error f => .error f
    | .ok s1 => performAll fuel cs s1

/-- The generation a subtitle message is stamped with. -/
def generationOf : Message → Option Int
  | kWhatFetchSubtitleData generation _ => some generation
  | kWhatSendSubtitleData generation => some generation
  | kWhatChangeAVSource _ => none

/-- The events that invalidate pending subtitle work, as steps from a state to
the next: a subtitle deselect, a change of the selected subtitle track, and a
`dequeueAccessUnit` whose pop of the primary queue returned an entry with a
status other than `OK`. -/
inductive Invalidation (fuel : Nat) (s s' : GenericSource) : Prop where
  | deselect (trackIndex : Nat) (h : s.selectTrack trackIndex false = .ok (OK, s'))
  | selectionChange (trackIndex : Nat) (h : s.selectTrack trackIndex true = .ok (OK, s'))
      (hnew : s'.mSubtitleTrack.mSource.isSome ≠ s.mSubtitleTrack.mSource.isSome ∨
        s'.mSubtitleTrack.mIndex ≠ s.mSubtitleTrack.mIndex)
  | failedPop ( audio : Bool) (result : status_t) (entry : ABuffer)
      (h : s.dequeueAccessUnit fuel audio = .ok (result, some entry, s'))
      (hresult : result ≠ OK)

/-- Every subtitle message posted so far is stamped with a generation that is
at most the current one, and one stamped with the current generation is
pending only while a subtitle track is selected. -/
def PendingSound (s : GenericSource) : Prop :=
  ∀ m ∈ s.posted, ∀ g, generationOf m.1 = some g →
    g ≤ s.mFetchSubtitleDataGeneration ∧
    (g = s.mFetchSubtitleDataGeneration → s.mSubtitleTrack.mSource ≠ none)

/-- A step that leaves the generation, the posted messages and the subtitle
selection as they were. -/
def Quiet (s s' : GenericSource) : Prop :=
  s'.mFetchSubtitleDataGeneration = s.mFetchSubtitleDataGeneration ∧
  s'.posted = s.posted ∧
  s'.mSubtitleTrack.mSource = s.mSubtitleTrack.mSource

/-- What one call may do to the generation and the posted messages: keep the
generation and the subtitle selection and post at most one message, which if
stamped carries the current generation while a subtitle track is selected; or
bump the generation by one and post nothing. -/
def Evolves (s s' : GenericSource) : Prop :=
  (s'.mFetchSubtitleDataGeneration = s.mFetchSubtitleDataGeneration ∧
    s'.mSubtitleTrack.mSource = s.mSubtitleTrack.mSource ∧
    (s'.posted = s.posted ∨
      ∃ m d, s'.posted = s.posted ++ [(m, d)] ∧
        ∀ g, generationOf m = some g →
          g = s.mFetchSubtitleDataGeneration ∧ s.mSubtitleTrack.mSource ≠ none)) ∨
  (s'.mFetchSubtitleDataGeneration = s.mFetchSubtitleDataGeneration + 1 ∧
    s'.posted = s.posted)

/-- What a pump on the slot of `trackType` leaves as it was: everything except
the trace of reads and the queue of that slot. -/
structure PumpFrame (trackType : media_track_type) (s s' : GenericSource) : Prop where
  mSources : s'.mSources = s.mSources
  generation : s'.mFetchSubtitleDataGeneration = s.mFetchSubtitleDataGeneration
  duration : s'.mDurationUs = s.mDurationUs
  vorbis : s'.mAudioIsVorbis = s.mAudioIsVorbis
  widevine : s'.mIsWidevine = s.mIsWidevine
  posted : s'.posted = s.posted
  notified : s'.notified = s.notified
  audioSource : s'.mAudioTrack.mSource = s.mAudioTrack.mSource
  audioIndex : s'.mAudioTrack.mIndex = s.mAudioTrack.mIndex
  videoSource : s'.mVideoTrack.mSource = s.mVideoTrack.mSource
  videoIndex : s'.mVideoTrack.mIndex = s.mVideoTrack.mIndex
  subtitleSource : s'.mSubtitleTrack.mSource = s.mSubtitleTrack.mSource
  subtitleIndex : s'.mSubtitleTrack.mIndex = s.mSubtitleTrack.mIndex
  audioPackets : trackType ≠ MEDIA_TRACK_TYPE_AUDIO →
    s'.mAudioTrack.mPackets = s.mAudioTrack.mPackets
  videoPackets : trackType ≠ MEDIA_TRACK_TYPE_VIDEO →
    s'.mVideoTrack.mPackets = s.mVideoTrack.mPackets
  subtitlePackets : trackType ≠ MEDIA_TRACK_TYPE_SUBTITLE →
    s'.mSubtitleTrack.mPackets = s.mSubtitleTrack.mPackets

/-- The C expression `!!v` on an `int32_t`. -/
def notNot (v : Int) : Int :=
  if v ≠ 0 then 1 else 0

/-- Lines 399 to 408 of `getTrackInfo`: the track type by MIME type. -/
def trackTypeOf (mime : String) : media_track_type :=
  if strncasecmp mime "video/" 6 = 0 then MEDIA_TRACK_TYPE_VIDEO
  else if strncasecmp mime "audio/" 6 = 0 then MEDIA_TRACK_TYPE_AUDIO
  else if strcasecmp mime "text/3gpp" = 0 then MEDIA_TRACK_TYPE_TIMEDTEXT
  else MEDIA_TRACK_TYPE_UNKNOWN

/-- Lines 409 to 430 of `getTrackInfo`: the message built for a track type, the
meta data of the reader and its MIME type. -/
def describeTrack (trackType : media_track_type) (m : MetaData) (mime : String) : TrackInfo :=
  let format : TrackInfo :=
    { type := trackType, language := m.kKeyMediaLanguage.getD "und" }
  if trackType = MEDIA_TRACK_TYPE_SUBTITLE then
    { format with
      mime := some mime
      auto := some (notNot (m.kKeyTrackIsAutoselect.getD 1))
      default := some (notNot (m.kKeyTrackIsDefault.getD 0))
      forced := some (notNot (m.kKeyTrackIsForced.getD 0)) }
  else format

/-- The member `getTrackInfo(trackIndex)`; `none` is the NULL it returns for an
index out of range. -/
def getTrackInfo (s : GenericSource) (trackIndex : Nat) : Except Fault (Option TrackInfo) :=
  match s.mSources[trackIndex]? with
  | none => .ok none
  | some source =>
    match source.format.kKeyMIMEType with
    | none => .error Fault.abort
    | some mime => .ok (some (describeTrack (trackTypeOf mime) source.format mime))

/-- The member `getDuration(durationUs)`: the status and the value written. -/
def getDuration (s : GenericSource) : status_t × Int :=
  (OK, s.mDurationUs)

/-- The members as the initialiser lists of the constructors leave them:
generation 0, duration 0, no Vorbis trailer, empty slots and an empty catalog.
The constructor on a file descriptor does not initialise `mIsWidevine`; the
argument is then the value the member happens to hold. -/
def fresh (isWidevine : Bool) : GenericSource :=
  { mFetchSubtitleDataGeneration := 0, mDurationUs := 0, mAudioIsVorbis := false,
    mIsWidevine := isWidevine }

/-- Lines 75 to 99 of `initFromDataSource`: the extractor the scan runs on.
`none` is the early return on an unsupported Widevine MIME type, `some none` a
NULL extractor. -/
def openExtractor (s : GenericSource) (dataSource : DataSource) :
    Option (Option MediaExtractor) :=
  if s.mIsWidevine then
    if dataSource.sniffWVM.1 = false ∨ strcasecmp dataSource.sniffWVM.2 "video/wvm" ≠ 0 then
      none
    else some (some dataSource.wvmExtractor)
  else some dataSource.created

/-- Lines 103 to 109 of `initFromDataSource`: the container-level duration. -/
def readFileMeta (s : GenericSource) (extractor : MediaExtractor) : GenericSource :=
  match extractor.fileMeta with
  | none => s
  | some fileMeta =>
    match fileMeta.kKeyDuration with
    | some duration => { s with mDurationUs := duration }
    | none => s

/-- Lines 119 to 135 of `initFromDataSource`: the first audio and the first
video track take their slot. -/
def claimSlot (s : GenericSource) (i : Nat) (mime : String) (track : Option MediaSource) :
    GenericSource :=
  if strncasecmp mime "audio/" 6 = 0 then
    if s.mAudioTrack.mSource.isNone then
      { s with
        mAudioTrack := { s.mAudioTrack with mIndex := i, mSource := track }
        mAudioIsVorbis := decide (strcasecmp mime "audio/vorbis" = 0) }
    else s
  else if strncasecmp mime "video/" 6 = 0 then
    if s.mVideoTrack.mSource.isNone then
      { s with mVideoTrack := { s.mVideoTrack with mIndex := i, mSource := track } }
    else s
  else s

/-- Lines 137 to 146 of `initFromDataSource`: an obtained reader is started,
joins the catalog and raises the duration to its own. -/
def registerTrack (s : GenericSource) (e : ExtractorTrack) : Except Fault GenericSource :=
  match e.track with
  | none => .ok s
  | some track =>
    if e.startStatus ≠ OK then .error Fault.abort
    else
      let s := { s with mSources := s.mSources ++ [track] }
      match e.meta.kKeyDuration with
      | some durationUs =>
        if durationUs > s.mDurationUs then .ok { s with mDurationUs := durationUs }
        else .ok s
      | none => .ok s

/-- Lines 112 to 146 of `initFromDataSource`: the body of the scan loop for
the track of container index `i`. -/
def scanTrack (s : GenericSource) (i : Nat) (e : ExtractorTrack) : Except Fault GenericSource :=
  match e.meta.kKeyMIMEType with
  | none => .error Fault.abort
  | some mime => (s.claimSlot i mime e.track).registerTrack e

/-- The scan loop of `initFromDataSource` from container index `i` on. -/
def scanTracks : List ExtractorTrack → Nat → GenericSource → Except Fault GenericSource
  | [], _, s => .ok s
  | e :: es, i, s =>
    match s.scanTrack i e with
    | .error f => .error f
    | .ok s => scanTracks es (i + 1) s

/-- The member `initFromDataSource(dataSource)`. -/
def initFromDataSource (s : GenericSource) (dataSource : DataSource) :
    Except Fault GenericSource :=
  match s.openExtractor dataSource with
  | none => .ok s
  | some none => .error Fault.abort
  | some (some extractor) => scanTracks extractor.tracks 0 (s.readFileMeta extractor)

/-- The container-level duration in the specification's words: the duration of
the container's meta data, 0 when the container has none. -/
def containerDuration (extractor : MediaExtractor) : Int :=
  (extractor.fileMeta.bind (fun m => m.kKeyDuration)).getD 0

/-- The track durations in the specification's words: the durations of the
tracks whose reader was obtained and that carry a duration. -/
def trackDurations (tracks : List ExtractorTrack) : List Int :=
  (tracks.filter (fun e => e.track.isSome)).filterMap (fun e => e.meta.kKeyDuration)

/-- The duration as the specification words it: the maximum of the
container-level duration (0 when the container has none) and the durations of
the tracks whose reader was obtained and that carry a duration. -/
def specDuration (extractor : MediaExtractor) : Int :=
  (trackDurations extractor.tracks).foldl max (containerDuration extractor)

/-- A container whose scan passes every check: each track has a MIME type and
each obtained reader starts. -/
def Scannable (extractor : MediaExtractor) : Prop :=
  ∀ e ∈ extractor.tracks,
    e.meta.kKeyMIMEType ≠ none ∧ (e.track ≠ none → e.startStatus = OK)

/-- A subtitle slot with a reader has its queue. -/
def SubtitleQueued (s : GenericSource) : Prop :=
  s.mSubtitleTrack.mSource ≠ none → s.mSubtitleTrack.mPackets ≠ none

/-- What every call after the construction leaves as it was: the catalog, the
duration and the two mode flags. -/
structure CallFrame (s s' : GenericSource) : Prop where
  mSources : s'.mSources = s.mSources
  duration : s'.mDurationUs = s.mDurationUs
  vorbis : s'.mAudioIsVorbis = s.mAudioIsVorbis
  widevine : s'.mIsWidevine = s.mIsWidevine

/-- The audio and the video slot keep their reader and their index. -/
def SlotsKept (s s' : GenericSource) : Prop :=
  s'.mAudioTrack.mSource = s.mAudioTrack.mSource ∧
  s'.mAudioTrack.mIndex = s.mAudioTrack.mIndex ∧
  s'.mVideoTrack.mSource = s.mVideoTrack.mSource ∧
  s'.mVideoTrack.mIndex = s.mVideoTrack.mIndex

/-- What pumps on the audio and the video slot leave as it was: everything
except the trace of reads and the queues of these two slots. -/
structure AVFrame (s s' : GenericSource) : Prop where
  call : CallFrame s s'
  slots : SlotsKept s s'
  generation : s'.mFetchSubtitleDataGeneration = s.mFetchSubtitleDataGeneration
  posted : s'.posted = s.posted
  notified : s'.notified = s.notified
  subtitleSource : s'.mSubtitleTrack.mSource = s.mSubtitleTrack.mSource
  subtitleIndex : s'.mSubtitleTrack.mIndex = s.mSubtitleTrack.mIndex
  subtitlePackets : s'.mSubtitleTrack.mPackets = s.mSubtitleTrack.mPackets

/-- Whether a call is the delivery of a posted `kWhatChangeAVSource` message. -/
def deliversSwitch (s : GenericSource) : Call → Bool
  | Call.deliver n =>
    match s.posted[n]? with
    | some (kWhatChangeAVSource _, _) => true
    | _ => false
  | _ => false

/-- Whether the MIME type the scan reads for a track has the prefix `pfx` of
`n` characters, compared without regard to case. -/
def trackHasPrefix (e : ExtractorTrack) (pfx : String) (n : Nat) : Bool :=
  match e.meta.kKeyMIMEType with
  | some mime => decide (strncasecmp mime pfx n = 0)
  | none => false

/-- The catalog in the specification's words: every obtained reader, in
container order. -/
def obtainedReaders (tracks : List ExtractorTrack) : List MediaSource :=
  tracks.filterMap (fun e => e.track)

/-- The winner of a slot in the specification's words: the first obtained
reader, in container order, whose track has the MIME prefix. -/
def firstReader (pfx : String) (n : Nat) (tracks : List ExtractorTrack) : Option MediaSource :=
  (tracks.find? (fun e => e.track.isSome && trackHasPrefix e pfx n)).bind (fun e => e.track)

/-- Whether the format of a reader has the MIME prefix `pfx` of `n`
characters, compared without regard to case. -/
def readerHasPrefix (r : MediaSource) (pfx : String) (n : Nat) : Bool :=
  match r.format.kKeyMIMEType with
  | some mime => decide (strncasecmp mime pfx n = 0)
  | none => false

/-- Lines 601 to 629 of `readBuffer` for the result `r` of a read that is not
the format-changed signal: a sample is queued, would-block returns, any other
status ends the stream.  The second component of the result is the value the
out-parameter holds on exit. -/
def settle (s : GenericSource) (trackType : media_track_type) (seeking formatChange : Bool)
    (actualTimeUs : Int) (r : status_t × Option MediaBuffer) :
    Except Fault (GenericSource × Int) :=
  if r.1 = OK then
    match r.2 with
    | none => .error Fault.nullDeref
    | some mbuf => s.queueSample trackType seeking formatChange mbuf
  else if r.1 = WOULD_BLOCK then
    .ok (s, actualTimeUs)
  else
    match s.endStream trackType r.1 with
    | .error f => .error f
    | .ok s => .ok (s, actualTimeUs)

/-- The reads of a pump that is answered on its read number `n + 1`: the first
read with the options of the pump, the `n` retries with the seek request
cleared. -/
def retryReads (src : MediaSource) (options : ReadOptions) (n : Nat) : List ReadEvent :=
  (src.id, options) :: List.replicate n (src.id, options.clearSeekTo)

/-- A reader that, after the reads in `reads`, answers the next `n` reads of a
pump with the format-changed signal and the read after them with `r`. -/
def answersAfter (src : MediaSource) (reads : List ReadEvent) (options : ReadOptions) :
    Nat → status_t × Option MediaBuffer → Prop
  | 0, r => src.read reads options = r
  | n + 1, r =>
    (src.read reads options).1 = INFO_FORMAT_CHANGED ∧
    answersAfter src (reads ++ [(src.id, options)]) options.clearSeekTo n r

/-- The access units among the entries of a queue: the entries that are not
discontinuity markers. -/
def accessUnits (entries : List ABuffer) : List ABuffer :=
  entries.filter (fun b => b.meta.discontinuity.isNone)

/-- The state with another trace of reads. -/
def withReads (s : GenericSource) (reads : List ReadEvent) : GenericSource :=
  { s with reads := reads }

/-- The `int32_t` that four bytes hold as `memcpy` reads them back (little
endian, two's complement). -/
def int32OfBytes (b : List Nat) : Int :=
  let u : Nat := b.getD 0 0 + 256 * b.getD 1 0 + 65536 * b.getD 2 0 + 16777216 * b.getD 3 0
  if u < 2147483648 then (u : Int) else (u : Int) - 4294967296

end GenericSource

end NuPlayer

/-!
# MuxOMX — the client-side multiplexer of `media/libstagefright/OMXClient.cpp`

A `MuxOMX` stands in front of two `IOMX` endpoints, the in-process `mLocalOMX`
and the `mRemoteOMX` of the media server, and passes every call on to one of
them.  The endpoints are outside this file: what the endpoint that receives a
call answers is an argument of the model of that call, and the endpoint that
received it is part of the result.
-/

/-- The type `IOMX::node_id`, a handle that an endpoint hands out. -/
abbrev node_id := Nat

/-- The two endpoints behind a `MuxOMX`: `mLocalOMX` and `mRemoteOMX`.
`OMXClient::connect` checks the remote endpoint to be non-NULL before it
builds the `MuxOMX`, and the local one is a new object, so the two pointers
are never equal. -/
inductive Endpoint where
  | localOMX
  | remoteOMX
  deriving DecidableEq, Repr

/-- The values of `OMX_INDEXTYPE` (platform header `OMX_Index.h`): the one index
that `MuxOMX` compares against in a branch with an effect, and all others by
their number. -/
inductive OMX_INDEXTYPE where
  | OMX_IndexParamVideoProfileLevelQuerySupported
  | otherIndex (value : Nat)
  deriving DecidableEq, Repr

/-- The members of `MuxOMX` that decide the routing: `mLocalOMX` (whether it has
been created, `false` for NULL) and `mIsLocalNode`, the platform container
`KeyedVector<node_id, bool>` as the list of its keys (every value stored is
`true`, and only the presence of a key is ever asked). -/
structure MuxOMX where
  mLocalOMX : Bool := false
  mIsLocalNode : List node_id := []
  deriving DecidableEq, Repr

/-- The per-node members of `MuxOMX` that return a `status_t`, other than
`freeNode`. -/
inductive Member where
  | sendCommand
  | getParameter
  | setParameter
  | getConfig
  | setConfig
  | getState
  | storeMetaDataInBuffers
  | prepareForAdaptivePlayback
  | enableGraphicBuffers
  | getGraphicBufferUsage
  | useBuffer
  | useGraphicBuffer
  | updateGraphicBufferInMeta
  | createInputSurface
  | signalEndOfInputStream
  | allocateBuffer
  | allocateBufferWithBackup
  | freeBuffer
  | fillBuffer
  | emptyBuffer
  | getExtensionIndex
  | setInternalOption
  deriving DecidableEq, Repr

namespace MuxOMX

open NuPlayer (status_t OK strncasecmp)

/-- The method `KeyedVector::add(key, true)` on the keys: a key that is present
stays (its value is replaced), a new key joins. -/
def addKey (keys : List node_id) (node : node_id) : List node_id :=
  if node ∈ keys then keys else node :: keys

/-- The method `KeyedVector::removeItem(key)` on the keys: the key leaves when
it is present, and nothing happens when it is not. -/
def removeKey (keys : List node_id) (node : node_id) : List node_id :=
  keys.filter (fun k => k ≠ node)

/-- The member `isLocalNode_l(node)`: `mIsLocalNode.indexOfKey(node) >= 0`. -/
def isLocalNode_l (m : MuxOMX) (node : node_id) : Bool :=
  decide (node ∈ m.mIsLocalNode)

/-- The member `isLocalNode(node)`: `isLocalNode_l` under the lock. -/
def isLocalNode (m : MuxOMX) (node : node_id) : Bool :=
  m.isLocalNode_l node

/-- The static member `IsSoftwareComponent(name)`. -/
def IsSoftwareComponent (name : String) : Bool :=
  decide (strncasecmp name "OMX.google." 11 = 0) || decide (strncasecmp name "OMX.ffmpeg." 11 = 0)

/-- The member `getOMX(node)`. -/
def getOMX (m : MuxOMX) (node : node_id) : Endpoint :=
  if m.isLocalNode node then Endpoint.localOMX else Endpoint.remoteOMX

/-- The member `getOMX_l(node)`. -/
def getOMX_l (m : MuxOMX) (node : node_id) : Endpoint :=
  if m.isLocalNode_l node then Endpoint.localOMX else Endpoint.remoteOMX

/-- The member `allocateNode(name, observer, node)`.  `answer` is what
`omx->allocateNode(name, observer, node)` returns and the id it writes to
`*node`.  The result is the endpoint `omx` the call was passed to, the status
returned, the id left in `*node` on success, and the new state. -/
def allocateNode (m : MuxOMX) (name : String) (answer : status_t × node_id) :
    Endpoint × status_t × Option node_id × MuxOMX :=
  let omx := if IsSoftwareComponent name then Endpoint.localOMX else Endpoint.remoteOMX
  let m : MuxOMX := if IsSoftwareComponent name then { m with mLocalOMX := true } else m
  if answer.1 ≠ OK then (omx, answer.1, none, m)
  else if omx = Endpoint.localOMX then
    (omx, OK, some answer.2, { m with mIsLocalNode := addKey m.mIsLocalNode answer.2 })
  else (omx, OK, some answer.2, m)

/-- The member `freeNode(node)`.  `err` is what `getOMX_l(node)->freeNode(node)`
returns.  The result is the endpoint the call was passed to, the status
returned and the new state. -/
def freeNode (m : MuxOMX) (node : node_id) (err : status_t) : Endpoint × status_t × MuxOMX :=
  if err ≠ OK then (m.getOMX_l node, err, m)
  else (m.getOMX_l node, OK, { m with mIsLocalNode := removeKey m.mIsLocalNode node })

/-- The body `return getOMX(node)->member(node, ...)` of a per-node member:
the endpoint the call is passed to, and that endpoint's answer as the value
returned. -/
def forward {α : Type} (m : MuxOMX) (node : node_id) (answer : α) : Option Endpoint × α :=
  (some (m.getOMX node), answer)

/-- The member `livesLocally(node, pid)`. -/
def livesLocally (m : MuxOMX) (node : node_id) (answer : Bool) : Option Endpoint × Bool :=
  m.forward node answer

/-- The member `sendCommand(node, cmd, param)`. -/
def sendCommand (m : MuxOMX) (node : node_id) (answer : status_t) : Option Endpoint × status_t :=
  m.forward node answer

/-- The member `getParameter(node, index, params, size)`.  `steHardware` is
whether the file is built with `STE_HARDWARE` defined, `nProfileIndex` the
field of that name in `*params`, read only for the profile-level query.  In an
`STE_HARDWARE` build the query with profile index 0 returns -1 and reaches no
endpoint (`none`). -/
def getParameter (steHardware : Bool) (m : MuxOMX) (node : node_id) (index : OMX_INDEXTYPE)
    (nProfileIndex : Nat) (answer : status_t) : Option Endpoint × status_t :=
  if steHardware && decide (index = OMX_INDEXTYPE.OMX_IndexParamVideoProfileLevelQuerySupported)
      && decide (nProfileIndex = 0) then (none, -1)
  else m.forward node answer

/-- The member `setParameter(node, index, params, size)`: it logs, then passes
the call on. -/
def setParameter (m : MuxOMX) (node : node_id) (answer : status_t) : Option Endpoint × status_t :=
  m.forward node answer

/-- A call of one of the per-node members that return a `status_t`.  `index`
and `nProfileIndex` are read by `getParameter` only. -/
def request (steHardware : Bool) (m : MuxOMX) (member : Member) (node : node_id)
    (index : OMX_INDEXTYPE) (nProfileIndex : Nat) (answer : status_t) :
    Option Endpoint × status_t :=
  match member with
  | Member.getParameter => m.getParameter steHardware node index nProfileIndex answer
  | Member.sendCommand => m.sendCommand node answer
  | Member.setParameter => m.setParameter node answer
  | _ => m.forward node answer

/-- A call of `allocateNode` or of `freeNode` together with the answer of the
endpoint that receives it: the status, and for `allocateNode` the id the
endpoint writes. -/
inductive Call where
  | allocateNode (name : String) (err : status_t) (node : node_id)
  | freeNode (node : node_id) (err : status_t)
  deriving DecidableEq, Repr

/-- The state after one call. -/
def step (m : MuxOMX) : Call → MuxOMX
  | Call.allocateNode name err node => (m.allocateNode name (err, node)).2.2.2
  | Call.freeNode node err => (m.freeNode node err).2.2

/-- The state after a sequence of calls. -/
def run (calls : List Call) (m : MuxOMX) : MuxOMX :=
  calls.foldl step m

/-- A component name in the specification's words: whether it starts with
`pfx`, letter case ignored. -/
def startsWithIgnoringCase (name pfx : String) : Bool :=
  (pfx.toList.map Char.toLower).isPrefixOf (name.toList.map Char.toLower)

/-- A software component in the specification's words: the name starts with
`OMX.google.` or with `OMX.ffmpeg.`, letter case ignored. -/
def isSoftwareName (name : String) : Bool :=
  startsWithIgnoringCase name "OMX.google." || startsWithIgnoringCase name "OMX.ffmpeg."

/-- The endpoint that allocates the components of a name. -/
def endpointFor (name : String) : Endpoint :=
  if isSoftwareName name then Endpoint.localOMX else Endpoint.remoteOMX

/-- Whether a node counts as live and local after a sequence of calls, in the
specification's words: it was successfully allocated for a software component
and has not since been successfully freed.  `b` is the value before the
calls. -/
def liveSoftwareFrom (node : node_id) : Bool → List Call → Bool
  | b, [] => b
  | b, Call.allocateNode name err k :: cs =>
    liveSoftwareFrom node (if err = OK ∧ isSoftwareName name = true ∧ k = node then true else b) cs
  | b, Call.freeNode k err :: cs =>
    liveSoftwareFrom node (if err = OK ∧ k = node then false else b) cs

/-- The value of `liveSoftwareFrom` for a sequence of calls on a new object. -/
def liveSoftware (calls : List Call) (node : node_id) : Bool :=
  liveSoftwareFrom node false calls

/-- The endpoint that allocated a node, in the specification's words: the
endpoint of its latest successful allocation, as long as the node has not
since been successfully freed.  `a` is the value before the calls. -/
def allocatedByFrom (node : node_id) : Option Endpoint → List Call → Option Endpoint
  | a, [] => a
  | a, Call.allocateNode name err k :: cs =>
    allocatedByFrom node (if err = OK ∧ k = node then some (endpointFor name) else a) cs
  | a, Call.freeNode k err :: cs =>
    allocatedByFrom node (if err = OK ∧ k = node then none else a) cs

/-- The value of `allocatedByFrom` for a sequence of calls on a new object. -/
def allocatedBy (calls : List Call) (node : node_id) : Option Endpoint :=
  allocatedByFrom node none calls

/-- The ids that an endpoint returned from successful allocations in a sequence
of calls. -/
def returnedIds (e : Endpoint) : List Call → List node_id
  | [] => []
  | Call.allocateNode name err k :: cs =>
    if err = OK ∧ endpointFor name = e then k :: returnedIds e cs else returnedIds e cs
  | Call.freeNode _ _ :: cs => returnedIds e cs

/-- The local and the remote endpoint never return equal node ids. -/
def DistinctIds (calls : List Call) : Prop :=
  ∀ n ∈ returnedIds Endpoint.localOMX calls, n ∉ returnedIds Endpoint.remoteOMX calls

instance (calls : List Call) : Decidable (DistinctIds calls) := by
  unfold DistinctIds
  infer_instance

/-- Whenever a node is recorded as local, `mLocalOMX` has been created: no
call is passed on through a NULL `mLocalOMX`. -/
def Created (m : MuxOMX) : Prop :=
  m.mIsLocalNode ≠ [] → m.mLocalOMX = true

/-- A session: a software decoder (id 1) and a vendor decoder (id 2) are
allocated, a second software component (id 3) is allocated and freed, one
allocation fails and one `freeNode` of node 1 fails. -/
def session : List Call :=
  [Call.allocateNode "OMX.google.aac.decoder" OK 1,
   Call.allocateNode "OMX.ST.VFM.H264Dec" OK 2,
   Call.allocateNode "omx.FFMPEG.mp3.decoder" OK 3,
   Call.freeNode 3 OK,
   Call.allocateNode "OMX.google.vorbis.decoder" (-12) 9,
   Call.freeNode 1 (-5)]

end MuxOMX

namespace NuPlayer

open media_track_type DiscontinuityType SeekMode Message

/-! ## Sample data -/

/-- A raw sample of four bytes stamped with a timestamp. -/
def sampleAt (t : Int) : MediaBuffer :=
  { data := [1, 2, 3, 4], range_offset := 0, range_length := 4, kKeyTime := some t }

/-- The unit stamped `t` that the sample states hold in their queues. -/
def unitAt (t : Int) : ABuffer :=
  (ABuffer.alloc 4 [1, 2, 3, 4]).stamp t

/-- A reader that answers every read with end-of-stream. -/
def endedReader (id : Nat) (mime : String) : MediaSource :=
  { id := id, format := { kKeyMIMEType := some mime },
    respond := fun _ _ => (ERROR_END_OF_STREAM, none) }

/-- A reader that answers every read with a sample stamped `t`. -/
def steadyReader (id : Nat) (mime : String) (t : Int) : MediaSource :=
  { id := id, format := { kKeyMIMEType := some mime },
    respond := fun _ _ => (OK, some (sampleAt t)) }

/-- A Widevine source with an audio reader and no video reader. -/
def audioOnlySecure : GenericSource :=
  { mSources := [steadyReader 0 "audio/mp4a-latm" 0],
    mAudioTrack := { mIndex := 0, mSource := some (steadyReader 0 "audio/mp4a-latm" 0),
                     mPackets := some {} },
    mIsWidevine := true }

/-- A Widevine source after `start()`: an audio reader with one buffered unit
and a video reader whose queue is empty and has ended with end-of-stream. -/
def secureVideoEnded : GenericSource :=
  { mSources := [steadyReader 0 "audio/mp4a-latm" 40, endedReader 1 "video/avc"],
    mAudioTrack := { mIndex := 0, mSource := some (steadyReader 0 "audio/mp4a-latm" 40),
                     mPackets := some {} },
    mVideoTrack := { mIndex := 1, mSource := some (endedReader 1 "video/avc"),
                     mPackets := some { mEOSResult := ERROR_END_OF_STREAM } },
    mIsWidevine := true }

/-- A source after `start()` whose audio reader has reached its end while one
unit stamped 0 is still buffered. -/
def audioAtEnd : GenericSource :=
  { mSources := [endedReader 0 "audio/mp4a-latm"],
    mAudioTrack := { mIndex := 0, mSource := some (endedReader 0 "audio/mp4a-latm"),
                     mPackets := some { mBuffers := [unitAt 0],
                                        mLatestEnqueuedMeta := some { timeUs := some 0 } } } }

/-- A source after `start()` whose audio reader keeps delivering samples stamped
20 while one unit stamped 0 is buffered. -/
def audioPlaying : GenericSource :=
  { mSources := [steadyReader 0 "audio/mp4a-latm" 20],
    mAudioTrack := { mIndex := 0, mSource := some (steadyReader 0 "audio/mp4a-latm" 20),
                     mPackets := some { mBuffers := [unitAt 0],
                                        mLatestEnqueuedMeta := some { timeUs := some 0 } } } }

/-- A text reader that answers every read with a cue stamped `t`. -/
def cueReader (id : Nat) (t : Int) : MediaSource :=
  { id := id, format := { kKeyMIMEType := some "text/3gpp" },
    respond := fun _ _ => (OK, some (sampleAt t)) }

/-- A source with a selected subtitle track (catalog index 2) whose queue is
empty, at generation 1. -/
def subtitleSelected : GenericSource :=
  { mSources := [steadyReader 0 "audio/mp4a-latm" 20, steadyReader 1 "video/avc" 30,
                 cueReader 2 4000000],
    mAudioTrack := { mIndex := 0, mSource := some (steadyReader 0 "audio/mp4a-latm" 20),
                     mPackets := some { mBuffers := [unitAt 0],
                                        mLatestEnqueuedMeta := some { timeUs := some 0 } } },
    mVideoTrack := { mIndex := 1, mSource := some (steadyReader 1 "video/avc" 30),
                     mPackets := some { mBuffers := [unitAt 0],
                                        mLatestEnqueuedMeta := some { timeUs := some 0 } } },
    mSubtitleTrack := { mIndex := 2, mSource := some (cueReader 2 4000000), mPackets := some {} },
    mFetchSubtitleDataGeneration := 1 }

/-- A playing source with two audio readers (catalog indices 0 and 2) and a
video reader (index 1); the audio slot plays reader 0 and the latest unit
queued on either slot is stamped `t`. -/
def twoAudio (t : Int) : GenericSource :=
  { mSources := [steadyReader 0 "audio/mp4a-latm" 20, steadyReader 1 "video/avc" 30,
                 steadyReader 2 "AUDIO/vorbis" 5000],
    mAudioTrack := { mIndex := 0, mSource := some (steadyReader 0 "audio/mp4a-latm" 20),
                     mPackets := some { mBuffers := [unitAt t],
                                        mLatestEnqueuedMeta := some { timeUs := some t } } },
    mVideoTrack := { mIndex := 1, mSource := some (steadyReader 1 "video/avc" 30),
                     mPackets := some { mBuffers := [unitAt t],
                                        mLatestEnqueuedMeta := some { timeUs := some t } } } }

/-- A playing source whose video reader (catalog index 1) lands every read on
a sync sample stamped 4800000 and whose audio reader is catalog index 0. -/
def syncAt4800000 : GenericSource :=
  { mSources := [steadyReader 0 "audio/mp4a-latm" 4799000, steadyReader 1 "video/avc" 4800000],
    mAudioTrack := { mIndex := 0, mSource := some (steadyReader 0 "audio/mp4a-latm" 4799000),
                     mPackets := some {} },
    mVideoTrack := { mIndex := 1, mSource := some (steadyReader 1 "video/avc" 4800000),
                     mPackets := some {} } }

/-- A playing source whose video reader (catalog index 1) lands every read on
a sample stamped -1 and whose audio reader is catalog index 0. -/
def syncAtNegative : GenericSource :=
  { mSources := [steadyReader 0 "audio/mp4a-latm" 4799000, steadyReader 1 "video/avc" (-1)],
    mAudioTrack := { mIndex := 0, mSource := some (steadyReader 0 "audio/mp4a-latm" 4799000),
                     mPackets := some {} },
    mVideoTrack := { mIndex := 1, mSource := some (steadyReader 1 "video/avc" (-1)),
                     mPackets := some {} } }

/-- A Widevine source with a selected subtitle track at catalog index 2. -/
def secureWithSubtitle : GenericSource :=
  { mSubtitleTrack := { mIndex := 2, mSource := some (cueReader 2 7), mPackets := some {} },
    mIsWidevine := true }

/-- A playing source with an audio, a video and a text reader (catalog
indices 0, 1, 2), no subtitle track selected and nothing posted. -/
def subtitleIdle : GenericSource :=
  { mSources := [steadyReader 0 "audio/mp4a-latm" 20, steadyReader 1 "video/avc" 30,
                 cueReader 2 4000000],
    mAudioTrack := { mIndex := 0, mSource := some (steadyReader 0 "audio/mp4a-latm" 20),
                     mPackets := some { mBuffers := [unitAt 0],
                                        mLatestEnqueuedMeta := some { timeUs := some 0 } } },
    mVideoTrack := { mIndex := 1, mSource := some (steadyReader 1 "video/avc" 30),
                     mPackets := some { mBuffers := [unitAt 0],
                                        mLatestEnqueuedMeta := some { timeUs := some 0 } } } }

/-- A source whose catalog holds an audio reader (index 0) and a reader whose
MIME type is neither text, audio nor video (index 1). -/
def withDataTrack : GenericSource :=
  { mSources := [steadyReader 0 "audio/mp4a-latm" 20, endedReader 1 "application/x-subrip"],
    mAudioTrack := { mIndex := 0, mSource := some (steadyReader 0 "audio/mp4a-latm" 20),
                     mPackets := some {} } }

/-- A container of ten seconds with an audio track of thirty seconds, a video
track of fifty seconds for which the extractor yields no reader, and a text
track without a duration. -/
def movie : DataSource :=
  { created := some
      { fileMeta := some { kKeyDuration := some 10000000 },
        tracks :=
          [{ «meta» := { kKeyMIMEType := some "audio/mp4a-latm", kKeyDuration := some 30000000 },
             track := some (steadyReader 0 "audio/mp4a-latm" 20) },
           { «meta» := { kKeyMIMEType := some "video/avc", kKeyDuration := some 50000000 },
             track := none },
           { «meta» := { kKeyMIMEType := some "text/3gpp" },
             track := some (cueReader 2 4000000) }] } }

/-- The object after its initialization on `movie` outside Widevine mode: the
audio reader has its slot, the video slot has the container index of the video
track and no reader, and the catalog holds the two obtained readers. -/
def movieScanned : GenericSource :=
  { mSources := [steadyReader 0 "audio/mp4a-latm" 20, cueReader 2 4000000],
    mAudioTrack := { mIndex := 0, mSource := some (steadyReader 0 "audio/mp4a-latm" 20) },
    mVideoTrack := { mIndex := 1, mSource := none },
    mDurationUs := 30000000 }

/-- A text reader in English whose meta data carries the three selection
flags. -/
def flaggedCueReader : MediaSource :=
  { id := 2,
    format := { kKeyMIMEType := some "text/3gpp", kKeyMediaLanguage := some "eng",
                kKeyTrackIsAutoselect := some 0, kKeyTrackIsDefault := some 1,
                kKeyTrackIsForced := some 5 },
    respond := fun _ _ => (ERROR_END_OF_STREAM, none) }

/-- A catalog of an audio reader, a video reader and the flagged text reader
(catalog indices 0, 1, 2). -/
def flaggedCatalog : GenericSource :=
  { mSources := [steadyReader 0 "audio/mp4a-latm" 20, steadyReader 1 "video/avc" 30,
                 flaggedCueReader] }

/-- A playing source after a seek: the audio queue opens with a SEEK marker, a
subtitle track (catalog index 2) is selected at generation 1 and one cue is
buffered. -/
def subtitleAfterSeek : GenericSource :=
  { mSources := [steadyReader 0 "audio/mp4a-latm" 20, steadyReader 1 "video/avc" 30,
                 cueReader 2 4000000],
    mAudioTrack := { mIndex := 0, mSource := some (steadyReader 0 "audio/mp4a-latm" 20),
                     mPackets := some { mBuffers := [AnotherPacketSource.marker DISCONTINUITY_SEEK,
                                                     unitAt 5],
                                        mLatestEnqueuedMeta := some { timeUs := some 5 } } },
    mVideoTrack := { mIndex := 1, mSource := some (steadyReader 1 "video/avc" 30),
                     mPackets := some { mBuffers := [unitAt 0],
                                        mLatestEnqueuedMeta := some { timeUs := some 0 } } },
    mSubtitleTrack := { mIndex := 2, mSource := some (cueReader 2 4000000),
                        mPackets := some { mBuffers := [unitAt 4000000],
                                           mLatestEnqueuedMeta := some { timeUs := some 4000000 } } },
    mFetchSubtitleDataGeneration := 1 }

/-- The zero-copy unit stamped `t` that a Widevine video queue holds. -/
def secureUnitAt (t : Int) : ABuffer :=
  { mData := none, mCapacity := 4, mOwnsData := false,
    «meta» := { timeUs := some t, mediaBuffer := some (sampleAt t) } }

/-- A Widevine source with an audio and a video reader (catalog indices 0 and
1), each with two units buffered. -/
def secureBuffered : GenericSource :=
  { mSources := [steadyReader 0 "audio/mp4a-latm" 40, steadyReader 1 "video/avc" 30],
    mAudioTrack := { mIndex := 0, mSource := some (steadyReader 0 "audio/mp4a-latm" 40),
                     mPackets := some { mBuffers := [unitAt 0, unitAt 20],
                                        mLatestEnqueuedMeta := some { timeUs := some 20 } } },
    mVideoTrack := { mIndex := 1, mSource := some (steadyReader 1 "video/avc" 30),
                     mPackets := some { mBuffers := [secureUnitAt 0, secureUnitAt 15],
                                        mLatestEnqueuedMeta := some (secureUnitAt 15).meta } },
    mIsWidevine := true }

/-- A playing source with two audio readers (catalog indices 0 and 2) whose
audio queue is empty and has ended. -/
def twoAudioDrained : GenericSource :=
  { mSources := [steadyReader 0 "audio/mp4a-latm" 20, steadyReader 1 "video/avc" 30,
                 steadyReader 2 "AUDIO/vorbis" 5000],
    mAudioTrack := { mIndex := 0, mSource := some (steadyReader 0 "audio/mp4a-latm" 20),
                     mPackets := some { mBuffers := [], mEOSResult := ERROR_END_OF_STREAM,
                                        mLatestEnqueuedMeta := some { timeUs := some 7 } } },
    mVideoTrack := { mIndex := 1, mSource := some (steadyReader 1 "video/avc" 30),
                     mPackets := some { mBuffers := [unitAt 7],
                                        mLatestEnqueuedMeta := some { timeUs := some 7 } } } }

/-- A container with two audio tracks around a video track, all with readers
(container indices 0, 1, 2). -/
def twoAudioMovie : DataSource :=
  { created := some
      { tracks :=
          [{ «meta» := { kKeyMIMEType := some "audio/mp4a-latm" },
             track := some (steadyReader 0 "audio/mp4a-latm" 20) },
           { «meta» := { kKeyMIMEType := some "video/avc" },
             track := some (steadyReader 1 "video/avc" 30) },
           { «meta» := { kKeyMIMEType := some "audio/vorbis" },
             track := some (steadyReader 2 "audio/vorbis" 5000) }] } }

/-- An audio reader that answers its first two reads with the format-changed
signal and every later read with `r`. -/
def hesitantReader (r : status_t × Option MediaBuffer) : MediaSource :=
  { id := 0, format := { kKeyMIMEType := some "audio/mp4a-latm" },
    respond := fun history _ => if history.length < 2 then (INFO_FORMAT_CHANGED, none) else r }

/-- A started source whose audio slot plays the hesitant reader, with one unit
stamped 0 buffered. -/
def hesitant (r : status_t × Option MediaBuffer) : GenericSource :=
  { mSources := [hesitantReader r],
    mAudioTrack := { mIndex := 0, mSource := some (hesitantReader r),
                     mPackets := some { mBuffers := [unitAt 0],
                                        mLatestEnqueuedMeta := some { timeUs := some 0 } } } }

/-- A source whose audio reader is a Vorbis reader, with the trailer flag
set. -/
def vorbisPlaying : GenericSource :=
  { mSources := [steadyReader 0 "audio/vorbis" 20],
    mAudioTrack := { mIndex := 0, mSource := some (steadyReader 0 "audio/vorbis" 20),
                     mPackets := some {} },
    mAudioIsVorbis := true }

/-- A raw sample whose range is the three bytes at offset 1 of five, stamped 20,
with 960 valid samples. -/
def vorbisPage : MediaBuffer :=
  { data := [9, 1, 2, 3, 9], range_offset := 1, range_length := 3, kKeyTime := some 20,
    kKeyValidSamples := some 960 }

/-- A container whose first track is a data track for which the extractor
yields no reader, followed by an audio track with a reader (container indices
0 and 1). -/
def dataFirstMovie : DataSource :=
  { created := some
      { tracks :=
          [{ «meta» := { kKeyMIMEType := some "application/octet-stream" }, track := none },
           { «meta» := { kKeyMIMEType := some "audio/mp4a-latm" },
             track := some (steadyReader 1 "audio/mp4a-latm" 20) }] } }

/-- A container with an audio track and a WebVTT text track, both with readers
(container indices 0 and 1). -/
def vttMovie : DataSource :=
  { created := some
      { tracks :=
          [{ «meta» := { kKeyMIMEType := some "audio/mp4a-latm" },
             track := some (steadyReader 0 "audio/mp4a-latm" 20) },
           { «meta» := { kKeyMIMEType := some "text/vtt" },
             track := some { id := 1, format := { kKeyMIMEType := some "text/vtt" },
                             respond := fun _ _ => (OK, some (sampleAt 4000000)) } }] } }

namespace GenericSource

/-! ## Frame and trace of the pump -/

theorem pumpFrame_refl (trackType : media_track_type) (s : GenericSource) :
    PumpFrame trackType s s := by
  constructor <;> intros <;> rfl

theorem pumpFrame_trans {trackType : media_track_type} {s s1 s2 : GenericSource}
    (h1 : PumpFrame trackType s s1) (h2 : PumpFrame trackType s1 s2) :
    PumpFrame trackType s s2 := by
  constructor
  · exact h2.mSources.trans h1.mSources
  · exact h2.generation.trans h1.generation
  · exact h2.duration.trans h1.duration
  · exact h2.vorbis.trans h1.vorbis
  · exact h2.widevine.trans h1.widevine
  · exact h2.posted.trans h1.posted
  · exact h2.notified.trans h1.notified
  · exact h2.audioSource.trans h1.audioSource
  · exact h2.audioIndex.trans h1.audioIndex
  · exact h2.videoSource.trans h1.videoSource
  · exact h2.videoIndex.trans h1.videoIndex
  · exact h2.subtitleSource.trans h1.subtitleSource
  · exact h2.subtitleIndex.trans h1.subtitleIndex
  · exact fun h => (h2.audioPackets h).trans (h1.audioPackets h)
  · exact fun h => (h2.videoPackets h).trans (h1.videoPackets h)
  · exact fun h => (h2.subtitlePackets h).trans (h1.subtitlePackets h)

theorem pumpFrame_reads (trackType : media_track_type) (s : GenericSource)
    (rd : List ReadEvent) : PumpFrame trackType s { s with reads := rd } := by
  constructor <;> intros <;> rfl

theorem pumpFrame_setPackets (trackType : media_track_type) (s : GenericSource)
    (q : AnotherPacketSource) : PumpFrame trackType s (s.setPackets trackType q) := by
  cases trackType <;> constructor <;> first | rfl | (intro h; first | rfl | exact absurd rfl h)

@[simp] theorem setPackets_reads (trackType : media_track_type) (s : GenericSource)
    (q : AnotherPacketSource) : (s.setPackets trackType q).reads = s.reads := by
  cases trackType <;> rfl

theorem mediaBufferToABuffer_congr {s s' : GenericSource} (mb : MediaBuffer)
    (trackType : media_track_type) (h1 : s'.mAudioIsVorbis = s.mAudioIsVorbis)
    (h2 : s'.mIsWidevine = s.mIsWidevine)
    (h3 : s'.mSubtitleTrack.mIndex = s.mSubtitleTrack.mIndex) :
    s'.mediaBufferToABuffer mb trackType = s.mediaBufferToABuffer mb trackType := by
  unfold mediaBufferToABuffer
  rw [h1, h2, h3]

theorem queueMarker_frame {s s' : GenericSource} {trackType : media_track_type}
    {seeking formatChange : Bool}
    (h : s.queueMarker trackType seeking formatChange = .ok s') :
    PumpFrame trackType s s' ∧ s'.reads = s.reads := by
  unfold queueMarker at h
  split_ifs at h
  · cases hq : s.packetsOf trackType with
    | none => simp [hq] at h
    | some q =>
      simp only [hq, Except.ok.injEq] at h
      subst h
      exact ⟨pumpFrame_setPackets _ _ _, setPackets_reads _ _ _⟩
  · simp only [Except.ok.injEq] at h
    subst h
    exact ⟨pumpFrame_refl _ _, rfl⟩

theorem queueSample_frame {s s' : GenericSource} {trackType : media_track_type}
    {seeking formatChange : Bool} {mbuf : MediaBuffer} {t : Int}
    (h : s.queueSample trackType seeking formatChange mbuf = .ok (s', t)) :
    PumpFrame trackType s s' ∧ s'.reads = s.reads := by
  unfold queueSample at h
  cases hm : s.queueMarker trackType seeking formatChange with
  | error f => simp [hm] at h
  | ok s1 =>
    have hs1 := queueMarker_frame hm
    simp only [hm] at h
    cases hc : s1.mediaBufferToABuffer mbuf trackType with
    | error f => simp [hc] at h
    | ok p =>
      obtain ⟨buffer, timeUs⟩ := p
      simp only [hc] at h
      cases hq : s1.packetsOf trackType with
      | none => simp [hq] at h
      | some q =>
        simp only [hq, Except.ok.injEq, Prod.mk.injEq] at h
        obtain ⟨h, -⟩ := h
        subst h
        exact ⟨pumpFrame_trans hs1.1 (pumpFrame_setPackets _ _ _),
          (setPackets_reads _ _ _).trans hs1.2⟩

theorem endStream_frame {s s' : GenericSource} {trackType : media_track_type} {err : status_t}
    (h : s.endStream trackType err = .ok s') :
    PumpFrame trackType s s' ∧ s'.reads = s.reads := by
  unfold endStream at h
  split at h
  · simp at h
  · simp only [Except.ok.injEq] at h
    subst h
    exact ⟨pumpFrame_setPackets _ _ _, setPackets_reads _ _ _⟩

theorem clearSeekTo_idem (o : ReadOptions) : o.clearSeekTo.clearSeekTo = o.clearSeekTo := rfl

theorem readLoop_frame (fuel : Nat) (src : MediaSource) (trackType : media_track_type)
    (seeking formatChange : Bool) :
    ∀ (options : ReadOptions) (a : Int) (s s' : GenericSource) (a' : Int),
      readLoop fuel src trackType seeking formatChange options a s = .ok (s', a') →
      PumpFrame trackType s s' ∧
      ∃ k, s'.reads = s.reads ++ (src.id, options) ::
        List.replicate k (src.id, options.clearSeekTo) := by
  induction fuel with
  | zero => intro options a s s' a' h; simp [readLoop] at h
  | succ n ih =>
    intro options a s s' a' h
    rw [readLoop] at h
    split_ifs at h with h1 h2 h3
    · split at h
      · simp at h
      · obtain ⟨hf, hr⟩ := queueSample_frame h
        exact ⟨pumpFrame_trans (pumpFrame_reads _ _ _) hf, 0, by simpa using hr⟩
    · simp only [Except.ok.injEq, Prod.mk.injEq] at h
      obtain ⟨h, -⟩ := h
      subst h
      exact ⟨pumpFrame_reads _ _ _, 0, by simp⟩
    · obtain ⟨hf, k, hk⟩ := ih _ _ _ _ _ h
      refine ⟨pumpFrame_trans (pumpFrame_reads _ _ _) hf, k + 1, ?_⟩
      rw [hk, clearSeekTo_idem]
      simp [List.replicate_succ]
    · split at h
      · simp at h
      · rename_i s1 hs1
        simp only [Except.ok.injEq, Prod.mk.injEq] at h
        obtain ⟨h, -⟩ := h
        subst h
        obtain ⟨hf, hr⟩ := endStream_frame hs1
        exact ⟨pumpFrame_trans (pumpFrame_reads _ _ _) hf, 0, by simpa using hr⟩

theorem readBuffer_frame {fuel : Nat} {trackType : media_track_type} {seekTimeUs : Int}
    {formatChange : Bool} {s s' : GenericSource} {t : Option Int}
    (h : s.readBuffer fuel trackType seekTimeUs formatChange = .ok (s', t)) :
    PumpFrame trackType s s' := by
  unfold readBuffer at h
  split at h
  · simp at h
  · split at h
    · simp only [Except.ok.injEq, Prod.mk.injEq] at h
      obtain ⟨h, -⟩ := h
      subst h
      exact pumpFrame_refl _ _
    · split at h
      · simp at h
      · rename_i s1 t1 hl
        simp only [Except.ok.injEq, Prod.mk.injEq] at h
        obtain ⟨h, -⟩ := h
        subst h
        exact (readLoop_frame _ _ _ _ _ _ _ _ _ _ hl).1

/-- The reads a pump issues: none without a reader, otherwise a first read
with the pump options followed by retries that carry no seek request, all on
the reader of the slot. -/
theorem readBuffer_reads {fuel : Nat} {trackType : media_track_type} {seekTimeUs : Int}
    {formatChange : Bool} {s s' : GenericSource} {t : Option Int}
    (h : s.readBuffer fuel trackType seekTimeUs formatChange = .ok (s', t)) :
    ((s.trackOf trackType).bind (fun tr => tr.mSource) = none ∧ s'.reads = s.reads) ∨
    ∃ src k, (s.trackOf trackType).bind (fun tr => tr.mSource) = some src ∧
      s'.reads = s.reads ++ (src.id, s.pumpOptions trackType seekTimeUs) ::
        List.replicate k (src.id, (s.pumpOptions trackType seekTimeUs).clearSeekTo) := by
  unfold readBuffer at h
  split at h
  · simp at h
  · rename_i track htr
    split at h
    · rename_i hsrc
      simp only [Except.ok.injEq, Prod.mk.injEq] at h
      obtain ⟨h, -⟩ := h
      subst h
      left
      simp [htr, hsrc]
    · rename_i src hsrc
      split at h
      · simp at h
      · rename_i s1 t1 hl
        simp only [Except.ok.injEq, Prod.mk.injEq] at h
        obtain ⟨h, -⟩ := h
        subst h
        right
        obtain ⟨-, k, hk⟩ := readLoop_frame _ _ _ _ _ _ _ _ _ _ hl
        exact ⟨src, k, by simp [htr, hsrc], hk⟩

/-! ## The pump when the first read is answered at once -/

theorem packetsOf_setPackets {s : GenericSource} {trackType : media_track_type} {track : Track}
    (htr : s.trackOf trackType = some track) (q : AnotherPacketSource) :
    (s.setPackets trackType q).packetsOf trackType = some q := by
  cases trackType <;> simp [trackOf] at htr <;> rfl

theorem packetsOf_eq {s : GenericSource} {trackType : media_track_type} {track : Track}
    (htr : s.trackOf trackType = some track) : s.packetsOf trackType = track.mPackets := by
  simp [packetsOf, htr]

theorem setPackets_setPackets (s : GenericSource) (trackType : media_track_type)
    (q q' : AnotherPacketSource) :
    (s.setPackets trackType q).setPackets trackType q' = s.setPackets trackType q' := by
  cases trackType <;> rfl

theorem mediaBufferToABuffer_setPackets (s : GenericSource) (trackType tt : media_track_type)
    (q : AnotherPacketSource) (mb : MediaBuffer) :
    (s.setPackets trackType q).mediaBufferToABuffer mb tt = s.mediaBufferToABuffer mb tt := by
  have hf := pumpFrame_setPackets trackType s q
  exact mediaBufferToABuffer_congr mb tt hf.vorbis hf.widevine hf.subtitleIndex

theorem mediaBufferToABuffer_stamped (s : GenericSource) (trackType : media_track_type)
    {mb : MediaBuffer} {t : Int} (h : mb.kKeyTime = some t) :
    ∃ buffer, s.mediaBufferToABuffer mb trackType = .ok (buffer, t) ∧
      buffer.meta.timeUs = some t ∧ buffer.meta.discontinuity = none := by
  unfold mediaBufferToABuffer
  simp only [h]
  refine ⟨_, rfl, ?_, ?_⟩
  · split_ifs <;> cases mb.kKeyDuration <;> rfl
  · split_ifs <;> cases mb.kKeyDuration <;> rfl

/-- The queue after a sample was queued by the pump: the marker, when one is
due, then the access unit. -/
theorem queueSample_eq {s : GenericSource} {trackType : media_track_type} {track : Track}
    {q : AnotherPacketSource} {mb : MediaBuffer} {buffer : ABuffer} {t : Int}
    (seeking formatChange : Bool)
    (htr : s.trackOf trackType = some track) (hq : track.mPackets = some q)
    (hb : s.mediaBufferToABuffer mb trackType = .ok (buffer, t)) :
    s.queueSample trackType seeking formatChange mb =
      .ok (s.setPackets trackType
        ((if (seeking || formatChange) && trackType ≠ MEDIA_TRACK_TYPE_SUBTITLE then
            q.queueDiscontinuity (discontinuityFor seeking formatChange) true
          else q).queueAccessUnit buffer), t) := by
  have hp : s.packetsOf trackType = some q := (packetsOf_eq htr).trans hq
  unfold queueSample queueMarker
  by_cases hc : ((seeking || formatChange) && trackType ≠ MEDIA_TRACK_TYPE_SUBTITLE) = true
  · simp only [hc, if_true, hp, mediaBufferToABuffer_setPackets, hb, packetsOf_setPackets htr,
      setPackets_setPackets]
  · rw [if_neg hc, if_neg hc]
    simp only [hb, hp]

theorem trackOf_reads (s : GenericSource) (rd : List ReadEvent) (trackType : media_track_type) :
    ({ s with reads := rd } : GenericSource).trackOf trackType = s.trackOf trackType := by
  cases trackType <;> rfl

/-- The pump whose first read returns a stamped sample: one read, the marker
(when due) and the converted sample appended to the queue of the slot, the
sample's timestamp as landed timestamp. -/
theorem readBuffer_sample (fuel : Nat) {s : GenericSource} {trackType : media_track_type}
    {track : Track} {src : MediaSource} {q : AnotherPacketSource} {mb : MediaBuffer}
    {buffer : ABuffer} {t : Int} (seekTimeUs : Int) (formatChange : Bool)
    (htr : s.trackOf trackType = some track) (hsrc : track.mSource = some src)
    (hq : track.mPackets = some q)
    (hread : src.read s.reads (s.pumpOptions trackType seekTimeUs) = (OK, some mb))
    (hb : s.mediaBufferToABuffer mb trackType = .ok (buffer, t)) :
    s.readBuffer (fuel + 1) trackType seekTimeUs formatChange =
      .ok (({ s with reads := s.reads ++ [(src.id, s.pumpOptions trackType seekTimeUs)] }
              : GenericSource).setPackets trackType
            ((if (decide (seekTimeUs ≥ 0) || formatChange)
                  && trackType ≠ MEDIA_TRACK_TYPE_SUBTITLE then
                q.queueDiscontinuity (discontinuityFor (decide (seekTimeUs ≥ 0)) formatChange) true
              else q).queueAccessUnit buffer), some t) := by
  unfold readBuffer
  simp only [htr, hsrc]
  rw [readLoop]
  simp only [hread, if_true]
  have htr2 := (trackOf_reads s (s.reads ++ [(src.id, s.pumpOptions trackType seekTimeUs)])
    trackType).trans htr
  have hb2 : ({ s with reads := s.reads ++ [(src.id, s.pumpOptions trackType seekTimeUs)] }
      : GenericSource).mediaBufferToABuffer mb trackType = .ok (buffer, t) :=
    (mediaBufferToABuffer_congr mb trackType rfl rfl rfl).trans hb
  rw [queueSample_eq _ _ htr2 hq hb2]

/-- The pump whose first read would block: one read, nothing queued, the seek
target as landed timestamp. -/
theorem readBuffer_wouldBlock (fuel : Nat) {s : GenericSource} {trackType : media_track_type}
    {track : Track} {src : MediaSource} {mb : Option MediaBuffer}
    (seekTimeUs : Int) (formatChange : Bool)
    (htr : s.trackOf trackType = some track) (hsrc : track.mSource = some src)
    (hread : src.read s.reads (s.pumpOptions trackType seekTimeUs) = (WOULD_BLOCK, mb)) :
    s.readBuffer (fuel + 1) trackType seekTimeUs formatChange =
      .ok ({ s with reads := s.reads ++ [(src.id, s.pumpOptions trackType seekTimeUs)] },
        some seekTimeUs) := by
  unfold readBuffer
  simp only [htr, hsrc]
  rw [readLoop]
  simp [hread]

/-- The pump whose first read ends the stream with a status `err`: one read,
end-of-stream signalled with `err`, the seek target as landed timestamp. -/
theorem readBuffer_ended (fuel : Nat) {s : GenericSource} {trackType : media_track_type}
    {track : Track} {src : MediaSource} {q : AnotherPacketSource} {mb : Option MediaBuffer}
    {err : status_t} (seekTimeUs : Int) (formatChange : Bool)
    (htr : s.trackOf trackType = some track) (hsrc : track.mSource = some src)
    (hq : track.mPackets = some q)
    (hread : src.read s.reads (s.pumpOptions trackType seekTimeUs) = (err, mb))
    (h1 : err ≠ OK) (h2 : err ≠ WOULD_BLOCK) (h3 : err ≠ INFO_FORMAT_CHANGED) :
    s.readBuffer (fuel + 1) trackType seekTimeUs formatChange =
      .ok (({ s with reads := s.reads ++ [(src.id, s.pumpOptions trackType seekTimeUs)] }
              : GenericSource).setPackets trackType (q.signalEOS err), some seekTimeUs) := by
  unfold readBuffer
  simp only [htr, hsrc]
  rw [readLoop]
  have htr2 := (trackOf_reads s (s.reads ++ [(src.id, s.pumpOptions trackType seekTimeUs)])
    trackType).trans htr
  simp only [hread, h1, h2, h3, if_false, endStream, (packetsOf_eq htr2).trans hq]

/-- A pump on a slot without a reader does nothing and writes no timestamp. -/
theorem readBuffer_no_reader (fuel : Nat) {s : GenericSource} {trackType : media_track_type}
    {track : Track} (seekTimeUs : Int) (formatChange : Bool)
    (htr : s.trackOf trackType = some track) (hsrc : track.mSource = none) :
    s.readBuffer fuel trackType seekTimeUs formatChange = .ok (s, none) := by
  unfold readBuffer
  simp only [htr, hsrc]

/-! ## What the pump queues -/

theorem mediaBufferToABuffer_unstamped (s : GenericSource) (trackType : media_track_type)
    {mb : MediaBuffer} (h : mb.kKeyTime = none) :
    s.mediaBufferToABuffer mb trackType = .error Fault.abort := by
  unfold mediaBufferToABuffer
  simp only [h]

theorem queueDiscontinuity_markers (q : AnotherPacketSource) (trackType : media_track_type)
    (seeking formatChange : Bool) :
    (if (seeking || formatChange) && trackType ≠ MEDIA_TRACK_TYPE_SUBTITLE then
        q.queueDiscontinuity (discontinuityFor seeking formatChange) true
      else q).mBuffers = q.mBuffers ++ markersAhead trackType seeking formatChange := by
  unfold markersAhead
  by_cases ht : trackType = MEDIA_TRACK_TYPE_SUBTITLE
  · simp [ht]
  · cases seeking <;> cases formatChange <;>
      simp [ht, specMarkers, discontinuityFor, AnotherPacketSource.queueDiscontinuity]

/-- Whatever a returning loop of the pump did to the queue of its slot, it
either queued nothing or queued the markers of the table and then one access
unit. -/
theorem readLoop_queue (fuel : Nat) (src : MediaSource) (trackType : media_track_type)
    (seeking formatChange : Bool) {track : Track} {q : AnotherPacketSource} :
    ∀ (options : ReadOptions) (a : Int) (s s' : GenericSource) (a' : Int),
      s.trackOf trackType = some track → track.mPackets = some q →
      readLoop fuel src trackType seeking formatChange options a s = .ok (s', a') →
      ∃ q', s'.packetsOf trackType = some q' ∧
        (q'.mBuffers = q.mBuffers ∨
          ∃ buffer, buffer.meta.discontinuity = none ∧ buffer.meta.timeUs = some a' ∧
            q'.mBuffers = q.mBuffers ++ markersAhead trackType seeking formatChange ++ [buffer]) := by
  induction fuel with
  | zero => intro options a s s' a' _ _ h; simp [readLoop] at h
  | succ n ih =>
    intro options a s s' a' htr hq h
    have htr2 := (trackOf_reads s (s.reads ++ [(src.id, options)]) trackType).trans htr
    rw [readLoop] at h
    split_ifs at h with h1 h2 h3
    · split at h
      · simp at h
      · rename_i mb _
        cases ht : mb.kKeyTime with
        | none =>
          unfold queueSample at h
          cases hm : ({ s with reads := s.reads ++ [(src.id, options)] } : GenericSource).queueMarker
              trackType seeking formatChange with
          | error f => simp [hm] at h
          | ok s1 => simp [hm, mediaBufferToABuffer_unstamped s1 trackType ht] at h
        | some t =>
          obtain ⟨buffer, hb, hbt, hbd⟩ := mediaBufferToABuffer_stamped
            ({ s with reads := s.reads ++ [(src.id, options)] } : GenericSource) trackType ht
          rw [queueSample_eq seeking formatChange htr2 hq hb] at h
          simp only [Except.ok.injEq, Prod.mk.injEq] at h
          obtain ⟨h, ha⟩ := h
          subst h ha
          refine ⟨_, packetsOf_setPackets htr2 _, Or.inr ⟨buffer, hbd, hbt, ?_⟩⟩
          simp only [AnotherPacketSource.queueAccessUnit, queueDiscontinuity_markers]
    · simp only [Except.ok.injEq, Prod.mk.injEq] at h
      obtain ⟨h, -⟩ := h
      subst h
      exact ⟨q, (packetsOf_eq htr2).trans hq, Or.inl rfl⟩
    · exact ih _ _ _ _ _ htr2 hq h
    · unfold endStream at h
      simp only [(packetsOf_eq htr2).trans hq, Except.ok.injEq, Prod.mk.injEq] at h
      obtain ⟨h, -⟩ := h
      subst h
      exact ⟨_, packetsOf_setPackets htr2 _, Or.inl rfl⟩

/-- Whatever a returning pump did to the queue of its slot, it either queued
nothing or queued the markers of the table and then one access unit. -/
theorem readBuffer_queue {fuel : Nat} {s s' : GenericSource} {trackType : media_track_type}
    {track : Track} {src : MediaSource} {q : AnotherPacketSource} {seekTimeUs : Int}
    {formatChange : Bool} {landed : Option Int}
    (htr : s.trackOf trackType = some track) (hsrc : track.mSource = some src)
    (hq : track.mPackets = some q)
    (h : s.readBuffer fuel trackType seekTimeUs formatChange = .ok (s', landed)) :
    ∃ q', s'.packetsOf trackType = some q' ∧
      (q'.mBuffers = q.mBuffers ∨
        ∃ buffer, buffer.meta.discontinuity = none ∧
          q'.mBuffers = q.mBuffers ++
            markersAhead trackType (decide (seekTimeUs ≥ 0)) formatChange ++ [buffer]) := by
  unfold readBuffer at h
  simp only [htr, hsrc] at h
  cases hl : readLoop fuel src trackType (decide (seekTimeUs ≥ 0)) formatChange
      (s.pumpOptions trackType seekTimeUs) seekTimeUs s with
  | error f => simp [hl] at h
  | ok p =>
    obtain ⟨s2, a'⟩ := p
    simp only [hl, Except.ok.injEq, Prod.mk.injEq] at h
    obtain ⟨h, -⟩ := h
    subst h
    obtain ⟨q', h1, h2⟩ := readLoop_queue fuel src trackType _ formatChange _ _ _ _ _ htr hq hl
    refine ⟨q', h1, ?_⟩
    rcases h2 with h2 | ⟨buffer, hbd, -, h2⟩
    · exact Or.inl h2
    · exact Or.inr ⟨buffer, hbd, h2⟩

/-! ## The Dequeue API without an active reader -/

/-- C1: when the requested slot has no active reader, `dequeueAccessUnit` returns
would-block with no unit and the state it was given (so no read, queue, slot,
generation or posted message differs), for every fuel, in either mode; a run
of any number of such calls returns would-block each time and ends in the
same state. -/
theorem dequeueAccessUnit_no_reader (fuel n : Nat) ( audio : Bool) (s : GenericSource)
    (h : (s.avTrack audio).mSource = none) :
    dequeueAccessUnit fuel audio s = .ok (WOULD_BLOCK, none, s) ∧
    dequeueRepeat fuel audio n s = .ok (List.replicate n (WOULD_BLOCK, none), s) := by
  have h1 : dequeueAccessUnit fuel audio s = .ok (WOULD_BLOCK, none, s) := by
    unfold dequeueAccessUnit
    simp only [h]
  refine ⟨h1, ?_⟩
  induction n with
  | zero => rfl
  | succ k ih =>
    unfold dequeueRepeat
    simp only [h1, ih, List.replicate_succ]

/-- C1 at a Widevine source without a video reader: three video dequeues with
no fuel at all. -/
theorem dequeueAccessUnit_no_reader_witness :
    dequeueAccessUnit 0 false audioOnlySecure = .ok (WOULD_BLOCK, none, audioOnlySecure) ∧
    dequeueRepeat 0 false 3 audioOnlySecure
      = .ok (List.replicate 3 (WOULD_BLOCK, none), audioOnlySecure) :=
  dequeueAccessUnit_no_reader 0 3 false audioOnlySecure rfl

/-! ## The Dequeue API when nothing is available -/

theorem widevineAudioPump_frame {fuel : Nat} { audio : Bool} {s s1 : GenericSource}
    (h : widevineAudioPump fuel audio s = .ok s1) :
    PumpFrame MEDIA_TRACK_TYPE_AUDIO s s1 ∧
    ((s.mIsWidevine = false ∨ audio = true) → s1 = s) ∧
    ∃ ext, s1.reads = s.reads ++ ext ∧
      ∀ e ∈ ext, s.mIsWidevine = true ∧ audio = false ∧
        ∃ a, s.mAudioTrack.mSource = some a ∧ e.1 = a.id ∧ e.2.seekTo = none := by
  unfold widevineAudioPump at h
  by_cases hc : (s.mIsWidevine && !audio) = true
  · rw [if_pos hc] at h
    cases hr : s.readBuffer fuel MEDIA_TRACK_TYPE_AUDIO (-1) false with
    | error f => simp [hr] at h
    | ok r =>
      obtain ⟨s2, t⟩ := r
      simp only [hr, Except.ok.injEq] at h
      subst h
      simp only [Bool.and_eq_true, Bool.not_eq_true'] at hc
      refine ⟨readBuffer_frame hr, ?_, ?_⟩
      · rintro (h | h)
        · simp [h] at hc
        · simp [h] at hc
      · rcases readBuffer_reads hr with ⟨-, h2⟩ | ⟨src, k, h1, h2⟩
        · exact ⟨[], by simp [h2], by simp⟩
        · refine ⟨_, h2, ?_⟩
          intro e he
          refine ⟨hc.1, hc.2, src, by simpa [trackOf] using h1, ?_⟩
          have hopt : (s.pumpOptions MEDIA_TRACK_TYPE_AUDIO (-1)).seekTo = none := by
            simp [pumpOptions]
          simp only [List.mem_cons, List.mem_replicate] at he
          rcases he with he | ⟨-, he⟩
          · subst he; exact ⟨rfl, hopt⟩
          · subst he; exact ⟨rfl, rfl⟩
  · rw [if_neg hc] at h
    simp only [Except.ok.injEq] at h
    subst h
    exact ⟨pumpFrame_refl _ _, fun _ => rfl, [], by simp, by simp⟩

/-- C2: a dequeue on a slot that has a reader and whose queue reports nothing
available returns would-block when the queue's final result is OK and the
queue's terminal status otherwise, with no unit.  `s1` is the state after the
Widevine audio pump of lines 338 to 341 (the state itself outside Widevine
mode or for an audio request): in it the requested queue is as it was (nothing
popped), the subtitle slot, the generation and the posted messages are as they
were, and every read issued is a read without seek request of the audio pump
during a video request, so none is a read for the requested slot. -/
theorem dequeueAccessUnit_nothing_available (fuel : Nat) ( audio : Bool)
    (s s1 : GenericSource) (src : MediaSource) (q : AnotherPacketSource)
    (hsrc : (s.avTrack audio).mSource = some src)
    (hq : (s.avTrack audio).mPackets = some q)
    (hnone : q.hasBufferAvailable.1 = false)
    (hpump : widevineAudioPump fuel audio s = .ok s1) :
    dequeueAccessUnit fuel audio s =
      .ok (if q.hasBufferAvailable.2 = OK then WOULD_BLOCK else q.hasBufferAvailable.2,
        none, s1) ∧
    (s1.avTrack audio).mPackets = some q ∧
    s1.mSubtitleTrack.mPackets = s.mSubtitleTrack.mPackets ∧
    s1.mSubtitleTrack.mSource = s.mSubtitleTrack.mSource ∧
    s1.mFetchSubtitleDataGeneration = s.mFetchSubtitleDataGeneration ∧
    s1.posted = s.posted ∧ s1.notified = s.notified ∧
    ((s.mIsWidevine = false ∨ audio = true) → s1 = s) ∧
    ∃ ext, s1.reads = s.reads ++ ext ∧
      ∀ e ∈ ext, s.mIsWidevine = true ∧ audio = false ∧
        ∃ a, s.mAudioTrack.mSource = some a ∧ e.1 = a.id ∧ e.2.seekTo = none := by
  obtain ⟨hf, hsame, hext⟩ := widevineAudioPump_frame hpump
  have hq1 : (s1.avTrack audio).mPackets = some q := by
    cases audio with
    | true =>
      have := hsame (Or.inr rfl)
      subst this
      exact hq
    | false =>
      simp only [avTrack, Bool.false_eq_true, if_false] at hq ⊢
      rw [hf.videoPackets (by decide), hq]
  refine ⟨?_, hq1, hf.subtitlePackets (by decide), hf.subtitleSource, hf.generation, hf.posted,
    hf.notified, hsame, hext⟩
  unfold dequeueAccessUnit
  simp only [hsrc, hpump]
  unfold popAndReadAhead
  simp only [hq1, hnone, Bool.not_false, if_true]

/-- C2 at a Widevine source whose video queue is empty and ended: the video
dequeue pumps one audio unit and returns the terminal status of the video
queue. -/
theorem dequeueAccessUnit_nothing_available_witness :
    dequeueAccessUnit 1 false secureVideoEnded =
      .ok (ERROR_END_OF_STREAM, none,
        { secureVideoEnded with
          reads := [(0, {})]
          mAudioTrack := { secureVideoEnded.mAudioTrack with
            mPackets := some { mBuffers := [unitAt 40],
                               mLatestEnqueuedMeta := some { timeUs := some 40 } } } }) :=
  (dequeueAccessUnit_nothing_available 1 false secureVideoEnded _
    (endedReader 1 "video/avc") { mEOSResult := ERROR_END_OF_STREAM } rfl rfl rfl rfl).1

/-! ## The read-ahead of the Dequeue API -/

theorem trackOf_typeOf (s : GenericSource) ( audio : Bool) :
    s.trackOf (typeOf audio) = some (s.avTrack audio) := by
  cases audio <;> rfl

theorem avTrack_setPackets (s : GenericSource) ( audio : Bool) (q : AnotherPacketSource) :
    ((s.setPackets (typeOf audio) q).avTrack audio).mPackets = some q ∧
    ((s.setPackets (typeOf audio) q).avTrack audio).mSource = (s.avTrack audio).mSource := by
  cases audio <;> exact ⟨rfl, rfl⟩

theorem subtitleSideEffect_frame {r r' : status_t} {a a' : Option ABuffer}
    {s s' : GenericSource} (h : subtitleSideEffect r a s = .ok (r', a', s')) :
    r' = r ∧ a' = a ∧ s'.reads = s.reads ∧ s'.mAudioTrack = s.mAudioTrack ∧
    s'.mVideoTrack = s.mVideoTrack ∧ s'.mSources = s.mSources ∧ s'.notified = s.notified ∧
    s'.mSubtitleTrack.mSource = s.mSubtitleTrack.mSource ∧
    s'.mSubtitleTrack.mIndex = s.mSubtitleTrack.mIndex := by
  unfold subtitleSideEffect at h
  repeat' split at h
  all_goals first
    | (simp at h; done)
    | (simp only [Except.ok.injEq, Prod.mk.injEq] at h
       obtain ⟨h1, h2, h3⟩ := h
       subst h1 h2 h3
       simp [*])

theorem subtitleSideEffect_returns {r : status_t} {a : Option ABuffer} {s : GenericSource}
    (h : subtitleReady s r a) : ∃ s', subtitleSideEffect r a s = .ok (r, a, s') := by
  unfold subtitleSideEffect
  rcases h with h | ⟨hq, ht⟩
  · exact ⟨s, by simp [h]⟩
  · cases hs : s.mSubtitleTrack.mSource with
    | none => exact ⟨s, by simp⟩
    | some src =>
      cases hq2 : s.mSubtitleTrack.mPackets with
      | none => exact absurd hq2 hq
      | some sq =>
        simp only []
        by_cases hr : r = OK
        · obtain ⟨au, t, ha, hau⟩ := ht hr
          subst ha
          simp only [hr, ne_eq, not_true_eq_false, if_false, hau]
          split_ifs
          · exact ⟨_, rfl⟩
          · exact ⟨_, rfl⟩
        · simp only [ne_eq, hr, not_false_eq_true, if_true]
          exact ⟨_, rfl⟩

theorem subtitleReady_congr {s s' : GenericSource} {r : status_t} {a : Option ABuffer}
    (h1 : s'.mSubtitleTrack.mSource = s.mSubtitleTrack.mSource)
    (h2 : s'.mSubtitleTrack.mPackets = s.mSubtitleTrack.mPackets)
    (h : subtitleReady s r a) : subtitleReady s' r a := by
  unfold subtitleReady at *
  rw [h1, h2]
  exact h

open AnotherPacketSource in
theorem popAndReadAhead_pop {fuel : Nat} { audio : Bool} {s : GenericSource}
    {q : AnotherPacketSource} {e : ABuffer} {rest : List ABuffer}
    (hq : (s.avTrack audio).mPackets = some q) (hpop : q.mBuffers = e :: rest) :
    popAndReadAhead fuel audio s =
      if rest = [] then
        match (s.setPackets (typeOf audio) { q with mBuffers := rest }).readBuffer fuel
            (typeOf audio) (-1) false with
        | .error f => .error f
        | .ok p => subtitleSideEffect (popStatus e) (some e) p.1
      else
        subtitleSideEffect (popStatus e) (some e)
          (s.setPackets (typeOf audio) { q with mBuffers := rest }) := by
  unfold popAndReadAhead
  have h1 : q.hasBufferAvailable.1 = true := by simp [hasBufferAvailable, hpop]
  have h2 : q.dequeueAccessUnit = (popStatus e, some e, { q with mBuffers := rest }) := by
    simp [AnotherPacketSource.dequeueAccessUnit, hpop]
  simp only [hq, h1, Bool.not_true, Bool.false_eq_true, if_false, h2]
  cases rest with
  | nil => simp [hasBufferAvailable]
  | cons x xs => simp [hasBufferAvailable]

theorem pumpOptions_congr {s s' : GenericSource} (h : s'.mIsWidevine = s.mIsWidevine)
    (trackType : media_track_type) (seekTimeUs : Int) :
    s'.pumpOptions trackType seekTimeUs = s.pumpOptions trackType seekTimeUs := by
  unfold pumpOptions
  rw [h]

theorem pumpOptions_noSeek (s : GenericSource) (trackType : media_track_type) :
    (s.pumpOptions trackType (-1)).seekTo = none := by
  unfold pumpOptions
  split_ifs <;> simp_all [ReadOptions.setNonBlocking]

/-- C3 as stated fails: with an audio reader at its end and one buffered unit,
the dequeue pops the unit, finds the queue empty and issues its one read, which
ends the stream; afterwards the queue holds no unit, not one. -/
theorem dequeueAccessUnit_read_ahead_counterexample :
    ∃ s', dequeueAccessUnit 1 true audioAtEnd = .ok (OK, some (unitAt 0), s') ∧
      s' = { audioAtEnd with
             reads := [(0, {})]
             mAudioTrack := { audioAtEnd.mAudioTrack with
               mPackets := some { mBuffers := [], mEOSResult := ERROR_END_OF_STREAM,
                                  mLatestEnqueuedMeta := some { timeUs := some 0 } } } } ∧
      (s'.avTrack true).mPackets.map (fun q => q.mBuffers.length) = some 0 :=
  ⟨_, rfl, rfl, rfl⟩

/-- C3, amended: a dequeue that pops an entry `e` (`s1` is the state after the
Widevine audio pump of lines 338 to 341).  If the queue still has an entry
after the pop, the call issues no further read and the queue is the rest.  If
the pop emptied the queue, the call runs exactly one `readBuffer` on the same
track with no seek target and `formatChange = false`, and nothing else touches
the slot or the trace of reads, so that the queue holds at most one entry, an
access unit, afterwards; when the read of that pump returns a stamped sample,
the queue holds exactly that one converted unit afterwards; when it would
block or ends the stream, the queue holds no unit afterwards. -/
theorem dequeueAccessUnit_read_ahead (fuel : Nat) ( audio : Bool) (s s1 : GenericSource)
    (src : MediaSource) (q : AnotherPacketSource) (e : ABuffer) (rest : List ABuffer)
    (hsrc : (s.avTrack audio).mSource = some src)
    (hpump : widevineAudioPump fuel audio s = .ok s1)
    (hq : (s.avTrack audio).mPackets = some q)
    (hpop : q.mBuffers = e :: rest)
    (hsub : subtitleReady s (AnotherPacketSource.popStatus e) (some e)) :
    (rest ≠ [] → ∃ s', dequeueAccessUnit fuel audio s =
          .ok (AnotherPacketSource.popStatus e, some e, s') ∧
        s'.reads = s1.reads ∧ (s'.avTrack audio).mPackets = some { q with mBuffers := rest }) ∧
    (rest = [] → ∀ s2 t,
        (s1.setPackets (typeOf audio) { q with mBuffers := [] }).readBuffer fuel
          (typeOf audio) (-1) false = .ok (s2, t) →
        ∃ s' q', dequeueAccessUnit fuel audio s =
            .ok (AnotherPacketSource.popStatus e, some e, s') ∧
          s'.reads = s2.reads ∧ (s'.avTrack audio).mPackets = (s2.avTrack audio).mPackets ∧
          (s'.avTrack audio).mPackets = some q' ∧
          (q'.mBuffers = [] ∨ ∃ buffer, buffer.meta.discontinuity = none ∧
            q'.mBuffers = [buffer])) ∧
    (rest = [] → 0 < fuel → ∀ mb t,
        src.read s1.reads (s1.pumpOptions (typeOf audio) (-1)) = (OK, some mb) →
        mb.kKeyTime = some t →
        ∃ buffer s', s.mediaBufferToABuffer mb (typeOf audio) = .ok (buffer, t) ∧
          dequeueAccessUnit fuel audio s = .ok (AnotherPacketSource.popStatus e, some e, s') ∧
          s'.reads = s1.reads ++ [(src.id, s1.pumpOptions (typeOf audio) (-1))] ∧
          (s1.pumpOptions (typeOf audio) (-1)).seekTo = none ∧
          (s'.avTrack audio).mPackets =
            some { q with mBuffers := [buffer], mLatestEnqueuedMeta := some buffer.meta }) ∧
    (rest = [] → 0 < fuel → ∀ err mb,
        src.read s1.reads (s1.pumpOptions (typeOf audio) (-1)) = (err, mb) →
        err ≠ OK → err ≠ INFO_FORMAT_CHANGED →
        ∃ s' q', dequeueAccessUnit fuel audio s =
            .ok (AnotherPacketSource.popStatus e, some e, s') ∧
          s'.reads = s1.reads ++ [(src.id, s1.pumpOptions (typeOf audio) (-1))] ∧
          (s'.avTrack audio).mPackets = some q' ∧ q'.mBuffers = []) := by
  obtain ⟨hf, hsame, -⟩ := widevineAudioPump_frame hpump
  -- the requested slot after the audio pump is the requested slot before it
  have hslot : (s1.avTrack audio).mPackets = some q ∧ (s1.avTrack audio).mSource = some src := by
    cases audio with
    | true =>
      have := hsame (Or.inr rfl)
      subst this
      exact ⟨hq, hsrc⟩
    | false =>
      simp only [avTrack, Bool.false_eq_true, if_false] at hq hsrc ⊢
      exact ⟨(hf.videoPackets (by decide)).trans hq, hf.videoSource.trans hsrc⟩
  have hdeq : dequeueAccessUnit fuel audio s = popAndReadAhead fuel audio s1 := by
    unfold dequeueAccessUnit
    simp only [hsrc, hpump]
  rw [hdeq, popAndReadAhead_pop hslot.1 hpop]
  -- the state after the pop
  have hfp : PumpFrame (typeOf audio) s1 (s1.setPackets (typeOf audio) { q with mBuffers := rest }) :=
    pumpFrame_setPackets _ _ _
  have htype : typeOf audio ≠ MEDIA_TRACK_TYPE_SUBTITLE := by cases audio <;> decide
  have hsub1 : subtitleReady (s1.setPackets (typeOf audio) { q with mBuffers := rest })
      (AnotherPacketSource.popStatus e) (some e) :=
    subtitleReady_congr (hfp.subtitleSource.trans hf.subtitleSource)
      ((hfp.subtitlePackets htype).trans (hf.subtitlePackets (by decide))) hsub
  -- the general statement for an emptied queue
  have hgen : rest = [] → ∀ s2 t,
      (s1.setPackets (typeOf audio) { q with mBuffers := [] }).readBuffer fuel
        (typeOf audio) (-1) false = .ok (s2, t) →
      ∃ s', (if rest = [] then
          match (s1.setPackets (typeOf audio) { q with mBuffers := rest }).readBuffer fuel
              (typeOf audio) (-1) false with
          | .error f => .error f
          | .ok p => subtitleSideEffect (AnotherPacketSource.popStatus e) (some e) p.1
        else
          subtitleSideEffect (AnotherPacketSource.popStatus e) (some e)
            (s1.setPackets (typeOf audio) { q with mBuffers := rest }))
          = .ok (AnotherPacketSource.popStatus e, some e, s') ∧
        s'.reads = s2.reads ∧ (s'.avTrack audio).mPackets = (s2.avTrack audio).mPackets ∧
        ∃ q', (s'.avTrack audio).mPackets = some q' ∧
          (q'.mBuffers = [] ∨ ∃ buffer, buffer.meta.discontinuity = none ∧
            q'.mBuffers = [buffer]) := by
    intro hrest s2 t hrb
    subst hrest
    simp only [if_true, hrb]
    have hf2 := readBuffer_frame hrb
    have hsub2 : subtitleReady s2 (AnotherPacketSource.popStatus e) (some e) :=
      subtitleReady_congr hf2.subtitleSource (hf2.subtitlePackets htype) hsub1
    obtain ⟨s', hs'⟩ := subtitleSideEffect_returns hsub2
    obtain ⟨-, -, hr, ha, hv, -⟩ := subtitleSideEffect_frame hs'
    have hpk : (s'.avTrack audio).mPackets = (s2.avTrack audio).mPackets := by
      cases audio with
      | true => simp only [avTrack, if_true, ha]
      | false => simp only [avTrack, Bool.false_eq_true, if_false, hv]
    refine ⟨s', hs', hr, hpk, ?_⟩
    obtain ⟨q', hq', hcase⟩ := readBuffer_queue
      (trackOf_typeOf (s1.setPackets (typeOf audio) { q with mBuffers := [] }) audio)
      ((avTrack_setPackets s1 audio _).2.trans hslot.2) (avTrack_setPackets s1 audio _).1 hrb
    rw [packetsOf_eq (trackOf_typeOf s2 audio)] at hq'
    refine ⟨q', hpk.trans hq', ?_⟩
    have hm : markersAhead (typeOf audio) (decide ((-1 : Int) ≥ 0)) false = [] := by
      simp [markersAhead, specMarkers]
    rw [hm] at hcase
    simpa using hcase
  refine ⟨?_, ?_, ?_, ?_⟩
  · intro hrest
    rw [if_neg hrest]
    obtain ⟨s', hs'⟩ := subtitleSideEffect_returns hsub1
    obtain ⟨-, -, hr, ha, hv, -⟩ := subtitleSideEffect_frame hs'
    refine ⟨s', hs', by simpa using hr, ?_⟩
    have := (avTrack_setPackets s1 audio { q with mBuffers := rest }).1
    cases audio with
    | true => simpa only [avTrack, if_true, ha] using this
    | false => simpa only [avTrack, Bool.false_eq_true, if_false, hv] using this
  · intro hrest s2 t hrb
    obtain ⟨s', h1, h2, h3, q', h4, h5⟩ := hgen hrest s2 t hrb
    exact ⟨s', q', h1, h2, h3, h4, h5⟩
  · intro hrest hfuel mb t hread htime
    obtain ⟨n, rfl⟩ := Nat.exists_eq_succ_of_ne_zero (Nat.pos_iff_ne_zero.mp hfuel)
    obtain ⟨buffer, hb, -, -⟩ := mediaBufferToABuffer_stamped s (typeOf audio) htime
    have hb1 : (s1.setPackets (typeOf audio) { q with mBuffers := [] }).mediaBufferToABuffer mb
        (typeOf audio) = .ok (buffer, t) := by
      rw [mediaBufferToABuffer_setPackets,
        mediaBufferToABuffer_congr mb (typeOf audio) hf.vorbis hf.widevine hf.subtitleIndex, hb]
    have hrb := readBuffer_sample n (-1) false
      (trackOf_typeOf (s1.setPackets (typeOf audio) { q with mBuffers := [] }) audio)
      ((avTrack_setPackets s1 audio _).2.trans hslot.2) (avTrack_setPackets s1 audio _).1
      (by rw [setPackets_reads, pumpOptions_congr (pumpFrame_setPackets _ _ _).widevine]
          exact hread) hb1
    obtain ⟨s', h1, h2, h3, -⟩ := hgen hrest _ _ hrb
    refine ⟨buffer, s', hb, h1, ?_, pumpOptions_noSeek _ _, ?_⟩
    · rw [h2]
      simp [pumpOptions_congr (pumpFrame_setPackets _ _ _).widevine]
    · rw [h3, (avTrack_setPackets _ audio _).1]
      simp [htype, AnotherPacketSource.queueAccessUnit]
  · intro hrest hfuel err mb hread h1 h3
    obtain ⟨n, rfl⟩ := Nat.exists_eq_succ_of_ne_zero (Nat.pos_iff_ne_zero.mp hfuel)
    have hread1 : src.read (s1.setPackets (typeOf audio) { q with mBuffers := [] }).reads
        ((s1.setPackets (typeOf audio) { q with mBuffers := [] }).pumpOptions (typeOf audio) (-1))
        = (err, mb) := by
      rw [setPackets_reads, pumpOptions_congr (pumpFrame_setPackets _ _ _).widevine]
      exact hread
    by_cases h2 : err = WOULD_BLOCK
    · subst h2
      have hrb := readBuffer_wouldBlock n (-1) false
        (trackOf_typeOf (s1.setPackets (typeOf audio) { q with mBuffers := [] }) audio)
        ((avTrack_setPackets s1 audio _).2.trans hslot.2) hread1
      obtain ⟨s', h4, h5, h6, -⟩ := hgen hrest _ _ hrb
      refine ⟨s', { q with mBuffers := [] }, h4, ?_, ?_, rfl⟩
      · rw [h5]
        simp [pumpOptions_congr (pumpFrame_setPackets _ _ _).widevine]
      · rw [h6]
        exact (avTrack_setPackets s1 audio _).1
    · have hrb := readBuffer_ended n (-1) false
        (trackOf_typeOf (s1.setPackets (typeOf audio) { q with mBuffers := [] }) audio)
        ((avTrack_setPackets s1 audio _).2.trans hslot.2) (avTrack_setPackets s1 audio _).1
        hread1 h1 h2 h3
      obtain ⟨s', h4, h5, h6, -⟩ := hgen hrest _ _ hrb
      refine ⟨s', ({ q with mBuffers := [] } : AnotherPacketSource).signalEOS err, h4, ?_, ?_, rfl⟩
      · rw [h5]
        simp [pumpOptions_congr (pumpFrame_setPackets _ _ _).widevine]
      · rw [h6]
        exact (avTrack_setPackets _ audio _).1

/-- C3, amended, at a playing audio reader with one buffered unit: the dequeue
pops it, issues one read without seek request and leaves exactly the new unit
in the queue. -/
theorem dequeueAccessUnit_read_ahead_witness :
    ∃ buffer s', audioPlaying.mediaBufferToABuffer (sampleAt 20) (typeOf true)
        = .ok (buffer, 20) ∧
      dequeueAccessUnit 1 true audioPlaying
        = .ok (AnotherPacketSource.popStatus (unitAt 0),
            some (unitAt 0), s') ∧
      s'.reads = audioPlaying.reads ++
        [((steadyReader 0 "audio/mp4a-latm" 20).id, audioPlaying.pumpOptions (typeOf true) (-1))] ∧
      (audioPlaying.pumpOptions (typeOf true) (-1)).seekTo = none ∧
      (s'.avTrack true).mPackets =
        some { mBuffers := [buffer], mEOSResult := OK,
               mLatestEnqueuedMeta := some buffer.meta } :=
  (dequeueAccessUnit_read_ahead 1 true audioPlaying audioPlaying
    (steadyReader 0 "audio/mp4a-latm" 20)
    { mBuffers := [unitAt 0],
      mLatestEnqueuedMeta := some { timeUs := some 0 } }
    (unitAt 0) [] rfl rfl rfl rfl (Or.inl rfl)).2.2.1
    rfl (by decide) (sampleAt 20) 20 rfl rfl

/-! ## The discontinuity policy of the pump -/

/-- C4 as stated fails: on the subtitle track a pump with a seek target and
`formatChange = false` queues the cue alone, where the table asks for a SEEK
marker ahead of it. -/
theorem readBuffer_marker_counterexample :
    ∃ s', subtitleSelected.readBuffer 1 MEDIA_TRACK_TYPE_SUBTITLE 1000 false
        = .ok (s', some 4000000) ∧
      s' = { subtitleSelected with
             reads := [(2, { seekTo := some (1000, SEEK_PREVIOUS_SYNC) })]
             mSubtitleTrack := { subtitleSelected.mSubtitleTrack with
               mPackets := some
                 { mBuffers := [{ (ABuffer.alloc 4 [1, 2, 3, 4]) with
                                  «meta» := { timeUs := some 4000000, trackIndex := some 2 } }],
                   mLatestEnqueuedMeta :=
                     some { timeUs := some 4000000, trackIndex := some 2 } } } } ∧
      specMarkers (decide ((1000 : Int) ≥ 0)) false = [DISCONTINUITY_SEEK] ∧
      (s'.packetsOf MEDIA_TRACK_TYPE_SUBTITLE).map
          (fun q => q.mBuffers.map (fun b => b.meta.discontinuity)) = some [none] :=
  ⟨_, rfl, rfl, rfl, rfl⟩

/-- C4, amended: when the first read of a pump returns a stamped sample, the
pump appends to the queue of its slot the markers of the table for
`(seeking, formatChange)`, with `seeking = (seekTimeUs >= 0)`, when the track
is audio or video, no marker at all when the track is the subtitle track, and
then the converted sample; this holds for every state, reader, mode and sample.
In every returning call of the pump, retried reads included, the queue either
is as it was or has grown by exactly these markers and one access unit. -/
theorem readBuffer_marker (fuel : Nat) (s : GenericSource) (trackType : media_track_type)
    (track : Track) (src : MediaSource) (q : AnotherPacketSource)
    (seekTimeUs : Int) (formatChange : Bool)
    (htr : s.trackOf trackType = some track) (hsrc : track.mSource = some src)
    (hq : track.mPackets = some q) :
    (∀ mb t, src.read s.reads (s.pumpOptions trackType seekTimeUs) = (OK, some mb) →
      mb.kKeyTime = some t →
      ∃ buffer s' q', s.mediaBufferToABuffer mb trackType = .ok (buffer, t) ∧
        buffer.meta.discontinuity = none ∧
        s.readBuffer (fuel + 1) trackType seekTimeUs formatChange = .ok (s', some t) ∧
        s'.packetsOf trackType = some q' ∧
        q'.mBuffers = q.mBuffers ++
          markersAhead trackType (decide (seekTimeUs ≥ 0)) formatChange ++ [buffer]) ∧
    (∀ s' landed, s.readBuffer fuel trackType seekTimeUs formatChange = .ok (s', landed) →
      ∃ q', s'.packetsOf trackType = some q' ∧
        (q'.mBuffers = q.mBuffers ∨
          ∃ buffer, buffer.meta.discontinuity = none ∧
            q'.mBuffers = q.mBuffers ++
              markersAhead trackType (decide (seekTimeUs ≥ 0)) formatChange ++ [buffer])) := by
  constructor
  · intro mb t hread htime
    obtain ⟨buffer, hb, -, hbd⟩ := mediaBufferToABuffer_stamped s trackType htime
    refine ⟨buffer, _, _, hb, hbd, readBuffer_sample fuel seekTimeUs formatChange htr hsrc hq hread hb,
      packetsOf_setPackets ((trackOf_reads s _ trackType).trans htr) _, ?_⟩
    simp only [AnotherPacketSource.queueAccessUnit, queueDiscontinuity_markers]
  · intro s' landed h
    exact readBuffer_queue htr hsrc hq h

/-- C4, amended, at a video pump with a seek target: the SEEK marker and then
the unit are appended. -/
theorem readBuffer_marker_witness :
    ∃ buffer s' q', subtitleSelected.mediaBufferToABuffer (sampleAt 30) MEDIA_TRACK_TYPE_VIDEO
        = .ok (buffer, 30) ∧
      buffer.meta.discontinuity = none ∧
      subtitleSelected.readBuffer (0 + 1) MEDIA_TRACK_TYPE_VIDEO 1000 false = .ok (s', some 30) ∧
      s'.packetsOf MEDIA_TRACK_TYPE_VIDEO = some q' ∧
      q'.mBuffers = [unitAt 0] ++
        markersAhead MEDIA_TRACK_TYPE_VIDEO (decide ((1000 : Int) ≥ 0)) false ++ [buffer] :=
  (readBuffer_marker 0 subtitleSelected MEDIA_TRACK_TYPE_VIDEO subtitleSelected.mVideoTrack
    (steadyReader 1 "video/avc" 30)
    { mBuffers := [unitAt 0],
      mLatestEnqueuedMeta := some { timeUs := some 0 } } 1000 false rfl rfl rfl).1
    (sampleAt 30) 30 rfl rfl

/-! ## The track switch -/

/-- C5 as stated fails for a negative timestamp: with the latest stamped
timestamp of the audio queue at -1, the switch to catalog reader 2 reads the
new reader without a seek request and queues a NONE marker, not a
FORMAT_CHANGE marker, ahead of its unit. -/
theorem onChangeAVSource_target_counterexample :
    onChangeAVSource 1 2 (twoAudio (-1)) =
      .ok { twoAudio (-1) with
            reads := [(2, { seekTo := none }), (1, { seekTo := none })]
            mAudioTrack :=
              { mIndex := 2, mSource := some (steadyReader 2 "AUDIO/vorbis" 5000),
                mPackets := some
                  { mBuffers := [unitAt (-1), AnotherPacketSource.marker DISCONTINUITY_NONE,
                                 unitAt 5000],
                    mLatestEnqueuedMeta := some { timeUs := some 5000 } } }
            mVideoTrack :=
              { (twoAudio (-1)).mVideoTrack with
                mPackets := some
                  { mBuffers := [unitAt (-1), AnotherPacketSource.marker DISCONTINUITY_NONE,
                                 unitAt 30],
                    mLatestEnqueuedMeta := some { timeUs := some 30 } } } } ∧
    AnotherPacketSource.marker DISCONTINUITY_NONE
      ≠ AnotherPacketSource.marker DISCONTINUITY_FORMATCHANGE ∧
    ({ seekTo := none } : ReadOptions) ≠ { seekTo := some (-1, SEEK_PREVIOUS_SYNC) } :=
  ⟨rfl, by decide, by decide⟩

theorem installSource_target (s : GenericSource) (isAudio : Bool) (src : MediaSource)
    (i : Nat) :
    ((s.installSource isAudio src i).avTrack isAudio).mSource = some src ∧
    ((s.installSource isAudio src i).avTrack isAudio).mIndex = i ∧
    ((s.installSource isAudio src i).avTrack isAudio).mPackets = (s.avTrack isAudio).mPackets := by
  cases isAudio <;> exact ⟨rfl, rfl, rfl⟩

theorem installSource_counterpart (s : GenericSource) (isAudio : Bool) (src : MediaSource)
    (i : Nat) : (s.installSource isAudio src i).avTrack (!isAudio) = s.avTrack (!isAudio) := by
  cases isAudio <;> rfl

theorem installSource_rest (s : GenericSource) (isAudio : Bool) (src : MediaSource) (i : Nat) :
    (s.installSource isAudio src i).reads = s.reads ∧
    (s.installSource isAudio src i).mIsWidevine = s.mIsWidevine ∧
    (s.installSource isAudio src i).mAudioIsVorbis = s.mAudioIsVorbis ∧
    (s.installSource isAudio src i).mSubtitleTrack = s.mSubtitleTrack := by
  cases isAudio <;> exact ⟨rfl, rfl, rfl, rfl⟩

theorem avTrack_of_frame {trackType : media_track_type} {s s' : GenericSource}
    (h : PumpFrame trackType s s') ( audio : Bool) :
    (s'.avTrack audio).mSource = (s.avTrack audio).mSource ∧
    (s'.avTrack audio).mIndex = (s.avTrack audio).mIndex ∧
    (trackType ≠ typeOf audio → (s'.avTrack audio).mPackets = (s.avTrack audio).mPackets) := by
  cases audio
  · exact ⟨h.videoSource, h.videoIndex, h.videoPackets⟩
  · exact ⟨h.audioSource, h.audioIndex, h.audioPackets⟩

theorem typeOf_ne (isAudio : Bool) : typeOf (!isAudio) ≠ typeOf isAudio := by
  cases isAudio <;> decide

theorem typeOf_ne_subtitle ( audio : Bool) : typeOf audio ≠ MEDIA_TRACK_TYPE_SUBTITLE := by
  cases audio <;> decide

theorem readBuffer_no_fuel {s : GenericSource} {trackType : media_track_type} {track : Track}
    {src : MediaSource} (seekTimeUs : Int) (formatChange : Bool)
    (htr : s.trackOf trackType = some track) (hsrc : track.mSource = some src) :
    s.readBuffer 0 trackType seekTimeUs formatChange = .error Fault.outOfFuel := by
  unfold readBuffer
  simp only [htr, hsrc]
  rfl

theorem pumpOptions_seek (s : GenericSource) ( audio : Bool) {t : Int} (ht : 0 ≤ t) :
    s.pumpOptions (typeOf audio) t =
      { seekTo := some (t, SEEK_PREVIOUS_SYNC), nonBlocking := s.mIsWidevine && !audio } := by
  unfold pumpOptions
  cases audio <;> cases s.mIsWidevine <;>
    simp [ht, typeOf, ReadOptions.setSeekTo, ReadOptions.setNonBlocking]

theorem pumpOptions_plain (s : GenericSource) ( audio : Bool) :
    s.pumpOptions (typeOf audio) (-1) =
      { seekTo := none, nonBlocking := s.mIsWidevine && !audio } := by
  unfold pumpOptions
  cases audio <;> cases s.mIsWidevine <;> simp [typeOf, ReadOptions.setNonBlocking]

theorem pumpOptions_eq (s : GenericSource) (trackType : media_track_type) (x : Int) :
    s.pumpOptions trackType x =
      { seekTo := if 0 ≤ x then some (x, SEEK_PREVIOUS_SYNC) else none,
        nonBlocking := s.mIsWidevine && trackType ≠ MEDIA_TRACK_TYPE_AUDIO } := by
  unfold pumpOptions
  cases hw : s.mIsWidevine <;> by_cases ha : trackType = MEDIA_TRACK_TYPE_AUDIO <;>
    by_cases hx : 0 ≤ x <;>
    simp [ha, hx, ReadOptions.setSeekTo, ReadOptions.setNonBlocking]

/-- The handler of `kWhatChangeAVSource` once the message has passed the checks
of lines 273 to 306: the pump of the new reader and then the pump of the
counterpart. -/
theorem onChangeAVSource_eq (fuel : Nat) {i : Nat} {s : GenericSource} {src : MediaSource}
    {mime : String} {isAudio : Bool} {q : AnotherPacketSource} {t : Int}
    (hget : s.mSources[i]? = some src) (hmime : src.format.kKeyMIMEType = some mime)
    (hsel : switchTarget mime = .ok isAudio)
    (hq : (s.avTrack isAudio).mPackets = some q)
    (havail : q.hasBufferAvailable.1 = true)
    (hlatest : q.getLatestMeta.bind (fun m => m.timeUs) = some t) :
    onChangeAVSource fuel i s =
      match (s.installSource isAudio src i).readBuffer fuel (typeOf isAudio) t true with
      | .error f => .error f
      | .ok p =>
        match p.1.readBuffer fuel (typeOf (!isAudio)) (-1) true with
        | .error f => .error f
        | .ok p => .ok p.1 := by
  unfold onChangeAVSource
  simp only [hget, hmime, hsel, (installSource_target s isAudio src i).2.2, hq, havail,
    Bool.not_true, Bool.false_eq_true, if_false, hlatest]

/-- C5, amended: a `kWhatChangeAVSource` message for catalog index `i` of an
audio or video reader, delivered while the queue of the target slot has a
buffered unit and its latest stamped timestamp is `t` with `t >= 0`.  Whenever
the handler returns, the reader of the slot is `catalog[i]` with slot index
`i`, the first read issued is a read of the new reader with seek target `t` in
previous-sync mode, and the queue of the slot is the queue it was with either
nothing or a FORMAT_CHANGE marker and one unit appended.  When that first read
returns a stamped sample, the pump of the new reader returns after that one
read with the FORMAT_CHANGE marker and the converted unit appended, the
handler goes on with the pump of the counterpart, and on return the queue of
the slot is the old queue followed by the marker and the unit. -/
theorem onChangeAVSource_target (fuel i : Nat) (s : GenericSource) (src : MediaSource)
    (mime : String) (isAudio : Bool) (q : AnotherPacketSource) (t : Int)
    (hget : s.mSources[i]? = some src) (hmime : src.format.kKeyMIMEType = some mime)
    (hsel : switchTarget mime = .ok isAudio)
    (hq : (s.avTrack isAudio).mPackets = some q)
    (havail : q.hasBufferAvailable.1 = true)
    (hlatest : q.getLatestMeta.bind (fun m => m.timeUs) = some t)
    (ht : 0 ≤ t) :
    (∀ s', onChangeAVSource fuel i s = .ok s' →
      (s'.avTrack isAudio).mSource = some src ∧ (s'.avTrack isAudio).mIndex = i ∧
      (∃ rest, s'.reads = s.reads ++
        (src.id, { seekTo := some (t, SEEK_PREVIOUS_SYNC),
                   nonBlocking := s.mIsWidevine && !isAudio }) :: rest) ∧
      ∃ q', (s'.avTrack isAudio).mPackets = some q' ∧
        (q'.mBuffers = q.mBuffers ∨
          ∃ buffer, buffer.meta.discontinuity = none ∧
            q'.mBuffers = q.mBuffers ++ [AnotherPacketSource.marker DISCONTINUITY_FORMATCHANGE, buffer])) ∧
    (∀ mb t', 0 < fuel →
      src.read s.reads { seekTo := some (t, SEEK_PREVIOUS_SYNC),
                         nonBlocking := s.mIsWidevine && !isAudio } = (OK, some mb) →
      mb.kKeyTime = some t' →
      ∃ buffer sT, s.mediaBufferToABuffer mb (typeOf isAudio) = .ok (buffer, t') ∧
        (s.installSource isAudio src i).readBuffer fuel (typeOf isAudio) t true
          = .ok (sT, some t') ∧
        sT.reads = s.reads ++ [(src.id, { seekTo := some (t, SEEK_PREVIOUS_SYNC),
                                          nonBlocking := s.mIsWidevine && !isAudio })] ∧
        (sT.avTrack isAudio).mPackets =
          some { q with mBuffers := q.mBuffers ++ [AnotherPacketSource.marker DISCONTINUITY_FORMATCHANGE, buffer],
                        mLatestEnqueuedMeta := some buffer.meta } ∧
        onChangeAVSource fuel i s =
          (match sT.readBuffer fuel (typeOf (!isAudio)) (-1) true with
            | .error f => .error f
            | .ok p => .ok p.1) ∧
        ∀ s', onChangeAVSource fuel i s = .ok s' →
          (s'.avTrack isAudio).mPackets =
            some { q with mBuffers := q.mBuffers ++ [AnotherPacketSource.marker DISCONTINUITY_FORMATCHANGE, buffer],
                          mLatestEnqueuedMeta := some buffer.meta }) := by
  have heq := onChangeAVSource_eq fuel hget hmime hsel hq havail hlatest
  obtain ⟨hisrc, hiidx, hipk⟩ := installSource_target s isAudio src i
  obtain ⟨hird, hiwv, -, -⟩ := installSource_rest s isAudio src i
  have htr := trackOf_typeOf (s.installSource isAudio src i) isAudio
  have hopt : (s.installSource isAudio src i).pumpOptions (typeOf isAudio) t =
      { seekTo := some (t, SEEK_PREVIOUS_SYNC), nonBlocking := s.mIsWidevine && !isAudio } := by
    rw [pumpOptions_seek _ _ ht, hiwv]
  have hmark : markersAhead (typeOf isAudio) (decide (t ≥ 0)) true
      = [AnotherPacketSource.marker DISCONTINUITY_FORMATCHANGE] := by
    simp [markersAhead, typeOf_ne_subtitle, ht, specMarkers]
  constructor
  · intro s' h
    rw [heq] at h
    cases h1 : (s.installSource isAudio src i).readBuffer fuel (typeOf isAudio) t true with
    | error f => simp [h1] at h
    | ok p =>
      obtain ⟨sT, x⟩ := p
      simp only [h1] at h
      cases h2 : sT.readBuffer fuel (typeOf (!isAudio)) (-1) true with
      | error f => simp [h2] at h
      | ok p2 =>
        obtain ⟨s2, y⟩ := p2
        simp only [h2, Except.ok.injEq] at h
        subst h
        have f1 := readBuffer_frame h1
        have f2 := readBuffer_frame h2
        obtain ⟨a1, b1, -⟩ := avTrack_of_frame f1 isAudio
        obtain ⟨a2, b2, c2⟩ := avTrack_of_frame f2 isAudio
        refine ⟨a2.trans (a1.trans hisrc), b2.trans (b1.trans hiidx), ?_, ?_⟩
        · rcases readBuffer_reads h1 with ⟨hn, -⟩ | ⟨src1, k, hs1, hr1⟩
          · simp [htr, hisrc] at hn
          · simp only [htr, Option.some_bind, hisrc, Option.some.injEq] at hs1
            subst hs1
            rcases readBuffer_reads h2 with ⟨-, hr2⟩ | ⟨src2, k2, -, hr2⟩
            · exact ⟨_, by rw [hr2, hr1, hopt, hird]⟩
            · rw [hr2, hr1, hopt, hird]
              exact ⟨_, by rw [List.append_assoc, List.cons_append]⟩
        · rw [c2 (typeOf_ne isAudio)]
          obtain ⟨q', hq', hcase⟩ := readBuffer_queue htr hisrc (hipk.trans hq) h1
          rw [packetsOf_eq (trackOf_typeOf sT isAudio)] at hq'
          refine ⟨q', hq', ?_⟩
          rw [hmark] at hcase
          simpa using hcase
  · intro mb t' hfuel hread htime
    obtain ⟨n, rfl⟩ := Nat.exists_eq_succ_of_ne_zero (Nat.pos_iff_ne_zero.mp hfuel)
    obtain ⟨buffer, hb, -, -⟩ := mediaBufferToABuffer_stamped s (typeOf isAudio) htime
    have hb1 : (s.installSource isAudio src i).mediaBufferToABuffer mb (typeOf isAudio)
        = .ok (buffer, t') := by
      obtain ⟨-, h2, h3, h4⟩ := installSource_rest s isAudio src i
      rw [mediaBufferToABuffer_congr mb (typeOf isAudio) h3 h2 (by rw [h4]), hb]
    have hrb := readBuffer_sample n t true htr hisrc (hipk.trans hq)
      (by rw [hopt, hird]; exact hread) hb1
    have hqT : ((({ s.installSource isAudio src i with
          reads := (s.installSource isAudio src i).reads ++
            [(src.id, (s.installSource isAudio src i).pumpOptions (typeOf isAudio) t)] }
          : GenericSource).setPackets (typeOf isAudio)
          ((if (decide (t ≥ 0) || true) && typeOf isAudio ≠ MEDIA_TRACK_TYPE_SUBTITLE then
              q.queueDiscontinuity (discontinuityFor (decide (t ≥ 0)) true) true
            else q).queueAccessUnit buffer)).avTrack isAudio).mPackets =
        some { q with mBuffers := q.mBuffers ++ [AnotherPacketSource.marker DISCONTINUITY_FORMATCHANGE, buffer],
                      mLatestEnqueuedMeta := some buffer.meta } := by
      rw [(avTrack_setPackets _ isAudio _).1]
      simp [typeOf_ne_subtitle, ht, discontinuityFor, AnotherPacketSource.queueAccessUnit,
        AnotherPacketSource.queueDiscontinuity]
    have key : ∃ sT, (s.installSource isAudio src i).readBuffer (n + 1) (typeOf isAudio) t true
          = .ok (sT, some t') ∧
        sT.reads = s.reads ++ [(src.id, { seekTo := some (t, SEEK_PREVIOUS_SYNC),
                                          nonBlocking := s.mIsWidevine && !isAudio })] ∧
        (sT.avTrack isAudio).mPackets =
          some { q with mBuffers := q.mBuffers ++ [AnotherPacketSource.marker DISCONTINUITY_FORMATCHANGE, buffer],
                        mLatestEnqueuedMeta := some buffer.meta } :=
      ⟨_, hrb, by rw [setPackets_reads, hopt, hird], hqT⟩
    obtain ⟨sT, hrbT, hrdT, hqT2⟩ := key
    have heq2 : onChangeAVSource (n + 1) i s =
        (match sT.readBuffer (n + 1) (typeOf (!isAudio)) (-1) true with
          | .error f => .error f
          | .ok p => .ok p.1) := by
      rw [heq, hrbT]
    refine ⟨buffer, sT, hb, hrbT, hrdT, hqT2, heq2, ?_⟩
    intro s' h
    rw [heq2] at h
    cases h2 : sT.readBuffer (n + 1) (typeOf (!isAudio)) (-1) true with
    | error f => simp [h2] at h
    | ok p2 =>
      obtain ⟨s2, y⟩ := p2
      simp only [h2, Except.ok.injEq] at h
      subst h
      rw [(avTrack_of_frame (readBuffer_frame h2) isAudio).2.2 (typeOf_ne isAudio), hqT2]

/-- C5, amended, at a switch of the audio slot to catalog reader 2 while the
latest stamped timestamp is 1000: one read of reader 2 with seek target 1000,
then the FORMAT_CHANGE marker and the new unit behind the unit that was
buffered. -/
theorem onChangeAVSource_target_witness :
    ∃ buffer sT,
      ((twoAudio 1000).installSource true (steadyReader 2 "AUDIO/vorbis" 5000) 2).readBuffer 1
        (typeOf true) 1000 true = .ok (sT, some 5000) ∧
      sT.reads = [(2, { seekTo := some (1000, SEEK_PREVIOUS_SYNC), nonBlocking := false })] ∧
      (sT.avTrack true).mPackets =
        some { mBuffers := [unitAt 1000,
                            AnotherPacketSource.marker DISCONTINUITY_FORMATCHANGE, buffer],
               mEOSResult := OK,
               mLatestEnqueuedMeta := some buffer.meta } :=
  let ⟨buffer, sT, _, h2, h3, h4, _, _⟩ :=
    (onChangeAVSource_target 1 2 (twoAudio 1000) (steadyReader 2 "AUDIO/vorbis" 5000)
      "AUDIO/vorbis" true
      { mBuffers := [unitAt 1000], mLatestEnqueuedMeta := some { timeUs := some 1000 } } 1000
      rfl rfl rfl rfl rfl rfl (by decide)).2 (sampleAt 5000) 5000 (by decide) rfl rfl
  ⟨buffer, sT, h2, h3, h4⟩

/-- C6: a `kWhatChangeAVSource` message that has passed the checks of lines 273
to 306 (catalog reader `i` of audio or video type, a buffered unit on the
target queue, a latest stamped timestamp `t`) and whose pump of the new reader
has returned in state `sT`.  The counterpart slot is then as it was before the
message, the rest of the handler is exactly one pump of the counterpart with
no seek target and `formatChange = true`, and whenever that pump returns the
counterpart slot has kept its reader and index and every read the pump issued
is a read of the counterpart reader with no seek request.  When the first read
of that pump returns a stamped sample, the handler returns with a NONE marker
and then the converted unit appended to the counterpart queue; without a
counterpart reader the handler returns `sT`. -/
theorem onChangeAVSource_counterpart (fuel i : Nat) (s sT : GenericSource) (src : MediaSource)
    (mime : String) (isAudio : Bool) (q : AnotherPacketSource) (t : Int) (x : Option Int)
    (hget : s.mSources[i]? = some src) (hmime : src.format.kKeyMIMEType = some mime)
    (hsel : switchTarget mime = .ok isAudio)
    (hq : (s.avTrack isAudio).mPackets = some q)
    (havail : q.hasBufferAvailable.1 = true)
    (hlatest : q.getLatestMeta.bind (fun m => m.timeUs) = some t)
    (htarget : (s.installSource isAudio src i).readBuffer fuel (typeOf isAudio) t true
      = .ok (sT, x)) :
    ((sT.avTrack (!isAudio)).mSource = (s.avTrack (!isAudio)).mSource ∧
      (sT.avTrack (!isAudio)).mIndex = (s.avTrack (!isAudio)).mIndex ∧
      (sT.avTrack (!isAudio)).mPackets = (s.avTrack (!isAudio)).mPackets) ∧
    onChangeAVSource fuel i s =
      (match sT.readBuffer fuel (typeOf (!isAudio)) (-1) true with
        | .error f => .error f
        | .ok p => .ok p.1) ∧
    (∀ s', onChangeAVSource fuel i s = .ok s' →
      (s'.avTrack (!isAudio)).mSource = (s.avTrack (!isAudio)).mSource ∧
      (s'.avTrack (!isAudio)).mIndex = (s.avTrack (!isAudio)).mIndex ∧
      ∃ ext, s'.reads = sT.reads ++ ext ∧
        ∀ e ∈ ext, e.2.seekTo = none ∧
          ∃ c, (s.avTrack (!isAudio)).mSource = some c ∧ e.1 = c.id) ∧
    (∀ c cq mb t2, (s.avTrack (!isAudio)).mSource = some c →
      (s.avTrack (!isAudio)).mPackets = some cq →
      c.read sT.reads { seekTo := none, nonBlocking := s.mIsWidevine && isAudio }
        = (OK, some mb) →
      mb.kKeyTime = some t2 →
      ∃ buffer s', s.mediaBufferToABuffer mb (typeOf (!isAudio)) = .ok (buffer, t2) ∧
        onChangeAVSource fuel i s = .ok s' ∧
        s'.reads = sT.reads ++
          [(c.id, { seekTo := none, nonBlocking := s.mIsWidevine && isAudio })] ∧
        (s'.avTrack (!isAudio)).mPackets =
          some { cq with
                 mBuffers := cq.mBuffers ++
                   [AnotherPacketSource.marker DISCONTINUITY_NONE, buffer],
                 mLatestEnqueuedMeta := some buffer.meta }) ∧
    ((s.avTrack (!isAudio)).mSource = none → onChangeAVSource fuel i s = .ok sT) := by
  have heq := onChangeAVSource_eq fuel hget hmime hsel hq havail hlatest
  simp only [htarget] at heq
  obtain ⟨hisrc, -, -⟩ := installSource_target s isAudio src i
  obtain ⟨-, hiwv, hivb, hisub⟩ := installSource_rest s isAudio src i
  have hfT := readBuffer_frame htarget
  -- the counterpart slot after the pump of the target
  have hcp : (sT.avTrack (!isAudio)).mSource = (s.avTrack (!isAudio)).mSource ∧
      (sT.avTrack (!isAudio)).mIndex = (s.avTrack (!isAudio)).mIndex ∧
      (sT.avTrack (!isAudio)).mPackets = (s.avTrack (!isAudio)).mPackets := by
    obtain ⟨a, b, c⟩ := avTrack_of_frame hfT (!isAudio)
    rw [installSource_counterpart] at a b c
    exact ⟨a, b, c (typeOf_ne isAudio).symm⟩
  -- the pump of the target took at least one unit of fuel
  have hfuel : ∃ n, fuel = n + 1 := by
    cases fuel with
    | zero =>
      rw [readBuffer_no_fuel t true (trackOf_typeOf _ isAudio) hisrc] at htarget
      simp at htarget
    | succ n => exact ⟨n, rfl⟩
  obtain ⟨n, rfl⟩ := hfuel
  have htrT := trackOf_typeOf sT (!isAudio)
  have hoptT : sT.pumpOptions (typeOf (!isAudio)) (-1) =
      { seekTo := none, nonBlocking := s.mIsWidevine && isAudio } := by
    rw [pumpOptions_plain, hfT.widevine, hiwv, Bool.not_not]
  refine ⟨hcp, heq, ?_, ?_, ?_⟩
  · intro s' h
    rw [heq] at h
    cases h2 : sT.readBuffer (n + 1) (typeOf (!isAudio)) (-1) true with
    | error f => simp [h2] at h
    | ok p2 =>
      obtain ⟨s2, y⟩ := p2
      simp only [h2, Except.ok.injEq] at h
      subst h
      obtain ⟨a, b, -⟩ := avTrack_of_frame (readBuffer_frame h2) (!isAudio)
      refine ⟨a.trans hcp.1, b.trans hcp.2.1, ?_⟩
      rcases readBuffer_reads h2 with ⟨-, hr⟩ | ⟨c, k, hc, hr⟩
      · exact ⟨[], by simp [hr], by simp⟩
      · refine ⟨_, hr, ?_⟩
        simp only [htrT, Option.some_bind] at hc
        intro e he
        simp only [List.mem_cons, List.mem_replicate] at he
        rcases he with he | ⟨-, he⟩
        · subst he
          exact ⟨pumpOptions_noSeek _ _, c, hcp.1.symm.trans hc, rfl⟩
        · subst he
          exact ⟨rfl, c, hcp.1.symm.trans hc, rfl⟩
  · intro c cq mb t2 hc hcq hread htime
    obtain ⟨buffer, hb, -, -⟩ := mediaBufferToABuffer_stamped s (typeOf (!isAudio)) htime
    have hbT : sT.mediaBufferToABuffer mb (typeOf (!isAudio)) = .ok (buffer, t2) := by
      rw [mediaBufferToABuffer_congr mb (typeOf (!isAudio)) (hfT.vorbis.trans hivb)
        (hfT.widevine.trans hiwv) (hfT.subtitleIndex.trans (by rw [hisub])), hb]
    have hrb := readBuffer_sample n (-1) true htrT (hcp.1.trans hc) (hcp.2.2.trans hcq)
      (by rw [hoptT]; exact hread) hbT
    rw [hrb] at heq
    refine ⟨buffer, _, hb, heq, ?_, ?_⟩
    · rw [setPackets_reads, hoptT]
    · rw [(avTrack_setPackets _ (!isAudio) _).1]
      simp [typeOf_ne_subtitle, discontinuityFor, AnotherPacketSource.queueAccessUnit,
        AnotherPacketSource.queueDiscontinuity]
  · intro hnone
    rw [heq, readBuffer_no_reader (n + 1) (-1) true htrT (hcp.1.trans hnone)]

/-- C6 at a switch of the audio slot to catalog reader 2: the video slot keeps
reader 1, is read once without seek request, and gets a NONE marker and the
new unit behind the unit that was buffered. -/
theorem onChangeAVSource_counterpart_witness :
    ∃ buffer s', (twoAudio 1000).mediaBufferToABuffer (sampleAt 30) (typeOf (!true))
        = .ok (buffer, 30) ∧
      onChangeAVSource 1 2 (twoAudio 1000) = .ok s' ∧
      s'.reads = [(2, { seekTo := some (1000, SEEK_PREVIOUS_SYNC), nonBlocking := false })] ++
        [(1, { seekTo := none, nonBlocking := false })] ∧
      (s'.avTrack (!true)).mPackets =
        some { mBuffers := [unitAt 1000] ++
                 [AnotherPacketSource.marker DISCONTINUITY_NONE, buffer],
               mEOSResult := OK,
               mLatestEnqueuedMeta := some buffer.meta } :=
  (onChangeAVSource_counterpart 1 2 (twoAudio 1000) _ (steadyReader 2 "AUDIO/vorbis" 5000)
    "AUDIO/vorbis" true
    { mBuffers := [unitAt 1000], mLatestEnqueuedMeta := some { timeUs := some 1000 } } 1000
    (some 5000) rfl rfl rfl rfl rfl rfl rfl).2.2.2.1
    (steadyReader 1 "video/avc" 30)
    { mBuffers := [unitAt 1000], mLatestEnqueuedMeta := some { timeUs := some 1000 } }
    (sampleAt 30) 30 rfl rfl rfl rfl

/-! ## Seek ordering -/

theorem seekAudio_eq {fuel : Nat} {s : GenericSource} {asrc : MediaSource} (v : Int)
    (ha : s.mAudioTrack.mSource = some asrc) :
    s.seekAudio fuel v =
      match s.readBuffer fuel MEDIA_TRACK_TYPE_AUDIO v false with
      | .error f => .error f
      | .ok p => .ok (OK, p.1) := by
  unfold seekAudio
  simp only [ha]

theorem seekAudio_status {fuel : Nat} {s s' : GenericSource} {v : Int} {r : status_t}
    (h : s.seekAudio fuel v = .ok (r, s')) : r = OK := by
  unfold seekAudio at h
  split at h
  · split at h
    · simp at h
    · simp only [Except.ok.injEq, Prod.mk.injEq] at h
      exact h.1.symm
  · simp only [Except.ok.injEq, Prod.mk.injEq] at h
    exact h.1.symm

theorem seekAudio_reads {fuel : Nat} {s s' : GenericSource} {asrc : MediaSource} {v : Int}
    {r : status_t} (ha : s.mAudioTrack.mSource = some asrc)
    (h : s.seekAudio fuel v = .ok (r, s')) :
    ∃ rest, s'.reads = s.reads ++
      (asrc.id, s.pumpOptions MEDIA_TRACK_TYPE_AUDIO v) :: rest := by
  rw [seekAudio_eq v ha] at h
  cases hr : s.readBuffer fuel MEDIA_TRACK_TYPE_AUDIO v false with
  | error f => simp [hr] at h
  | ok p =>
    obtain ⟨s2, y⟩ := p
    simp only [hr, Except.ok.injEq, Prod.mk.injEq] at h
    obtain ⟨-, h⟩ := h
    subst h
    rcases readBuffer_reads hr with ⟨hn, -⟩ | ⟨c, k, hc, hk⟩
    · simp [trackOf, ha] at hn
    · simp only [trackOf, Option.some_bind, ha, Option.some.injEq] at hc
      subst hc
      exact ⟨_, hk⟩

/-- C7 as stated fails when the video read lands on a sample with a negative
timestamp: `seekTo(5000000)` with the video sample stamped -1 issues the audio
read without any seek request, not with seek target -1. -/
theorem seekTo_order_counterexample :
    syncAtNegative.seekTo 1 5000000 =
      .ok (OK,
        { syncAtNegative with
          reads := [(1, { seekTo := some (5000000, SEEK_PREVIOUS_SYNC) }),
                    (0, { seekTo := none })]
          mVideoTrack := { syncAtNegative.mVideoTrack with
            mPackets := some
              { mBuffers := [AnotherPacketSource.marker DISCONTINUITY_SEEK, unitAt (-1)],
                mLatestEnqueuedMeta := some { timeUs := some (-1) } } }
          mAudioTrack := { syncAtNegative.mAudioTrack with
            mPackets := some
              { mBuffers := [unitAt 4799000],
                mLatestEnqueuedMeta := some { timeUs := some 4799000 } } } }) ∧
    ({ seekTo := none } : ReadOptions) ≠ { seekTo := some (-1, SEEK_PREVIOUS_SYNC) } :=
  ⟨rfl, by decide⟩

/-- C7, amended: `seekTo(t)` with `t >= 0` on a source with an audio reader.
With a video reader whose read returns a sample stamped `v`, the video pump
runs first with one read that carries seek target `t` in previous-sync mode,
the rest of `seekTo` is the audio pump called with `v`, and whenever `seekTo`
returns the trace of reads continues with that video read and then the first
audio read, which carries seek target `v` in previous-sync mode when `v >= 0`
and no seek request when `v < 0`.  With a video reader whose read yields no
sample (would-block or a terminal status) the audio read carries seek target
`t`, and so it does without a video reader.  Every status `seekTo` returns is
`OK`. -/
theorem seekTo_order (fuel : Nat) (t : Int) (s : GenericSource) (asrc : MediaSource)
    (ht : 0 ≤ t) (ha : s.mAudioTrack.mSource = some asrc) :
    (∀ vsrc vq mb v, s.mVideoTrack.mSource = some vsrc → s.mVideoTrack.mPackets = some vq →
      vsrc.read s.reads { seekTo := some (t, SEEK_PREVIOUS_SYNC), nonBlocking := s.mIsWidevine }
        = (OK, some mb) →
      mb.kKeyTime = some v →
      ∃ sV, s.readBuffer (fuel + 1) MEDIA_TRACK_TYPE_VIDEO t false = .ok (sV, some v) ∧
        sV.reads = s.reads ++
          [(vsrc.id, { seekTo := some (t, SEEK_PREVIOUS_SYNC), nonBlocking := s.mIsWidevine })] ∧
        s.seekTo (fuel + 1) t =
          (match sV.readBuffer (fuel + 1) MEDIA_TRACK_TYPE_AUDIO v false with
            | .error f => .error f
            | .ok p => .ok (OK, p.1)) ∧
        ∀ r s', s.seekTo (fuel + 1) t = .ok (r, s') →
          ∃ rest, s'.reads = s.reads ++
            (vsrc.id, { seekTo := some (t, SEEK_PREVIOUS_SYNC), nonBlocking := s.mIsWidevine })
              :: (asrc.id, { seekTo := if 0 ≤ v then some (v, SEEK_PREVIOUS_SYNC) else none,
                             nonBlocking := false }) :: rest) ∧
    (∀ vsrc vq err mb, s.mVideoTrack.mSource = some vsrc → s.mVideoTrack.mPackets = some vq →
      vsrc.read s.reads { seekTo := some (t, SEEK_PREVIOUS_SYNC), nonBlocking := s.mIsWidevine }
        = (err, mb) →
      err ≠ OK → err ≠ INFO_FORMAT_CHANGED →
      ∃ sV, s.readBuffer (fuel + 1) MEDIA_TRACK_TYPE_VIDEO t false = .ok (sV, some t) ∧
        sV.reads = s.reads ++
          [(vsrc.id, { seekTo := some (t, SEEK_PREVIOUS_SYNC), nonBlocking := s.mIsWidevine })] ∧
        s.seekTo (fuel + 1) t =
          (match sV.readBuffer (fuel + 1) MEDIA_TRACK_TYPE_AUDIO t false with
            | .error f => .error f
            | .ok p => .ok (OK, p.1)) ∧
        ∀ r s', s.seekTo (fuel + 1) t = .ok (r, s') →
          ∃ rest, s'.reads = s.reads ++
            (vsrc.id, { seekTo := some (t, SEEK_PREVIOUS_SYNC), nonBlocking := s.mIsWidevine })
              :: (asrc.id, { seekTo := some (t, SEEK_PREVIOUS_SYNC), nonBlocking := false })
              :: rest) ∧
    (s.mVideoTrack.mSource = none →
      s.seekTo fuel t =
        (match s.readBuffer fuel MEDIA_TRACK_TYPE_AUDIO t false with
          | .error f => .error f
          | .ok p => .ok (OK, p.1)) ∧
      ∀ r s', s.seekTo fuel t = .ok (r, s') →
        ∃ rest, s'.reads = s.reads ++
          (asrc.id, { seekTo := some (t, SEEK_PREVIOUS_SYNC), nonBlocking := false }) :: rest) ∧
    (∀ r s', s.seekTo fuel t = .ok (r, s') → r = OK) := by
  have hvopt : s.pumpOptions MEDIA_TRACK_TYPE_VIDEO t =
      { seekTo := some (t, SEEK_PREVIOUS_SYNC), nonBlocking := s.mIsWidevine } := by
    have := pumpOptions_seek s false ht
    simpa [typeOf] using this
  have haopt : ∀ (s1 : GenericSource) (v : Int), 0 ≤ v →
      s1.pumpOptions MEDIA_TRACK_TYPE_AUDIO v =
        { seekTo := some (v, SEEK_PREVIOUS_SYNC), nonBlocking := false } := by
    intro s1 v hv
    have := pumpOptions_seek s1 true hv
    simpa [typeOf] using this
  have hvtr : s.trackOf MEDIA_TRACK_TYPE_VIDEO = some s.mVideoTrack := rfl
  -- the rest of `seekTo` after a video pump that returned
  have hrest : ∀ (vsrc : MediaSource) (sV : GenericSource) (v : Int),
      s.mVideoTrack.mSource = some vsrc →
      s.readBuffer (fuel + 1) MEDIA_TRACK_TYPE_VIDEO t false = .ok (sV, some v) →
      sV.reads = s.reads ++
        [(vsrc.id, { seekTo := some (t, SEEK_PREVIOUS_SYNC), nonBlocking := s.mIsWidevine })] →
      s.seekTo (fuel + 1) t =
        (match sV.readBuffer (fuel + 1) MEDIA_TRACK_TYPE_AUDIO v false with
          | .error f => .error f
          | .ok p => .ok (OK, p.1)) ∧
      ∀ r s', s.seekTo (fuel + 1) t = .ok (r, s') →
        ∃ rest, s'.reads = s.reads ++
          (vsrc.id, { seekTo := some (t, SEEK_PREVIOUS_SYNC), nonBlocking := s.mIsWidevine })
            :: (asrc.id, sV.pumpOptions MEDIA_TRACK_TYPE_AUDIO v) :: rest := by
    intro vsrc sV v hv hrb hrd
    have haV : sV.mAudioTrack.mSource = some asrc := (readBuffer_frame hrb).audioSource.trans ha
    have hseek : s.seekTo (fuel + 1) t = sV.seekAudio (fuel + 1) v := by
      unfold seekTo
      simp only [hv, hrb]
    refine ⟨hseek.trans (seekAudio_eq v haV), ?_⟩
    intro r s' h
    rw [hseek] at h
    obtain ⟨rest, hr⟩ := seekAudio_reads haV h
    exact ⟨rest, by rw [hr, hrd]; simp⟩
  refine ⟨?_, ?_, ?_, ?_⟩
  · intro vsrc vq mb v hv hvq hread htime
    obtain ⟨buffer, hb, -, -⟩ := mediaBufferToABuffer_stamped s MEDIA_TRACK_TYPE_VIDEO htime
    have hrb := readBuffer_sample fuel t false hvtr hv hvq (by rw [hvopt]; exact hread) hb
    have key : ∃ sV, s.readBuffer (fuel + 1) MEDIA_TRACK_TYPE_VIDEO t false = .ok (sV, some v) ∧
        sV.reads = s.reads ++
          [(vsrc.id, { seekTo := some (t, SEEK_PREVIOUS_SYNC),
                       nonBlocking := s.mIsWidevine })] :=
      ⟨_, hrb, by rw [setPackets_reads, hvopt]⟩
    obtain ⟨sV, h1, h2⟩ := key
    obtain ⟨h3, h4⟩ := hrest vsrc sV v hv h1 h2
    refine ⟨sV, h1, h2, h3, ?_⟩
    intro r s' h
    obtain ⟨rest, hr⟩ := h4 r s' h
    refine ⟨rest, ?_⟩
    rw [hr, pumpOptions_eq]
    simp
  · intro vsrc vq err mb hv hvq hread h1 h3
    have key : ∃ sV, s.readBuffer (fuel + 1) MEDIA_TRACK_TYPE_VIDEO t false = .ok (sV, some t) ∧
        sV.reads = s.reads ++
          [(vsrc.id, { seekTo := some (t, SEEK_PREVIOUS_SYNC),
                       nonBlocking := s.mIsWidevine })] := by
      by_cases h2 : err = WOULD_BLOCK
      · subst h2
        exact ⟨_, readBuffer_wouldBlock fuel t false hvtr hv (by rw [hvopt]; exact hread),
          by rw [hvopt]⟩
      · exact ⟨_, readBuffer_ended fuel t false hvtr hv hvq (by rw [hvopt]; exact hread) h1 h2 h3,
          by rw [setPackets_reads, hvopt]⟩
    obtain ⟨sV, h4, h5⟩ := key
    obtain ⟨h6, h7⟩ := hrest vsrc sV t hv h4 h5
    refine ⟨sV, h4, h5, h6, ?_⟩
    intro r s' h
    obtain ⟨rest, hr⟩ := h7 r s' h
    exact ⟨rest, by rw [hr, haopt sV t ht]⟩
  · intro hv
    have hseek : s.seekTo fuel t = s.seekAudio fuel t := by
      unfold seekTo
      simp only [hv]
    refine ⟨hseek.trans (seekAudio_eq t ha), ?_⟩
    intro r s' h
    rw [hseek] at h
    obtain ⟨rest, hr⟩ := seekAudio_reads ha h
    exact ⟨rest, by rw [hr, haopt s t ht]⟩
  · intro r s' h
    unfold seekTo at h
    split at h
    · split at h
      · simp at h
      · simp at h
      · exact seekAudio_status h
    · exact seekAudio_status h

/-- C7, amended, at `seekTo(5000000)` with the video read landing on the sync
sample at 4800000: the video read carries seek target 5000000, the audio read
that follows carries seek target 4800000, and the call returns `OK`. -/
theorem seekTo_order_witness :
    syncAt4800000.seekTo 1 5000000 =
      .ok (OK,
        { syncAt4800000 with
          reads := [(1, { seekTo := some (5000000, SEEK_PREVIOUS_SYNC) }),
                    (0, { seekTo := some (4800000, SEEK_PREVIOUS_SYNC) })]
          mVideoTrack := { syncAt4800000.mVideoTrack with
            mPackets := some
              { mBuffers := [AnotherPacketSource.marker DISCONTINUITY_SEEK, unitAt 4800000],
                mLatestEnqueuedMeta := some { timeUs := some 4800000 } } }
          mAudioTrack := { syncAt4800000.mAudioTrack with
            mPackets := some
              { mBuffers := [AnotherPacketSource.marker DISCONTINUITY_SEEK, unitAt 4799000],
                mLatestEnqueuedMeta := some { timeUs := some 4799000 } } } }) ∧
    ∃ rest, [(1, ({ seekTo := some (5000000, SEEK_PREVIOUS_SYNC) } : ReadOptions)),
             (0, { seekTo := some (4800000, SEEK_PREVIOUS_SYNC) })] =
      syncAt4800000.reads ++
        (1, { seekTo := some (5000000, SEEK_PREVIOUS_SYNC), nonBlocking := false })
          :: (0, { seekTo := if (0 : Int) ≤ 4800000 then some (4800000, SEEK_PREVIOUS_SYNC)
                             else none,
                   nonBlocking := false })
          :: rest := by
  obtain ⟨sV, -, -, -, h5⟩ :=
    (seekTo_order 0 5000000 syncAt4800000 (steadyReader 0 "audio/mp4a-latm" 4799000)
      (by decide) rfl).1 (steadyReader 1 "video/avc" 4800000) {} (sampleAt 4800000) 4800000
      rfl rfl rfl rfl
  have hrun : syncAt4800000.seekTo (0 + 1) 5000000 =
      .ok (OK,
        { syncAt4800000 with
          reads := [(1, { seekTo := some (5000000, SEEK_PREVIOUS_SYNC) }),
                    (0, { seekTo := some (4800000, SEEK_PREVIOUS_SYNC) })]
          mVideoTrack := { syncAt4800000.mVideoTrack with
            mPackets := some
              { mBuffers := [AnotherPacketSource.marker DISCONTINUITY_SEEK, unitAt 4800000],
                mLatestEnqueuedMeta := some { timeUs := some 4800000 } } }
          mAudioTrack := { syncAt4800000.mAudioTrack with
            mPackets := some
              { mBuffers := [AnotherPacketSource.marker DISCONTINUITY_SEEK, unitAt 4799000],
                mLatestEnqueuedMeta := some { timeUs := some 4799000 } } } }) := rfl
  refine ⟨hrun, ?_⟩
  obtain ⟨rest, hr⟩ := h5 _ _ hrun
  exact ⟨rest, hr⟩

/-! ## The subtitle fetch -/

theorem clampDelay_eq_max (d : Int) : clampDelay d = max 0 d := by
  unfold clampDelay
  split_ifs with h
  · exact (max_eq_left (le_of_lt h)).symm
  · exact (max_eq_right (not_lt.mp h)).symm

/-- C9 as stated fails for a negative reference time: a fetch with
`referenceTimeUs = -1` pumps the subtitle track with a read that carries no
seek request, not seek target -1; the send is scheduled all the same. -/
theorem onFetchSubtitleData_schedule_counterexample :
    subtitleSelected.onFetchSubtitleData 1 1 (-1) =
      .ok { subtitleSelected with
            reads := [(2, { seekTo := none })]
            mSubtitleTrack := { subtitleSelected.mSubtitleTrack with
              mPackets := some
                { mBuffers := [{ (ABuffer.alloc 4 [1, 2, 3, 4]) with
                                 «meta» := { timeUs := some 4000000, trackIndex := some 2 } }],
                  mLatestEnqueuedMeta :=
                    some { timeUs := some 4000000, trackIndex := some 2 } } }
            posted := [(kWhatSendSubtitleData 1, 3000001)] } ∧
    ({ seekTo := none } : ReadOptions) ≠ { seekTo := some (-1, SEEK_PREVIOUS_SYNC) } :=
  ⟨rfl, by decide⟩

theorem wrapInt64_of_inInt64 {x : Int} (h : inInt64 x) : wrapInt64 x = x := by
  unfold inInt64 at h
  unfold wrapInt64
  omega

/-- The delay of the fetch handler when neither subtraction leaves the range of
`int64_t`. -/
theorem fetchDelay_eq {landed r : Int} (h1 : inInt64 (landed - r))
    (h2 : inInt64 (landed - r - 1000000)) :
    clampDelay (wrapInt64 (wrapInt64 (landed - r) - 1000000)) = max 0 (landed - r - 1000000) := by
  rw [wrapInt64_of_inInt64 h1, wrapInt64_of_inInt64 h2, clampDelay_eq_max]

/-- C9, amended: a `kWhatFetchSubtitleData` message with the current generation
`g` and reference time `r`, delivered while a subtitle track is selected.  When
the subtitle queue has a buffered unit the handler returns the state unchanged.
When it has none, the handler is exactly one pump of the subtitle track called
with `r`, whose read carries seek target `r` in previous-sync mode when
`r >= 0` and no seek request when `r < 0`, followed by the posting of exactly
one `kWhatSendSubtitleData` message that carries `g`.  Its delay is computed in
`int64_t` from the timestamp `landed` that the pump reports: it is `landed - r`
reduced to the range of `int64_t`, less 1000000 and reduced again, and 0 when
that is negative; this is `max(0, landed - r - 1000000)` whenever `landed - r`
and `landed - r - 1000000` are representable as `int64_t`.  When the read of
that pump returns a cue stamped `c`, that one read is the only read, the cue
is the only unit queued and `landed` is `c`.  With `r = 2000000` the delay is
1000000 for a cue at 4000000 and 0 for a cue at 2500000. -/
theorem onFetchSubtitleData_schedule (fuel : Nat) (g r : Int) (s : GenericSource)
    (src : MediaSource) (q : AnotherPacketSource)
    (hgen : g = s.mFetchSubtitleDataGeneration)
    (hsrc : s.mSubtitleTrack.mSource = some src)
    (hq : s.mSubtitleTrack.mPackets = some q) :
    (q.hasBufferAvailable.1 = true → s.onFetchSubtitleData fuel g r = .ok s) ∧
    (q.hasBufferAvailable.1 = false →
      (∀ s1 landed, s.readBuffer fuel MEDIA_TRACK_TYPE_SUBTITLE r false = .ok (s1, some landed) →
        s.onFetchSubtitleData fuel g r =
          .ok { s1 with posted := s1.posted ++
                  [(kWhatSendSubtitleData g,
                    clampDelay (wrapInt64 (wrapInt64 (landed - r) - 1000000)))] } ∧
        (inInt64 (landed - r) → inInt64 (landed - r - 1000000) →
          s.onFetchSubtitleData fuel g r =
            .ok { s1 with posted := s1.posted ++
                    [(kWhatSendSubtitleData g, max 0 (landed - r - 1000000))] })) ∧
      (∀ mb c, src.read s.reads (s.pumpOptions MEDIA_TRACK_TYPE_SUBTITLE r) = (OK, some mb) →
        mb.kKeyTime = some c →
        ∃ buffer, s.mediaBufferToABuffer mb MEDIA_TRACK_TYPE_SUBTITLE = .ok (buffer, c) ∧
          s.onFetchSubtitleData (fuel + 1) g r =
            .ok { s with
                  reads := s.reads ++ [(src.id, s.pumpOptions MEDIA_TRACK_TYPE_SUBTITLE r)]
                  mSubtitleTrack :=
                    { s.mSubtitleTrack with mPackets := some (q.queueAccessUnit buffer) }
                  posted := s.posted ++
                    [(kWhatSendSubtitleData g,
                      clampDelay (wrapInt64 (wrapInt64 (c - r) - 1000000)))] } ∧
          (inInt64 (c - r) → inInt64 (c - r - 1000000) →
            s.onFetchSubtitleData (fuel + 1) g r =
              .ok { s with
                    reads := s.reads ++ [(src.id, s.pumpOptions MEDIA_TRACK_TYPE_SUBTITLE r)]
                    mSubtitleTrack :=
                      { s.mSubtitleTrack with mPackets := some (q.queueAccessUnit buffer) }
                    posted := s.posted ++
                      [(kWhatSendSubtitleData g, max 0 (c - r - 1000000))] }))) ∧
    s.pumpOptions MEDIA_TRACK_TYPE_SUBTITLE r =
      { seekTo := if 0 ≤ r then some (r, SEEK_PREVIOUS_SYNC) else none,
        nonBlocking := s.mIsWidevine } ∧
    clampDelay (wrapInt64 (wrapInt64 (4000000 - 2000000) - 1000000)) = 1000000 ∧
    clampDelay (wrapInt64 (wrapInt64 (2500000 - 2000000) - 1000000)) = 0 ∧
    clampDelay (wrapInt64 (wrapInt64 (4000000 - (-9223372036854775808)) - 1000000)) = 0 := by
  have hgen2 : ¬ g ≠ s.mFetchSubtitleDataGeneration := not_not.mpr hgen
  have hgeneral : q.hasBufferAvailable.1 = false → ∀ (f : Nat) s1 landed,
      s.readBuffer f MEDIA_TRACK_TYPE_SUBTITLE r false = .ok (s1, some landed) →
      s.onFetchSubtitleData f g r =
        .ok { s1 with posted := s1.posted ++
                [(kWhatSendSubtitleData g,
                  clampDelay (wrapInt64 (wrapInt64 (landed - r) - 1000000)))] } := by
    intro hnone f s1 landed hrb
    unfold onFetchSubtitleData
    simp only [hgen2, if_false, hq, hnone, Bool.false_eq_true, hrb]
  refine ⟨?_, ?_, ?_, by decide, by decide, by decide⟩
  · intro havail
    unfold onFetchSubtitleData
    simp only [hgen2, if_false, hq, havail, if_true]
  · intro hnone
    refine ⟨?_, ?_⟩
    · intro s1 landed hrb
      refine ⟨hgeneral hnone fuel s1 landed hrb, ?_⟩
      intro h1 h2
      rw [hgeneral hnone fuel s1 landed hrb, fetchDelay_eq h1 h2]
    · intro mb c hread htime
      obtain ⟨buffer, hb, -, -⟩ :=
        mediaBufferToABuffer_stamped s MEDIA_TRACK_TYPE_SUBTITLE htime
      have hrb := readBuffer_sample fuel r false
        (rfl : s.trackOf MEDIA_TRACK_TYPE_SUBTITLE = _) hsrc hq hread hb
      have hrun : s.onFetchSubtitleData (fuel + 1) g r =
          .ok { s with
                reads := s.reads ++ [(src.id, s.pumpOptions MEDIA_TRACK_TYPE_SUBTITLE r)]
                mSubtitleTrack :=
                  { s.mSubtitleTrack with mPackets := some (q.queueAccessUnit buffer) }
                posted := s.posted ++
                  [(kWhatSendSubtitleData g,
                    clampDelay (wrapInt64 (wrapInt64 (c - r) - 1000000)))] } := by
        rw [hgeneral hnone (fuel + 1) _ c hrb]
        simp [setPackets]
      refine ⟨buffer, hb, hrun, ?_⟩
      intro h1 h2
      rw [hrun, fetchDelay_eq h1 h2]
  · rw [pumpOptions_eq]
    simp

/-- C9, amended, at reference time 2000000 with a cue at 4000000: one read with seek
target 2000000, the cue queued, and the send scheduled after 1000000
microseconds. -/
theorem onFetchSubtitleData_schedule_witness :
    ∃ buffer, subtitleSelected.mediaBufferToABuffer (sampleAt 4000000) MEDIA_TRACK_TYPE_SUBTITLE
        = .ok (buffer, 4000000) ∧
      subtitleSelected.onFetchSubtitleData (0 + 1) 1 2000000 =
        .ok { subtitleSelected with
              reads := subtitleSelected.reads ++
                [((cueReader 2 4000000).id,
                  subtitleSelected.pumpOptions MEDIA_TRACK_TYPE_SUBTITLE 2000000)]
              mSubtitleTrack :=
                { subtitleSelected.mSubtitleTrack with
                  mPackets := some (AnotherPacketSource.queueAccessUnit {} buffer) }
              posted := subtitleSelected.posted ++
                [(kWhatSendSubtitleData 1, max 0 (4000000 - 2000000 - 1000000))] } := by
  obtain ⟨buffer, hb, -, h⟩ :=
    ((onFetchSubtitleData_schedule 0 1 2000000 subtitleSelected (cueReader 2 4000000) {}
      rfl rfl rfl).2.1 rfl).2 (sampleAt 4000000) 4000000 rfl rfl
  exact ⟨buffer, hb, h (by decide) (by decide)⟩

/-! ## The converter -/

/-- C10 as stated fails: in Widevine mode a sample of the subtitle track, which
is not a video sample, is converted without a copy: the unit owns no bytes
and refers to the raw buffer. -/
theorem mediaBufferToABuffer_secure_counterexample :
    secureWithSubtitle.mediaBufferToABuffer (sampleAt 7) MEDIA_TRACK_TYPE_SUBTITLE =
      .ok ({ mData := none, mCapacity := 4, mOwnsData := false,
             «meta» := { timeUs := some 7, trackIndex := some 2,
                         mediaBuffer := some (sampleAt 7) } }, 7) ∧
    MEDIA_TRACK_TYPE_SUBTITLE ≠ MEDIA_TRACK_TYPE_VIDEO ∧
    (sampleAt 7).range = [1, 2, 3, 4] ∧
    ABuffer.ownedPayload
      ({ mData := none, mCapacity := 4, mOwnsData := false,
         «meta» := { timeUs := some 7, trackIndex := some 2,
                     mediaBuffer := some (sampleAt 7) } } : ABuffer) = [] :=
  ⟨rfl, by decide, rfl, rfl⟩

/-- C10, amended: for every raw sample that carries its timestamp and every
track type, the converter returns a unit.  The unit owns no bytes (its data
pointer is NULL) and refers to the raw buffer exactly when the source is in
Widevine mode and the track is not the audio track, so for video and for
subtitle samples alike.  In every other case (outside Widevine mode, or an
audio sample) the unit carries no reference to the raw buffer and its owned
payload is the bytes of the raw sample's range, followed only by the four
bytes of the valid-sample count when the track is audio and the codec is
Vorbis. -/
theorem mediaBufferToABuffer_secure (s : GenericSource) (mb : MediaBuffer)
    (trackType : media_track_type) (t : Int) (ht : mb.kKeyTime = some t) :
    ∃ ab, s.mediaBufferToABuffer mb trackType = .ok (ab, t) ∧
      ((ab.ownedPayload = [] ∧ ab.mData = none ∧ ab.meta.mediaBuffer = some mb) ↔
        (s.mIsWidevine = true ∧ trackType ≠ MEDIA_TRACK_TYPE_AUDIO)) ∧
      (¬ (s.mIsWidevine = true ∧ trackType ≠ MEDIA_TRACK_TYPE_AUDIO) →
        ab.meta.mediaBuffer = none ∧
        ab.ownedPayload = mb.range ++
          (if trackType = MEDIA_TRACK_TYPE_AUDIO ∧ s.mAudioIsVorbis = true then
            int32Bytes (mb.kKeyValidSamples.getD (-1)) else []) ∧
        mb.range <+: ab.ownedPayload) := by
  unfold mediaBufferToABuffer
  simp only [ht]
  refine ⟨_, rfl, ?_, ?_⟩
  · by_cases hw : s.mIsWidevine = true <;> by_cases ha : trackType = MEDIA_TRACK_TYPE_AUDIO <;>
      by_cases hv : s.mAudioIsVorbis = true <;> cases hd : mb.kKeyDuration <;>
      by_cases hs : trackType = MEDIA_TRACK_TYPE_SUBTITLE <;>
      simp_all [ABuffer.ownedPayload, ABuffer.alloc, ABuffer.wrapNull]
  · intro hc
    by_cases hw : s.mIsWidevine = true <;> by_cases ha : trackType = MEDIA_TRACK_TYPE_AUDIO <;>
      by_cases hv : s.mAudioIsVorbis = true <;> cases hd : mb.kKeyDuration <;>
      by_cases hs : trackType = MEDIA_TRACK_TYPE_SUBTITLE <;>
      simp_all [ABuffer.ownedPayload, ABuffer.alloc, ABuffer.wrapNull]

/-- C10, amended, at an audio sample in Widevine mode: the unit owns a copy of
the four bytes of the range and refers to no raw buffer. -/
theorem mediaBufferToABuffer_secure_witness :
    ∃ ab, secureWithSubtitle.mediaBufferToABuffer (sampleAt 7) MEDIA_TRACK_TYPE_AUDIO
        = .ok (ab, 7) ∧
      ((ab.ownedPayload = [] ∧ ab.mData = none ∧ ab.meta.mediaBuffer = some (sampleAt 7)) ↔
        (secureWithSubtitle.mIsWidevine = true ∧
          MEDIA_TRACK_TYPE_AUDIO ≠ MEDIA_TRACK_TYPE_AUDIO)) ∧
      (¬ (secureWithSubtitle.mIsWidevine = true ∧
          MEDIA_TRACK_TYPE_AUDIO ≠ MEDIA_TRACK_TYPE_AUDIO) →
        ab.meta.mediaBuffer = none ∧
        ab.ownedPayload = (sampleAt 7).range ++
          (if MEDIA_TRACK_TYPE_AUDIO = MEDIA_TRACK_TYPE_AUDIO ∧
              secureWithSubtitle.mAudioIsVorbis = true then
            int32Bytes ((sampleAt 7).kKeyValidSamples.getD (-1)) else []) ∧
        (sampleAt 7).range <+: ab.ownedPayload) :=
  mediaBufferToABuffer_secure secureWithSubtitle (sampleAt 7) MEDIA_TRACK_TYPE_AUDIO 7 rfl

/-! ## Generation invalidation -/

theorem quiet_refl (s : GenericSource) : Quiet s s := ⟨rfl, rfl, rfl⟩

theorem quiet_trans {s s1 s2 : GenericSource} (h1 : Quiet s s1) (h2 : Quiet s1 s2) :
    Quiet s s2 :=
  ⟨h2.1.trans h1.1, h2.2.1.trans h1.2.1, h2.2.2.trans h1.2.2⟩

theorem quiet_of_frame {trackType : media_track_type} {s s' : GenericSource}
    (h : PumpFrame trackType s s') : Quiet s s' :=
  ⟨h.generation, h.posted, h.subtitleSource⟩

theorem quiet_of_readBuffer {fuel : Nat} {trackType : media_track_type} {seekTimeUs : Int}
    {formatChange : Bool} {s s' : GenericSource} {t : Option Int}
    (h : s.readBuffer fuel trackType seekTimeUs formatChange = .ok (s', t)) : Quiet s s' :=
  quiet_of_frame (readBuffer_frame h)

theorem evolves_of_quiet {s s' : GenericSource} (h : Quiet s s') : Evolves s s' :=
  Or.inl ⟨h.1, h.2.2, Or.inl h.2.1⟩

theorem quiet_evolves {s s1 s2 : GenericSource} (h1 : Quiet s s1) (h2 : Evolves s1 s2) :
    Evolves s s2 := by
  obtain ⟨hg, hp, hs⟩ := h1
  unfold Evolves at *
  rw [hg, hp, hs] at h2
  exact h2

theorem evolves_quiet {s s1 s2 : GenericSource} (h1 : Evolves s s1) (h2 : Quiet s1 s2) :
    Evolves s s2 := by
  obtain ⟨hg, hp, hs⟩ := h2
  unfold Evolves at *
  rw [hg, hp, hs]
  exact h1

/-- One call keeps the posted subtitle messages sound and never lowers the
generation. -/
theorem pendingSound_step {s s' : GenericSource} (hinv : PendingSound s) (h : Evolves s s') :
    PendingSound s' ∧ s.mFetchSubtitleDataGeneration ≤ s'.mFetchSubtitleDataGeneration := by
  rcases h with ⟨hg, hs, hp⟩ | ⟨hg, hp⟩
  · refine ⟨?_, le_of_eq hg.symm⟩
    intro m hm g hmg
    rw [hg, hs]
    rcases hp with hp | ⟨m0, d0, hp, hnew⟩
    · rw [hp] at hm
      exact hinv m hm g hmg
    · rw [hp] at hm
      rcases List.mem_append.mp hm with hm | hm
      · exact hinv m hm g hmg
      · simp only [List.mem_singleton] at hm
        subst hm
        obtain ⟨h1, h2⟩ := hnew g hmg
        exact ⟨le_of_eq h1, fun _ => h2⟩
  · refine ⟨?_, by rw [hg]; exact le_of_lt (lt_add_one _)⟩
    intro m hm g hmg
    rw [hp] at hm
    obtain ⟨h1, -⟩ := hinv m hm g hmg
    rw [hg]
    exact ⟨le_trans h1 (le_of_lt (lt_add_one _)),
      fun h => absurd (h ▸ h1) (not_le.mpr (lt_add_one _))⟩

theorem quiet_setPackets (s : GenericSource) ( audio : Bool) (q : AnotherPacketSource) :
    Quiet s (s.setPackets (typeOf audio) q) := by
  have hf := pumpFrame_setPackets (typeOf audio) s q
  exact ⟨hf.generation, hf.posted, hf.subtitleSource⟩

theorem startTrack_quiet {fuel : Nat} { audio : Bool} {s s' : GenericSource}
    (h : s.startTrack fuel audio = .ok s') : Quiet s s' := by
  unfold startTrack at h
  split at h
  · simp only [Except.ok.injEq] at h
    subst h
    exact quiet_refl s
  · cases hr : (s.setPackets (typeOf audio) {}).readBuffer fuel (typeOf audio) (-1) false with
    | error f => simp [hr] at h
    | ok p =>
      obtain ⟨s2, t⟩ := p
      simp only [hr, Except.ok.injEq] at h
      subst h
      exact quiet_trans (quiet_setPackets s audio {}) (quiet_of_readBuffer hr)

theorem start_quiet {fuel : Nat} {s s' : GenericSource} (h : s.start fuel = .ok s') :
    Quiet s s' := by
  unfold start at h
  cases h1 : s.startTrack fuel true with
  | error f => simp [h1] at h
  | ok s1 =>
    simp only [h1] at h
    exact quiet_trans (startTrack_quiet h1) (startTrack_quiet h)

theorem seekAudio_quiet {fuel : Nat} {s s' : GenericSource} {v : Int} {r : status_t}
    (h : s.seekAudio fuel v = .ok (r, s')) : Quiet s s' := by
  unfold seekAudio at h
  split at h
  · cases hr : s.readBuffer fuel MEDIA_TRACK_TYPE_AUDIO v false with
    | error f => simp [hr] at h
    | ok p =>
      obtain ⟨s2, t⟩ := p
      simp only [hr, Except.ok.injEq, Prod.mk.injEq] at h
      obtain ⟨-, h⟩ := h
      subst h
      exact quiet_of_readBuffer hr
  · simp only [Except.ok.injEq, Prod.mk.injEq] at h
    obtain ⟨-, h⟩ := h
    subst h
    exact quiet_refl s

theorem seekTo_quiet {fuel : Nat} {s s' : GenericSource} {t : Int} {r : status_t}
    (h : s.seekTo fuel t = .ok (r, s')) : Quiet s s' := by
  unfold seekTo at h
  split at h
  · cases hr : s.readBuffer fuel MEDIA_TRACK_TYPE_VIDEO t false with
    | error f => simp [hr] at h
    | ok p =>
      obtain ⟨s2, a⟩ := p
      cases a with
      | none => simp [hr] at h
      | some v =>
        simp only [hr] at h
        exact quiet_trans (quiet_of_readBuffer hr) (seekAudio_quiet h)
  · exact seekAudio_quiet h

theorem subtitleSideEffect_evolves {r r' : status_t} {a a' : Option ABuffer}
    {s s' : GenericSource} (h : subtitleSideEffect r a s = .ok (r', a', s')) :
    Evolves s s' ∧
    (r ≠ OK → s.mSubtitleTrack.mSource ≠ none →
      s'.mFetchSubtitleDataGeneration = s.mFetchSubtitleDataGeneration + 1) := by
  unfold subtitleSideEffect at h
  cases hs : s.mSubtitleTrack.mSource with
  | none =>
    simp only [hs, Except.ok.injEq, Prod.mk.injEq] at h
    obtain ⟨-, -, h⟩ := h
    subst h
    exact ⟨evolves_of_quiet (quiet_refl _), fun _ hne => absurd rfl hne⟩
  | some src =>
    simp only [hs] at h
    cases hq : s.mSubtitleTrack.mPackets with
    | none => simp [hq] at h
    | some sq =>
      simp only [hq] at h
      by_cases hr : r = OK
      · simp only [hr, ne_eq, not_true_eq_false, if_false] at h
        cases a with
        | none => simp at h
        | some au =>
          simp only at h
          cases ht : au.meta.timeUs with
          | none => simp [ht] at h
          | some t =>
            simp only [ht] at h
            refine ⟨?_, fun hne => absurd hr hne⟩
            split_ifs at h
            · simp only [Except.ok.injEq, Prod.mk.injEq] at h
              obtain ⟨-, -, h⟩ := h
              subst h
              refine Or.inl ⟨rfl, rfl, Or.inr ⟨_, _, rfl, ?_⟩⟩
              intro g hg
              simp only [generationOf, Option.some.injEq] at hg
              exact ⟨hg.symm, by simp [hs]⟩
            · simp only [Except.ok.injEq, Prod.mk.injEq] at h
              obtain ⟨-, -, h⟩ := h
              subst h
              exact evolves_of_quiet (quiet_refl _)
      · simp only [ne_eq, hr, not_false_eq_true, if_true, Except.ok.injEq, Prod.mk.injEq] at h
        obtain ⟨-, -, h⟩ := h
        subst h
        exact ⟨Or.inr ⟨rfl, rfl⟩, fun _ _ => rfl⟩

theorem popAndReadAhead_evolves {fuel : Nat} { audio : Bool} {s s' : GenericSource}
    {r : status_t} {a : Option ABuffer}
    (h : popAndReadAhead fuel audio s = .ok (r, a, s')) :
    Evolves s s' ∧
    (a ≠ none → r ≠ OK → s.mSubtitleTrack.mSource ≠ none →
      s'.mFetchSubtitleDataGeneration = s.mFetchSubtitleDataGeneration + 1) := by
  unfold popAndReadAhead at h
  cases hq : (s.avTrack audio).mPackets with
  | none => simp [hq] at h
  | some q =>
    simp only [hq] at h
    by_cases hav : q.hasBufferAvailable.1 = true
    · simp only [hav, Bool.not_true, Bool.false_eq_true, if_false] at h
      have hq1 := quiet_setPackets s audio q.dequeueAccessUnit.2.2
      split_ifs at h
      · cases hr : (s.setPackets (typeOf audio) q.dequeueAccessUnit.2.2).readBuffer fuel
            (typeOf audio) (-1) false with
        | error f => simp [hr] at h
        | ok p =>
          obtain ⟨s2, t⟩ := p
          simp only [hr] at h
          have hq2 := quiet_trans hq1 (quiet_of_readBuffer hr)
          obtain ⟨he, hb⟩ := subtitleSideEffect_evolves h
          obtain ⟨hr1, -, -⟩ := subtitleSideEffect_frame h
          refine ⟨quiet_evolves hq2 he, ?_⟩
          intro _ hne hsub
          rw [hb (hr1 ▸ hne) (by rw [hq2.2.2]; exact hsub), hq2.1]
      · obtain ⟨he, hb⟩ := subtitleSideEffect_evolves h
        obtain ⟨hr1, -, -⟩ := subtitleSideEffect_frame h
        refine ⟨quiet_evolves hq1 he, ?_⟩
        intro _ hne hsub
        rw [hb (hr1 ▸ hne) (by rw [hq1.2.2]; exact hsub), hq1.1]
    · simp only [Bool.not_eq_true] at hav
      simp only [hav, Bool.not_false, if_true, Except.ok.injEq, Prod.mk.injEq] at h
      obtain ⟨-, ha, h⟩ := h
      subst h
      exact ⟨evolves_of_quiet (quiet_refl _), fun hne => absurd ha.symm hne⟩

theorem widevineAudioPump_quiet {fuel : Nat} { audio : Bool} {s s1 : GenericSource}
    (h : widevineAudioPump fuel audio s = .ok s1) : Quiet s s1 :=
  quiet_of_frame (widevineAudioPump_frame h).1

theorem dequeueAccessUnit_evolves {fuel : Nat} { audio : Bool} {s s' : GenericSource}
    {r : status_t} {a : Option ABuffer}
    (h : s.dequeueAccessUnit fuel audio = .ok (r, a, s')) :
    Evolves s s' ∧
    (a ≠ none → r ≠ OK → s.mSubtitleTrack.mSource ≠ none →
      s'.mFetchSubtitleDataGeneration = s.mFetchSubtitleDataGeneration + 1) := by
  unfold dequeueAccessUnit at h
  split at h
  · simp only [Except.ok.injEq, Prod.mk.injEq] at h
    obtain ⟨-, ha, h⟩ := h
    subst h
    exact ⟨evolves_of_quiet (quiet_refl _), fun hne => absurd ha.symm hne⟩
  · cases hp : widevineAudioPump fuel audio s with
    | error f => simp [hp] at h
    | ok s1 =>
      simp only [hp] at h
      have hq := widevineAudioPump_quiet hp
      obtain ⟨he, hb⟩ := popAndReadAhead_evolves h
      refine ⟨quiet_evolves hq he, ?_⟩
      intro hne hr hsub
      rw [hb hne hr (by rw [hq.2.2]; exact hsub), hq.1]

theorem selectTrack_evolves {i : Nat} {sel : Bool} {s s' : GenericSource} {r : status_t}
    (h : s.selectTrack i sel = .ok (r, s')) :
    Evolves s s' ∧
    (sel = false → r = OK →
      s'.mFetchSubtitleDataGeneration = s.mFetchSubtitleDataGeneration + 1) ∧
    (sel = true →
      (s'.mSubtitleTrack.mSource.isSome ≠ s.mSubtitleTrack.mSource.isSome ∨
        s'.mSubtitleTrack.mIndex ≠ s.mSubtitleTrack.mIndex) →
      s'.mFetchSubtitleDataGeneration = s.mFetchSubtitleDataGeneration + 1) := by
  unfold selectTrack at h
  repeat' split at h
  all_goals first
    | (simp at h; done)
    | (simp only [Except.ok.injEq, Prod.mk.injEq] at h
       obtain ⟨hr, h⟩ := h
       subst h
       subst hr
       refine ⟨?_, ?_, ?_⟩
       · first
         | exact evolves_of_quiet (quiet_refl _)
         | exact Or.inr ⟨rfl, rfl⟩
         | exact Or.inl ⟨rfl, rfl, Or.inr ⟨_, _, rfl, fun g hg => by simp [generationOf] at hg⟩⟩
       · simp_all
       · simp_all)

/-- A subtitle message stamped with another generation than the current one is
discarded: the handler returns the state it was given. -/
theorem onMessageReceived_stale {fuel : Nat} {m : Message} {g : Int} {s : GenericSource}
    (hm : generationOf m = some g) (hg : g ≠ s.mFetchSubtitleDataGeneration) :
    s.onMessageReceived fuel m = .ok s := by
  cases m with
  | kWhatFetchSubtitleData generation timeUs =>
    simp only [generationOf, Option.some.injEq] at hm
    subst hm
    simp only [onMessageReceived, onFetchSubtitleData, hg, ne_eq, not_false_eq_true, if_true]
  | kWhatSendSubtitleData generation =>
    simp only [generationOf, Option.some.injEq] at hm
    subst hm
    simp only [onMessageReceived, onSendSubtitleData, hg, ne_eq, not_false_eq_true, if_true]
  | kWhatChangeAVSource trackIndex => simp [generationOf] at hm

theorem onFetchSubtitleData_evolves {fuel : Nat} {g t : Int} {s s' : GenericSource}
    (hsel : g = s.mFetchSubtitleDataGeneration → s.mSubtitleTrack.mSource ≠ none)
    (h : s.onFetchSubtitleData fuel g t = .ok s') : Evolves s s' := by
  unfold onFetchSubtitleData at h
  split_ifs at h with h1
  · simp only [Except.ok.injEq] at h
    subst h
    exact evolves_of_quiet (quiet_refl _)
  · have hg : g = s.mFetchSubtitleDataGeneration := not_not.mp h1
    cases hq : s.mSubtitleTrack.mPackets with
    | none => simp [hq] at h
    | some q =>
      simp only [hq] at h
      split_ifs at h
      · simp only [Except.ok.injEq] at h
        subst h
        exact evolves_of_quiet (quiet_refl _)
      · cases hr : s.readBuffer fuel MEDIA_TRACK_TYPE_SUBTITLE t false with
        | error f => simp [hr] at h
        | ok p =>
          obtain ⟨s1, a⟩ := p
          cases a with
          | none => simp [hr] at h
          | some v =>
            simp only [hr, Except.ok.injEq] at h
            subst h
            have hq1 := quiet_of_readBuffer hr
            refine Or.inl ⟨hq1.1, hq1.2.2, Or.inr ⟨_, _, by rw [hq1.2.1], ?_⟩⟩
            intro g' hg'
            simp only [generationOf, Option.some.injEq] at hg'
            subst hg'
            exact ⟨hg, hsel hg⟩

theorem onSendSubtitleData_evolves {fuel : Nat} {g : Int} {s s' : GenericSource}
    (hsel : g = s.mFetchSubtitleDataGeneration → s.mSubtitleTrack.mSource ≠ none)
    (h : s.onSendSubtitleData fuel g = .ok s') : Evolves s s' := by
  unfold onSendSubtitleData at h
  split_ifs at h with h1
  · simp only [Except.ok.injEq] at h
    subst h
    exact evolves_of_quiet (quiet_refl _)
  · have hg : g = s.mFetchSubtitleDataGeneration := not_not.mp h1
    cases hq : s.mSubtitleTrack.mPackets with
    | none => simp [hq] at h
    | some q =>
      simp only [hq] at h
      cases hn : q.nextBufferTime with
      | error f => simp [hn] at h
      | ok p =>
        obtain ⟨status, subTimeUs⟩ := p
        simp only [hn] at h
        split_ifs at h with h2
        · simp only [Except.ok.injEq] at h
          subst h
          exact evolves_of_quiet (quiet_refl _)
        · cases hr : s.readBuffer fuel MEDIA_TRACK_TYPE_SUBTITLE (-1) false with
          | error f => simp [hr] at h
          | ok p =>
            obtain ⟨s1, a⟩ := p
            simp only [hr] at h
            have hq1 := quiet_of_readBuffer hr
            cases hq2 : s1.mSubtitleTrack.mPackets with
            | none => simp [hq2] at h
            | some q1 =>
              simp only [hq2] at h
              split_ifs at h with h3
              · simp only [Except.ok.injEq] at h
                subst h
                exact Or.inl ⟨hq1.1, hq1.2.2, Or.inl hq1.2.1⟩
              · cases hb : q1.dequeueAccessUnit.2.1 with
                | none => simp [hb] at h
                | some buffer =>
                  simp only [hb] at h
                  cases a with
                  | none => simp at h
                  | some nextSubTimeUs =>
                    simp only [Except.ok.injEq] at h
                    subst h
                    refine Or.inl ⟨hq1.1, hq1.2.2, Or.inr ⟨kWhatSendSubtitleData g,
                      clampDelay (wrapInt64 (nextSubTimeUs - subTimeUs)),
                      by simp only [hq1.2.1], ?_⟩⟩
                    intro g' hg'
                    simp only [generationOf, Option.some.injEq] at hg'
                    subst hg'
                    exact ⟨hg, hsel hg⟩

theorem installSource_quiet (s : GenericSource) (isAudio : Bool) (src : MediaSource) (i : Nat) :
    Quiet s (s.installSource isAudio src i) := by
  cases isAudio <;> exact ⟨rfl, rfl, rfl⟩

theorem onChangeAVSource_quiet {fuel i : Nat} {s s' : GenericSource}
    (h : s.onChangeAVSource fuel i = .ok s') : Quiet s s' := by
  unfold onChangeAVSource at h
  cases hg : s.mSources[i]? with
  | none => simp [hg] at h
  | some source =>
    simp only [hg] at h
    cases hm : source.format.kKeyMIMEType with
    | none => simp [hm] at h
    | some mime =>
      simp only [hm] at h
      cases hs : switchTarget mime with
      | error f => simp [hs] at h
      | ok isAudio =>
        simp only [hs] at h
        cases hq : ((s.installSource isAudio source i).avTrack isAudio).mPackets with
        | none => simp [hq] at h
        | some q =>
          simp only [hq] at h
          split_ifs at h
          cases hl : q.getLatestMeta.bind (fun m => m.timeUs) with
          | none => simp [hl] at h
          | some t =>
            simp only [hl] at h
            cases h1 : (s.installSource isAudio source i).readBuffer fuel (typeOf isAudio) t
                true with
            | error f => simp [h1] at h
            | ok p =>
              obtain ⟨s1, x⟩ := p
              simp only [h1] at h
              cases h2 : s1.readBuffer fuel (typeOf (!isAudio)) (-1) true with
              | error f => simp [h2] at h
              | ok p2 =>
                obtain ⟨s2, y⟩ := p2
                simp only [h2, Except.ok.injEq] at h
                subst h
                exact quiet_trans (installSource_quiet _ _ _ _)
                  (quiet_trans (quiet_of_readBuffer h1) (quiet_of_readBuffer h2))

/-- Every call keeps the posted subtitle messages sound. -/
theorem perform_evolves {fuel : Nat} {c : Call} {s s' : GenericSource}
    (hinv : PendingSound s) (h : perform fuel c s = .ok s') : Evolves s s' := by
  cases c with
  | start => exact evolves_of_quiet (start_quiet h)
  | dequeueAccessUnit audio =>
    simp only [perform] at h
    cases hd : s.dequeueAccessUnit fuel audio with
    | error f => simp [hd] at h
    | ok r =>
      obtain ⟨r, a, s2⟩ := r
      simp only [hd, Except.ok.injEq] at h
      subst h
      exact (dequeueAccessUnit_evolves hd).1
  | selectTrack i sel =>
    simp only [perform] at h
    cases hd : s.selectTrack i sel with
    | error f => simp [hd] at h
    | ok r =>
      obtain ⟨r, s2⟩ := r
      simp only [hd, Except.ok.injEq] at h
      subst h
      exact (selectTrack_evolves hd).1
  | seekTo t =>
    simp only [perform] at h
    cases hd : s.seekTo fuel t with
    | error f => simp [hd] at h
    | ok r =>
      obtain ⟨r, s2⟩ := r
      simp only [hd, Except.ok.injEq] at h
      subst h
      exact evolves_of_quiet (seekTo_quiet hd)
  | deliver n =>
    simp only [perform] at h
    cases hp : s.posted[n]? with
    | none =>
      simp only [hp, Except.ok.injEq] at h
      subst h
      exact evolves_of_quiet (quiet_refl _)
    | some m =>
      simp only [hp] at h
      have hmem : m ∈ s.posted := List.getElem?_mem hp
      obtain ⟨msg, d⟩ := m
      cases msg with
      | kWhatFetchSubtitleData g t =>
        exact onFetchSubtitleData_evolves (fun hg => (hinv _ hmem g rfl).2 hg) h
      | kWhatSendSubtitleData g =>
        exact onSendSubtitleData_evolves (fun hg => (hinv _ hmem g rfl).2 hg) h
      | kWhatChangeAVSource i => exact evolves_of_quiet (onChangeAVSource_quiet h)

theorem performAll_sound {fuel : Nat} (cs : List Call) :
    ∀ {s s' : GenericSource}, PendingSound s → performAll fuel cs s = .ok s' →
      PendingSound s' ∧ s.mFetchSubtitleDataGeneration ≤ s'.mFetchSubtitleDataGeneration := by
  induction cs with
  | nil =>
    intro s s' hinv h
    simp only [performAll, Except.ok.injEq] at h
    subst h
    exact ⟨hinv, le_refl _⟩
  | cons c cs ih =>
    intro s s' hinv h
    simp only [performAll] at h
    cases hp : perform fuel c s with
    | error f => simp [hp] at h
    | ok s1 =>
      simp only [hp] at h
      obtain ⟨h1, h2⟩ := pendingSound_step hinv (perform_evolves hinv hp)
      obtain ⟨h3, h4⟩ := ih h1 h
      exact ⟨h3, le_trans h2 h4⟩

theorem invalidation_bumps {fuel : Nat} {s s' : GenericSource} {g : Int}
    (hinv : PendingSound s) (hle : g ≤ s.mFetchSubtitleDataGeneration)
    (hcur : g = s.mFetchSubtitleDataGeneration → s.mSubtitleTrack.mSource ≠ none)
    (h : Invalidation fuel s s') :
    PendingSound s' ∧ g < s'.mFetchSubtitleDataGeneration := by
  cases h with
  | deselect i h =>
    obtain ⟨he, hb, -⟩ := selectTrack_evolves h
    refine ⟨(pendingSound_step hinv he).1, ?_⟩
    rw [hb rfl rfl]
    exact lt_of_le_of_lt hle (lt_add_one _)
  | selectionChange i h hnew =>
    obtain ⟨he, -, hb⟩ := selectTrack_evolves h
    refine ⟨(pendingSound_step hinv he).1, ?_⟩
    rw [hb rfl hnew]
    exact lt_of_le_of_lt hle (lt_add_one _)
  | failedPop audio result entry h hresult =>
    obtain ⟨he, hb⟩ := dequeueAccessUnit_evolves h
    obtain ⟨h1, h2⟩ := pendingSound_step hinv he
    refine ⟨h1, ?_⟩
    by_cases hg : g = s.mFetchSubtitleDataGeneration
    · rw [hb (by simp) hresult (hcur hg)]
      exact lt_of_le_of_lt hle (lt_add_one _)
    · exact lt_of_lt_of_le (lt_of_le_of_ne hle hg) h2

/-- C8: in every execution that starts with nothing posted, a
`kWhatFetchSubtitleData` or `kWhatSendSubtitleData` message that is among the
posted messages, stamped with generation `g`, when a subtitle deselect, a
change of the selected subtitle track or a `dequeueAccessUnit` with a failed
pop of the primary queue happens, is stale at every later moment: after any
further calls the current generation exceeds `g` and the delivery of the
message returns the state it was given, so it issues no read, changes no queue
or slot, posts no message and sends no notification.  (The generation is a
mathematical integer here, which leaves out the wrap-around of the `int32_t`
counter.) -/
theorem stale_subtitle_message_discarded (fuel : Nat) (before after : List Call)
    (s0 s1 s2 s3 : GenericSource) (m : Message) (d g : Int)
    (hinit : s0.posted = [])
    (hbefore : performAll fuel before s0 = .ok s1)
    (hposted : (m, d) ∈ s1.posted)
    (hstamp : generationOf m = some g)
    (hevent : Invalidation fuel s1 s2)
    (hafter : performAll fuel after s2 = .ok s3) :
    g < s3.mFetchSubtitleDataGeneration ∧ s3.onMessageReceived fuel m = .ok s3 := by
  have h0 : PendingSound s0 := by
    intro m hm
    rw [hinit] at hm
    simp at hm
  obtain ⟨h1, -⟩ := performAll_sound before h0 hbefore
  obtain ⟨hle, hcur⟩ := h1 (m, d) hposted g hstamp
  obtain ⟨h2, hlt⟩ := invalidation_bumps h1 hle hcur hevent
  obtain ⟨-, hmono⟩ := performAll_sound after h2 hafter
  have hlt3 := lt_of_lt_of_le hlt hmono
  exact ⟨hlt3, onMessageReceived_stale hstamp (ne_of_lt hlt3)⟩

/-- C8 at a deselect-then-reselect: the subtitle track is selected and an audio
dequeue posts a fetch stamped 1; the track is deselected and selected again;
the fetch stamped 1 is then discarded at generation 3. -/
theorem stale_subtitle_message_discarded_witness :
    ∃ s3, performAll 1 [Call.selectTrack 2 true, Call.dequeueAccessUnit true,
        Call.selectTrack 2 false, Call.selectTrack 2 true] subtitleIdle = .ok s3 ∧
      (1 : Int) < s3.mFetchSubtitleDataGeneration ∧
      s3.onMessageReceived 1 (kWhatFetchSubtitleData 1 0) = .ok s3 := by
  have h := stale_subtitle_message_discarded 1
    [Call.selectTrack 2 true, Call.dequeueAccessUnit true] [Call.selectTrack 2 true]
    subtitleIdle _ _ _ (kWhatFetchSubtitleData 1 0) 0 1 rfl rfl
    (List.mem_singleton.mpr rfl) rfl (Invalidation.deselect 2 rfl) rfl
  exact ⟨_, rfl, h⟩

/-! ## MIME prefixes -/

theorem strncasecmp_eq_zero {a b : String} {n : Nat} :
    strncasecmp a b n = 0 ↔
      (a.toList.take n).map Char.toLower = (b.toList.take n).map Char.toLower := by
  unfold strncasecmp
  split_ifs with h
  · exact ⟨fun _ => h, fun _ => rfl⟩
  · exact ⟨fun h0 => absurd h0 (by decide), fun h1 => absurd h1 h⟩

theorem strcasecmp_eq_zero {a b : String} :
    strcasecmp a b = 0 ↔ a.toList.map Char.toLower = b.toList.map Char.toLower := by
  unfold strcasecmp
  split_ifs with h
  · exact ⟨fun _ => h, fun _ => rfl⟩
  · exact ⟨fun h0 => absurd h0 (by decide), fun h1 => absurd h1 h⟩

/-- A MIME type with the prefix `audio/` or `video/` does not have the prefix
`text/`. -/
theorem av_prefix_not_text {mime : String}
    (h : strncasecmp mime "audio/" 6 = 0 ∨ strncasecmp mime "video/" 6 = 0) :
    strncasecmp mime "text/" 5 ≠ 0 := by
  intro h5
  rw [strncasecmp_eq_zero] at h5
  have key : ∀ l : List Char, List.take 5 (List.map Char.toLower (List.take 6 l)) =
      List.map Char.toLower (List.take 5 l) := by
    intro l
    rw [← List.map_take, List.take_take]
    rfl
  rcases h with h | h
  · rw [strncasecmp_eq_zero] at h
    have h2 := congrArg (List.take 5) h
    rw [key, h5] at h2
    revert h2
    decide
  · rw [strncasecmp_eq_zero] at h
    have h2 := congrArg (List.take 5) h
    rw [key, h5] at h2
    revert h2
    decide

/-- The MIME type `text/3gpp` has neither the prefix `video/` nor the prefix
`audio/`. -/
theorem text3gpp_not_av {mime : String} (h : strcasecmp mime "text/3gpp" = 0) :
    strncasecmp mime "video/" 6 ≠ 0 ∧ strncasecmp mime "audio/" 6 ≠ 0 := by
  rw [strcasecmp_eq_zero] at h
  constructor
  · intro h6
    rw [strncasecmp_eq_zero, List.map_take, h] at h6
    revert h6
    decide
  · intro h6
    rw [strncasecmp_eq_zero, List.map_take, h] at h6
    revert h6
    decide

/-! ## Track selection: the failures -/

/-- The three ways `selectTrack` returns: the invalid-index status on an index
out of range, invalid-operation or `OK` on an index in range; the state is the
one it was given unless the status is `OK`. -/
theorem selectTrack_cases {i : Nat} {sel : Bool} {s s' : GenericSource} {r : status_t}
    (h : s.selectTrack i sel = .ok (r, s')) :
    (r = BAD_INDEX ∧ s' = s ∧ i ≥ s.mSources.length) ∨
    (r = INVALID_OPERATION ∧ s' = s ∧ i < s.mSources.length) ∨
    (r = OK ∧ i < s.mSources.length) := by
  unfold selectTrack at h
  by_cases hi : i ≥ s.mSources.length
  · rw [if_pos hi] at h
    simp only [Except.ok.injEq, Prod.mk.injEq] at h
    exact Or.inl ⟨h.1.symm, h.2.symm, hi⟩
  · rw [if_neg hi] at h
    have hlt : i < s.mSources.length := Nat.lt_of_not_ge hi
    right
    repeat' split at h
    all_goals first
      | (simp at h; done)
      | (simp only [Except.ok.injEq, Prod.mk.injEq] at h
         first
           | exact Or.inl ⟨h.1.symm, h.2.symm, hlt⟩
           | exact Or.inr ⟨h.1.symm, hlt⟩)

theorem selectTrack_bad_index (i : Nat) (sel : Bool) (s : GenericSource)
    (h : i ≥ s.mSources.length) : s.selectTrack i sel = .ok (BAD_INDEX, s) := by
  unfold selectTrack
  rw [if_pos h]

/-- C11: a `selectTrack` call that returns a status other than `OK` returns the
state it was given, so no slot, queue, generation, posted message or read
differs, and that status is the invalid-index or the invalid-operation status.
The invalid-index status is returned exactly when the index is at or beyond
`getTrackCount()`, whatever the enable flag is.  Enabling an in-range reader
whose MIME type has none of the prefixes `text/`, `audio/`, `video/` (compared
without regard to case) returns invalid-operation. -/
theorem selectTrack_failure (trackIndex : Nat) (select : Bool) (s : GenericSource) :
    (∀ r s', s.selectTrack trackIndex select = .ok (r, s') → r ≠ OK →
      s' = s ∧ (r = BAD_INDEX ∨ r = INVALID_OPERATION)) ∧
    ((∃ s', s.selectTrack trackIndex select = .ok (BAD_INDEX, s')) ↔
      trackIndex ≥ s.getTrackCount) ∧
    (trackIndex ≥ s.getTrackCount → s.selectTrack trackIndex select = .ok (BAD_INDEX, s)) ∧
    (∀ source mime, s.mSources[trackIndex]? = some source →
      source.format.kKeyMIMEType = some mime →
      strncasecmp mime "text/" 5 ≠ 0 → strncasecmp mime "audio/" 6 ≠ 0 →
      strncasecmp mime "video/" 6 ≠ 0 →
      s.selectTrack trackIndex true = .ok (INVALID_OPERATION, s)) := by
  refine ⟨?_, ⟨?_, ?_⟩, ?_, ?_⟩
  · intro r s' h hr
    rcases selectTrack_cases h with ⟨h1, h2, -⟩ | ⟨h1, h2, -⟩ | ⟨h1, -⟩
    · exact ⟨h2, Or.inl h1⟩
    · exact ⟨h2, Or.inr h1⟩
    · exact absurd h1 hr
  · rintro ⟨s', h⟩
    rcases selectTrack_cases h with ⟨-, -, h3⟩ | ⟨h1, -, -⟩ | ⟨h1, -⟩
    · exact h3
    · exact absurd h1 (by decide)
    · exact absurd h1 (by decide)
  · intro h
    exact ⟨s, selectTrack_bad_index _ _ _ h⟩
  · exact selectTrack_bad_index _ _ _
  · intro source mime hsrc hmime h1 h2 h3
    have hlt : ¬ trackIndex ≥ s.mSources.length := by
      intro hge
      rw [List.getElem?_eq_none hge] at hsrc
      exact absurd hsrc (by simp)
    unfold selectTrack
    rw [if_neg hlt]
    simp only [Bool.not_true, Bool.false_eq_true, if_false, hsrc, hmime, h1, h2, h3,
      Bool.or_self, decide_False]

/-- C11 on a catalog of three readers and on a catalog with a reader of MIME
type `application/x-subrip`: index 3 is refused as invalid whatever the flag,
and enabling the other reader is refused as an invalid operation. -/
theorem selectTrack_failure_witness :
    subtitleIdle.selectTrack 3 false = .ok (BAD_INDEX, subtitleIdle) ∧
    subtitleIdle.selectTrack 3 true = .ok (BAD_INDEX, subtitleIdle) ∧
    withDataTrack.selectTrack 1 true = .ok (INVALID_OPERATION, withDataTrack) :=
  ⟨(selectTrack_failure 3 false subtitleIdle).2.2.1 (by decide),
   (selectTrack_failure 3 true subtitleIdle).2.2.1 (by decide),
   (selectTrack_failure 1 true withDataTrack).2.2.2 _ _ rfl rfl (by decide) (by decide)
     (by decide)⟩

/-! ## Track selection: the subtitle slot -/

/-- C12: `selectTrack(i, false)` on an index in range, in a state whose subtitle
slot has its queue whenever it has a reader (which holds in every state the
object reaches, see `reachable_subtitleQueued`).  The call returns `OK` exactly
when a subtitle reader is active and `i` is the index of the subtitle slot.  In
that case the subtitle reader becomes absent, the subtitle queue is emptied,
the generation grows by exactly one and nothing else differs (the audio and
the video slot, the catalog, the posted messages and the reads are as they
were), and a second `selectTrack(i, false)` is refused as an invalid operation
and changes nothing.  In every other case the call is refused as an invalid
operation and returns the state it was given.  The generation is the
`int32_t` member `mFetchSubtitleDataGeneration`: the state is one in which it
is below `INT32_MAX`, so that the increment of line 445 does not overflow, and
the new value is again a value of the member. -/
theorem selectTrack_disable (i : Nat) (s : GenericSource) (hi : i < s.getTrackCount)
    (hinv : SubtitleQueued s) (hgen : s.mFetchSubtitleDataGeneration < INT32_MAX) :
    ((∃ s', s.selectTrack i false = .ok (OK, s')) ↔
      (s.mSubtitleTrack.mSource ≠ none ∧ i = s.mSubtitleTrack.mIndex)) ∧
    (s.mSubtitleTrack.mSource ≠ none → i = s.mSubtitleTrack.mIndex →
      ∃ q s', s.mSubtitleTrack.mPackets = some q ∧
        s.selectTrack i false = .ok (OK, s') ∧
        s' = { s with
               mSubtitleTrack :=
                 { s.mSubtitleTrack with mSource := none, mPackets := some q.clear }
               mFetchSubtitleDataGeneration := s.mFetchSubtitleDataGeneration + 1 } ∧
        s'.mSubtitleTrack.mSource = none ∧
        s'.mSubtitleTrack.mPackets.map (fun p => p.mBuffers) = some [] ∧
        s'.mFetchSubtitleDataGeneration = s.mFetchSubtitleDataGeneration + 1 ∧
        s'.mFetchSubtitleDataGeneration ≤ INT32_MAX ∧
        s'.mAudioTrack = s.mAudioTrack ∧ s'.mVideoTrack = s.mVideoTrack ∧
        s'.mSources = s.mSources ∧ s'.posted = s.posted ∧ s'.reads = s.reads ∧
        s'.selectTrack i false = .ok (INVALID_OPERATION, s')) ∧
    (¬ (s.mSubtitleTrack.mSource ≠ none ∧ i = s.mSubtitleTrack.mIndex) →
      s.selectTrack i false = .ok (INVALID_OPERATION, s)) := by
  have hlt : ¬ i ≥ s.mSources.length := Nat.not_le.mpr hi
  -- the refusal
  have hrefuse : ∀ s0 : GenericSource, s0.mSources = s.mSources →
      ¬ (s0.mSubtitleTrack.mSource ≠ none ∧ i = s0.mSubtitleTrack.mIndex) →
      s0.selectTrack i false = .ok (INVALID_OPERATION, s0) := by
    intro s0 h0 hno
    unfold selectTrack
    rw [h0, if_neg hlt]
    have hc : (s0.mSubtitleTrack.mSource.isNone || decide (i ≠ s0.mSubtitleTrack.mIndex)) = true := by
      cases hs : s0.mSubtitleTrack.mSource with
      | none => simp
      | some src =>
        have : i ≠ s0.mSubtitleTrack.mIndex := fun hi2 => hno ⟨by simp [hs], hi2⟩
        simp [this]
    simp only [Bool.not_false, if_true, hc]
  -- the success
  have hdo : s.mSubtitleTrack.mSource ≠ none → i = s.mSubtitleTrack.mIndex →
      ∃ q, s.mSubtitleTrack.mPackets = some q ∧
        s.selectTrack i false = .ok (OK,
          { s with
            mSubtitleTrack :=
              { s.mSubtitleTrack with mSource := none, mPackets := some q.clear }
            mFetchSubtitleDataGeneration := s.mFetchSubtitleDataGeneration + 1 }) := by
    intro hs hidx
    cases hq : s.mSubtitleTrack.mPackets with
    | none => exact absurd hq (hinv hs)
    | some q =>
      refine ⟨q, rfl, ?_⟩
      unfold selectTrack
      rw [if_neg hlt]
      have hc : (s.mSubtitleTrack.mSource.isNone || decide (i ≠ s.mSubtitleTrack.mIndex)) = false := by
        cases hs2 : s.mSubtitleTrack.mSource with
        | none => exact absurd hs2 hs
        | some src => simp [hidx]
      simp only [Bool.not_false, if_true, hc, Bool.false_eq_true, if_false, hq]
  refine ⟨⟨?_, ?_⟩, ?_, hrefuse s rfl⟩
  · rintro ⟨s', h⟩
    by_contra hno
    rw [hrefuse s rfl hno] at h
    simp only [Except.ok.injEq, Prod.mk.injEq] at h
    exact absurd h.1 (by decide)
  · rintro ⟨hs, hidx⟩
    obtain ⟨q, -, h⟩ := hdo hs hidx
    exact ⟨_, h⟩
  · intro hs hidx
    obtain ⟨q, hq, h⟩ := hdo hs hidx
    refine ⟨q, _, hq, h, rfl, rfl, rfl, rfl, Int.add_one_le_iff.mpr hgen, rfl, rfl, rfl, rfl,
      rfl, ?_⟩
    exact hrefuse _ rfl (fun hc => hc.1 rfl)

/-- C12 at a source whose subtitle track (catalog index 2) is selected at
generation 1: the deselect succeeds and leaves generation 2, a second deselect
is refused, and so is the deselect of the active audio index 0. -/
theorem selectTrack_disable_witness :
    ∃ s', subtitleSelected.selectTrack 2 false = .ok (OK, s') ∧
      s'.mSubtitleTrack.mSource = none ∧ s'.mFetchSubtitleDataGeneration = 2 ∧
      s'.selectTrack 2 false = .ok (INVALID_OPERATION, s') ∧
      subtitleSelected.selectTrack 0 false = .ok (INVALID_OPERATION, subtitleSelected) := by
  have h := selectTrack_disable 2 subtitleSelected (by decide) (fun _ => by decide) (by decide)
  obtain ⟨q, s', -, h1, -, h2, -, h3, -, -, -, -, -, -, h4⟩ :=
    h.2.1 (by simp [subtitleSelected]) rfl
  exact ⟨s', h1, h2, h3, h4,
    (selectTrack_disable 0 subtitleSelected (by decide) (fun _ => by decide) (by decide)).2.2
      (fun hc => absurd hc.2 (by decide))⟩

/-- C13: `selectTrack(i, true)` on an in-range reader whose MIME type has the
prefix `text/` returns `OK`.  When the subtitle slot has a reader and its index
is `i`, the state is returned as it was.  Otherwise the reader of the subtitle
slot becomes catalog entry `i` with slot index `i`, the subtitle queue exists
and is empty (new when there was none, cleared when there was one), the
generation grows by exactly one, and the audio slot, the video slot, the
catalog, the posted messages and the reads are as they were.  The generation
is the `int32_t` member `mFetchSubtitleDataGeneration`: the state is one in
which it is below `INT32_MAX`, so that the increment of line 465 does not
overflow, and the new value is again a value of the member. -/
theorem selectTrack_text (i : Nat) (s : GenericSource) (source : MediaSource) (mime : String)
    (hsrc : s.mSources[i]? = some source)
    (hmime : source.format.kKeyMIMEType = some mime)
    (htext : strncasecmp mime "text/" 5 = 0)
    (hgen : s.mFetchSubtitleDataGeneration < INT32_MAX) :
    i < s.getTrackCount ∧
    (s.mSubtitleTrack.mSource ≠ none ∧ s.mSubtitleTrack.mIndex = i →
      s.selectTrack i true = .ok (OK, s)) ∧
    (¬ (s.mSubtitleTrack.mSource ≠ none ∧ s.mSubtitleTrack.mIndex = i) →
      ∃ s', s.selectTrack i true = .ok (OK, s') ∧
        s'.mSubtitleTrack.mSource = some source ∧ s'.mSubtitleTrack.mIndex = i ∧
        s'.mSubtitleTrack.mPackets = some {} ∧
        s'.mFetchSubtitleDataGeneration = s.mFetchSubtitleDataGeneration + 1 ∧
        s'.mFetchSubtitleDataGeneration ≤ INT32_MAX ∧
        s'.mAudioTrack = s.mAudioTrack ∧ s'.mVideoTrack = s.mVideoTrack ∧
        s'.mSources = s.mSources ∧ s'.posted = s.posted ∧ s'.reads = s.reads ∧
        s'.notified = s.notified) := by
  have hi : i < s.mSources.length := by
    by_contra hge
    rw [List.getElem?_eq_none (Nat.le_of_not_lt hge)] at hsrc
    exact absurd hsrc (by simp)
  have hlt : ¬ i ≥ s.mSources.length := Nat.not_le.mpr hi
  refine ⟨hi, ?_, ?_⟩
  · rintro ⟨hs, hidx⟩
    unfold selectTrack
    rw [if_neg hlt]
    have hc : (s.mSubtitleTrack.mSource.isSome && decide (s.mSubtitleTrack.mIndex = i)) = true := by
      cases hs2 : s.mSubtitleTrack.mSource with
      | none => exact absurd hs2 hs
      | some src => simp [hidx]
    simp only [Bool.not_true, Bool.false_eq_true, if_false, hsrc, hmime, htext, if_true, hc]
  · intro hno
    have hc : (s.mSubtitleTrack.mSource.isSome && decide (s.mSubtitleTrack.mIndex = i)) = false := by
      cases hs2 : s.mSubtitleTrack.mSource with
      | none => simp
      | some src =>
        have : s.mSubtitleTrack.mIndex ≠ i := fun h2 => hno ⟨by simp [hs2], h2⟩
        simp [this]
    have hrun : s.selectTrack i true = .ok (OK,
        { s with
          mSubtitleTrack :=
            { mIndex := i, mSource := some source,
              mPackets := some (match s.mSubtitleTrack.mPackets with
                | none => {}
                | some q => q.clear) }
          mFetchSubtitleDataGeneration := s.mFetchSubtitleDataGeneration + 1 }) := by
      unfold selectTrack
      rw [if_neg hlt]
      simp only [Bool.not_true, Bool.false_eq_true, if_false, hsrc, hmime, htext, if_true, hc]
    refine ⟨_, hrun, rfl, rfl, ?_, rfl, Int.add_one_le_iff.mpr hgen, rfl, rfl, rfl, rfl, rfl,
      rfl⟩
    cases s.mSubtitleTrack.mPackets <;> rfl

/-- C13 at a playing source without a subtitle track: enabling the text reader
of catalog index 2 installs it with an empty queue at generation 1, and
enabling it again changes nothing. -/
theorem selectTrack_text_witness :
    ∃ s', subtitleIdle.selectTrack 2 true = .ok (OK, s') ∧
      s'.mSubtitleTrack.mSource.map (fun r => r.id) = some 2 ∧
      s'.mSubtitleTrack.mIndex = 2 ∧ s'.mSubtitleTrack.mPackets = some {} ∧
      s'.mFetchSubtitleDataGeneration = 1 ∧
      subtitleSelected.selectTrack 2 true = .ok (OK, subtitleSelected) := by
  have h := selectTrack_text 2 subtitleIdle (cueReader 2 4000000) "text/3gpp" rfl rfl
    (by decide) (by decide)
  obtain ⟨s', h1, h2, h3, h4, h5, -⟩ := h.2.2 (fun hc => absurd hc.1 (by simp [subtitleIdle]))
  refine ⟨s', h1, by rw [h2]; rfl, h3, h4, h5, ?_⟩
  exact (selectTrack_text 2 subtitleSelected (cueReader 2 4000000) "text/3gpp" rfl rfl
    (by decide) (by decide)).2.1 ⟨by simp [subtitleSelected], rfl⟩

/-! ## What the calls leave as it was -/

theorem callFrame_refl (s : GenericSource) : CallFrame s s := ⟨rfl, rfl, rfl, rfl⟩

theorem callFrame_trans {s s1 s2 : GenericSource} (h1 : CallFrame s s1) (h2 : CallFrame s1 s2) :
    CallFrame s s2 :=
  ⟨h2.mSources.trans h1.mSources, h2.duration.trans h1.duration, h2.vorbis.trans h1.vorbis,
    h2.widevine.trans h1.widevine⟩

theorem slotsKept_refl (s : GenericSource) : SlotsKept s s := ⟨rfl, rfl, rfl, rfl⟩

theorem slotsKept_trans {s s1 s2 : GenericSource} (h1 : SlotsKept s s1) (h2 : SlotsKept s1 s2) :
    SlotsKept s s2 :=
  ⟨h2.1.trans h1.1, h2.2.1.trans h1.2.1, h2.2.2.1.trans h1.2.2.1, h2.2.2.2.trans h1.2.2.2⟩

theorem avFrame_refl (s : GenericSource) : AVFrame s s :=
  ⟨callFrame_refl s, slotsKept_refl s, rfl, rfl, rfl, rfl, rfl, rfl⟩

theorem avFrame_trans {s s1 s2 : GenericSource} (h1 : AVFrame s s1) (h2 : AVFrame s1 s2) :
    AVFrame s s2 :=
  ⟨callFrame_trans h1.call h2.call, slotsKept_trans h1.slots h2.slots,
    h2.generation.trans h1.generation, h2.posted.trans h1.posted,
    h2.notified.trans h1.notified, h2.subtitleSource.trans h1.subtitleSource,
    h2.subtitleIndex.trans h1.subtitleIndex, h2.subtitlePackets.trans h1.subtitlePackets⟩

theorem callFrame_of_pump {trackType : media_track_type} {s s' : GenericSource}
    (h : PumpFrame trackType s s') : CallFrame s s' :=
  ⟨h.mSources, h.duration, h.vorbis, h.widevine⟩

theorem slotsKept_of_pump {trackType : media_track_type} {s s' : GenericSource}
    (h : PumpFrame trackType s s') : SlotsKept s s' :=
  ⟨h.audioSource, h.audioIndex, h.videoSource, h.videoIndex⟩

theorem avFrame_of_pump {trackType : media_track_type} {s s' : GenericSource}
    (ht : trackType ≠ MEDIA_TRACK_TYPE_SUBTITLE) (h : PumpFrame trackType s s') :
    AVFrame s s' :=
  ⟨callFrame_of_pump h, slotsKept_of_pump h, h.generation, h.posted, h.notified,
    h.subtitleSource, h.subtitleIndex, h.subtitlePackets ht⟩

theorem avFrame_of_readBuffer {fuel : Nat} {trackType : media_track_type} {seekTimeUs : Int}
    {formatChange : Bool} {s s' : GenericSource} {t : Option Int}
    (ht : trackType ≠ MEDIA_TRACK_TYPE_SUBTITLE)
    (h : s.readBuffer fuel trackType seekTimeUs formatChange = .ok (s', t)) : AVFrame s s' :=
  avFrame_of_pump ht (readBuffer_frame h)

theorem avFrame_setPackets (s : GenericSource) ( audio : Bool) (q : AnotherPacketSource) :
    AVFrame s (s.setPackets (typeOf audio) q) :=
  avFrame_of_pump (typeOf_ne_subtitle audio) (pumpFrame_setPackets _ _ _)

theorem subtitleQueued_of_avFrame {s s' : GenericSource} (h : AVFrame s s')
    (hinv : SubtitleQueued s) : SubtitleQueued s' := by
  unfold SubtitleQueued at *
  rw [h.subtitleSource, h.subtitlePackets]
  exact hinv

theorem startTrack_avFrame {fuel : Nat} { audio : Bool} {s s' : GenericSource}
    (h : s.startTrack fuel audio = .ok s') : AVFrame s s' := by
  unfold startTrack at h
  split at h
  · simp only [Except.ok.injEq] at h
    subst h
    exact avFrame_refl s
  · cases hr : (s.setPackets (typeOf audio) {}).readBuffer fuel (typeOf audio) (-1) false with
    | error f => simp [hr] at h
    | ok p =>
      obtain ⟨s2, t⟩ := p
      simp only [hr, Except.ok.injEq] at h
      subst h
      exact avFrame_trans (avFrame_setPackets s audio {})
        (avFrame_of_readBuffer (typeOf_ne_subtitle audio) hr)

theorem start_avFrame {fuel : Nat} {s s' : GenericSource} (h : s.start fuel = .ok s') :
    AVFrame s s' := by
  unfold start at h
  cases h1 : s.startTrack fuel true with
  | error f => simp [h1] at h
  | ok s1 =>
    simp only [h1] at h
    exact avFrame_trans (startTrack_avFrame h1) (startTrack_avFrame h)

theorem seekAudio_avFrame {fuel : Nat} {s s' : GenericSource} {v : Int} {r : status_t}
    (h : s.seekAudio fuel v = .ok (r, s')) : AVFrame s s' := by
  unfold seekAudio at h
  split at h
  · cases hr : s.readBuffer fuel MEDIA_TRACK_TYPE_AUDIO v false with
    | error f => simp [hr] at h
    | ok p =>
      obtain ⟨s2, t⟩ := p
      simp only [hr, Except.ok.injEq, Prod.mk.injEq] at h
      obtain ⟨-, h⟩ := h
      subst h
      exact avFrame_of_readBuffer (by decide) hr
  · simp only [Except.ok.injEq, Prod.mk.injEq] at h
    obtain ⟨-, h⟩ := h
    subst h
    exact avFrame_refl s

theorem seekTo_avFrame {fuel : Nat} {s s' : GenericSource} {t : Int} {r : status_t}
    (h : s.seekTo fuel t = .ok (r, s')) : AVFrame s s' := by
  unfold seekTo at h
  split at h
  · cases hr : s.readBuffer fuel MEDIA_TRACK_TYPE_VIDEO t false with
    | error f => simp [hr] at h
    | ok p =>
      obtain ⟨s2, a⟩ := p
      cases a with
      | none => simp [hr] at h
      | some v =>
        simp only [hr] at h
        exact avFrame_trans (avFrame_of_readBuffer (by decide) hr) (seekAudio_avFrame h)
  · exact seekAudio_avFrame h

theorem widevineAudioPump_avFrame {fuel : Nat} { audio : Bool} {s s1 : GenericSource}
    (h : widevineAudioPump fuel audio s = .ok s1) : AVFrame s s1 :=
  avFrame_of_pump (by decide) (widevineAudioPump_frame h).1

/-- The subtitle side effect keeps the catalog, the duration, the flags and
both primary slots, and leaves a subtitle slot that has its queue whenever it
has a reader. -/
theorem subtitleSideEffect_steady {r r' : status_t} {a a' : Option ABuffer}
    {s s' : GenericSource} (h : subtitleSideEffect r a s = .ok (r', a', s')) :
    CallFrame s s' ∧ SlotsKept s s' ∧ SubtitleQueued s' := by
  unfold subtitleSideEffect at h
  unfold SubtitleQueued
  repeat' split at h
  all_goals first
    | (simp at h; done)
    | (simp only [Except.ok.injEq, Prod.mk.injEq] at h
       obtain ⟨h1, h2, h3⟩ := h
       subst h1 h2 h3
       refine ⟨⟨rfl, rfl, rfl, rfl⟩, ⟨rfl, rfl, rfl, rfl⟩, ?_⟩
       simp_all)

theorem popAndReadAhead_steady {fuel : Nat} { audio : Bool} {s s' : GenericSource}
    {r : status_t} {a : Option ABuffer}
    (h : popAndReadAhead fuel audio s = .ok (r, a, s')) :
    CallFrame s s' ∧ SlotsKept s s' ∧ (SubtitleQueued s → SubtitleQueued s') := by
  unfold popAndReadAhead at h
  cases hq : (s.avTrack audio).mPackets with
  | none => simp [hq] at h
  | some q =>
    simp only [hq] at h
    by_cases hav : q.hasBufferAvailable.1 = true
    · simp only [hav, Bool.not_true, Bool.false_eq_true, if_false] at h
      have hq1 := avFrame_setPackets s audio q.dequeueAccessUnit.2.2
      split_ifs at h
      · cases hr : (s.setPackets (typeOf audio) q.dequeueAccessUnit.2.2).readBuffer fuel
            (typeOf audio) (-1) false with
        | error f => simp [hr] at h
        | ok p =>
          obtain ⟨s2, t⟩ := p
          simp only [hr] at h
          have hq2 := avFrame_trans hq1 (avFrame_of_readBuffer (typeOf_ne_subtitle audio) hr)
          obtain ⟨h1, h2, h3⟩ := subtitleSideEffect_steady h
          exact ⟨callFrame_trans hq2.call h1, slotsKept_trans hq2.slots h2, fun _ => h3⟩
      · obtain ⟨h1, h2, h3⟩ := subtitleSideEffect_steady h
        exact ⟨callFrame_trans hq1.call h1, slotsKept_trans hq1.slots h2, fun _ => h3⟩
    · simp only [Bool.not_eq_true] at hav
      simp only [hav, Bool.not_false, if_true, Except.ok.injEq, Prod.mk.injEq] at h
      obtain ⟨-, -, h⟩ := h
      subst h
      exact ⟨callFrame_refl _, slotsKept_refl _, id⟩

theorem dequeueAccessUnit_steady {fuel : Nat} { audio : Bool} {s s' : GenericSource}
    {r : status_t} {a : Option ABuffer}
    (h : s.dequeueAccessUnit fuel audio = .ok (r, a, s')) :
    CallFrame s s' ∧ SlotsKept s s' ∧ (SubtitleQueued s → SubtitleQueued s') := by
  unfold dequeueAccessUnit at h
  split at h
  · simp only [Except.ok.injEq, Prod.mk.injEq] at h
    obtain ⟨-, -, h⟩ := h
    subst h
    exact ⟨callFrame_refl _, slotsKept_refl _, id⟩
  · cases hp : widevineAudioPump fuel audio s with
    | error f => simp [hp] at h
    | ok s1 =>
      simp only [hp] at h
      have hq := widevineAudioPump_avFrame hp
      obtain ⟨h1, h2, h3⟩ := popAndReadAhead_steady h
      exact ⟨callFrame_trans hq.call h1, slotsKept_trans hq.slots h2,
        fun hinv => h3 (subtitleQueued_of_avFrame hq hinv)⟩

theorem selectTrack_steady {i : Nat} {sel : Bool} {s s' : GenericSource} {r : status_t}
    (h : s.selectTrack i sel = .ok (r, s')) :
    CallFrame s s' ∧ SlotsKept s s' ∧ (SubtitleQueued s → SubtitleQueued s') := by
  unfold selectTrack at h
  unfold SubtitleQueued
  repeat' split at h
  all_goals first
    | (simp at h; done)
    | (simp only [Except.ok.injEq, Prod.mk.injEq] at h
       obtain ⟨hr, h⟩ := h
       subst h
       refine ⟨⟨rfl, rfl, rfl, rfl⟩, ⟨rfl, rfl, rfl, rfl⟩, ?_⟩
       first
         | exact id
         | simp)

theorem onFetchSubtitleData_steady {fuel : Nat} {g t : Int} {s s' : GenericSource}
    (h : s.onFetchSubtitleData fuel g t = .ok s') :
    CallFrame s s' ∧ SlotsKept s s' ∧ (SubtitleQueued s → SubtitleQueued s') := by
  unfold onFetchSubtitleData at h
  split_ifs at h with h1
  · simp only [Except.ok.injEq] at h
    subst h
    exact ⟨callFrame_refl _, slotsKept_refl _, id⟩
  · cases hq : s.mSubtitleTrack.mPackets with
    | none => simp [hq] at h
    | some q =>
      simp only [hq] at h
      split_ifs at h
      · simp only [Except.ok.injEq] at h
        subst h
        exact ⟨callFrame_refl _, slotsKept_refl _, id⟩
      · cases hr : s.readBuffer fuel MEDIA_TRACK_TYPE_SUBTITLE t false with
        | error f => simp [hr] at h
        | ok p =>
          obtain ⟨s1, a⟩ := p
          cases a with
          | none => simp [hr] at h
          | some v =>
            simp only [hr, Except.ok.injEq] at h
            subst h
            have hf := readBuffer_frame hr
            refine ⟨⟨hf.mSources, hf.duration, hf.vorbis, hf.widevine⟩,
              ⟨hf.audioSource, hf.audioIndex, hf.videoSource, hf.videoIndex⟩, ?_⟩
            intro _ _
            cases hs : s.mSubtitleTrack.mSource with
            | none =>
              have := readBuffer_no_reader fuel t false
                (show s.trackOf MEDIA_TRACK_TYPE_SUBTITLE = some s.mSubtitleTrack from rfl) hs
              rw [this] at hr
              simp at hr
            | some src =>
              obtain ⟨q', hq', -⟩ := readBuffer_queue
                (show s.trackOf MEDIA_TRACK_TYPE_SUBTITLE = some s.mSubtitleTrack from rfl)
                hs hq hr
              have : s1.mSubtitleTrack.mPackets = some q' := by
                simpa [packetsOf, trackOf] using hq'
              simp [this]

theorem onSendSubtitleData_steady {fuel : Nat} {g : Int} {s s' : GenericSource}
    (h : s.onSendSubtitleData fuel g = .ok s') :
    CallFrame s s' ∧ SlotsKept s s' ∧ (SubtitleQueued s → SubtitleQueued s') := by
  unfold onSendSubtitleData at h
  split_ifs at h with h1
  · simp only [Except.ok.injEq] at h
    subst h
    exact ⟨callFrame_refl _, slotsKept_refl _, id⟩
  · cases hq : s.mSubtitleTrack.mPackets with
    | none => simp [hq] at h
    | some q =>
      simp only [hq] at h
      cases hn : q.nextBufferTime with
      | error f => simp [hn] at h
      | ok p =>
        obtain ⟨status, subTimeUs⟩ := p
        simp only [hn] at h
        split_ifs at h with h2
        · simp only [Except.ok.injEq] at h
          subst h
          exact ⟨callFrame_refl _, slotsKept_refl _, id⟩
        · cases hr : s.readBuffer fuel MEDIA_TRACK_TYPE_SUBTITLE (-1) false with
          | error f => simp [hr] at h
          | ok p =>
            obtain ⟨s1, a⟩ := p
            simp only [hr] at h
            have hf := readBuffer_frame hr
            cases hq2 : s1.mSubtitleTrack.mPackets with
            | none => simp [hq2] at h
            | some q1 =>
              simp only [hq2] at h
              split_ifs at h with h3
              · simp only [Except.ok.injEq] at h
                subst h
                exact ⟨⟨hf.mSources, hf.duration, hf.vorbis, hf.widevine⟩,
                      ⟨hf.audioSource, hf.audioIndex, hf.videoSource, hf.videoIndex⟩,
                      fun _ _ => by simp⟩
              · cases hb : q1.dequeueAccessUnit.2.1 with
                | none => simp [hb] at h
                | some buffer =>
                  simp only [hb] at h
                  cases a with
                  | none => simp at h
                  | some nextSubTimeUs =>
                    simp only [Except.ok.injEq] at h
                    subst h
                    exact ⟨⟨hf.mSources, hf.duration, hf.vorbis, hf.widevine⟩,
                      ⟨hf.audioSource, hf.audioIndex, hf.videoSource, hf.videoIndex⟩,
                      fun _ _ => by simp⟩

theorem installSource_frame (s : GenericSource) (isAudio : Bool) (src : MediaSource) (i : Nat) :
    CallFrame s (s.installSource isAudio src i) ∧
    (s.installSource isAudio src i).mSubtitleTrack = s.mSubtitleTrack := by
  cases isAudio <;> exact ⟨⟨rfl, rfl, rfl, rfl⟩, rfl⟩

/-- The track switch keeps the catalog, the duration, the flags and the
subtitle slot. -/
theorem onChangeAVSource_frame {fuel i : Nat} {s s' : GenericSource}
    (h : s.onChangeAVSource fuel i = .ok s') :
    CallFrame s s' ∧ (SubtitleQueued s → SubtitleQueued s') := by
  unfold onChangeAVSource at h
  cases hg : s.mSources[i]? with
  | none => simp [hg] at h
  | some source =>
    simp only [hg] at h
    cases hm : source.format.kKeyMIMEType with
    | none => simp [hm] at h
    | some mime =>
      simp only [hm] at h
      cases hs : switchTarget mime with
      | error f => simp [hs] at h
      | ok isAudio =>
        simp only [hs] at h
        cases hq : ((s.installSource isAudio source i).avTrack isAudio).mPackets with
        | none => simp [hq] at h
        | some q =>
          simp only [hq] at h
          split_ifs at h
          cases hl : q.getLatestMeta.bind (fun m => m.timeUs) with
          | none => simp [hl] at h
          | some t =>
            simp only [hl] at h
            cases h1 : (s.installSource isAudio source i).readBuffer fuel (typeOf isAudio) t
                true with
            | error f => simp [h1] at h
            | ok p =>
              obtain ⟨s1, x⟩ := p
              simp only [h1] at h
              cases h2 : s1.readBuffer fuel (typeOf (!isAudio)) (-1) true with
              | error f => simp [h2] at h
              | ok p2 =>
                obtain ⟨s2, y⟩ := p2
                simp only [h2, Except.ok.injEq] at h
                subst h
                have ha := avFrame_trans (avFrame_of_readBuffer (typeOf_ne_subtitle _) h1)
                  (avFrame_of_readBuffer (typeOf_ne_subtitle _) h2)
                obtain ⟨hi1, hi2⟩ := installSource_frame s isAudio source i
                refine ⟨callFrame_trans hi1 ha.call, ?_⟩
                intro hinv
                apply subtitleQueued_of_avFrame ha
                unfold SubtitleQueued
                rw [hi2]
                exact hinv

/-- Every call keeps the catalog, the duration and the two mode flags, and
keeps the queue of a subtitle slot that has a reader; every call other than the
delivery of a `kWhatChangeAVSource` message keeps the reader and the index of
the audio and of the video slot. -/
theorem perform_steady {fuel : Nat} {c : Call} {s s' : GenericSource}
    (h : perform fuel c s = .ok s') :
    CallFrame s s' ∧ (SubtitleQueued s → SubtitleQueued s') ∧
    (deliversSwitch s c = false → SlotsKept s s') := by
  cases c with
  | start =>
    have ha := start_avFrame h
    exact ⟨ha.call, subtitleQueued_of_avFrame ha, fun _ => ha.slots⟩
  | dequeueAccessUnit audio =>
    simp only [perform] at h
    cases hd : s.dequeueAccessUnit fuel audio with
    | error f => simp [hd] at h
    | ok r =>
      obtain ⟨r, a, s2⟩ := r
      simp only [hd, Except.ok.injEq] at h
      subst h
      obtain ⟨h1, h2, h3⟩ := dequeueAccessUnit_steady hd
      exact ⟨h1, h3, fun _ => h2⟩
  | selectTrack i sel =>
    simp only [perform] at h
    cases hd : s.selectTrack i sel with
    | error f => simp [hd] at h
    | ok r =>
      obtain ⟨r, s2⟩ := r
      simp only [hd, Except.ok.injEq] at h
      subst h
      obtain ⟨h1, h2, h3⟩ := selectTrack_steady hd
      exact ⟨h1, h3, fun _ => h2⟩
  | seekTo t =>
    simp only [perform] at h
    cases hd : s.seekTo fuel t with
    | error f => simp [hd] at h
    | ok r =>
      obtain ⟨r, s2⟩ := r
      simp only [hd, Except.ok.injEq] at h
      subst h
      have ha := seekTo_avFrame hd
      exact ⟨ha.call, subtitleQueued_of_avFrame ha, fun _ => ha.slots⟩
  | deliver n =>
    simp only [perform] at h
    cases hp : s.posted[n]? with
    | none =>
      simp only [hp, Except.ok.injEq] at h
      subst h
      exact ⟨callFrame_refl _, id, fun _ => slotsKept_refl _⟩
    | some m =>
      simp only [hp] at h
      obtain ⟨msg, d⟩ := m
      cases msg with
      | kWhatFetchSubtitleData g t =>
        obtain ⟨h1, h2, h3⟩ := onFetchSubtitleData_steady h
        exact ⟨h1, h3, fun _ => h2⟩
      | kWhatSendSubtitleData g =>
        obtain ⟨h1, h2, h3⟩ := onSendSubtitleData_steady h
        exact ⟨h1, h3, fun _ => h2⟩
      | kWhatChangeAVSource i =>
        obtain ⟨h1, h2⟩ := onChangeAVSource_frame h
        refine ⟨h1, h2, ?_⟩
        intro hc
        simp [deliversSwitch, hp] at hc

theorem performAll_steady {fuel : Nat} (cs : List Call) :
    ∀ {s s' : GenericSource}, performAll fuel cs s = .ok s' →
      CallFrame s s' ∧ (SubtitleQueued s → SubtitleQueued s') := by
  induction cs with
  | nil =>
    intro s s' h
    simp only [performAll, Except.ok.injEq] at h
    subst h
    exact ⟨callFrame_refl _, id⟩
  | cons c cs ih =>
    intro s s' h
    simp only [performAll] at h
    cases hp : perform fuel c s with
    | error f => simp [hp] at h
    | ok s1 =>
      simp only [hp] at h
      obtain ⟨h1, h2, -⟩ := perform_steady hp
      obtain ⟨h3, h4⟩ := ih h
      exact ⟨callFrame_trans h1 h3, fun hinv => h4 (h2 hinv)⟩

/-! ## Track selection: the audio and the video slot -/

theorem switchTarget_av {mime : String}
    (hav : strncasecmp mime "audio/" 6 = 0 ∨ strncasecmp mime "video/" 6 = 0) :
    switchTarget mime = .ok (decide (strncasecmp mime "audio/" 6 = 0)) := by
  unfold switchTarget
  by_cases ha : strncasecmp mime "audio/" 6 = 0
  · simp [ha]
  · have hv : strncasecmp mime "video/" 6 = 0 := hav.resolve_left ha
    simp [ha, hv]

/-- A track switch that returns has installed the catalog entry it names in
the slot of its MIME type, with the catalog index as slot index. -/
theorem onChangeAVSource_installs {fuel i : Nat} {s s' : GenericSource}
    (h : s.onChangeAVSource fuel i = .ok s') :
    ∃ source mime isAudio, s.mSources[i]? = some source ∧
      source.format.kKeyMIMEType = some mime ∧ switchTarget mime = .ok isAudio ∧
      (s'.avTrack isAudio).mSource = some source ∧ (s'.avTrack isAudio).mIndex = i := by
  unfold onChangeAVSource at h
  cases hg : s.mSources[i]? with
  | none => simp [hg] at h
  | some source =>
    simp only [hg] at h
    cases hm : source.format.kKeyMIMEType with
    | none => simp [hm] at h
    | some mime =>
      simp only [hm] at h
      cases hs : switchTarget mime with
      | error f => simp [hs] at h
      | ok isAudio =>
        simp only [hs] at h
        cases hq : ((s.installSource isAudio source i).avTrack isAudio).mPackets with
        | none => simp [hq] at h
        | some q =>
          simp only [hq] at h
          split_ifs at h
          cases hl : q.getLatestMeta.bind (fun m => m.timeUs) with
          | none => simp [hl] at h
          | some t =>
            simp only [hl] at h
            cases h1 : (s.installSource isAudio source i).readBuffer fuel (typeOf isAudio) t
                true with
            | error f => simp [h1] at h
            | ok p =>
              obtain ⟨s1, x⟩ := p
              simp only [h1] at h
              cases h2 : s1.readBuffer fuel (typeOf (!isAudio)) (-1) true with
              | error f => simp [h2] at h
              | ok p2 =>
                obtain ⟨s2, y⟩ := p2
                simp only [h2, Except.ok.injEq] at h
                subst h
                obtain ⟨a1, a2, -⟩ := avTrack_of_frame (readBuffer_frame h1) isAudio
                obtain ⟨b1, b2, -⟩ := avTrack_of_frame (readBuffer_frame h2) isAudio
                obtain ⟨c1, c2, -⟩ := installSource_target s isAudio source i
                exact ⟨source, mime, isAudio, rfl, hm, hs, by rw [b1, a1, c1], by rw [b2, a2, c2]⟩

/-- C14: `selectTrack(i, true)` on an in-range reader whose MIME type has the
prefix `audio/` or `video/` returns `OK`.  When the slot of that type has a
reader and its index is `i`, the state is returned as it was and nothing is
posted.  Otherwise the state returned is the state given with exactly one
message appended to the posted messages, `kWhatChangeAVSource` carrying
`trackIndex = i`, posted without delay.  In either case no slot, queue,
generation or read differs.  The reader and the index of the audio and of the
video slot are changed by no call other than the delivery of a
`kWhatChangeAVSource` message, and the delivery of the message posted here,
when the handler returns, leaves catalog entry `i` as the reader of the slot
with slot index `i`. -/
theorem selectTrack_av (i : Nat) (s : GenericSource) (source : MediaSource) (mime : String)
    (hsrc : s.mSources[i]? = some source)
    (hmime : source.format.kKeyMIMEType = some mime)
    (hav : strncasecmp mime "audio/" 6 = 0 ∨ strncasecmp mime "video/" 6 = 0) :
    i < s.getTrackCount ∧
    (((s.avTrack (decide (strncasecmp mime "audio/" 6 = 0))).mSource ≠ none ∧
        (s.avTrack (decide (strncasecmp mime "audio/" 6 = 0))).mIndex = i) →
      s.selectTrack i true = .ok (OK, s)) ∧
    (¬ ((s.avTrack (decide (strncasecmp mime "audio/" 6 = 0))).mSource ≠ none ∧
        (s.avTrack (decide (strncasecmp mime "audio/" 6 = 0))).mIndex = i) →
      s.selectTrack i true =
        .ok (OK, { s with posted := s.posted ++ [(kWhatChangeAVSource i, 0)] })) ∧
    (∃ s', s.selectTrack i true = .ok (OK, s') ∧
      s'.mAudioTrack = s.mAudioTrack ∧ s'.mVideoTrack = s.mVideoTrack ∧
      s'.mSubtitleTrack = s.mSubtitleTrack ∧
      s'.mFetchSubtitleDataGeneration = s.mFetchSubtitleDataGeneration ∧
      s'.mSources = s.mSources ∧ s'.reads = s.reads ∧ s'.notified = s.notified ∧
      (s'.posted = s.posted ∨ s'.posted = s.posted ++ [(kWhatChangeAVSource i, 0)])) ∧
    (∀ (fuel : Nat) (c : Call) (s1 s2 : GenericSource), perform fuel c s1 = .ok s2 →
      deliversSwitch s1 c = false → SlotsKept s1 s2) ∧
    (∀ (fuel : Nat) (s1 s2 : GenericSource), s1.mSources = s.mSources →
      s1.onMessageReceived fuel (kWhatChangeAVSource i) = .ok s2 →
      (s2.avTrack (decide (strncasecmp mime "audio/" 6 = 0))).mSource = some source ∧
      (s2.avTrack (decide (strncasecmp mime "audio/" 6 = 0))).mIndex = i) := by
  have hi : i < s.mSources.length := by
    by_contra hge
    rw [List.getElem?_eq_none (Nat.le_of_not_lt hge)] at hsrc
    exact absurd hsrc (by simp)
  have hlt : ¬ i ≥ s.mSources.length := Nat.not_le.mpr hi
  have htext : strncasecmp mime "text/" 5 ≠ 0 := av_prefix_not_text hav
  have hav2 : (decide (strncasecmp mime "audio/" 6 = 0) ||
      decide (strncasecmp mime "video/" 6 = 0)) = true := by
    rcases hav with h | h <;> simp [h]
  have hactive : ((s.avTrack (decide (strncasecmp mime "audio/" 6 = 0))).mSource ≠ none ∧
        (s.avTrack (decide (strncasecmp mime "audio/" 6 = 0))).mIndex = i) →
      s.selectTrack i true = .ok (OK, s) := by
    rintro ⟨hs, hidx⟩
    have hc : ((s.avTrack (decide (strncasecmp mime "audio/" 6 = 0))).mSource.isSome &&
        decide ((s.avTrack (decide (strncasecmp mime "audio/" 6 = 0))).mIndex = i)) = true := by
      cases hs2 : (s.avTrack (decide (strncasecmp mime "audio/" 6 = 0))).mSource with
      | none => exact absurd hs2 hs
      | some src => simp [hidx]
    unfold selectTrack
    rw [if_neg hlt]
    simp only [Bool.not_true, Bool.false_eq_true, if_false, hsrc, hmime, htext, hav2, if_true,
      hc]
  have hpost : ¬ ((s.avTrack (decide (strncasecmp mime "audio/" 6 = 0))).mSource ≠ none ∧
        (s.avTrack (decide (strncasecmp mime "audio/" 6 = 0))).mIndex = i) →
      s.selectTrack i true =
        .ok (OK, { s with posted := s.posted ++ [(kWhatChangeAVSource i, 0)] }) := by
    intro hno
    have hc : ((s.avTrack (decide (strncasecmp mime "audio/" 6 = 0))).mSource.isSome &&
        decide ((s.avTrack (decide (strncasecmp mime "audio/" 6 = 0))).mIndex = i)) = false := by
      cases hs2 : (s.avTrack (decide (strncasecmp mime "audio/" 6 = 0))).mSource with
      | none => simp
      | some src =>
        have : (s.avTrack (decide (strncasecmp mime "audio/" 6 = 0))).mIndex ≠ i :=
          fun h2 => hno ⟨by simp [hs2], h2⟩
        simp [this]
    unfold selectTrack
    rw [if_neg hlt]
    simp only [Bool.not_true, Bool.false_eq_true, if_false, hsrc, hmime, htext, hav2, if_true,
      hc]
  refine ⟨hi, hactive, hpost, ?_, ?_, ?_⟩
  · by_cases hc : ((s.avTrack (decide (strncasecmp mime "audio/" 6 = 0))).mSource ≠ none ∧
        (s.avTrack (decide (strncasecmp mime "audio/" 6 = 0))).mIndex = i)
    · exact ⟨s, hactive hc, rfl, rfl, rfl, rfl, rfl, rfl, rfl, Or.inl rfl⟩
    · exact ⟨_, hpost hc, rfl, rfl, rfl, rfl, rfl, rfl, rfl, Or.inr rfl⟩
  · intro fuel c s1 s2 h hc
    exact (perform_steady h).2.2 hc
  · intro fuel s1 s2 hcat h
    obtain ⟨source', mime', isAudio, h1, h2, h3, h4, h5⟩ := onChangeAVSource_installs h
    rw [hcat, hsrc, Option.some.injEq] at h1
    subst h1
    rw [hmime, Option.some.injEq] at h2
    subst h2
    rw [switchTarget_av hav, Except.ok.injEq] at h3
    subst h3
    exact ⟨h4, h5⟩

/-- C14 at a playing source with two audio readers: enabling the second audio
reader (catalog index 2) posts one `kWhatChangeAVSource` for index 2 and
changes nothing else, and enabling the active audio reader (index 0) changes
nothing. -/
theorem selectTrack_av_witness :
    (twoAudio 7).selectTrack 2 true =
      .ok (OK, { twoAudio 7 with posted := [(kWhatChangeAVSource 2, 0)] }) ∧
    (twoAudio 7).selectTrack 0 true = .ok (OK, twoAudio 7) :=
  ⟨(selectTrack_av 2 (twoAudio 7) (steadyReader 2 "AUDIO/vorbis" 5000) "AUDIO/vorbis" rfl rfl
      (Or.inl (by decide))).2.2.1 (fun hc => absurd hc.2 (by decide)),
   (selectTrack_av 0 (twoAudio 7) (steadyReader 0 "audio/mp4a-latm" 20) "audio/mp4a-latm" rfl rfl
      (Or.inl (by decide))).2.1
      ⟨fun h => absurd (congrArg Option.isSome h) (by decide), by decide⟩⟩

/-! ## The initialization scan and the duration -/

theorem foldl_max_spec (l : List Int) :
    ∀ c : Int, c ≤ l.foldl max c ∧ (∀ d ∈ l, d ≤ l.foldl max c) ∧
      (l.foldl max c = c ∨ l.foldl max c ∈ l) := by
  induction l with
  | nil => intro c; simp
  | cons x xs ih =>
    intro c
    obtain ⟨h1, h2, h3⟩ := ih (max c x)
    simp only [List.foldl_cons, List.mem_cons]
    refine ⟨le_trans (le_max_left c x) h1, ?_, ?_⟩
    · rintro d (hd | hd)
      · rw [hd]; exact le_trans (le_max_right c x) h1
      · exact h2 d hd
    · rcases h3 with h3 | h3
      · rw [h3]
        rcases max_choice c x with hm | hm
        · exact Or.inl hm
        · exact Or.inr (Or.inl hm)
      · exact Or.inr (Or.inr h3)

theorem readFileMeta_frame (s : GenericSource) (extractor : MediaExtractor) :
    (s.readFileMeta extractor).mSubtitleTrack = s.mSubtitleTrack ∧
    (s.mDurationUs = 0 → (s.readFileMeta extractor).mDurationUs = containerDuration extractor) := by
  unfold readFileMeta containerDuration
  cases hf : extractor.fileMeta with
  | none => simp
  | some m =>
    cases hm : m.kKeyDuration with
    | none => simp [hm]
    | some d => simp [hm]

theorem claimSlot_frame (s : GenericSource) (i : Nat) (mime : String)
    (track : Option MediaSource) :
    (s.claimSlot i mime track).mSubtitleTrack = s.mSubtitleTrack ∧
    (s.claimSlot i mime track).mDurationUs = s.mDurationUs := by
  unfold claimSlot
  split_ifs <;> exact ⟨rfl, rfl⟩

theorem registerTrack_duration {s s' : GenericSource} {e : ExtractorTrack}
    (h : s.registerTrack e = .ok s') :
    s'.mSubtitleTrack = s.mSubtitleTrack ∧
    s'.mDurationUs = (trackDurations [e]).foldl max s.mDurationUs := by
  unfold registerTrack at h
  unfold trackDurations
  cases ht : e.track with
  | none =>
    simp only [ht, Except.ok.injEq] at h
    subst h
    simp [ht]
  | some track =>
    simp only [ht] at h
    split_ifs at h with hst
    cases hd : e.meta.kKeyDuration with
    | none =>
      simp only [hd, Except.ok.injEq] at h
      subst h
      simp [ht, hd]
    | some d =>
      simp only [hd] at h
      split_ifs at h with hgt
      · simp only [Except.ok.injEq] at h
        subst h
        simp only [gt_iff_lt] at hgt
        simp [ht, hd, max_eq_right (le_of_lt hgt)]
      · simp only [Except.ok.injEq] at h
        subst h
        simp only [gt_iff_lt, not_lt] at hgt
        simp [ht, hd, max_eq_left hgt]

theorem scanTrack_duration {s s' : GenericSource} {i : Nat} {e : ExtractorTrack}
    (h : s.scanTrack i e = .ok s') :
    s'.mSubtitleTrack = s.mSubtitleTrack ∧
    s'.mDurationUs = (trackDurations [e]).foldl max s.mDurationUs := by
  unfold scanTrack at h
  cases hm : e.meta.kKeyMIMEType with
  | none => simp [hm] at h
  | some mime =>
    simp only [hm] at h
    obtain ⟨h1, h2⟩ := registerTrack_duration h
    obtain ⟨h3, h4⟩ := claimSlot_frame s i mime e.track
    exact ⟨h1.trans h3, by rw [h2, h4]⟩

theorem trackDurations_cons (e : ExtractorTrack) (es : List ExtractorTrack) :
    trackDurations (e :: es) = trackDurations [e] ++ trackDurations es := by
  unfold trackDurations
  rw [← List.filterMap_append, ← List.filter_append]
  rfl

theorem scanTracks_duration (es : List ExtractorTrack) :
    ∀ (i : Nat) (s s' : GenericSource), scanTracks es i s = .ok s' →
      s'.mSubtitleTrack = s.mSubtitleTrack ∧
      s'.mDurationUs = (trackDurations es).foldl max s.mDurationUs := by
  induction es with
  | nil =>
    intro i s s' h
    simp only [scanTracks, Except.ok.injEq] at h
    subst h
    exact ⟨rfl, rfl⟩
  | cons e es ih =>
    intro i s s' h
    simp only [scanTracks] at h
    cases h1 : s.scanTrack i e with
    | error f => simp [h1] at h
    | ok s1 =>
      simp only [h1] at h
      obtain ⟨a1, a2⟩ := scanTrack_duration h1
      obtain ⟨b1, b2⟩ := ih _ _ _ h
      refine ⟨b1.trans a1, ?_⟩
      rw [b2, a2, trackDurations_cons e es, List.foldl_append]

/-- The scan of a container that passes every check returns. -/
theorem scanTracks_total (es : List ExtractorTrack) :
    ∀ (i : Nat) (s : GenericSource),
      (∀ e ∈ es, e.meta.kKeyMIMEType ≠ none ∧ (e.track ≠ none → e.startStatus = OK)) →
      ∃ s', scanTracks es i s = .ok s' := by
  induction es with
  | nil => intro i s _; exact ⟨s, rfl⟩
  | cons e es ih =>
    intro i s h
    obtain ⟨hm, hst⟩ := h e (List.mem_cons_self _ _)
    have h1 : ∃ s1, s.scanTrack i e = .ok s1 := by
      unfold scanTrack
      cases hm2 : e.meta.kKeyMIMEType with
      | none => exact absurd hm2 hm
      | some mime =>
        simp only []
        unfold registerTrack
        cases ht : e.track with
        | none => exact ⟨_, rfl⟩
        | some track =>
          have := hst (by simp [ht])
          simp only [this, ne_eq, not_true_eq_false, if_false]
          cases e.meta.kKeyDuration with
          | none => exact ⟨_, rfl⟩
          | some d =>
            simp only []
            split_ifs
            · exact ⟨_, rfl⟩
            · exact ⟨_, rfl⟩
    obtain ⟨s1, h1⟩ := h1
    obtain ⟨s', h2⟩ := ih (i + 1) s1 (fun e he => h e (List.mem_cons_of_mem _ he))
    exact ⟨s', by simp only [scanTracks, h1, h2]⟩

/-- After the initialization no subtitle track is selected. -/
theorem initFromDataSource_subtitle {isWidevine : Bool} {dataSource : DataSource}
    {s0 : GenericSource} (h : (fresh isWidevine).initFromDataSource dataSource = .ok s0) :
    s0.mSubtitleTrack.mSource = none := by
  unfold initFromDataSource at h
  split at h
  · simp only [Except.ok.injEq] at h
    subst h
    rfl
  · simp at h
  · rename_i extractor _
    obtain ⟨h1, -⟩ := scanTracks_duration _ _ _ _ h
    rw [h1, (readFileMeta_frame _ _).1]
    rfl

/-- In every state the object reaches after its initialization, a subtitle
slot that has a reader has its queue. -/
theorem reachable_subtitleQueued {fuel : Nat} {isWidevine : Bool} {dataSource : DataSource}
    {cs : List Call} {s0 s : GenericSource}
    (hinit : (fresh isWidevine).initFromDataSource dataSource = .ok s0)
    (hrun : performAll fuel cs s0 = .ok s) : SubtitleQueued s :=
  (performAll_steady cs hrun).2 (fun h => absurd (initFromDataSource_subtitle hinit) h)

/-- C16: the initialization of an object on a data source.  When the
initialization opens an extractor and returns, `getDuration` returns `OK` and
the maximum, in the specification's words, of the container-level duration (0
when the container has none) and the durations of the tracks whose reader was
obtained and that carry a duration; and so it does after any sequence of later
calls (start, dequeueAccessUnit, selectTrack, seekTo, message delivery).  The
initialization returns whenever every track has a MIME type and every obtained
reader starts.  That value is the greatest of these durations.  Each step of
the scan, and so the scan of any number of tracks, leaves a duration at least
as large as the one it found.  When the initialization returns early, on an
unsupported Widevine MIME type, no container is opened and the duration is
0. -/
theorem getDuration_maximum (isWidevine : Bool) (dataSource : DataSource) :
    (∀ extractor s0,
      (fresh isWidevine).openExtractor dataSource = some (some extractor) →
      (fresh isWidevine).initFromDataSource dataSource = .ok s0 →
      s0.getDuration = (OK, specDuration extractor) ∧
      ∀ (fuel : Nat) (cs : List Call) (s : GenericSource), performAll fuel cs s0 = .ok s →
        s.getDuration = (OK, specDuration extractor)) ∧
    (∀ extractor,
      (fresh isWidevine).openExtractor dataSource = some (some extractor) →
      Scannable extractor →
      ∃ s0, (fresh isWidevine).initFromDataSource dataSource = .ok s0) ∧
    (∀ extractor : MediaExtractor,
      (∀ d ∈ containerDuration extractor :: trackDurations extractor.tracks,
        d ≤ specDuration extractor) ∧
      specDuration extractor ∈ containerDuration extractor :: trackDurations extractor.tracks) ∧
    (∀ (s s' : GenericSource) (i : Nat) (e : ExtractorTrack), s.scanTrack i e = .ok s' →
      s.mDurationUs ≤ s'.mDurationUs) ∧
    (∀ (es : List ExtractorTrack) (i : Nat) (s s' : GenericSource),
      scanTracks es i s = .ok s' → s.mDurationUs ≤ s'.mDurationUs) ∧
    ((fresh isWidevine).openExtractor dataSource = none →
      (fresh isWidevine).initFromDataSource dataSource = .ok (fresh isWidevine) ∧
      (fresh isWidevine).getDuration = (OK, 0)) := by
  refine ⟨?_, ?_, ?_, ?_, ?_, ?_⟩
  · intro extractor s0 hopen hinit
    have hd : s0.mDurationUs = specDuration extractor := by
      unfold initFromDataSource at hinit
      simp only [hopen] at hinit
      obtain ⟨-, h2⟩ := scanTracks_duration _ _ _ _ hinit
      rw [h2, (readFileMeta_frame _ _).2 rfl]
      rfl
    refine ⟨by simp [getDuration, hd], ?_⟩
    intro fuel cs s hrun
    have := (performAll_steady cs hrun).1.duration
    simp [getDuration, this, hd]
  · intro extractor hopen hscan
    unfold initFromDataSource
    simp only [hopen]
    exact scanTracks_total _ _ _ hscan
  · intro extractor
    obtain ⟨h1, h2, h3⟩ := foldl_max_spec (trackDurations extractor.tracks)
      (containerDuration extractor)
    unfold specDuration
    refine ⟨?_, ?_⟩
    · intro d hd
      rcases List.mem_cons.mp hd with hd | hd
      · rw [hd]; exact h1
      · exact h2 d hd
    · rcases h3 with h3 | h3
      · rw [h3]; exact List.mem_cons_self _ _
      · exact List.mem_cons_of_mem _ h3
  · intro s s' i e h
    rw [(scanTrack_duration h).2]
    exact (foldl_max_spec _ _).1
  · intro es i s s' h
    rw [(scanTracks_duration es i s s' h).2]
    exact (foldl_max_spec _ _).1
  · intro hopen
    refine ⟨?_, rfl⟩
    unfold initFromDataSource
    simp only [hopen]

/-- C16 on a container of ten seconds with an audio track of thirty seconds, a
video track of fifty seconds without a reader and a text track without a
duration: the duration is thirty seconds, and still is after `start()` and an
audio dequeue. -/
theorem getDuration_maximum_witness :
    (fresh false).initFromDataSource movie = .ok movieScanned ∧
    movieScanned.getDuration = (OK, 30000000) ∧
    ∃ s, performAll 1 [Call.start, Call.dequeueAccessUnit true] movieScanned = .ok s ∧
      s.reads = [(0, {}), (0, {})] ∧ s.getDuration = (OK, 30000000) := by
  have hinit : (fresh false).initFromDataSource movie = .ok movieScanned := rfl
  obtain ⟨h1, h2⟩ := (getDuration_maximum false movie).1 _ _ rfl hinit
  have hrun : performAll 1 [Call.start, Call.dequeueAccessUnit true] movieScanned =
      .ok { movieScanned with
            reads := [(0, {}), (0, {})]
            mAudioTrack := { movieScanned.mAudioTrack with
              mPackets := some { mBuffers := [unitAt 20],
                                 mLatestEnqueuedMeta := some { timeUs := some 20 } } } } := rfl
  exact ⟨hinit, h1, _, hrun, rfl, h2 1 _ _ hrun⟩

/-! ## Track information -/

theorem notNot_cases (v : Int) : notNot v = 0 ∨ notNot v = 1 := by
  unfold notNot
  split_ifs
  · exact Or.inr rfl
  · exact Or.inl rfl

/-- No MIME type is classified as a subtitle track. -/
theorem trackTypeOf_ne_subtitle (mime : String) :
    trackTypeOf mime ≠ MEDIA_TRACK_TYPE_SUBTITLE := by
  unfold trackTypeOf
  split_ifs <;> decide

/-- C15 as stated fails: the text reader of catalog index 2 has the MIME type
`text/3gpp`, a language and the three flags in its meta data, and the message
`getTrackInfo` returns for it holds the timed-text type and the language and
neither the MIME string nor any flag. -/
theorem getTrackInfo_flags_counterexample :
    strcasecmp "text/3gpp" "text/3gpp" = 0 ∧
    flaggedCatalog.mSources[2]?.map (fun r => r.format.kKeyTrackIsForced) = some (some 5) ∧
    flaggedCatalog.getTrackInfo 2 =
      .ok (some { type := MEDIA_TRACK_TYPE_TIMEDTEXT, language := "eng",
                  mime := none, auto := none, default := none, forced := none }) := by
  exact ⟨by decide, rfl, rfl⟩

/-- C15, amended: `getTrackInfo` on an in-range index whose reader has a MIME
type returns a message whose language is the language of the reader's meta
data, `"und"` when the meta data has none.  The type in the message is never
the subtitle type, and the message holds no MIME string and none of the flags
`auto`, `default` and `forced`; for the MIME type `text/3gpp` (compared
without regard to case) the type is timed-text.  The block that writes the
MIME string and the flags runs for the subtitle type only: there it writes the
reader's MIME string and the three flags, each 0 or 1, read from the meta data
when present, with `auto = 1`, `default = 0` and `forced = 0` when absent.
The timed-text and the subtitle type are distinct constants. -/
theorem getTrackInfo_timedtext (i : Nat) (s : GenericSource) (source : MediaSource)
    (mime : String)
    (hsrc : s.mSources[i]? = some source)
    (hmime : source.format.kKeyMIMEType = some mime) :
    (∃ info, s.getTrackInfo i = .ok (some info) ∧
      info.language = source.format.kKeyMediaLanguage.getD "und" ∧
      (source.format.kKeyMediaLanguage = none → info.language = "und") ∧
      info.type = trackTypeOf mime ∧ info.type ≠ MEDIA_TRACK_TYPE_SUBTITLE ∧
      info.mime = none ∧ info.auto = none ∧ info.default = none ∧ info.forced = none ∧
      (strcasecmp mime "text/3gpp" = 0 → info.type = MEDIA_TRACK_TYPE_TIMEDTEXT)) ∧
    ((describeTrack MEDIA_TRACK_TYPE_SUBTITLE source.format mime).mime = some mime ∧
      (describeTrack MEDIA_TRACK_TYPE_SUBTITLE source.format mime).auto =
        some (notNot (source.format.kKeyTrackIsAutoselect.getD 1)) ∧
      (describeTrack MEDIA_TRACK_TYPE_SUBTITLE source.format mime).default =
        some (notNot (source.format.kKeyTrackIsDefault.getD 0)) ∧
      (describeTrack MEDIA_TRACK_TYPE_SUBTITLE source.format mime).forced =
        some (notNot (source.format.kKeyTrackIsForced.getD 0)) ∧
      (∀ v : Int, notNot v = 0 ∨ notNot v = 1) ∧ notNot 1 = 1 ∧ notNot 0 = 0) ∧
    MEDIA_TRACK_TYPE_TIMEDTEXT ≠ MEDIA_TRACK_TYPE_SUBTITLE := by
  refine ⟨?_, ⟨rfl, rfl, rfl, rfl, notNot_cases, rfl, rfl⟩, by decide⟩
  have hne := trackTypeOf_ne_subtitle mime
  have hrun : s.getTrackInfo i =
      .ok (some (describeTrack (trackTypeOf mime) source.format mime)) := by
    unfold getTrackInfo
    simp only [hsrc, hmime]
  have hd : describeTrack (trackTypeOf mime) source.format mime =
      { type := trackTypeOf mime, language := source.format.kKeyMediaLanguage.getD "und" } := by
    unfold describeTrack
    simp only [hne, if_false]
  refine ⟨_, hrun, ?_, ?_, ?_, ?_, ?_, ?_, ?_, ?_, ?_⟩
  · rw [hd]
  · intro hl
    rw [hd, hl]
    rfl
  · rw [hd]
  · rw [hd]; exact hne
  · rw [hd]
  · rw [hd]
  · rw [hd]
  · rw [hd]
  · intro h3
    obtain ⟨hv, ha⟩ := text3gpp_not_av h3
    rw [hd]
    simp only [trackTypeOf, hv, ha, h3, if_false, if_true]

/-- C15 at the flagged text reader and at the audio reader of the same catalog:
the info of the text reader holds the timed-text type, its language and no
flag, and the info of the audio reader, whose meta data names no language,
holds the language `"und"`. -/
theorem getTrackInfo_timedtext_witness :
    (∃ info, flaggedCatalog.getTrackInfo 2 = .ok (some info) ∧
      info.type = MEDIA_TRACK_TYPE_TIMEDTEXT ∧ info.language = "eng" ∧
      info.mime = none ∧ info.forced = none) ∧
    (∃ info, flaggedCatalog.getTrackInfo 0 = .ok (some info) ∧ info.language = "und") := by
  obtain ⟨⟨info, h1, h2, -, -, -, h3, -, -, h4, h5⟩, -, -⟩ :=
    getTrackInfo_timedtext 2 flaggedCatalog flaggedCueReader "text/3gpp" rfl rfl
  obtain ⟨⟨info0, g1, -, g2, -⟩, -, -⟩ :=
    getTrackInfo_timedtext 0 flaggedCatalog (steadyReader 0 "audio/mp4a-latm" 20)
      "audio/mp4a-latm" rfl rfl
  exact ⟨⟨info, h1, h5 (by decide), h2, h3, h4⟩, ⟨info0, g1, g2 rfl⟩⟩

/-! ## The subtitle side effect of the Dequeue API -/

/-- A dequeue that pops an entry `e`: `s1` is the state after the Widevine audio
pump of lines 338 to 341 and `s2` the state after the pop and the read-ahead
of lines 348 to 352.  The call is the subtitle side effect on `s2`, and `s2`
differs from the state given in the reads and in the queues of the audio and
the video slot only. -/
theorem dequeueAccessUnit_pop {fuel : Nat} { audio : Bool} {s s1 s2 : GenericSource}
    {src : MediaSource} {q : AnotherPacketSource} {e : ABuffer} {rest : List ABuffer}
    (hsrc : (s.avTrack audio).mSource = some src)
    (hpump : widevineAudioPump fuel audio s = .ok s1)
    (hq : (s.avTrack audio).mPackets = some q)
    (hpop : q.mBuffers = e :: rest)
    (hahead : if rest = [] then
        ∃ t, (s1.setPackets (typeOf audio) { q with mBuffers := [] }).readBuffer fuel
          (typeOf audio) (-1) false = .ok (s2, t)
      else s2 = s1.setPackets (typeOf audio) { q with mBuffers := rest }) :
    dequeueAccessUnit fuel audio s =
      subtitleSideEffect (AnotherPacketSource.popStatus e) (some e) s2 ∧
    AVFrame s s2 := by
  obtain ⟨hf, hsame, -⟩ := widevineAudioPump_frame hpump
  have hslot : (s1.avTrack audio).mPackets = some q := by
    cases audio with
    | true =>
      have := hsame (Or.inr rfl)
      subst this
      exact hq
    | false =>
      simp only [avTrack, Bool.false_eq_true, if_false] at hq ⊢
      exact (hf.videoPackets (by decide)).trans hq
  have hdeq : dequeueAccessUnit fuel audio s = popAndReadAhead fuel audio s1 := by
    unfold dequeueAccessUnit
    simp only [hsrc, hpump]
  rw [hdeq, popAndReadAhead_pop hslot hpop]
  have h1 := widevineAudioPump_avFrame hpump
  by_cases hrest : rest = []
  · rw [if_pos hrest] at hahead
    obtain ⟨t, hrb⟩ := hahead
    subst hrest
    simp only [if_true, hrb]
    exact ⟨trivial, avFrame_trans h1 (avFrame_trans (avFrame_setPackets s1 audio _)
      (avFrame_of_readBuffer (typeOf_ne_subtitle audio) hrb))⟩
  · rw [if_neg hrest] at hahead
    subst hahead
    rw [if_neg hrest]
    exact ⟨rfl, avFrame_trans h1 (avFrame_setPackets s1 audio _)⟩

/-- C17: a dequeue on a slot with a reader that pops an entry `e` (`s1` is the
state after the Widevine audio pump, `s2` the state after the pop and the
read-ahead).  While a subtitle track is selected, in a state whose subtitle
slot has its queue (every reachable state, see `reachable_subtitleQueued`), a
pop with a status other than `OK` makes the call return exactly that status
with the popped entry, leaves the subtitle queue cleared, so empty, and the
generation exactly one higher, and posts no message; apart from these two the
state is `s2`.  While no subtitle track is selected the call returns the
status of the pop, whatever it is, with the state `s2`, in which the subtitle
queue, the generation and the posted messages are as they were.  The
generation is the `int32_t` member `mFetchSubtitleDataGeneration`: the state is
one in which it is below `INT32_MAX`, so that the increment of line 361 does
not overflow, and the new value is again a value of the member. -/
theorem dequeueAccessUnit_failed_pop (fuel : Nat) ( audio : Bool) (s s1 s2 : GenericSource)
    (src : MediaSource) (q : AnotherPacketSource) (e : ABuffer) (rest : List ABuffer)
    (hsrc : (s.avTrack audio).mSource = some src)
    (hpump : widevineAudioPump fuel audio s = .ok s1)
    (hq : (s.avTrack audio).mPackets = some q)
    (hpop : q.mBuffers = e :: rest)
    (hahead : if rest = [] then
        ∃ t, (s1.setPackets (typeOf audio) { q with mBuffers := [] }).readBuffer fuel
          (typeOf audio) (-1) false = .ok (s2, t)
      else s2 = s1.setPackets (typeOf audio) { q with mBuffers := rest })
    (hgen : s.mFetchSubtitleDataGeneration < INT32_MAX) :
    (s.mSubtitleTrack.mSource ≠ none → SubtitleQueued s →
      AnotherPacketSource.popStatus e ≠ OK →
      ∃ sq s', s.mSubtitleTrack.mPackets = some sq ∧
        dequeueAccessUnit fuel audio s = .ok (AnotherPacketSource.popStatus e, some e, s') ∧
        s' = { s2 with
               mSubtitleTrack := { s2.mSubtitleTrack with mPackets := some sq.clear }
               mFetchSubtitleDataGeneration := s2.mFetchSubtitleDataGeneration + 1 } ∧
        s'.mSubtitleTrack.mPackets = some sq.clear ∧
        s'.mSubtitleTrack.mPackets.map (fun p => p.mBuffers) = some [] ∧
        s'.mFetchSubtitleDataGeneration = s.mFetchSubtitleDataGeneration + 1 ∧
        s'.mFetchSubtitleDataGeneration ≤ INT32_MAX ∧
        s'.posted = s.posted ∧
        s'.mSubtitleTrack.mSource = s.mSubtitleTrack.mSource) ∧
    (s.mSubtitleTrack.mSource = none →
      dequeueAccessUnit fuel audio s = .ok (AnotherPacketSource.popStatus e, some e, s2) ∧
      s2.mSubtitleTrack.mPackets = s.mSubtitleTrack.mPackets ∧
      s2.mFetchSubtitleDataGeneration = s.mFetchSubtitleDataGeneration ∧
      s2.posted = s.posted) := by
  obtain ⟨hcall, hframe⟩ := dequeueAccessUnit_pop hsrc hpump hq hpop hahead
  rw [hcall]
  constructor
  · intro hsel hinv hfail
    cases hsq : s.mSubtitleTrack.mPackets with
    | none => exact absurd hsq (hinv hsel)
    | some sq =>
      obtain ⟨src2, hsrc2⟩ := Option.ne_none_iff_exists'.mp hsel
      have h1 : s2.mSubtitleTrack.mSource = some src2 := hframe.subtitleSource.trans hsrc2
      have h2 : s2.mSubtitleTrack.mPackets = some sq := hframe.subtitlePackets.trans hsq
      refine ⟨sq, _, rfl, ?_, rfl, rfl, rfl, ?_, ?_, hframe.posted, ?_⟩
      · unfold subtitleSideEffect
        simp only [h1, h2, ne_eq, hfail, not_false_eq_true, if_true]
      · simp only [hframe.generation]
      · simp only [hframe.generation]
        exact Int.add_one_le_iff.mpr hgen
      · exact hframe.subtitleSource
  · intro hsel
    have h1 : s2.mSubtitleTrack.mSource = none := hframe.subtitleSource.trans hsel
    refine ⟨?_, hframe.subtitlePackets, hframe.generation, hframe.posted⟩
    unfold subtitleSideEffect
    simp only [h1]

/-- C17 at a playing source after a seek, with a subtitle track selected at
generation 1 and one cue buffered: the audio dequeue pops the SEEK marker and
returns the status of that pop, the subtitle queue is empty afterwards, the
generation is 2 and nothing is posted. -/
theorem dequeueAccessUnit_failed_pop_witness :
    ∃ s', dequeueAccessUnit 0 true subtitleAfterSeek =
        .ok (INFO_DISCONTINUITY, some (AnotherPacketSource.marker DISCONTINUITY_SEEK), s') ∧
      s'.mSubtitleTrack.mPackets.map (fun p => p.mBuffers) = some [] ∧
      s'.mFetchSubtitleDataGeneration = 2 ∧ s'.posted = [] := by
  have h := (dequeueAccessUnit_failed_pop 0 true subtitleAfterSeek subtitleAfterSeek _
    (steadyReader 0 "audio/mp4a-latm" 20) _ (AnotherPacketSource.marker DISCONTINUITY_SEEK)
    [unitAt 5] rfl rfl rfl rfl rfl (by decide)).1
    (fun h => absurd (congrArg Option.isSome h) (by decide)) (fun _ => by decide) (by decide)
  obtain ⟨sq, s', -, h1, -, -, h2, h3, -, h4, -⟩ := h
  exact ⟨s', h1, h2, h3, h4⟩

/-- C18: a dequeue (audio or video) on a slot with a reader, made while a
subtitle track is selected in a state whose subtitle slot has its queue `sq`,
whose pop returns `OK` with a unit stamped `t` (`s1` is the state after the
Widevine audio pump, `s2` the state after the pop and the read-ahead).  The
call returns `OK` with that unit.  When the subtitle queue holds no buffered
unit, exactly one message is appended to the posted messages:
`kWhatFetchSubtitleData` with `timeUs = t` and the current generation, posted
with delay 0; when it holds a unit, nothing is posted.  In both cases the
generation and the subtitle queue are as they were, and apart from the posted
message the state is `s2`. -/
theorem dequeueAccessUnit_fetch (fuel : Nat) ( audio : Bool) (s s1 s2 : GenericSource)
    (src : MediaSource) (q : AnotherPacketSource) (e : ABuffer) (rest : List ABuffer)
    (t : Int)
    (hsrc : (s.avTrack audio).mSource = some src)
    (hpump : widevineAudioPump fuel audio s = .ok s1)
    (hq : (s.avTrack audio).mPackets = some q)
    (hpop : q.mBuffers = e :: rest)
    (hahead : if rest = [] then
        ∃ t, (s1.setPackets (typeOf audio) { q with mBuffers := [] }).readBuffer fuel
          (typeOf audio) (-1) false = .ok (s2, t)
      else s2 = s1.setPackets (typeOf audio) { q with mBuffers := rest })
    (hsel : s.mSubtitleTrack.mSource ≠ none) (hinv : SubtitleQueued s)
    (hok : AnotherPacketSource.popStatus e = OK) (ht : e.meta.timeUs = some t) :
    ∃ sq s', s.mSubtitleTrack.mPackets = some sq ∧
      dequeueAccessUnit fuel audio s = .ok (OK, some e, s') ∧
      (sq.mBuffers = [] →
        s' = { s2 with posted := s2.posted ++
                 [(kWhatFetchSubtitleData s.mFetchSubtitleDataGeneration t, 0)] } ∧
        s'.posted = s.posted ++
          [(kWhatFetchSubtitleData s.mFetchSubtitleDataGeneration t, 0)]) ∧
      (sq.mBuffers ≠ [] → s' = s2 ∧ s'.posted = s.posted) ∧
      (s'.posted ≠ s.posted ↔ sq.mBuffers = []) ∧
      s'.mFetchSubtitleDataGeneration = s.mFetchSubtitleDataGeneration ∧
      s'.mSubtitleTrack.mPackets = some sq ∧
      s'.mSubtitleTrack.mSource = s.mSubtitleTrack.mSource := by
  obtain ⟨hcall, hframe⟩ := dequeueAccessUnit_pop hsrc hpump hq hpop hahead
  rw [hcall, hok]
  cases hsq : s.mSubtitleTrack.mPackets with
  | none => exact absurd hsq (hinv hsel)
  | some sq =>
    obtain ⟨src2, hsrc2⟩ := Option.ne_none_iff_exists'.mp hsel
    have h1 : s2.mSubtitleTrack.mSource = some src2 := hframe.subtitleSource.trans hsrc2
    have h2 : s2.mSubtitleTrack.mPackets = some sq := hframe.subtitlePackets.trans hsq
    by_cases hempty : sq.mBuffers = []
    · have hav : sq.hasBufferAvailable.1 = false := by
        simp [AnotherPacketSource.hasBufferAvailable, hempty]
      have hrun : subtitleSideEffect OK (some e) s2 = .ok (OK, some e,
          { s2 with posted := s2.posted ++
              [(kWhatFetchSubtitleData s2.mFetchSubtitleDataGeneration t, 0)] }) := by
        unfold subtitleSideEffect
        simp only [h1, h2, ne_eq, not_true_eq_false, if_false, ht, hav, Bool.not_false, if_true]
      refine ⟨sq, _, rfl, hrun, ?_, ?_, ?_, hframe.generation, h2,
        hframe.subtitleSource⟩
      · intro _
        constructor
        · simp only [hframe.generation]
        · simp only [hframe.generation, hframe.posted]
      · intro hne
        exact absurd hempty hne
      · simp only [hframe.posted, ne_eq, List.append_right_eq_self, List.cons_ne_self,
          not_false_eq_true, hempty]
    · have hav : sq.hasBufferAvailable.1 = true := by
        cases hb : sq.mBuffers with
        | nil => exact absurd hb hempty
        | cons x xs => simp [AnotherPacketSource.hasBufferAvailable, hb]
      have hrun : subtitleSideEffect OK (some e) s2 = .ok (OK, some e, s2) := by
        unfold subtitleSideEffect
        simp only [h1, h2, ne_eq, not_true_eq_false, if_false, ht, hav, Bool.not_true,
          Bool.false_eq_true]
      refine ⟨sq, _, rfl, hrun, ?_, ?_, ?_, hframe.generation, h2, hframe.subtitleSource⟩
      · intro h
        exact absurd h hempty
      · intro _
        exact ⟨rfl, hframe.posted⟩
      · simp only [hframe.posted, ne_eq, not_true_eq_false, hempty]

/-- C18 at a playing source with a selected subtitle track, at generation 1:
while the subtitle queue is empty an audio dequeue that pops the unit stamped 0
posts one fetch for time 0 stamped with generation 1; while a cue is buffered a
video dequeue posts nothing. -/
theorem dequeueAccessUnit_fetch_witness :
    (∃ s', dequeueAccessUnit 1 true subtitleSelected = .ok (OK, some (unitAt 0), s') ∧
      s'.posted = [(kWhatFetchSubtitleData 1 0, 0)] ∧
      s'.mFetchSubtitleDataGeneration = 1 ∧ s'.mSubtitleTrack.mPackets = some {}) ∧
    (∃ s', dequeueAccessUnit 1 false subtitleAfterSeek = .ok (OK, some (unitAt 0), s') ∧
      s'.posted = [] ∧ s'.mFetchSubtitleDataGeneration = 1) := by
  have hrun : ({ subtitleSelected with mAudioTrack := { subtitleSelected.mAudioTrack with
        mPackets := some { mBuffers := [],
                           mLatestEnqueuedMeta := some { timeUs := some 0 } } } }
      : GenericSource).readBuffer 1 MEDIA_TRACK_TYPE_AUDIO (-1) false =
      .ok ({ subtitleSelected with
             reads := [(0, {})]
             mAudioTrack := { subtitleSelected.mAudioTrack with
               mPackets := some { mBuffers := [unitAt 20],
                                  mLatestEnqueuedMeta := some { timeUs := some 20 } } } },
        some 20) := rfl
  obtain ⟨sq, s', hsq, h1, h2, -, -, h3, h4, -⟩ :=
    dequeueAccessUnit_fetch 1 true subtitleSelected subtitleSelected _
      (steadyReader 0 "audio/mp4a-latm" 20) _ (unitAt 0) [] 0 rfl rfl rfl rfl ⟨_, hrun⟩
      (fun h => absurd (congrArg Option.isSome h) (by decide)) (fun _ => by decide) rfl rfl
  have hsq0 : sq = {} := (Option.some.inj hsq).symm
  subst hsq0
  have hrun2 : ({ subtitleAfterSeek with mVideoTrack := { subtitleAfterSeek.mVideoTrack with
        mPackets := some { mBuffers := [],
                           mLatestEnqueuedMeta := some { timeUs := some 0 } } } }
      : GenericSource).readBuffer 1 MEDIA_TRACK_TYPE_VIDEO (-1) false =
      .ok ({ subtitleAfterSeek with
             reads := [(1, {})]
             mVideoTrack := { subtitleAfterSeek.mVideoTrack with
               mPackets := some { mBuffers := [unitAt 30],
                                  mLatestEnqueuedMeta := some { timeUs := some 30 } } } },
        some 30) := rfl
  obtain ⟨sq2, s2', hsq2, g1, -, g2, -, g3, -, -⟩ :=
    dequeueAccessUnit_fetch 1 false subtitleAfterSeek subtitleAfterSeek _
      (steadyReader 1 "video/avc" 30) _ (unitAt 0) [] 0 rfl rfl rfl rfl ⟨_, hrun2⟩
      (fun h => absurd (congrArg Option.isSome h) (by decide)) (fun _ => by decide) rfl rfl
  have hsq3 : sq2.mBuffers ≠ [] := by
    have := (Option.some.inj hsq2).symm
    subst this
    decide
  exact ⟨⟨s', h1, (h2 rfl).2, h3, h4⟩, ⟨s2', g1, (g2 hsq3).2, g3⟩⟩

/-! ## The audio pump ahead of a dequeue in Widevine mode -/

/-- The reads of the query, the pop and the read-ahead extend the trace. -/
theorem popAndReadAhead_reads {fuel : Nat} { audio : Bool} {s s' : GenericSource}
    {r : status_t} {a : Option ABuffer}
    (h : popAndReadAhead fuel audio s = .ok (r, a, s')) :
    ∃ ext, s'.reads = s.reads ++ ext ∧
      ∀ q, (s.avTrack audio).mPackets = some q →
        (q.mBuffers = [] ∨ 2 ≤ q.mBuffers.length) → ext = [] := by
  unfold popAndReadAhead at h
  cases hq : (s.avTrack audio).mPackets with
  | none => simp [hq] at h
  | some q =>
    simp only [hq] at h
    by_cases hav : q.hasBufferAvailable.1 = true
    · simp only [hav, Bool.not_true, Bool.false_eq_true, if_false] at h
      split_ifs at h with hrest
      · cases hr : (s.setPackets (typeOf audio) q.dequeueAccessUnit.2.2).readBuffer fuel
            (typeOf audio) (-1) false with
        | error f => simp [hr] at h
        | ok p =>
          obtain ⟨s2, t⟩ := p
          simp only [hr] at h
          obtain ⟨-, -, h3, -⟩ := subtitleSideEffect_frame h
          have hext : ∃ ext, s2.reads = s.reads ++ ext := by
            rcases readBuffer_reads hr with ⟨-, h2⟩ | ⟨src, k, -, h2⟩
            · exact ⟨[], by simpa using h2⟩
            · exact ⟨_, by simpa using h2⟩
          obtain ⟨ext, hext⟩ := hext
          refine ⟨ext, h3.trans hext, ?_⟩
          intro q' hq' hlen
          rw [Option.some.injEq] at hq'
          subst hq'
          exfalso
          cases hb : q.mBuffers with
          | nil => simp [AnotherPacketSource.hasBufferAvailable, hb] at hav
          | cons x xs =>
            cases xs with
            | nil => simp [hb] at hlen
            | cons y ys =>
              simp [AnotherPacketSource.dequeueAccessUnit, AnotherPacketSource.hasBufferAvailable,
                hb] at hrest
      · obtain ⟨-, -, h3, -⟩ := subtitleSideEffect_frame h
        exact ⟨[], by simpa using h3, fun _ _ _ => rfl⟩
    · simp only [Bool.not_eq_true] at hav
      simp only [hav, Bool.not_false, if_true, Except.ok.injEq, Prod.mk.injEq] at h
      obtain ⟨-, -, h⟩ := h
      subst h
      exact ⟨[], by simp, fun _ _ _ => rfl⟩

/-- C19 as stated fails: in Widevine mode an audio dequeue on a slot with an
active reader and two buffered units returns the first unit and issues no read
at all, while an audio pump in that state issues a read of the audio reader. -/
theorem dequeueAccessUnit_audio_pump_counterexample :
    secureBuffered.mIsWidevine = true ∧
    secureBuffered.mAudioTrack.mSource.isSome = true ∧
    (∃ s', dequeueAccessUnit 1 true secureBuffered = .ok (OK, some (unitAt 0), s') ∧
      s'.reads = [] ∧ s'.mAudioTrack.mPackets.map (fun q => q.mBuffers) = some [unitAt 20]) ∧
    (∃ s', secureBuffered.readBuffer 1 MEDIA_TRACK_TYPE_AUDIO (-1) false = .ok (s', some 40) ∧
      s'.reads = [(0, {})]) :=
  ⟨rfl, rfl, ⟨_, rfl, rfl, rfl⟩, ⟨_, rfl, rfl⟩⟩

/-- C19, amended: the audio pump of lines 338 to 341 runs for a video request
in Widevine mode and for no other request.  A video dequeue in Widevine mode
on a slot with an active reader is one `readBuffer` on the audio track with
seek time -1 and `formatChange = false`, followed by the query, the pop and
the read-ahead on the video queue in the state that pump left; the options of
that pump carry no seek request, and with an audio reader every returning call
has a read of the audio reader without seek request as its first read.  An
audio dequeue, in either mode, and a video dequeue outside Widevine mode go to
the query of the requested queue at once: the call is the query, the pop and
the read-ahead in the state given, and it issues no read at all when the
requested queue is empty or holds two or more entries. -/
theorem dequeueAccessUnit_audio_pump (fuel : Nat) (s : GenericSource) :
    (s.mIsWidevine = true → s.mVideoTrack.mSource ≠ none →
      dequeueAccessUnit fuel false s =
        (match s.readBuffer fuel MEDIA_TRACK_TYPE_AUDIO (-1) false with
         | .error f => .error f
         | .ok p => popAndReadAhead fuel false p.1) ∧
      s.pumpOptions MEDIA_TRACK_TYPE_AUDIO (-1) = { seekTo := none, nonBlocking := false } ∧
      ∀ asrc r a s', s.mAudioTrack.mSource = some asrc →
        dequeueAccessUnit fuel false s = .ok (r, a, s') →
        ∃ ext, s'.reads = s.reads ++ (asrc.id, { seekTo := none, nonBlocking := false }) :: ext) ∧
    (∀ audio : Bool, (s.mIsWidevine = false ∨ audio = true) →
      (s.avTrack audio).mSource ≠ none →
      dequeueAccessUnit fuel audio s = popAndReadAhead fuel audio s ∧
      ∀ q r a s', (s.avTrack audio).mPackets = some q →
        (q.mBuffers = [] ∨ 2 ≤ q.mBuffers.length) →
        dequeueAccessUnit fuel audio s = .ok (r, a, s') → s'.reads = s.reads) := by
  constructor
  · intro hw hv
    obtain ⟨vsrc, hvsrc⟩ := Option.ne_none_iff_exists'.mp hv
    have hcall : dequeueAccessUnit fuel false s =
        (match s.readBuffer fuel MEDIA_TRACK_TYPE_AUDIO (-1) false with
         | .error f => .error f
         | .ok p => popAndReadAhead fuel false p.1) := by
      unfold dequeueAccessUnit widevineAudioPump
      simp only [avTrack, Bool.false_eq_true, if_false, hvsrc, hw, Bool.not_false, Bool.and_self,
        if_true]
      cases s.readBuffer fuel MEDIA_TRACK_TYPE_AUDIO (-1) false <;> rfl
    have hopt : s.pumpOptions MEDIA_TRACK_TYPE_AUDIO (-1) =
        { seekTo := none, nonBlocking := false } := by
      have := pumpOptions_plain s true
      simpa [typeOf] using this
    refine ⟨hcall, hopt, ?_⟩
    intro asrc r a s' hasrc hd
    rw [hcall] at hd
    cases hr : s.readBuffer fuel MEDIA_TRACK_TYPE_AUDIO (-1) false with
    | error f => simp [hr] at hd
    | ok p =>
      obtain ⟨s1, t⟩ := p
      simp only [hr] at hd
      obtain ⟨ext, hext, -⟩ := popAndReadAhead_reads hd
      rcases readBuffer_reads hr with ⟨h1, -⟩ | ⟨src, k, h1, h2⟩
      · simp [trackOf, hasrc] at h1
      · simp only [trackOf, Option.some_bind, hasrc, Option.some.injEq] at h1
        subst h1
        rw [hopt] at h2
        exact ⟨_, by rw [hext, h2, List.append_assoc, List.cons_append]⟩
  · intro audio hmode hsrc
    obtain ⟨src, hsrc⟩ := Option.ne_none_iff_exists'.mp hsrc
    have hcall : dequeueAccessUnit fuel audio s = popAndReadAhead fuel audio s := by
      have hc : (s.mIsWidevine && !audio) = false := by
        rcases hmode with h | h
        · simp [h]
        · simp [h]
      unfold dequeueAccessUnit widevineAudioPump
      simp only [hsrc, hc, Bool.false_eq_true, if_false]
    refine ⟨hcall, ?_⟩
    intro q r a s' hq hlen hd
    rw [hcall] at hd
    obtain ⟨ext, hext, hnil⟩ := popAndReadAhead_reads hd
    rw [hext, hnil q hq hlen, List.append_nil]

/-- C19 at a Widevine source with two units buffered on either slot: the video
dequeue first reads the audio reader without a seek request and then returns
the first video unit, and the audio dequeue returns the first audio unit
without any read. -/
theorem dequeueAccessUnit_audio_pump_witness :
    (∃ s', dequeueAccessUnit 1 false secureBuffered = .ok (OK, some (secureUnitAt 0), s') ∧
      ∃ ext, s'.reads = (0, { seekTo := none, nonBlocking := false }) :: ext) ∧
    (∃ s', dequeueAccessUnit 1 true secureBuffered = .ok (OK, some (unitAt 0), s') ∧
      s'.reads = []) := by
  have h := dequeueAccessUnit_audio_pump 1 secureBuffered
  have hv : dequeueAccessUnit 1 false secureBuffered = .ok (OK, some (secureUnitAt 0), _) := rfl
  have ha : dequeueAccessUnit 1 true secureBuffered = .ok (OK, some (unitAt 0), _) := rfl
  exact ⟨⟨_, hv, (h.1 rfl (fun h => absurd (congrArg Option.isSome h) (by decide))).2.2
      (steadyReader 0 "audio/mp4a-latm" 40) _ _ _ rfl hv⟩,
    ⟨_, ha, (h.2 true (Or.inr rfl) (fun h => absurd (congrArg Option.isSome h) (by decide))).2
      _ _ _ _ rfl (Or.inr (by decide)) ha⟩⟩

/-! ## The fatal fault of the track switch -/

/-- The handler of `kWhatChangeAVSource` is the checks of lines 272 to 306
followed by the two pumps. -/
theorem onChangeAVSource_gate (fuel i : Nat) (s : GenericSource) :
    s.onChangeAVSource fuel i =
      match resyncPoint i s with
      | .error f => .error f
      | .ok (s1, isAudio, timeUs) =>
        match s1.readBuffer fuel (typeOf isAudio) timeUs true with
        | .error f => .error f
        | .ok p =>
          match p.1.readBuffer fuel (typeOf (!isAudio)) (-1) true with
          | .error f => .error f
          | .ok p => .ok p.1 := by
  unfold onChangeAVSource resyncPoint
  cases s.mSources[i]? with
  | none => rfl
  | some source =>
    simp only []
    cases source.format.kKeyMIMEType with
    | none => rfl
    | some mime =>
      simp only []
      cases switchTarget mime with
      | error f => rfl
      | ok isAudio =>
        simp only []
        cases ((s.installSource isAudio source i).avTrack isAudio).mPackets with
        | none => rfl
        | some q =>
          simp only []
          cases hav : q.hasBufferAvailable.1 with
          | false => simp
          | true =>
            simp only [Bool.not_true, Bool.false_eq_true, if_false]
            cases q.getLatestMeta.bind (fun m => m.timeUs) with
            | none => rfl
            | some t => rfl

/-- C20: a `kWhatChangeAVSource` message for catalog index `i` of an audio or
video reader, delivered while the target slot has the queue `q`.  When `q` has
no buffered unit available, whatever its terminal status is, the handler ends
in the fault `abort` for every fuel: the fault is raised by the checks of
lines 272 to 306, which come before the two pumps and issue no read, and it is
raised with no fuel at all, with which a pump of the newly installed reader
could not issue its read.  When `q` has a buffered unit and its latest stamped
timestamp is `t`, the checks pass with the new reader installed and `t` as the
resync point, the handler is exactly the pump of the new reader followed by
the pump of the counterpart, and it returns when these two pumps return. -/
theorem onChangeAVSource_fatal (fuel i : Nat) (s : GenericSource) (source : MediaSource)
    (mime : String) (isAudio : Bool) (q : AnotherPacketSource)
    (hsrc : s.mSources[i]? = some source)
    (hmime : source.format.kKeyMIMEType = some mime)
    (hsel : switchTarget mime = .ok isAudio)
    (hq : (s.avTrack isAudio).mPackets = some q) :
    (q.hasBufferAvailable.1 = false ↔ q.mBuffers = []) ∧
    (q.mBuffers = [] →
      s.onMessageReceived fuel (kWhatChangeAVSource i) = .error Fault.abort ∧
      s.onMessageReceived 0 (kWhatChangeAVSource i) = .error Fault.abort ∧
      resyncPoint i s = .error Fault.abort ∧
      ∀ t : Int, (s.installSource isAudio source i).readBuffer 0 (typeOf isAudio) t true =
        .error Fault.outOfFuel) ∧
    (∀ t : Int, q.mBuffers ≠ [] → q.getLatestMeta.bind (fun m => m.timeUs) = some t →
      resyncPoint i s = .ok (s.installSource isAudio source i, isAudio, t) ∧
      s.onMessageReceived fuel (kWhatChangeAVSource i) =
        (match (s.installSource isAudio source i).readBuffer fuel (typeOf isAudio) t true with
         | .error f => .error f
         | .ok p =>
           match p.1.readBuffer fuel (typeOf (!isAudio)) (-1) true with
           | .error f => .error f
           | .ok p => .ok p.1) ∧
      ∀ s1 t1 s2 t2,
        (s.installSource isAudio source i).readBuffer fuel (typeOf isAudio) t true =
          .ok (s1, t1) →
        s1.readBuffer fuel (typeOf (!isAudio)) (-1) true = .ok (s2, t2) →
        s.onMessageReceived fuel (kWhatChangeAVSource i) = .ok s2) := by
  have hq2 := (installSource_target s isAudio source i).2.2.trans hq
  have havail : q.hasBufferAvailable.1 = false ↔ q.mBuffers = [] := by
    cases hb : q.mBuffers <;> simp [AnotherPacketSource.hasBufferAvailable, hb]
  refine ⟨havail, ?_, ?_⟩
  · intro hempty
    have hno := havail.mpr hempty
    have hgate : resyncPoint i s = .error Fault.abort := by
      unfold resyncPoint
      simp only [hsrc, hmime, hsel, hq2, hno, Bool.not_false, if_true]
    have hall : ∀ n, s.onMessageReceived n (kWhatChangeAVSource i) = .error Fault.abort := by
      intro n
      simp only [onMessageReceived]
      rw [onChangeAVSource_gate, hgate]
    refine ⟨hall fuel, hall 0, hgate, ?_⟩
    intro t
    exact readBuffer_no_fuel t true (trackOf_typeOf _ isAudio)
      (installSource_target s isAudio source i).1
  · intro t hne hlatest
    have hyes : q.hasBufferAvailable.1 = true := by
      cases hb : q.hasBufferAvailable.1 with
      | false => exact absurd (havail.mp hb) hne
      | true => rfl
    have hgate : resyncPoint i s = .ok (s.installSource isAudio source i, isAudio, t) := by
      unfold resyncPoint
      simp only [hsrc, hmime, hsel, hq2, hyes, Bool.not_true, Bool.false_eq_true, if_false,
        hlatest]
    have hcall : s.onMessageReceived fuel (kWhatChangeAVSource i) =
        (match (s.installSource isAudio source i).readBuffer fuel (typeOf isAudio) t true with
         | .error f => .error f
         | .ok p =>
           match p.1.readBuffer fuel (typeOf (!isAudio)) (-1) true with
           | .error f => .error f
           | .ok p => .ok p.1) := by
      simp only [onMessageReceived]
      rw [onChangeAVSource_gate, hgate]
    refine ⟨hgate, hcall, ?_⟩
    intro s1 t1 s2 t2 h1 h2
    rw [hcall]
    simp only [h1, h2]

/-- C20 at a playing source with two audio readers: while the audio queue is
empty and ended the switch to the second audio reader ends in `abort`, also
with no fuel; while the audio queue holds a unit stamped 7 the checks pass with
7 as the resync point. -/
theorem onChangeAVSource_fatal_witness :
    twoAudioDrained.onMessageReceived 1 (kWhatChangeAVSource 2) = .error Fault.abort ∧
    twoAudioDrained.onMessageReceived 0 (kWhatChangeAVSource 2) = .error Fault.abort ∧
    resyncPoint 2 (twoAudio 7) =
      .ok ((twoAudio 7).installSource true (steadyReader 2 "AUDIO/vorbis" 5000) 2, true, 7) := by
  have h1 := (onChangeAVSource_fatal 1 2 twoAudioDrained (steadyReader 2 "AUDIO/vorbis" 5000)
    "AUDIO/vorbis" true _ rfl rfl rfl rfl).2.1 rfl
  have h2 := (onChangeAVSource_fatal 1 2 (twoAudio 7) (steadyReader 2 "AUDIO/vorbis" 5000)
    "AUDIO/vorbis" true _ rfl rfl rfl rfl).2.2 7 (by decide) rfl
  exact ⟨h1.1, h1.2.1, h2.1⟩

/-! ## The catalog and the slots after the initialization scan -/

/-- A MIME type with the prefix `audio/` does not have the prefix `video/`. -/
theorem audio_prefix_not_video {mime : String} (h : strncasecmp mime "audio/" 6 = 0) :
    strncasecmp mime "video/" 6 ≠ 0 := by
  intro hv
  rw [strncasecmp_eq_zero] at h hv
  rw [h] at hv
  revert hv
  decide

theorem firstReader_cons (pfx : String) (n : Nat) (e : ExtractorTrack)
    (es : List ExtractorTrack) :
    firstReader pfx n (e :: es) = (firstReader pfx n [e]).or (firstReader pfx n es) := by
  unfold firstReader
  simp only [List.find?_cons]
  cases hp : (e.track.isSome && trackHasPrefix e pfx n) with
  | false => simp
  | true =>
    simp only [Bool.and_eq_true] at hp
    obtain ⟨r, hr⟩ := Option.isSome_iff_exists.mp hp.1
    simp [hr]

theorem claimSlot_slots (s : GenericSource) (i : Nat) (e : ExtractorTrack) (mime : String)
    (hm : e.meta.kKeyMIMEType = some mime) :
    (s.claimSlot i mime e.track).mSources = s.mSources ∧
    (s.claimSlot i mime e.track).mAudioTrack.mSource =
      s.mAudioTrack.mSource.or (firstReader "audio/" 6 [e]) ∧
    (s.claimSlot i mime e.track).mVideoTrack.mSource =
      s.mVideoTrack.mSource.or (firstReader "video/" 6 [e]) := by
  have hfirst : ∀ pfx : String, firstReader pfx 6 [e] =
      if strncasecmp mime pfx 6 = 0 then e.track else none := by
    intro pfx
    unfold firstReader trackHasPrefix
    simp only [List.find?_cons, hm, List.find?_nil]
    cases ht : e.track with
    | none => simp
    | some r =>
      by_cases hp : strncasecmp mime pfx 6 = 0
      · simp [hp, ht]
      · simp [hp]
  rw [hfirst "audio/", hfirst "video/"]
  unfold claimSlot
  by_cases ha : strncasecmp mime "audio/" 6 = 0
  · have hv := audio_prefix_not_video ha
    simp only [ha, if_true, hv, if_false]
    cases hs : s.mAudioTrack.mSource with
    | none => simp
    | some r => simp [hs]
  · simp only [ha, if_false]
    by_cases hv : strncasecmp mime "video/" 6 = 0
    · simp only [hv, if_true]
      cases hs : s.mVideoTrack.mSource with
      | none => simp
      | some r => simp [hs]
    · simp [hv]

theorem registerTrack_slots {s s' : GenericSource} {e : ExtractorTrack}
    (h : s.registerTrack e = .ok s') :
    s'.mSources = s.mSources ++ obtainedReaders [e] ∧
    s'.mAudioTrack = s.mAudioTrack ∧ s'.mVideoTrack = s.mVideoTrack := by
  unfold registerTrack at h
  unfold obtainedReaders
  cases ht : e.track with
  | none =>
    simp only [ht, Except.ok.injEq] at h
    subst h
    simp [ht]
  | some track =>
    simp only [ht] at h
    split_ifs at h with hst
    cases hd : e.meta.kKeyDuration with
    | none =>
      simp only [hd, Except.ok.injEq] at h
      subst h
      simp [ht]
    | some d =>
      simp only [hd] at h
      split_ifs at h with hgt
      · simp only [Except.ok.injEq] at h
        subst h
        simp [ht]
      · simp only [Except.ok.injEq] at h
        subst h
        simp [ht]

theorem scanTrack_slots {s s' : GenericSource} {i : Nat} {e : ExtractorTrack}
    (h : s.scanTrack i e = .ok s') :
    s'.mSources = s.mSources ++ obtainedReaders [e] ∧
    s'.mAudioTrack.mSource = s.mAudioTrack.mSource.or (firstReader "audio/" 6 [e]) ∧
    s'.mVideoTrack.mSource = s.mVideoTrack.mSource.or (firstReader "video/" 6 [e]) := by
  unfold scanTrack at h
  cases hm : e.meta.kKeyMIMEType with
  | none => simp [hm] at h
  | some mime =>
    simp only [hm] at h
    obtain ⟨h1, h2, h3⟩ := registerTrack_slots h
    obtain ⟨c1, c2, c3⟩ := claimSlot_slots s i e mime hm
    exact ⟨by rw [h1, c1], by rw [h2, c2], by rw [h3, c3]⟩

theorem option_or_assoc {α : Type} (a b c : Option α) : (a.or b).or c = a.or (b.or c) := by
  cases a <;> rfl

theorem scanTracks_slots (es : List ExtractorTrack) :
    ∀ (i : Nat) (s s' : GenericSource), scanTracks es i s = .ok s' →
      s'.mSources = s.mSources ++ obtainedReaders es ∧
      s'.mAudioTrack.mSource = s.mAudioTrack.mSource.or (firstReader "audio/" 6 es) ∧
      s'.mVideoTrack.mSource = s.mVideoTrack.mSource.or (firstReader "video/" 6 es) := by
  induction es with
  | nil =>
    intro i s s' h
    simp only [scanTracks, Except.ok.injEq] at h
    subst h
    simp [obtainedReaders, firstReader]
  | cons e es ih =>
    intro i s s' h
    simp only [scanTracks] at h
    cases h1 : s.scanTrack i e with
    | error f => simp [h1] at h
    | ok s1 =>
      simp only [h1] at h
      obtain ⟨a1, a2, a3⟩ := scanTrack_slots h1
      obtain ⟨b1, b2, b3⟩ := ih _ _ _ h
      refine ⟨?_, ?_, ?_⟩
      · rw [b1, a1, List.append_assoc]
        congr 1
        unfold obtainedReaders
        cases ht : e.track <;> simp [List.filterMap_cons, ht]
      · rw [b2, a2, option_or_assoc, ← firstReader_cons]
      · rw [b3, a3, option_or_assoc, ← firstReader_cons]

theorem obtainedReaders_split (pre post : List ExtractorTrack) (e : ExtractorTrack)
    (r : MediaSource) (h : e.track = some r) :
    obtainedReaders (pre ++ e :: post) = obtainedReaders pre ++ r :: obtainedReaders post := by
  unfold obtainedReaders
  rw [List.filterMap_append, List.filterMap_cons, h]

/-- The first reader of a type in the tracks is a track that has that reader
and the prefix, with no such track before it. -/
theorem firstReader_some {pfx : String} {n : Nat} {tracks : List ExtractorTrack}
    {r : MediaSource} (h : firstReader pfx n tracks = some r) :
    ∃ pre e post, tracks = pre ++ e :: post ∧ e.track = some r ∧
      trackHasPrefix e pfx n = true ∧
      ∀ a ∈ pre, a.track = none ∨ trackHasPrefix a pfx n = false := by
  unfold firstReader at h
  cases hf : tracks.find? (fun e => e.track.isSome && trackHasPrefix e pfx n) with
  | none => simp [hf] at h
  | some e =>
    simp only [hf, Option.some_bind] at h
    obtain ⟨hp, pre, post, hsplit, hpre⟩ := List.find?_eq_some.mp hf
    simp only [Bool.and_eq_true] at hp
    refine ⟨pre, e, post, hsplit, h, hp.2, ?_⟩
    intro a ha
    have := hpre a ha
    simp only [Bool.not_eq_true', Bool.and_eq_false_imp, Option.isSome_iff_ne_none] at this
    by_cases hn : a.track = none
    · exact Or.inl hn
    · exact Or.inr (this hn)

theorem firstReader_none {pfx : String} {n : Nat} {tracks : List ExtractorTrack} :
    firstReader pfx n tracks = none ↔
      ∀ e ∈ tracks, e.track ≠ none → trackHasPrefix e pfx n = false := by
  unfold firstReader
  constructor
  · intro h e he hne
    cases hf : tracks.find? (fun e => e.track.isSome && trackHasPrefix e pfx n) with
    | none =>
      have := List.find?_eq_none.mp hf e he
      simp only [Bool.and_eq_true, not_and, Bool.not_eq_true] at this
      exact this (Option.isSome_iff_ne_none.mpr hne)
    | some e2 =>
      have hp := (List.find?_eq_some.mp hf).1
      simp only [Bool.and_eq_true] at hp
      obtain ⟨r, hr⟩ := Option.isSome_iff_exists.mp hp.1
      simp [hf, hr] at h
  · intro h
    have : tracks.find? (fun e => e.track.isSome && trackHasPrefix e pfx n) = none := by
      rw [List.find?_eq_none]
      intro e he
      simp only [Bool.and_eq_true, not_and, Bool.not_eq_true]
      intro hs
      exact h e he (Option.isSome_iff_ne_none.mp hs)
    simp [this]

/-- When every obtained reader carries the MIME type of its track, the first
reader of a type among the tracks is the first catalog entry of that type. -/
theorem firstReader_catalog (pfx : String) (n : Nat) (tracks : List ExtractorTrack) :
    (∀ e ∈ tracks, ∀ r, e.track = some r → r.format.kKeyMIMEType = e.meta.kKeyMIMEType) →
    (obtainedReaders tracks).find? (fun r => readerHasPrefix r pfx n) =
      firstReader pfx n tracks := by
  induction tracks with
  | nil => intro _; rfl
  | cons e es ih =>
    intro hagree
    have ih2 := ih (fun a ha => hagree a (List.mem_cons_of_mem _ ha))
    rw [firstReader_cons]
    cases ht : e.track with
    | none =>
      have h1 : obtainedReaders (e :: es) = obtainedReaders es := by
        simp [obtainedReaders, List.filterMap_cons, ht]
      have h2 : firstReader pfx n [e] = none := by
        simp [firstReader, ht]
      rw [h1, h2, ih2]
      rfl
    | some r =>
      have h1 : obtainedReaders (e :: es) = r :: obtainedReaders es := by
        simp [obtainedReaders, List.filterMap_cons, ht]
      have hsame : readerHasPrefix r pfx n = trackHasPrefix e pfx n := by
        unfold readerHasPrefix trackHasPrefix
        rw [hagree e (List.mem_cons_self _ _) r ht]
      rw [h1, List.find?_cons, hsame]
      cases hp : trackHasPrefix e pfx n with
      | true =>
        have h2 : firstReader pfx n [e] = some r := by
          simp [firstReader, ht, hp]
        rw [h2]
        rfl
      | false =>
        have h2 : firstReader pfx n [e] = none := by
          simp [firstReader, ht, hp]
        rw [h2, ih2]
        rfl

/-- C21: the state after an initialization that opens an extractor and returns.
The catalog is the list of the obtained readers in container order and
`getTrackCount` is its length.  The reader of the audio slot is the first
obtained reader, in container order, whose track has a MIME type with the
prefix `audio/` (compared without regard to case), the reader of the video
slot the first with the prefix `video/`; a slot is empty exactly when no
obtained reader is of its type.  The slot's reader is the catalog entry of a
track with every obtained reader of the same type after it: the catalog is the
readers before that track, the slot's reader, and the readers after it, which
hold every later reader of the type.  No subtitle track is selected.  When
every obtained reader carries the MIME type of its track in its own format,
the reader of a slot is the first catalog entry whose MIME type has the
prefix. -/
theorem initFromDataSource_catalog (isWidevine : Bool) (dataSource : DataSource)
    (extractor : MediaExtractor) (s0 : GenericSource)
    (hopen : (fresh isWidevine).openExtractor dataSource = some (some extractor))
    (hinit : (fresh isWidevine).initFromDataSource dataSource = .ok s0) :
    s0.mSources = obtainedReaders extractor.tracks ∧
    s0.getTrackCount = (obtainedReaders extractor.tracks).length ∧
    s0.mAudioTrack.mSource = firstReader "audio/" 6 extractor.tracks ∧
    s0.mVideoTrack.mSource = firstReader "video/" 6 extractor.tracks ∧
    s0.mSubtitleTrack.mSource = none ∧
    (s0.mAudioTrack.mSource = none ↔
      ∀ e ∈ extractor.tracks, e.track ≠ none → trackHasPrefix e "audio/" 6 = false) ∧
    (s0.mVideoTrack.mSource = none ↔
      ∀ e ∈ extractor.tracks, e.track ≠ none → trackHasPrefix e "video/" 6 = false) ∧
    (∀ r, s0.mAudioTrack.mSource = some r →
      ∃ pre e post, extractor.tracks = pre ++ e :: post ∧ e.track = some r ∧
        trackHasPrefix e "audio/" 6 = true ∧
        (∀ a ∈ pre, a.track = none ∨ trackHasPrefix a "audio/" 6 = false) ∧
        s0.mSources = obtainedReaders pre ++ r :: obtainedReaders post) ∧
    (∀ r, s0.mVideoTrack.mSource = some r →
      ∃ pre e post, extractor.tracks = pre ++ e :: post ∧ e.track = some r ∧
        trackHasPrefix e "video/" 6 = true ∧
        (∀ a ∈ pre, a.track = none ∨ trackHasPrefix a "video/" 6 = false) ∧
        s0.mSources = obtainedReaders pre ++ r :: obtainedReaders post) ∧
    ((∀ e ∈ extractor.tracks, ∀ r, e.track = some r →
        r.format.kKeyMIMEType = e.meta.kKeyMIMEType) →
      s0.mAudioTrack.mSource = s0.mSources.find? (fun r => readerHasPrefix r "audio/" 6) ∧
      s0.mVideoTrack.mSource = s0.mSources.find? (fun r => readerHasPrefix r "video/" 6)) := by
  have hsub := initFromDataSource_subtitle hinit
  unfold initFromDataSource at hinit
  simp only [hopen] at hinit
  obtain ⟨h1, h2, h3⟩ := scanTracks_slots _ _ _ _ hinit
  have hbase : ((fresh isWidevine).readFileMeta extractor).mSources = [] ∧
      ((fresh isWidevine).readFileMeta extractor).mAudioTrack.mSource = none ∧
      ((fresh isWidevine).readFileMeta extractor).mVideoTrack.mSource = none := by
    unfold readFileMeta
    cases extractor.fileMeta with
    | none => exact ⟨rfl, rfl, rfl⟩
    | some m =>
      cases hm : m.kKeyDuration with
      | none => simp only [hm]; exact ⟨rfl, rfl, rfl⟩
      | some d => simp only [hm]; exact ⟨rfl, rfl, rfl⟩
  rw [hbase.1, List.nil_append] at h1
  rw [hbase.2.1, Option.none_or] at h2
  rw [hbase.2.2, Option.none_or] at h3
  refine ⟨h1, by simp [getTrackCount, h1], h2, h3, hsub, ?_, ?_, ?_, ?_, ?_⟩
  · rw [h2]; exact firstReader_none
  · rw [h3]; exact firstReader_none
  · intro r hr
    rw [h2] at hr
    obtain ⟨pre, e, post, hsplit, he, hp, hpre⟩ := firstReader_some hr
    exact ⟨pre, e, post, hsplit, he, hp, hpre, by rw [h1, hsplit, obtainedReaders_split _ _ _ _ he]⟩
  · intro r hr
    rw [h3] at hr
    obtain ⟨pre, e, post, hsplit, he, hp, hpre⟩ := firstReader_some hr
    exact ⟨pre, e, post, hsplit, he, hp, hpre, by rw [h1, hsplit, obtainedReaders_split _ _ _ _ he]⟩
  · intro hagree
    rw [h1, h2, h3, firstReader_catalog _ _ _ hagree, firstReader_catalog _ _ _ hagree]
    exact ⟨rfl, rfl⟩

/-- C21 on a container with an audio track, a video track and a second audio
track: the catalog holds the three readers, the audio slot has the first audio
reader, the video slot the video reader, and the second audio reader is in the
catalog at index 2 without a slot. -/
theorem initFromDataSource_catalog_witness :
    ∃ s0, (fresh false).initFromDataSource twoAudioMovie = .ok s0 ∧
      s0.mSources.map (fun r => r.id) = [0, 1, 2] ∧ s0.getTrackCount = 3 ∧
      s0.mAudioTrack.mSource.map (fun r => r.id) = some 0 ∧
      s0.mVideoTrack.mSource.map (fun r => r.id) = some 1 ∧
      s0.mSubtitleTrack.mSource.map (fun r => r.id) = none := by
  have hinit : (fresh false).initFromDataSource twoAudioMovie = .ok _ := rfl
  obtain ⟨h1, h2, h3, h4, h5, -⟩ :=
    initFromDataSource_catalog false twoAudioMovie _ _ rfl hinit
  exact ⟨_, hinit, by rw [h1]; rfl, h2, by rw [h3]; rfl, by rw [h4]; rfl, by rw [h5]; rfl⟩

/-! ## The loop of the pump -/

theorem readLoop_succ (fuel : Nat) (src : MediaSource) (trackType : media_track_type)
    (seeking formatChange : Bool) (options : ReadOptions) (a : Int) (s : GenericSource) :
    readLoop (fuel + 1) src trackType seeking formatChange options a s =
      if (src.read s.reads options).1 = INFO_FORMAT_CHANGED then
        readLoop fuel src trackType seeking formatChange options.clearSeekTo a
          (s.withReads (s.reads ++ [(src.id, options)]))
      else
        settle (s.withReads (s.reads ++ [(src.id, options)])) trackType seeking formatChange a
          (src.read s.reads options) := by
  rw [readLoop]
  unfold settle withReads
  generalize src.read s.reads options = r
  by_cases h1 : r.1 = OK
  · have h3 : ¬ r.1 = INFO_FORMAT_CHANGED := by rw [h1]; decide
    rw [if_pos h1, if_neg h3, if_pos h1]
  · by_cases h2 : r.1 = WOULD_BLOCK
    · have h3 : ¬ r.1 = INFO_FORMAT_CHANGED := by rw [h2]; decide
      rw [if_neg h1, if_pos h2, if_neg h3, if_neg h1, if_pos h2]
    · by_cases h3 : r.1 = INFO_FORMAT_CHANGED
      · rw [if_neg h1, if_neg h2, if_pos h3, if_pos h3]
      · rw [if_neg h1, if_neg h2, if_neg h3, if_neg h3, if_neg h1, if_neg h2]

/-- A pump whose reader answers format-changed `n` times and then `r` issues
`n + 1` reads and then treats `r` as lines 601 to 629 do, in a state that
differs from the state given in the trace of reads only. -/
theorem readLoop_retries (src : MediaSource) (trackType : media_track_type)
    (seeking formatChange : Bool) (a : Int) (r : status_t × Option MediaBuffer)
    (hr : r.1 ≠ INFO_FORMAT_CHANGED) (k : Nat) :
    ∀ (n : Nat) (options : ReadOptions) (s : GenericSource),
      answersAfter src s.reads options n r →
      readLoop (n + 1 + k) src trackType seeking formatChange options a s =
        settle (s.withReads (s.reads ++ retryReads src options n)) trackType seeking
          formatChange a r := by
  intro n
  induction n with
  | zero =>
    intro options s hans
    simp only [answersAfter] at hans
    rw [show 0 + 1 + k = k + 1 from by omega, readLoop_succ, hans, if_neg hr]
    rfl
  | succ m ih =>
    intro options s hans
    obtain ⟨h1, h2⟩ := hans
    rw [show m + 1 + 1 + k = (m + 1 + k) + 1 from by omega, readLoop_succ, if_pos h1]
    have := ih options.clearSeekTo (s.withReads (s.reads ++ [(src.id, options)])) h2
    rw [this]
    simp only [withReads, retryReads, clearSeekTo_idem, List.append_assoc, List.singleton_append,
      List.replicate_succ]

/-- A pump that runs out of fuel during the format-changed answers does not
finish. -/
theorem readLoop_starved (src : MediaSource) (trackType : media_track_type)
    (seeking formatChange : Bool) (a : Int) (r : status_t × Option MediaBuffer) :
    ∀ (n fuel : Nat) (options : ReadOptions) (s : GenericSource), fuel ≤ n →
      answersAfter src s.reads options n r →
      readLoop fuel src trackType seeking formatChange options a s =
        .error Fault.outOfFuel := by
  intro n
  induction n with
  | zero =>
    intro fuel options s hle _
    have : fuel = 0 := by omega
    subst this
    rfl
  | succ m ih =>
    intro fuel options s hle hans
    cases fuel with
    | zero => rfl
    | succ f =>
      obtain ⟨h1, h2⟩ := hans
      rw [readLoop_succ, if_pos h1]
      exact ih f _ _ (by omega) h2

theorem setPackets_withReads (s : GenericSource) (trackType : media_track_type)
    (q : AnotherPacketSource) (rd : List ReadEvent) :
    (s.withReads rd).setPackets trackType q = (s.setPackets trackType q).withReads rd := by
  cases trackType <;> rfl

theorem packetsOf_withReads (s : GenericSource) (trackType : media_track_type)
    (rd : List ReadEvent) : (s.withReads rd).packetsOf trackType = s.packetsOf trackType := by
  cases trackType <;> rfl

/-- What lines 601 to 629 do does not depend on the trace of reads. -/
theorem settle_withReads (s : GenericSource) (trackType : media_track_type)
    (seeking formatChange : Bool) (a : Int) (r : status_t × Option MediaBuffer)
    (rd : List ReadEvent) :
    settle (s.withReads rd) trackType seeking formatChange a r =
      match settle s trackType seeking formatChange a r with
      | .error f => .error f
      | .ok p => .ok (p.1.withReads rd, p.2) := by
  have hmarker : (s.withReads rd).queueMarker trackType seeking formatChange =
      match s.queueMarker trackType seeking formatChange with
      | .error f => .error f
      | .ok s1 => .ok (s1.withReads rd) := by
    unfold queueMarker
    rw [packetsOf_withReads]
    split_ifs
    · cases s.packetsOf trackType with
      | none => rfl
      | some q => simp only [setPackets_withReads]
    · rfl
  have hsample : ∀ mb, (s.withReads rd).queueSample trackType seeking formatChange mb =
      match s.queueSample trackType seeking formatChange mb with
      | .error f => .error f
      | .ok p => .ok (p.1.withReads rd, p.2) := by
    intro mb
    unfold queueSample
    rw [hmarker]
    cases s.queueMarker trackType seeking formatChange with
    | error f => rfl
    | ok s1 =>
      simp only []
      rw [packetsOf_withReads,
        (show (s1.withReads rd).mediaBufferToABuffer mb trackType =
            s1.mediaBufferToABuffer mb trackType from
          mediaBufferToABuffer_congr mb trackType rfl rfl rfl)]
      cases s1.mediaBufferToABuffer mb trackType with
      | error f => rfl
      | ok p =>
        obtain ⟨buffer, t⟩ := p
        simp only []
        cases s1.packetsOf trackType with
        | none => rfl
        | some q => simp only [setPackets_withReads]
  have hend : ∀ e, (s.withReads rd).endStream trackType e =
      match s.endStream trackType e with
      | .error f => .error f
      | .ok s1 => .ok (s1.withReads rd) := by
    intro e
    unfold endStream
    rw [packetsOf_withReads]
    cases s.packetsOf trackType with
    | none => rfl
    | some q => simp only [setPackets_withReads]
  unfold settle
  split_ifs
  · cases r.2 with
    | none => rfl
    | some mb => exact hsample mb
  · rfl
  · rw [hend]
    cases s.endStream trackType r.1 with
    | error f => rfl
    | ok s1 => rfl

/-- The pump whose reader answers format-changed `n` times and then `r`, with
fuel for at least `n + 1` reads. -/
theorem readBuffer_retries (n k : Nat) {s : GenericSource} {trackType : media_track_type}
    {track : Track} {src : MediaSource} (seekTimeUs : Int) (formatChange : Bool)
    {r : status_t × Option MediaBuffer}
    (htr : s.trackOf trackType = some track) (hsrc : track.mSource = some src)
    (hans : answersAfter src s.reads (s.pumpOptions trackType seekTimeUs) n r)
    (hr : r.1 ≠ INFO_FORMAT_CHANGED) :
    s.readBuffer (n + 1 + k) trackType seekTimeUs formatChange =
      match settle s trackType (decide (seekTimeUs ≥ 0)) formatChange seekTimeUs r with
      | .error f => .error f
      | .ok p =>
        .ok (p.1.withReads (s.reads ++ retryReads src (s.pumpOptions trackType seekTimeUs) n),
          some p.2) := by
  unfold readBuffer
  simp only [htr, hsrc]
  rw [readLoop_retries src trackType _ formatChange seekTimeUs r hr k n _ s hans,
    settle_withReads]
  cases settle s trackType (decide (seekTimeUs ≥ 0)) formatChange seekTimeUs r with
  | error f => rfl
  | ok p => rfl

theorem settle_failure {s : GenericSource} {trackType : media_track_type} {track : Track}
    {q : AnotherPacketSource} (seeking formatChange : Bool) (a : Int) {e : status_t}
    (mb : Option MediaBuffer)
    (htr : s.trackOf trackType = some track) (hq : track.mPackets = some q)
    (hne : e ≠ OK) :
    settle s trackType seeking formatChange a (e, mb) =
      .ok (if e = WOULD_BLOCK then s else s.setPackets trackType (q.signalEOS e), a) := by
  unfold settle
  simp only [hne, if_false]
  split_ifs with hw
  · rfl
  · simp only [endStream, (packetsOf_eq htr).trans hq]

/-- C23: a `readBuffer` call on a slot with reader and queue `q` whose reader
answers format-changed `n` times and then a status `e` that is neither
success nor format-changed, with fuel for at least `n + 1` reads.  The call
returns with the seek time as landed timestamp.  When `e` is would-block the
state differs from the state given in the trace of reads only, so the queue
is as it was.  Otherwise end-of-stream is signalled on the queue of the slot,
with status `e`, and nothing else changes but the trace of reads.  In both
cases the entries of the queue and its latest stamped meta data are as they
were: no access unit and no discontinuity marker is queued. -/
theorem readBuffer_failure (n k : Nat) (s : GenericSource) (trackType : media_track_type)
    (track : Track) (src : MediaSource) (q : AnotherPacketSource) (seekTimeUs : Int)
    (formatChange : Bool) (e : status_t) (mb : Option MediaBuffer)
    (htr : s.trackOf trackType = some track) (hsrc : track.mSource = some src)
    (hq : track.mPackets = some q)
    (hans : answersAfter src s.reads (s.pumpOptions trackType seekTimeUs) n (e, mb))
    (hne : e ≠ OK) (hfc : e ≠ INFO_FORMAT_CHANGED) :
    (e = WOULD_BLOCK →
      s.readBuffer (n + 1 + k) trackType seekTimeUs formatChange =
        .ok (s.withReads (s.reads ++ retryReads src (s.pumpOptions trackType seekTimeUs) n),
          some seekTimeUs)) ∧
    (e ≠ WOULD_BLOCK →
      s.readBuffer (n + 1 + k) trackType seekTimeUs formatChange =
        .ok ((s.setPackets trackType (q.signalEOS e)).withReads
            (s.reads ++ retryReads src (s.pumpOptions trackType seekTimeUs) n),
          some seekTimeUs)) ∧
    (∃ s' q', s.readBuffer (n + 1 + k) trackType seekTimeUs formatChange =
        .ok (s', some seekTimeUs) ∧
      s'.packetsOf trackType = some q' ∧
      q'.mBuffers = q.mBuffers ∧ q'.mLatestEnqueuedMeta = q.mLatestEnqueuedMeta ∧
      q'.mEOSResult = (if e = WOULD_BLOCK then q.mEOSResult else e) ∧
      (e = WOULD_BLOCK → q' = q) ∧ (e ≠ WOULD_BLOCK → q' = q.signalEOS e) ∧
      s'.reads = s.reads ++ retryReads src (s.pumpOptions trackType seekTimeUs) n ∧
      PumpFrame trackType s s') := by
  have hrun := readBuffer_retries n k seekTimeUs formatChange htr hsrc hans hfc
  rw [settle_failure _ formatChange seekTimeUs mb htr hq hne] at hrun
  simp only [] at hrun
  have hp : s.packetsOf trackType = some q := (packetsOf_eq htr).trans hq
  by_cases hw : e = WOULD_BLOCK
  · simp only [hw, if_true] at hrun
    refine ⟨fun _ => hrun, fun h => absurd hw h, _, q, hrun, ?_, rfl, rfl, by simp [hw],
      fun _ => rfl, fun h => absurd hw h, rfl, pumpFrame_reads _ _ _⟩
    rw [packetsOf_withReads, hp]
  · simp only [hw, if_false] at hrun
    refine ⟨fun h => absurd h hw, fun _ => hrun, _, q.signalEOS e, hrun, ?_, rfl, rfl,
      by simp [hw, AnotherPacketSource.signalEOS], fun h => absurd h hw, fun _ => rfl, rfl,
      pumpFrame_trans (pumpFrame_setPackets _ _ _) (pumpFrame_reads _ _ _)⟩
    rw [packetsOf_withReads, packetsOf_setPackets htr]

/-- C23 at a reader that answers format-changed twice and then end-of-stream,
and at one that then would block: the first pump issues three reads and ends
the stream of the audio queue, the second issues three reads and leaves the
queue as it was. -/
theorem readBuffer_failure_witness :
    (hesitant (ERROR_END_OF_STREAM, none)).readBuffer 3 MEDIA_TRACK_TYPE_AUDIO (-1) false =
      .ok ({ hesitant (ERROR_END_OF_STREAM, none) with
             reads := [(0, {}), (0, {}), (0, {})]
             mAudioTrack := { (hesitant (ERROR_END_OF_STREAM, none)).mAudioTrack with
               mPackets := some { mBuffers := [unitAt 0], mEOSResult := ERROR_END_OF_STREAM,
                                  mLatestEnqueuedMeta := some { timeUs := some 0 } } } },
        some (-1)) ∧
    (hesitant (WOULD_BLOCK, none)).readBuffer 3 MEDIA_TRACK_TYPE_AUDIO (-1) false =
      .ok ({ hesitant (WOULD_BLOCK, none) with reads := [(0, {}), (0, {}), (0, {})] },
        some (-1)) :=
  ⟨(readBuffer_failure 2 0 (hesitant (ERROR_END_OF_STREAM, none)) MEDIA_TRACK_TYPE_AUDIO _
      (hesitantReader (ERROR_END_OF_STREAM, none)) _ (-1) false ERROR_END_OF_STREAM none
      rfl rfl rfl ⟨rfl, rfl, rfl⟩ (by decide) (by decide)).2.1 (by decide),
   (readBuffer_failure 2 0 (hesitant (WOULD_BLOCK, none)) MEDIA_TRACK_TYPE_AUDIO _
      (hesitantReader (WOULD_BLOCK, none)) _ (-1) false WOULD_BLOCK none
      rfl rfl rfl ⟨rfl, rfl, rfl⟩ (by decide) (by decide)).1 rfl⟩

/-- C24: a `readBuffer` call on a slot whose reader `src` answers
format-changed `n` times and then a result `r` that is not format-changed.
With fuel for at least `n + 1` reads the call issues exactly `n + 1` reads,
the first with the options of the pump and the retries with the seek request
cleared, and then does with `r` what lines 601 to 629 do on the state given:
apart from the trace of reads, its result is that of `settle` on `r`, which
does not depend on `n`.  The loop run on the same state with a reader `src0`
that answers `r` at once has the same result after one read, so a returning
call leaves the same queues, slots and landed timestamp as that run, the two
final states differing in the trace of reads only.  With fuel for at most `n`
reads the call does not finish.  When `r` is would-block the state returned
differs from the state given in the trace of reads only: the format-changed
answers queued no marker and signalled no end-of-stream. -/
theorem readBuffer_format_changed (n k : Nat) (s : GenericSource)
    (trackType : media_track_type) (track : Track) (src src0 : MediaSource)
    (seekTimeUs : Int) (formatChange : Bool) (r : status_t × Option MediaBuffer)
    (htr : s.trackOf trackType = some track) (hsrc : track.mSource = some src)
    (hans : answersAfter src s.reads (s.pumpOptions trackType seekTimeUs) n r)
    (hans0 : answersAfter src0 s.reads (s.pumpOptions trackType seekTimeUs) 0 r)
    (hr : r.1 ≠ INFO_FORMAT_CHANGED) :
    s.readBuffer (n + 1 + k) trackType seekTimeUs formatChange =
      (match settle s trackType (decide (seekTimeUs ≥ 0)) formatChange seekTimeUs r with
       | .error f => .error f
       | .ok p =>
         .ok (p.1.withReads (s.reads ++ retryReads src (s.pumpOptions trackType seekTimeUs) n),
           some p.2)) ∧
    (retryReads src (s.pumpOptions trackType seekTimeUs) n).length = n + 1 ∧
    (∀ fuel, fuel ≤ n →
      s.readBuffer fuel trackType seekTimeUs formatChange = .error Fault.outOfFuel) ∧
    readLoop (1 + k) src0 trackType (decide (seekTimeUs ≥ 0)) formatChange
        (s.pumpOptions trackType seekTimeUs) seekTimeUs s =
      (match settle s trackType (decide (seekTimeUs ≥ 0)) formatChange seekTimeUs r with
       | .error f => .error f
       | .ok p =>
         .ok (p.1.withReads (s.reads ++ [(src0.id, s.pumpOptions trackType seekTimeUs)]),
           p.2)) ∧
    (∀ s' landed, s.readBuffer (n + 1 + k) trackType seekTimeUs formatChange =
        .ok (s', landed) →
      s'.reads = s.reads ++ retryReads src (s.pumpOptions trackType seekTimeUs) n ∧
      ∃ s0' a, readLoop (1 + k) src0 trackType (decide (seekTimeUs ≥ 0)) formatChange
          (s.pumpOptions trackType seekTimeUs) seekTimeUs s = .ok (s0', a) ∧
        landed = some a ∧ s'.withReads [] = s0'.withReads []) ∧
    (r.1 = WOULD_BLOCK →
      s.readBuffer (n + 1 + k) trackType seekTimeUs formatChange =
        .ok (s.withReads (s.reads ++ retryReads src (s.pumpOptions trackType seekTimeUs) n),
          some seekTimeUs)) := by
  have hrun := readBuffer_retries n k seekTimeUs formatChange htr hsrc hans hr
  have hrun0 : readLoop (1 + k) src0 trackType (decide (seekTimeUs ≥ 0)) formatChange
        (s.pumpOptions trackType seekTimeUs) seekTimeUs s =
      (match settle s trackType (decide (seekTimeUs ≥ 0)) formatChange seekTimeUs r with
       | .error f => .error f
       | .ok p =>
         .ok (p.1.withReads (s.reads ++ [(src0.id, s.pumpOptions trackType seekTimeUs)]),
           p.2)) := by
    have := readLoop_retries src0 trackType (decide (seekTimeUs ≥ 0)) formatChange seekTimeUs r
      hr k 0 _ s hans0
    rw [show 1 + k = 0 + 1 + k from by omega, this, settle_withReads]
    rfl
  refine ⟨hrun, by simp [retryReads], ?_, hrun0, ?_, ?_⟩
  · intro fuel hle
    unfold readBuffer
    simp only [htr, hsrc]
    rw [readLoop_starved src trackType _ formatChange seekTimeUs r n fuel _ s hle hans]
  · intro s' landed h
    rw [hrun] at h
    rw [hrun0]
    cases hs : settle s trackType (decide (seekTimeUs ≥ 0)) formatChange seekTimeUs r with
    | error f => simp [hs] at h
    | ok p =>
      simp only [hs, Except.ok.injEq, Prod.mk.injEq] at h
      obtain ⟨h1, h2⟩ := h
      subst h1 h2
      exact ⟨rfl, _, _, rfl, rfl, rfl⟩
  · intro hw
    rw [hrun]
    have hok : r.1 ≠ OK := by rw [hw]; decide
    have hs : settle s trackType (decide (seekTimeUs ≥ 0)) formatChange seekTimeUs r =
        .ok (s, seekTimeUs) := by
      unfold settle
      rw [if_neg hok, if_pos hw]
    rw [hs]

/-- C24 at a reader that answers format-changed twice and then a sample
stamped 20, beside a reader that answers that sample at once: the pump issues
three reads and queues the one unit stamped 20, with no marker and no
end-of-stream, and the run with the other reader queues the same after one
read. -/
theorem readBuffer_format_changed_witness :
    (hesitant (OK, some (sampleAt 20))).readBuffer 3 MEDIA_TRACK_TYPE_AUDIO (-1) false =
      .ok ({ hesitant (OK, some (sampleAt 20)) with
             reads := [(0, {}), (0, {}), (0, {})]
             mAudioTrack := { (hesitant (OK, some (sampleAt 20))).mAudioTrack with
               mPackets := some { mBuffers := [unitAt 0, unitAt 20], mEOSResult := OK,
                                  mLatestEnqueuedMeta := some { timeUs := some 20 } } } },
        some 20) ∧
    (hesitant (OK, some (sampleAt 20))).readBuffer 2 MEDIA_TRACK_TYPE_AUDIO (-1) false =
      .error Fault.outOfFuel ∧
    readLoop 1 (steadyReader 0 "audio/mp4a-latm" 20) MEDIA_TRACK_TYPE_AUDIO false false {} (-1)
        (hesitant (OK, some (sampleAt 20))) =
      .ok ({ hesitant (OK, some (sampleAt 20)) with
             reads := [(0, {})]
             mAudioTrack := { (hesitant (OK, some (sampleAt 20))).mAudioTrack with
               mPackets := some { mBuffers := [unitAt 0, unitAt 20], mEOSResult := OK,
                                  mLatestEnqueuedMeta := some { timeUs := some 20 } } } },
        20) := by
  have h := readBuffer_format_changed 2 0 (hesitant (OK, some (sampleAt 20)))
    MEDIA_TRACK_TYPE_AUDIO _ (hesitantReader (OK, some (sampleAt 20)))
    (steadyReader 0 "audio/mp4a-latm" 20) (-1) false (OK, some (sampleAt 20))
    rfl rfl ⟨rfl, rfl, rfl⟩ rfl (by decide)
  exact ⟨h.1, h.2.2.1 2 (le_refl 2), h.2.2.2.1⟩

/-! ## One unit per pump -/

theorem accessUnits_markersAhead (trackType : media_track_type) (seeking formatChange : Bool)
    (buffer : ABuffer) (hb : buffer.meta.discontinuity = none) :
    accessUnits (markersAhead trackType seeking formatChange ++ [buffer]) = [buffer] := by
  unfold accessUnits markersAhead
  by_cases ht : trackType = MEDIA_TRACK_TYPE_SUBTITLE
  · simp [ht, hb]
  · cases seeking <;> cases formatChange <;>
      simp [ht, hb, specMarkers, AnotherPacketSource.marker, ABuffer.alloc]

/-- Lines 601 to 629 on a slot without a queue return only when the read would
block, and then change nothing. -/
theorem settle_no_queue {s s' : GenericSource} {trackType : media_track_type}
    {seeking formatChange : Bool} {a a' : Int} {r : status_t × Option MediaBuffer}
    (hq : s.packetsOf trackType = none)
    (h : settle s trackType seeking formatChange a r = .ok (s', a')) : s' = s := by
  unfold settle at h
  split_ifs at h
  · cases hm : r.2 with
    | none => simp [hm] at h
    | some mb =>
      simp only [hm] at h
      unfold queueSample queueMarker at h
      split_ifs at h
      · simp [hq] at h
      · simp only [hq] at h
        cases hc : s.mediaBufferToABuffer mb trackType with
        | error f => simp [hc] at h
        | ok p => simp [hc] at h
  · simp only [Except.ok.injEq, Prod.mk.injEq] at h
    exact h.1.symm
  · simp [endStream, hq] at h

theorem readLoop_no_queue (fuel : Nat) (src : MediaSource) (trackType : media_track_type)
    (seeking formatChange : Bool) :
    ∀ (options : ReadOptions) (a : Int) (s s' : GenericSource) (a' : Int),
      s.packetsOf trackType = none →
      readLoop fuel src trackType seeking formatChange options a s = .ok (s', a') →
      s'.packetsOf trackType = none := by
  induction fuel with
  | zero => intro options a s s' a' _ h; simp [readLoop] at h
  | succ n ih =>
    intro options a s s' a' hq h
    rw [readLoop_succ] at h
    have hq2 : (s.withReads (s.reads ++ [(src.id, options)])).packetsOf trackType = none :=
      (packetsOf_withReads _ _ _).trans hq
    split_ifs at h
    · exact ih _ _ _ _ _ hq2 h
    · rw [settle_no_queue hq2 h]
      exact hq2

/-- C22: a `readBuffer` call that returns, for any track type, seek time,
`formatChange` flag, fuel and reader.  The entries of the queue of the target
slot afterwards are the entries before followed by `added`, which is empty or
is the markers of the table followed by one access unit, so it holds at most
one access unit (a slot without a queue has none afterwards either).  The
queues of the other two slots are as they were, and so is everything else but
the trace of reads.  When the target slot has no reader the state returned is
the state given and no landed timestamp is written. -/
theorem readBuffer_at_most_one (fuel : Nat) (trackType : media_track_type) (seekTimeUs : Int)
    (formatChange : Bool) (s s' : GenericSource) (landed : Option Int)
    (h : s.readBuffer fuel trackType seekTimeUs formatChange = .ok (s', landed)) :
    (∃ added, (s'.packetsOf trackType).map (fun q => q.mBuffers) =
        (s.packetsOf trackType).map (fun q => q.mBuffers ++ added) ∧
      (accessUnits added).length ≤ 1 ∧
      (added = [] ∨ ∃ buffer, buffer.meta.discontinuity = none ∧
        added = markersAhead trackType (decide (seekTimeUs ≥ 0)) formatChange ++ [buffer])) ∧
    (trackType ≠ MEDIA_TRACK_TYPE_AUDIO → s'.mAudioTrack.mPackets = s.mAudioTrack.mPackets) ∧
    (trackType ≠ MEDIA_TRACK_TYPE_VIDEO → s'.mVideoTrack.mPackets = s.mVideoTrack.mPackets) ∧
    (trackType ≠ MEDIA_TRACK_TYPE_SUBTITLE →
      s'.mSubtitleTrack.mPackets = s.mSubtitleTrack.mPackets) ∧
    PumpFrame trackType s s' ∧
    ((s.trackOf trackType).bind (fun t => t.mSource) = none → s' = s ∧ landed = none) := by
  have hf := readBuffer_frame h
  refine ⟨?_, hf.audioPackets, hf.videoPackets, hf.subtitlePackets, hf, ?_⟩
  · cases htr : s.trackOf trackType with
    | none =>
      unfold readBuffer at h
      simp [htr] at h
    | some track =>
      cases hsrc : track.mSource with
      | none =>
        rw [readBuffer_no_reader fuel seekTimeUs formatChange htr hsrc] at h
        simp only [Except.ok.injEq, Prod.mk.injEq] at h
        obtain ⟨h1, -⟩ := h
        subst h1
        exact ⟨[], by simp, by simp [accessUnits], Or.inl rfl⟩
      | some src =>
        cases hq : track.mPackets with
        | none =>
          have hp : s.packetsOf trackType = none := (packetsOf_eq htr).trans hq
          have hp' : s'.packetsOf trackType = none := by
            unfold readBuffer at h
            simp only [htr, hsrc] at h
            cases hl : readLoop fuel src trackType (decide (seekTimeUs ≥ 0)) formatChange
                (s.pumpOptions trackType seekTimeUs) seekTimeUs s with
            | error f => simp [hl] at h
            | ok p =>
              obtain ⟨s2, a'⟩ := p
              simp only [hl, Except.ok.injEq, Prod.mk.injEq] at h
              obtain ⟨h1, -⟩ := h
              subst h1
              exact readLoop_no_queue _ _ _ _ _ _ _ _ _ _ hp hl
          exact ⟨[], by simp [hp, hp'], by simp [accessUnits], Or.inl rfl⟩
        | some q =>
          have hp : s.packetsOf trackType = some q := (packetsOf_eq htr).trans hq
          obtain ⟨q', hq', hcase⟩ := readBuffer_queue htr hsrc hq h
          rcases hcase with hsame | ⟨buffer, hb, hadd⟩
          · exact ⟨[], by simp [hp, hq', hsame], by simp [accessUnits], Or.inl rfl⟩
          · refine ⟨markersAhead trackType (decide (seekTimeUs ≥ 0)) formatChange ++ [buffer],
              by simp [hp, hq', hadd], ?_, Or.inr ⟨buffer, hb, rfl⟩⟩
            rw [accessUnits_markersAhead _ _ _ _ hb]
            simp
  · intro hnone
    cases htr : s.trackOf trackType with
    | none =>
      unfold readBuffer at h
      simp [htr] at h
    | some track =>
      have hsrc : track.mSource = none := by simpa [htr] using hnone
      rw [readBuffer_no_reader fuel seekTimeUs formatChange htr hsrc] at h
      simp only [Except.ok.injEq, Prod.mk.injEq] at h
      exact ⟨h.1.symm, h.2.symm⟩

/-- C22 at a seek on the audio slot of a playing source: the pump appends the
SEEK marker and one unit to the audio queue and leaves the video queue as it
was. -/
theorem readBuffer_at_most_one_witness :
    ∃ s', audioPlaying.readBuffer 1 MEDIA_TRACK_TYPE_AUDIO 7 false = .ok (s', some 20) ∧
      s'.mAudioTrack.mPackets.map (fun q => q.mBuffers) =
        some [unitAt 0, AnotherPacketSource.marker DISCONTINUITY_SEEK, unitAt 20] ∧
      s'.mVideoTrack.mPackets = audioPlaying.mVideoTrack.mPackets ∧
      s'.mSubtitleTrack.mPackets = audioPlaying.mSubtitleTrack.mPackets := by
  have hrun : audioPlaying.readBuffer 1 MEDIA_TRACK_TYPE_AUDIO 7 false = .ok (_, some 20) := rfl
  obtain ⟨-, -, h2, h3, -, -⟩ :=
    readBuffer_at_most_one 1 MEDIA_TRACK_TYPE_AUDIO 7 false audioPlaying _ _ hrun
  exact ⟨_, hrun, rfl, h2 (by decide), h3 (by decide)⟩

/-! ## The copying path of the converter -/

theorem int32Bytes_roundtrip (v : Int) (hlo : -2147483648 ≤ v) (hhi : v < 2147483648) :
    int32OfBytes (int32Bytes v) = v := by
  unfold int32OfBytes int32Bytes
  simp only [List.getD_cons_zero, List.getD_cons_succ]
  have hu : ((v % 4294967296).toNat : Int) = v % 4294967296 :=
    Int.toNat_of_nonneg (Int.emod_nonneg _ (by decide))
  generalize (v % 4294967296).toNat = u at hu
  have hsum : u % 256 + 256 * (u / 256 % 256) + 65536 * (u / 65536 % 256) +
      16777216 * (u / 16777216 % 256) = u := by omega
  rw [hsum]
  split_ifs with h <;> omega

theorem int32Bytes_shape (v : Int) :
    (int32Bytes v).length = 4 ∧ ∀ b ∈ int32Bytes v, b < 256 := by
  unfold int32Bytes
  refine ⟨rfl, ?_⟩
  intro b hb
  simp only [List.mem_cons, List.mem_singleton, List.not_mem_nil, or_false] at hb
  rcases hb with h | h | h | h <;> omega

theorem range_length_of_valid (mb : MediaBuffer)
    (hrange : mb.range_offset + mb.range_length ≤ mb.data.length) :
    mb.range.length = mb.range_length := by
  unfold MediaBuffer.range
  rw [List.length_take, List.length_drop]
  omega

/-- The conversion of a raw sample on the copying path, that is outside
Widevine mode or for the audio track, for a sample whose range lies within its
data and which carries a timestamp, by the trailer flag `mAudioIsVorbis`.  The unit owns its bytes; their number,
which is the capacity of the unit, is the range length `n` plus 4 when the
track is audio and the trailer flag is set, and `n` otherwise; the first `n`
bytes are the bytes of the raw sample at `[range_offset, range_offset + n)`.
With the trailer, the last 4 bytes are the `int32_t` valid-sample count of the
raw sample's meta data, -1 when the meta data has none, as `memcpy` lays it
out: four bytes that read back as that count.  Without the trailer the bytes
are the range and nothing more. -/
theorem mediaBufferToABuffer_copy (s : GenericSource) (mb : MediaBuffer)
    (trackType : media_track_type) (t : Int)
    (hnormal : ¬ (s.mIsWidevine = true ∧ trackType ≠ MEDIA_TRACK_TYPE_AUDIO))
    (hrange : mb.range_offset + mb.range_length ≤ mb.data.length)
    (ht : mb.kKeyTime = some t) :
    ∃ buffer bytes, s.mediaBufferToABuffer mb trackType = .ok (buffer, t) ∧
      buffer.mData = some bytes ∧ buffer.mOwnsData = true ∧
      buffer.ownedPayload = bytes ∧
      bytes.length = buffer.mCapacity ∧
      buffer.mCapacity = mb.range_length +
        (if trackType = MEDIA_TRACK_TYPE_AUDIO ∧ s.mAudioIsVorbis = true then 4 else 0) ∧
      bytes.take mb.range_length = (mb.data.drop mb.range_offset).take mb.range_length ∧
      (trackType = MEDIA_TRACK_TYPE_AUDIO ∧ s.mAudioIsVorbis = true →
        bytes.drop mb.range_length = int32Bytes (mb.kKeyValidSamples.getD (-1)) ∧
        (bytes.drop mb.range_length).length = 4 ∧
        (∀ v, mb.kKeyValidSamples = some v → -2147483648 ≤ v → v < 2147483648 →
          int32OfBytes (bytes.drop mb.range_length) = v) ∧
        (mb.kKeyValidSamples = none → int32OfBytes (bytes.drop mb.range_length) = -1)) ∧
      (¬ (trackType = MEDIA_TRACK_TYPE_AUDIO ∧ s.mAudioIsVorbis = true) →
        bytes = (mb.data.drop mb.range_offset).take mb.range_length) := by
  have hlen := range_length_of_valid mb hrange
  have hr : mb.range = (mb.data.drop mb.range_offset).take mb.range_length := rfl
  by_cases htrail : trackType = MEDIA_TRACK_TYPE_AUDIO ∧ s.mAudioIsVorbis = true
  · obtain ⟨ha, hv⟩ := htrail
    subst ha
    have hrun : s.mediaBufferToABuffer mb MEDIA_TRACK_TYPE_AUDIO =
        .ok ({ mData := some (mb.range ++ int32Bytes (mb.kKeyValidSamples.getD (-1))),
               mCapacity := mb.range_length + 4, mOwnsData := true,
               «meta» := { timeUs := some t, durationUs := mb.kKeyDuration } }, t) := by
      unfold mediaBufferToABuffer
      simp only [hv, ht, decide_True, Bool.and_self, if_true, Bool.not_true, Bool.and_false,
        Bool.false_eq_true, if_false, ABuffer.alloc]
      cases mb.kKeyDuration <;> simp
    refine ⟨_, _, hrun, rfl, rfl, rfl, ?_, ?_, ?_, ?_, ?_⟩
    · simp [hlen, (int32Bytes_shape _).1]
    · simp [hv]
    · rw [← hr, List.take_left' hlen]
    · intro _
      have hdrop : (mb.range ++ int32Bytes (mb.kKeyValidSamples.getD (-1))).drop mb.range_length
          = int32Bytes (mb.kKeyValidSamples.getD (-1)) := List.drop_left' hlen
      rw [hdrop]
      refine ⟨rfl, (int32Bytes_shape _).1, ?_, ?_⟩
      · intro v hv2 hlo hhi
        rw [hv2]
        exact int32Bytes_roundtrip v hlo hhi
      · intro hnone
        rw [hnone]
        exact int32Bytes_roundtrip (-1) (by decide) (by decide)
    · intro hno
      exact absurd ⟨rfl, hv⟩ hno
  · have hc : (decide (trackType = MEDIA_TRACK_TYPE_AUDIO) && s.mAudioIsVorbis) = false := by
      by_cases ha : trackType = MEDIA_TRACK_TYPE_AUDIO
      · have : s.mAudioIsVorbis = false := by
          cases hv : s.mAudioIsVorbis with
          | false => rfl
          | true => exact absurd ⟨ha, hv⟩ htrail
        simp [this]
      · simp [ha]
    have hw : (s.mIsWidevine && !decide (trackType = MEDIA_TRACK_TYPE_AUDIO)) = false := by
      cases hwv : s.mIsWidevine with
      | false => rfl
      | true =>
        by_cases ha : trackType = MEDIA_TRACK_TYPE_AUDIO
        · simp [ha]
        · exact absurd ⟨hwv, ha⟩ hnormal
    obtain ⟨m, hrun⟩ : ∃ m, s.mediaBufferToABuffer mb trackType =
        .ok ({ mData := some mb.range, mCapacity := mb.range_length, mOwnsData := true,
               «meta» := m }, t) := by
      unfold mediaBufferToABuffer
      simp only [hc, hw, ht, Bool.false_eq_true, if_false, ABuffer.alloc]
      exact ⟨_, rfl⟩
    refine ⟨_, _, hrun, rfl, rfl, rfl, ?_, ?_, ?_, ?_, ?_⟩
    · exact hlen
    · simp [htrail]
    · rw [← hr]
      exact List.take_of_length_le (le_of_eq hlen)
    · intro h
      exact absurd h htrail
    · intro _
      exact hr

/-- The copying path at a Vorbis page of three bytes with 960 valid samples and
at the same page on a source without the trailer flag: seven bytes, the three of the range
and the count 960 in four bytes, against the three bytes of the range. -/
theorem mediaBufferToABuffer_copy_example :
    (∃ buffer, vorbisPlaying.mediaBufferToABuffer vorbisPage MEDIA_TRACK_TYPE_AUDIO =
        .ok (buffer, 20) ∧
      buffer.mData = some [1, 2, 3, 192, 3, 0, 0] ∧ buffer.mCapacity = 7 ∧
      int32OfBytes [192, 3, 0, 0] = 960) ∧
    (∃ buffer, audioPlaying.mediaBufferToABuffer vorbisPage MEDIA_TRACK_TYPE_AUDIO =
        .ok (buffer, 20) ∧
      buffer.mData = some [1, 2, 3] ∧ buffer.mCapacity = 3) := by
  obtain ⟨b1, bytes1, h1, h2, -, -, -, h3, -, h4, -⟩ :=
    mediaBufferToABuffer_copy vorbisPlaying vorbisPage MEDIA_TRACK_TYPE_AUDIO 20
      (by decide) (by decide) rfl
  obtain ⟨b2, bytes2, g1, g2, -, -, -, g3, -, -, g4⟩ :=
    mediaBufferToABuffer_copy audioPlaying vorbisPage MEDIA_TRACK_TYPE_AUDIO 20
      (by decide) (by decide) rfl
  have e1 : b1 = (⟨some [1, 2, 3, 192, 3, 0, 0], 7, true, { timeUs := some 20 }⟩ : ABuffer) := by
    have hx : vorbisPlaying.mediaBufferToABuffer vorbisPage MEDIA_TRACK_TYPE_AUDIO =
        .ok (⟨some [1, 2, 3, 192, 3, 0, 0], 7, true, { timeUs := some 20 }⟩, 20) := rfl
    rw [hx] at h1
    simp only [Except.ok.injEq, Prod.mk.injEq] at h1
    exact h1.1.symm
  have e2 : b2 = (⟨some [1, 2, 3], 3, true, { timeUs := some 20 }⟩ : ABuffer) := by
    have hx : audioPlaying.mediaBufferToABuffer vorbisPage MEDIA_TRACK_TYPE_AUDIO =
        .ok (⟨some [1, 2, 3], 3, true, { timeUs := some 20 }⟩, 20) := rfl
    rw [hx] at g1
    simp only [Except.ok.injEq, Prod.mk.injEq] at g1
    exact g1.1.symm
  subst e1 e2
  exact ⟨⟨_, h1, rfl, rfl, by decide⟩, ⟨_, g1, rfl, rfl⟩⟩

/-! ## The subtitle send cycle -/

theorem nextBufferTime_empty {q : AnotherPacketSource} (h : q.mBuffers = []) :
    ∃ status t, q.nextBufferTime = .ok (status, t) ∧ status ≠ OK := by
  unfold AnotherPacketSource.nextBufferTime
  rw [h]
  by_cases he : q.mEOSResult = OK
  · exact ⟨WOULD_BLOCK, 0, by simp [he], by decide⟩
  · exact ⟨q.mEOSResult, 0, by simp [he], he⟩

theorem setPackets_subtitle_self {s : GenericSource} {q : AnotherPacketSource}
    (hq : s.mSubtitleTrack.mPackets = some q) :
    s.setPackets MEDIA_TRACK_TYPE_SUBTITLE q = s := by
  obtain ⟨a, b, c, d, e, f, g, h, i, j, k⟩ := s
  obtain ⟨x, y, z⟩ := d
  simp only at hq
  subst hq
  rfl

/-- The send handler after its pump: the oldest entry of the pumped queue, a
cue, leaves the queue and is notified, and the message is posted again with
the delay computed in `int64_t` from the landed timestamp. -/
theorem onSendSubtitleData_after_pump {fuel : Nat} {s s1 : GenericSource}
    {q q1 : AnotherPacketSource} {e : ABuffer} {tl : List ABuffer} {c landed : Int}
    (hq : s.mSubtitleTrack.mPackets = some q)
    (hnext : q.nextBufferTime = .ok (OK, c))
    (hpump : s.readBuffer fuel MEDIA_TRACK_TYPE_SUBTITLE (-1) false = .ok (s1, some landed))
    (hq1 : s1.mSubtitleTrack.mPackets = some q1)
    (hhead : q1.mBuffers = e :: tl) (hcue : e.meta.discontinuity = none) :
    s.onSendSubtitleData fuel s.mFetchSubtitleDataGeneration =
      .ok { s1 with
            mSubtitleTrack := { s1.mSubtitleTrack with
              mPackets := some { q1 with mBuffers := tl } }
            notified := s1.notified ++ [Notification.kWhatSubtitleData e]
            posted := s1.posted ++
              [(kWhatSendSubtitleData s.mFetchSubtitleDataGeneration,
                clampDelay (wrapInt64 (landed - c)))] } := by
  have hpop : q1.dequeueAccessUnit = (OK, some e, { q1 with mBuffers := tl }) := by
    unfold AnotherPacketSource.dequeueAccessUnit
    simp only [hhead, AnotherPacketSource.popStatus, hcue, Option.isSome_none,
      Bool.false_eq_true, if_false]
  simp only [onSendSubtitleData, ne_eq, not_true_eq_false, if_false, hq, hnext, hpump, hq1,
    hpop]

/-- C26: a `kWhatSendSubtitleData` message whose generation is the current one,
delivered to a source whose subtitle slot has its queue `q`.  When nothing is
buffered in `q` the handler returns the state as it was: no read, no
notification, no message.  When the oldest entry of `q` is a cue `e` stamped
`c`, the handler makes one pump of the subtitle track with seek time -1,
whatever the reader answers: a reader that answers format-changed `k` times
and then `r` receives `k + 1` reads (one read when `k = 0`), none with a seek
target, and the pump returns with fuel for them.  The pump lands on the
timestamp `n` of the cue when `r` is a sample, which joins the queue, and on
-1 when `r` is would-block (queue as it was) or any other status (end of
stream signalled).  Then `e` leaves the queue and is the unit of the one
`kWhatSubtitleData` notification, and the one message posted is
`kWhatSendSubtitleData` with the same generation.  Its delay is computed in
`int64_t`: `n - c` reduced to the range of `int64_t`, and 0 when that is
negative, which is `max 0 (n - c)` whenever `n - c` is representable as
`int64_t`. -/
theorem onSendSubtitleData_cycle (fuel k : Nat) (s : GenericSource) (g : Int)
    (q : AnotherPacketSource)
    (hg : g = s.mFetchSubtitleDataGeneration)
    (hq : s.mSubtitleTrack.mPackets = some q) :
    (q.mBuffers = [] → s.onMessageReceived fuel (kWhatSendSubtitleData g) = .ok s) ∧
    (∀ (src : MediaSource) (e : ABuffer) (rest : List ABuffer) (c : Int)
        (r : status_t × Option MediaBuffer),
      s.mSubtitleTrack.mSource = some src →
      q.mBuffers = e :: rest → e.meta.timeUs = some c → e.meta.discontinuity = none →
      answersAfter src s.reads (s.pumpOptions MEDIA_TRACK_TYPE_SUBTITLE (-1)) k r →
      r.1 ≠ INFO_FORMAT_CHANGED →
      (r.1 = OK → ∃ mb t, r.2 = some mb ∧ mb.kKeyTime = some t) →
      (retryReads src (s.pumpOptions MEDIA_TRACK_TYPE_SUBTITLE (-1)) k).length = k + 1 ∧
      (∀ ev ∈ retryReads src (s.pumpOptions MEDIA_TRACK_TYPE_SUBTITLE (-1)) k,
        ev.1 = src.id ∧ ev.2.seekTo = none) ∧
      ∃ (q1 : AnotherPacketSource) (n : Int),
        s.readBuffer (k + 1 + fuel) MEDIA_TRACK_TYPE_SUBTITLE (-1) false =
          .ok ((s.setPackets MEDIA_TRACK_TYPE_SUBTITLE q1).withReads
              (s.reads ++ retryReads src (s.pumpOptions MEDIA_TRACK_TYPE_SUBTITLE (-1)) k),
            some n) ∧
        (∀ mb t, r = (OK, some mb) → mb.kKeyTime = some t →
          n = t ∧ ∃ buffer, s.mediaBufferToABuffer mb MEDIA_TRACK_TYPE_SUBTITLE =
            .ok (buffer, t) ∧ q1 = q.queueAccessUnit buffer) ∧
        (r.1 = WOULD_BLOCK → n = -1 ∧ q1 = q) ∧
        (r.1 ≠ OK → r.1 ≠ WOULD_BLOCK → n = -1 ∧ q1 = q.signalEOS r.1) ∧
        q1.mBuffers.head? = some e ∧
        s.onMessageReceived (k + 1 + fuel) (kWhatSendSubtitleData g) =
          .ok { s with
                reads := s.reads ++
                  retryReads src (s.pumpOptions MEDIA_TRACK_TYPE_SUBTITLE (-1)) k
                mSubtitleTrack := { s.mSubtitleTrack with
                  mPackets := some { q1 with mBuffers := q1.mBuffers.tail } }
                notified := s.notified ++ [Notification.kWhatSubtitleData e]
                posted := s.posted ++
                  [(kWhatSendSubtitleData g, clampDelay (wrapInt64 (n - c)))] } ∧
        (inInt64 (n - c) → clampDelay (wrapInt64 (n - c)) = max 0 (n - c))) := by
  subst hg
  constructor
  · intro hempty
    obtain ⟨status, t, hnext, hne⟩ := nextBufferTime_empty hempty
    simp only [onMessageReceived, onSendSubtitleData, ne_eq, not_true_eq_false, if_false, hq,
      hnext, hne, not_false_eq_true, if_true]
  · intro src e rest c r hsrc hbuf hc hcue hans hr hwell
    have hnoseek := pumpOptions_noSeek s MEDIA_TRACK_TYPE_SUBTITLE
    refine ⟨by simp [retryReads], ?_, ?_⟩
    · intro ev hev
      unfold retryReads at hev
      rcases List.mem_cons.mp hev with h | h
      · rw [h]
        exact ⟨rfl, hnoseek⟩
      · rw [List.eq_of_mem_replicate h]
        exact ⟨rfl, rfl⟩
    · have htr : s.trackOf MEDIA_TRACK_TYPE_SUBTITLE = some s.mSubtitleTrack := rfl
      have hnext : q.nextBufferTime = .ok (OK, c) := by
        unfold AnotherPacketSource.nextBufferTime
        rw [hbuf]
        simp only [hc]
      have hrun := readBuffer_retries k fuel (-1) false htr hsrc hans hr
      -- the state and the timestamp the pump lands on, by the answer
      have hpump : ∃ (q1 : AnotherPacketSource) (n : Int) (added : List ABuffer),
          settle s MEDIA_TRACK_TYPE_SUBTITLE (decide ((-1 : Int) ≥ 0)) false (-1) r =
            .ok (s.setPackets MEDIA_TRACK_TYPE_SUBTITLE q1, n) ∧
          q1.mBuffers = q.mBuffers ++ added ∧
          (∀ mb t, r = (OK, some mb) → mb.kKeyTime = some t →
            n = t ∧ ∃ buffer, s.mediaBufferToABuffer mb MEDIA_TRACK_TYPE_SUBTITLE =
              .ok (buffer, t) ∧ q1 = q.queueAccessUnit buffer) ∧
          (r.1 = WOULD_BLOCK → n = -1 ∧ q1 = q) ∧
          (r.1 ≠ OK → r.1 ≠ WOULD_BLOCK → n = -1 ∧ q1 = q.signalEOS r.1) := by
        obtain ⟨st, ob⟩ := r
        by_cases hok : st = OK
        · obtain ⟨mb, t, hmb, ht⟩ := hwell hok
          simp only at hmb hok
          subst hmb hok
          obtain ⟨buffer, hb, -, -⟩ :=
            mediaBufferToABuffer_stamped s MEDIA_TRACK_TYPE_SUBTITLE ht
          have hqs := queueSample_eq (decide ((-1 : Int) ≥ 0)) false htr hq hb
          have hcond : ((decide ((-1 : Int) ≥ 0) || false)
              && decide (MEDIA_TRACK_TYPE_SUBTITLE ≠ MEDIA_TRACK_TYPE_SUBTITLE)) = false := by
            decide
          rw [hcond] at hqs
          simp only [Bool.false_eq_true, if_false] at hqs
          refine ⟨q.queueAccessUnit buffer, t, [buffer], ?_, rfl, ?_, ?_, ?_⟩
          · unfold settle
            simp only [if_true]
            exact hqs
          · intro mb2 t2 heq ht2
            simp only [Prod.mk.injEq, Option.some.injEq, true_and] at heq
            subst heq
            rw [ht] at ht2
            have htt : t = t2 := Option.some.inj ht2
            subst htt
            exact ⟨rfl, buffer, hb, rfl⟩
          · intro hw
            exact absurd (show OK = WOULD_BLOCK from hw) (by decide)
          · intro hne
            exact absurd rfl hne
        · have hset := settle_failure (decide ((-1 : Int) ≥ 0)) false (-1) ob htr hq hok
          by_cases hw : st = WOULD_BLOCK
          · refine ⟨q, -1, [], ?_, by simp, ?_, fun _ => ⟨rfl, rfl⟩,
              fun _ h => absurd hw h⟩
            · rw [hset, if_pos hw, setPackets_subtitle_self hq]
            · intro mb2 t2 heq _
              simp only [Prod.mk.injEq] at heq
              exact absurd heq.1 hok
          · refine ⟨q.signalEOS st, -1, [], ?_, by simp [AnotherPacketSource.signalEOS], ?_,
              fun h => absurd h hw, fun _ _ => ⟨rfl, rfl⟩⟩
            · rw [hset, if_neg hw]
            · intro mb2 t2 heq _
              simp only [Prod.mk.injEq] at heq
              exact absurd heq.1 hok
      obtain ⟨q1, n, added, hset, hbufs, hsample, hblock, hend⟩ := hpump
      rw [hset] at hrun
      simp only at hrun
      have hhead : q1.mBuffers = e :: (rest ++ added) := by
        rw [hbufs, hbuf]
        rfl
      have hq1 : ((s.setPackets MEDIA_TRACK_TYPE_SUBTITLE q1).withReads
          (s.reads ++ retryReads src (s.pumpOptions MEDIA_TRACK_TYPE_SUBTITLE (-1)) k)
          ).mSubtitleTrack.mPackets = some q1 := rfl
      have hfinal := onSendSubtitleData_after_pump hq hnext hrun hq1 hhead hcue
      refine ⟨q1, n, hrun, hsample, hblock, hend, by rw [hhead]; rfl, ?_, ?_⟩
      · simp only [onMessageReceived]
        rw [hfinal, hhead]
        rfl
      · intro hin
        rw [wrapInt64_of_inInt64 hin, clampDelay_eq_max]

/-- C26 at a source with one cue stamped 4000000 buffered, whose reader answers
with a cue stamped 4000000, and at a source with nothing buffered. -/
theorem onSendSubtitleData_cycle_witness :
    subtitleSelected.onMessageReceived 1 (kWhatSendSubtitleData 1) = .ok subtitleSelected ∧
    ∃ q1 : AnotherPacketSource,
      q1.mBuffers.head? = some (unitAt 4000000) ∧
      subtitleAfterSeek.onMessageReceived 1 (kWhatSendSubtitleData 1) =
        .ok { subtitleAfterSeek with
              reads := [(2, {})]
              mSubtitleTrack := { subtitleAfterSeek.mSubtitleTrack with
                mPackets := some { q1 with mBuffers := q1.mBuffers.tail } }
              notified := [Notification.kWhatSubtitleData (unitAt 4000000)]
              posted := [(kWhatSendSubtitleData 1, 0)] } := by
  refine ⟨(onSendSubtitleData_cycle 1 0 subtitleSelected 1 {} rfl rfl).1 rfl, ?_⟩
  obtain ⟨-, -, q1, n, -, hs, -, -, hhead, h, -⟩ :=
    (onSendSubtitleData_cycle 0 0 subtitleAfterSeek 1
      { mBuffers := [unitAt 4000000], mLatestEnqueuedMeta := some { timeUs := some 4000000 } }
      rfl rfl).2 (cueReader 2 4000000) (unitAt 4000000) [] 4000000 (OK, some (sampleAt 4000000))
      rfl rfl rfl rfl rfl (by decide) (fun _ => ⟨_, 4000000, rfl, rfl⟩)
  obtain ⟨hn, -⟩ := hs (sampleAt 4000000) 4000000 rfl rfl
  subst hn
  exact ⟨q1, hhead, h⟩

/-! ## Evaluations of the scan, the switch and the two classifiers -/

/-- C27: the initialization scan on a container whose first track yields no
reader and whose second track is the audio track.  The catalog holds the one
reader obtained, at catalog index 0, while the audio slot keeps the container
index 1: after `start` the slot has an active reader, its index is not below
`getTrackCount` and the catalog has no entry at it.  `selectTrack(0, true)`
then posts a track switch to catalog index 0 although the reader at that index
is the active reader of the slot; the handler of that message stores the
catalog index, and only then does the slot name its reader. -/
theorem initFromDataSource_container_index :
    ∃ s0 s1 s2 s3 : GenericSource,
      (fresh false).initFromDataSource dataFirstMovie = .ok s0 ∧
      perform 1 Call.start s0 = .ok s1 ∧
      s1.mAudioTrack.mSource.map (fun r => r.id) = some 1 ∧
      s1.mSources.map (fun r => r.id) = [1] ∧
      s1.mAudioTrack.mIndex = 1 ∧ s1.getTrackCount = 1 ∧
      (s1.mSources[s1.mAudioTrack.mIndex]?).isNone = true ∧
      s1.selectTrack 0 true = .ok (OK, s2) ∧
      s2.posted = [(kWhatChangeAVSource 0, 0)] ∧
      perform 1 (Call.deliver 0) s2 = .ok s3 ∧
      s3.mAudioTrack.mIndex = 0 ∧
      (s3.mSources[s3.mAudioTrack.mIndex]?).map (fun r => r.id) = some 1 ∧
      s3.mAudioTrack.mSource.map (fun r => r.id) = some 1 :=
  ⟨_, _, _, _, rfl, rfl, rfl, rfl, rfl, rfl, rfl, rfl, rfl, rfl, rfl, rfl, rfl⟩

/-- C28: the initialization on a container with an AAC audio track, a video
track and a Vorbis audio track, then `start`, `selectTrack(2, true)` and the
delivery of the track switch it posts.  The active audio reader is then the
Vorbis reader while the trailer flag is still the one of the AAC reader: the
unit converted from the Vorbis reader's sample of four bytes has four bytes
and no trailer. -/
theorem onChangeAVSource_trailer_flag :
    ∃ s0 s : GenericSource, ∃ q : AnotherPacketSource, ∃ buffer : ABuffer,
      (fresh false).initFromDataSource twoAudioMovie = .ok s0 ∧
      performAll 1 [Call.start, Call.selectTrack 2 true, Call.deliver 0] s0 = .ok s ∧
      s.mAudioTrack.mSource.map (fun r => (r.id, r.format.kKeyMIMEType)) =
        some (2, some "audio/vorbis") ∧
      s.mAudioTrack.mIndex = 2 ∧
      s.mAudioIsVorbis = false ∧
      s.reads = [(0, {}), (1, {}),
        (2, ({} : ReadOptions).setSeekTo 20 SEEK_PREVIOUS_SYNC), (1, {})] ∧
      s.mAudioTrack.mPackets = some q ∧
      q.mBuffers.getLast? = some buffer ∧
      s.mediaBufferToABuffer (sampleAt 5000) MEDIA_TRACK_TYPE_AUDIO = .ok (buffer, 5000) ∧
      buffer.mData = some [1, 2, 3, 4] ∧ buffer.mCapacity = 4 :=
  ⟨_, _, _, _, rfl, rfl, rfl, rfl, rfl, rfl, rfl, rfl, rfl, rfl, rfl⟩

/-- C25: the conversion of a Vorbis page after a track switch.  The container
has an AAC audio track, a video track and a Vorbis audio track; after `start`,
`selectTrack(2, true)` and the delivery of the track switch, the audio slot
plays the Vorbis reader outside Widevine mode.  A raw sample of that track
with a range of 3 bytes and 960 valid samples is converted on the copying path
into a unit of 3 bytes, the bytes of the range, without the 4 bytes of the
valid-sample count; on a source that was initialized on a Vorbis track the
same sample gives 7 bytes. -/
theorem mediaBufferToABuffer_vorbis_after_switch :
    ∃ s0 s : GenericSource, ∃ buffer : ABuffer,
      (fresh false).initFromDataSource twoAudioMovie = .ok s0 ∧
      performAll 1 [Call.start, Call.selectTrack 2 true, Call.deliver 0] s0 = .ok s ∧
      s.mIsWidevine = false ∧
      s.mAudioTrack.mSource.map (fun r => r.format.kKeyMIMEType) = some (some "audio/vorbis") ∧
      strcasecmp "audio/vorbis" "audio/vorbis" = 0 ∧
      vorbisPage.range_length = 3 ∧ vorbisPage.kKeyValidSamples = some 960 ∧
      s.mediaBufferToABuffer vorbisPage MEDIA_TRACK_TYPE_AUDIO = .ok (buffer, 20) ∧
      buffer.mData = some [1, 2, 3] ∧ buffer.mCapacity = 3 ∧ buffer.ownedPayload.length = 3 ∧
      (vorbisPlaying.mediaBufferToABuffer vorbisPage MEDIA_TRACK_TYPE_AUDIO).toOption.map
        (fun p => p.1.mData) = some (some [1, 2, 3, 192, 3, 0, 0]) :=
  ⟨_, _, _, rfl, rfl, rfl, rfl, by decide, rfl, rfl, rfl, rfl, rfl, rfl, rfl⟩

/-- The MIME type `text/3gpp` has the prefix `text/`. -/
theorem text3gpp_text {mime : String} (h : strcasecmp mime "text/3gpp" = 0) :
    strncasecmp mime "text/" 5 = 0 := by
  rw [strcasecmp_eq_zero] at h
  rw [strncasecmp_eq_zero, List.map_take, h]
  decide

/-- The result of `selectTrack(i, true)` by the MIME type of the reader at
catalog index `i`. -/
theorem selectTrack_enable_by_mime {i : Nat} {s : GenericSource} {source : MediaSource}
    {mime : String} (hsrc : s.mSources[i]? = some source)
    (hmime : source.format.kKeyMIMEType = some mime) :
    ∃ status s', s.selectTrack i true = .ok (status, s') ∧
      (strncasecmp mime "text/" 5 = 0 →
        status = OK ∧ s'.mSubtitleTrack.mSource ≠ none ∧ s'.mSubtitleTrack.mIndex = i ∧
        (s' = s ∨ s'.mSubtitleTrack.mSource = some source)) ∧
      (strncasecmp mime "text/" 5 ≠ 0 → s'.mSubtitleTrack = s.mSubtitleTrack) ∧
      (strncasecmp mime "text/" 5 ≠ 0 →
        (strncasecmp mime "audio/" 6 = 0 ∨ strncasecmp mime "video/" 6 = 0) → status = OK) ∧
      (strncasecmp mime "text/" 5 ≠ 0 → strncasecmp mime "audio/" 6 ≠ 0 →
        strncasecmp mime "video/" 6 ≠ 0 → status = INVALID_OPERATION ∧ s' = s) := by
  have hi : i < s.mSources.length := by
    by_contra hge
    rw [List.getElem?_eq_none (Nat.le_of_not_lt hge)] at hsrc
    exact absurd hsrc (by simp)
  have hlt : ¬ i ≥ s.mSources.length := Nat.not_le.mpr hi
  unfold selectTrack
  rw [if_neg hlt]
  simp only [Bool.not_true, Bool.false_eq_true, if_false, hsrc, hmime]
  by_cases ht : strncasecmp mime "text/" 5 = 0
  · rw [if_pos ht]
    cases hc : (s.mSubtitleTrack.mSource.isSome && decide (s.mSubtitleTrack.mIndex = i)) with
    | true =>
      simp only [Bool.and_eq_true, decide_eq_true_eq] at hc
      refine ⟨OK, s, by simp, fun _ => ⟨rfl, ?_, hc.2, Or.inl rfl⟩, fun h => absurd ht h,
        fun h => absurd ht h, fun h => absurd ht h⟩
      intro hnone
      rw [hnone] at hc
      exact absurd hc.1 (by decide)
    | false =>
      refine ⟨OK,
        { s with
          mSubtitleTrack :=
            { mIndex := i, mSource := some source,
              mPackets := some (match s.mSubtitleTrack.mPackets with
                | none => {}
                | some q => q.clear) }
          mFetchSubtitleDataGeneration := s.mFetchSubtitleDataGeneration + 1 },
        by simp, fun _ => ⟨rfl, ?_, rfl, Or.inr rfl⟩, fun h => absurd ht h,
        fun h => absurd ht h, fun h => absurd ht h⟩
      intro hnone
      exact absurd (show some source = none from hnone) (by simp)
  · rw [if_neg ht]
    by_cases hav : strncasecmp mime "audio/" 6 = 0 ∨ strncasecmp mime "video/" 6 = 0
    · have hcond : (decide (strncasecmp mime "audio/" 6 = 0) ||
          decide (strncasecmp mime "video/" 6 = 0)) = true := by
        simpa using hav
      rw [if_pos hcond]
      cases hc : ((s.avTrack (decide (strncasecmp mime "audio/" 6 = 0))).mSource.isSome &&
          decide ((s.avTrack (decide (strncasecmp mime "audio/" 6 = 0))).mIndex = i)) with
      | true =>
        exact ⟨OK, s, by simp, fun h => absurd h ht, fun _ => rfl, fun _ _ => rfl,
          fun _ ha hv => absurd hav (not_or.mpr ⟨ha, hv⟩)⟩
      | false =>
        exact ⟨OK, { s with posted := s.posted ++ [(kWhatChangeAVSource i, 0)] }, by simp,
          fun h => absurd h ht, fun _ => rfl, fun _ _ => rfl,
          fun _ ha hv => absurd hav (not_or.mpr ⟨ha, hv⟩)⟩
    · have hcond : ¬ (decide (strncasecmp mime "audio/" 6 = 0) ||
          decide (strncasecmp mime "video/" 6 = 0)) = true := by
        simpa using hav
      rw [if_neg hcond]
      exact ⟨INVALID_OPERATION, s, rfl, fun h => absurd h ht, fun _ => rfl,
        fun _ h => absurd h hav, fun _ _ _ => ⟨rfl, rfl⟩⟩

/-- The track type `getTrackInfo` reports by the MIME type of the reader at
catalog index `i`. -/
theorem getTrackInfo_type_by_mime {i : Nat} {s : GenericSource} {source : MediaSource}
    {mime : String} (hsrc : s.mSources[i]? = some source)
    (hmime : source.format.kKeyMIMEType = some mime) :
    ∃ info, s.getTrackInfo i = .ok (some info) ∧ info.type = trackTypeOf mime ∧
      (info.type = MEDIA_TRACK_TYPE_TIMEDTEXT ↔ strcasecmp mime "text/3gpp" = 0) ∧
      (info.type = MEDIA_TRACK_TYPE_UNKNOWN ↔
        (strncasecmp mime "video/" 6 ≠ 0 ∧ strncasecmp mime "audio/" 6 ≠ 0 ∧
          strcasecmp mime "text/3gpp" ≠ 0)) := by
  have htype : (describeTrack (trackTypeOf mime) source.format mime).type = trackTypeOf mime := by
    unfold describeTrack
    split_ifs <;> rfl
  refine ⟨describeTrack (trackTypeOf mime) source.format mime, ?_, htype, ?_, ?_⟩
  · unfold getTrackInfo
    simp only [hsrc, hmime]
  · rw [htype]
    unfold trackTypeOf
    constructor
    · intro h
      by_contra hne
      have h3 := h
      split_ifs at h3
    · intro h
      obtain ⟨hv, ha⟩ := text3gpp_not_av h
      rw [if_neg hv, if_neg ha, if_pos h]
  · rw [htype]
    unfold trackTypeOf
    constructor
    · intro h
      refine ⟨?_, ?_, ?_⟩ <;> intro hx <;> split_ifs at h
    · rintro ⟨hv, ha, he⟩
      rw [if_neg hv, if_neg ha, if_neg he]

/-- C29 as stated fails: in the catalog of a container with an audio track and
a WebVTT text track, `selectTrack(1, true)` returns `OK` and installs the text
reader of catalog index 1 in the subtitle slot, while `getTrackInfo(1)` reports
the type unknown and neither the MIME string nor a flag: the reader is treated
as a subtitle track without being reported as timed-text, and it is reported
as unknown without the selection failing. -/
theorem selectTrack_getTrackInfo_text_counterexample :
    ∃ s0 s1 : GenericSource,
      (fresh false).initFromDataSource vttMovie = .ok s0 ∧
      s0.getTrackCount = 2 ∧
      s0.selectTrack 1 true = .ok (OK, s1) ∧
      s1.mSubtitleTrack.mSource.map (fun r => (r.id, r.format.kKeyMIMEType)) =
        some (1, some "text/vtt") ∧
      s1.mSubtitleTrack.mIndex = 1 ∧
      s0.getTrackInfo 1 =
        .ok (some { type := MEDIA_TRACK_TYPE_UNKNOWN, language := "und" }) ∧
      MEDIA_TRACK_TYPE_UNKNOWN ≠ MEDIA_TRACK_TYPE_TIMEDTEXT ∧
      OK ≠ INVALID_OPERATION :=
  ⟨_, _, rfl, rfl, rfl, rfl, rfl, rfl, by decide, by decide⟩

/-- C29, amended: `getTrackInfo` and `selectTrack` on the reader at an in-range
catalog index `i`, of MIME type `mime`.  `getTrackInfo(i)` reports timed-text
exactly for `text/3gpp` and unknown exactly when `mime` is not `text/3gpp` and
has neither the prefix `video/` nor `audio/` (all compared without regard to
case).  `selectTrack(i, true)` takes its subtitle branch exactly for the
prefix `text/`: it then returns `OK` with the subtitle slot holding a reader at
index `i` (the state as it was when that index was already selected, the
reader of catalog index `i` installed otherwise), and for every other MIME
type it leaves the subtitle slot as it was; it fails with the
invalid-operation status exactly when `mime` has none of the prefixes `text/`,
`audio/`, `video/`.  So a reader reported as timed-text is treated as a
subtitle track, and a reader whose selection fails is reported as unknown.
The two converses fail for the same readers, those whose MIME type has the
prefix `text/` without being `text/3gpp`: they, and no others, are treated as
subtitle tracks without being reported as timed-text, and they, and no others,
are reported as unknown without their selection failing. -/
theorem selectTrack_getTrackInfo_classes (i : Nat) (s : GenericSource) (source : MediaSource)
    (mime : String) (hsrc : s.mSources[i]? = some source)
    (hmime : source.format.kKeyMIMEType = some mime) :
    i < s.getTrackCount ∧
    ∃ info status s', s.getTrackInfo i = .ok (some info) ∧
      s.selectTrack i true = .ok (status, s') ∧
      (info.type = MEDIA_TRACK_TYPE_TIMEDTEXT ↔ strcasecmp mime "text/3gpp" = 0) ∧
      (info.type = MEDIA_TRACK_TYPE_UNKNOWN ↔
        (strncasecmp mime "video/" 6 ≠ 0 ∧ strncasecmp mime "audio/" 6 ≠ 0 ∧
          strcasecmp mime "text/3gpp" ≠ 0)) ∧
      (strncasecmp mime "text/" 5 = 0 →
        status = OK ∧ s'.mSubtitleTrack.mSource ≠ none ∧ s'.mSubtitleTrack.mIndex = i ∧
        (s' = s ∨ s'.mSubtitleTrack.mSource = some source)) ∧
      (strncasecmp mime "text/" 5 ≠ 0 → s'.mSubtitleTrack = s.mSubtitleTrack) ∧
      (status = INVALID_OPERATION ↔
        (strncasecmp mime "text/" 5 ≠ 0 ∧ strncasecmp mime "audio/" 6 ≠ 0 ∧
          strncasecmp mime "video/" 6 ≠ 0)) ∧
      (info.type = MEDIA_TRACK_TYPE_TIMEDTEXT → strncasecmp mime "text/" 5 = 0) ∧
      (status = INVALID_OPERATION → info.type = MEDIA_TRACK_TYPE_UNKNOWN) ∧
      ((strncasecmp mime "text/" 5 = 0 ∧ info.type ≠ MEDIA_TRACK_TYPE_TIMEDTEXT) ↔
        (strncasecmp mime "text/" 5 = 0 ∧ strcasecmp mime "text/3gpp" ≠ 0)) ∧
      ((info.type = MEDIA_TRACK_TYPE_UNKNOWN ∧ status ≠ INVALID_OPERATION) ↔
        (strncasecmp mime "text/" 5 = 0 ∧ strcasecmp mime "text/3gpp" ≠ 0)) := by
  have hi : i < s.mSources.length := by
    by_contra hge
    rw [List.getElem?_eq_none (Nat.le_of_not_lt hge)] at hsrc
    exact absurd hsrc (by simp)
  obtain ⟨info, hinfo, -, htimed, hunknown⟩ := getTrackInfo_type_by_mime hsrc hmime
  obtain ⟨status, s', hsel, htext, hother, hav, hfail⟩ := selectTrack_enable_by_mime hsrc hmime
  have hinvalid : status = INVALID_OPERATION ↔
      (strncasecmp mime "text/" 5 ≠ 0 ∧ strncasecmp mime "audio/" 6 ≠ 0 ∧
        strncasecmp mime "video/" 6 ≠ 0) := by
    constructor
    · intro hst
      have hnotok : status ≠ OK := by rw [hst]; decide
      have ht : strncasecmp mime "text/" 5 ≠ 0 := fun h => hnotok (htext h).1
      refine ⟨ht, fun ha => hnotok (hav ht (Or.inl ha)), fun hv => hnotok (hav ht (Or.inr hv))⟩
    · rintro ⟨ht, ha, hv⟩
      exact (hfail ht ha hv).1
  refine ⟨hi, info, status, s', hinfo, hsel, htimed, hunknown, htext, hother, hinvalid,
    fun h => text3gpp_text (htimed.mp h), ?_, ?_, ?_⟩
  · intro hst
    obtain ⟨ht, ha, hv⟩ := hinvalid.mp hst
    exact hunknown.mpr ⟨hv, ha, fun he => ht (text3gpp_text he)⟩
  · constructor
    · rintro ⟨ht, hne⟩
      exact ⟨ht, fun he => hne (htimed.mpr he)⟩
    · rintro ⟨ht, hne⟩
      exact ⟨ht, fun h => hne (htimed.mp h)⟩
  · constructor
    · rintro ⟨hu, hst⟩
      obtain ⟨hv, ha, he⟩ := hunknown.mp hu
      refine ⟨?_, he⟩
      by_contra ht
      exact hst (hinvalid.mpr ⟨ht, ha, hv⟩)
    · rintro ⟨ht, he⟩
      have hnav : ¬ (strncasecmp mime "audio/" 6 = 0 ∨ strncasecmp mime "video/" 6 = 0) :=
        fun h => av_prefix_not_text h ht
      refine ⟨hunknown.mpr ⟨fun hv => hnav (Or.inr hv), fun ha => hnav (Or.inl ha), he⟩, ?_⟩
      intro hst
      exact (hinvalid.mp hst).1 ht

/-- C29, amended, at the text reader of catalog index 2 (`text/3gpp`) of a
playing source without a subtitle track: it is reported as timed-text and
`selectTrack(2, true)` installs it in the subtitle slot. -/
theorem selectTrack_getTrackInfo_classes_witness :
    ∃ info s', subtitleIdle.getTrackInfo 2 = .ok (some info) ∧
      subtitleIdle.selectTrack 2 true = .ok (OK, s') ∧
      info.type = MEDIA_TRACK_TYPE_TIMEDTEXT ∧
      s'.mSubtitleTrack.mSource ≠ none ∧ s'.mSubtitleTrack.mIndex = 2 := by
  obtain ⟨-, info, status, s', h1, h2, h3, -, h5, -⟩ :=
    selectTrack_getTrackInfo_classes 2 subtitleIdle (cueReader 2 4000000) "text/3gpp" rfl rfl
  obtain ⟨hok, hsome, hidx, -⟩ := h5 (by decide)
  subst hok
  exact ⟨info, s', h1, h2, h3.mpr (by decide), hsome, hidx⟩

end GenericSource

end NuPlayer

namespace MuxOMX

open NuPlayer (status_t OK strncasecmp)

/-! ## Routing of the multiplexer -/

theorem strncasecmp_startsWith (name pfx : String) :
    strncasecmp name pfx pfx.toList.length = 0 ↔ startsWithIgnoringCase name pfx = true := by
  unfold startsWithIgnoringCase
  rw [NuPlayer.GenericSource.strncasecmp_eq_zero, List.isPrefixOf_iff_prefix,
    List.prefix_iff_eq_take, List.take_length, List.length_map, List.map_take]
  exact eq_comm

theorem IsSoftwareComponent_eq (name : String) : IsSoftwareComponent name = isSoftwareName name := by
  have h1 := strncasecmp_startsWith name "OMX.google."
  have h2 := strncasecmp_startsWith name "OMX.ffmpeg."
  have l1 : "OMX.google.".toList.length = 11 := by decide
  have l2 : "OMX.ffmpeg.".toList.length = 11 := by decide
  rw [l1] at h1
  rw [l2] at h2
  unfold IsSoftwareComponent isSoftwareName
  rw [Bool.eq_iff_iff]
  simp only [Bool.or_eq_true, decide_eq_true_eq, h1, h2]

theorem mem_addKey {keys : List node_id} {k n : node_id} :
    n ∈ addKey keys k ↔ n = k ∨ n ∈ keys := by
  unfold addKey
  split_ifs with h
  · constructor
    · exact Or.inr
    · rintro (rfl | h1)
      · exact h
      · exact h1
  · exact List.mem_cons

theorem mem_removeKey {keys : List node_id} {k n : node_id} :
    n ∈ removeKey keys k ↔ n ≠ k ∧ n ∈ keys := by
  unfold removeKey
  simp only [List.mem_filter, decide_eq_true_eq, ne_eq]
  exact and_comm

theorem isLocalNode_allocateNode (m : MuxOMX) (name : String) (err : status_t)
    (k n : node_id) :
    ((m.allocateNode name (err, k)).2.2.2).isLocalNode n =
      (if err = OK ∧ isSoftwareName name = true ∧ k = n then true else m.isLocalNode n) := by
  unfold allocateNode
  rw [IsSoftwareComponent_eq]
  by_cases herr : err = OK
  · cases hsw : isSoftwareName name with
    | false => simp [herr, isLocalNode, isLocalNode_l]
    | true =>
      by_cases hk : k = n
      · subst hk
        simp [herr, isLocalNode, isLocalNode_l, mem_addKey]
      · have hk2 : ¬ n = k := fun h => hk h.symm
        simp [herr, hk, hk2, isLocalNode, isLocalNode_l, mem_addKey]
  · cases hsw : isSoftwareName name <;> simp [herr, isLocalNode, isLocalNode_l]

theorem isLocalNode_freeNode (m : MuxOMX) (err : status_t) (k n : node_id) :
    ((m.freeNode k err).2.2).isLocalNode n =
      (if err = OK ∧ k = n then false else m.isLocalNode n) := by
  unfold freeNode
  by_cases herr : err = OK
  · by_cases hk : k = n
    · subst hk
      simp [herr, isLocalNode, isLocalNode_l, mem_removeKey]
    · have hk2 : ¬ n = k := fun h => hk h.symm
      simp [herr, hk, hk2, isLocalNode, isLocalNode_l, mem_removeKey]
  · simp [herr, isLocalNode, isLocalNode_l]

theorem run_cons (c : Call) (cs : List Call) (m : MuxOMX) :
    run (c :: cs) m = run cs (m.step c) := rfl

theorem run_isLocalNode (n : node_id) (calls : List Call) :
    ∀ m : MuxOMX, (run calls m).isLocalNode n = liveSoftwareFrom n (m.isLocalNode n) calls := by
  induction calls with
  | nil => intro m; rfl
  | cons c cs ih =>
    intro m
    rw [run_cons, ih]
    cases c with
    | allocateNode name err k =>
      simp only [step, liveSoftwareFrom, isLocalNode_allocateNode]
    | freeNode k err =>
      simp only [step, liveSoftwareFrom, isLocalNode_freeNode]

theorem liveSoftwareFrom_returned (n : node_id) (calls : List Call) :
    ∀ b : Bool, liveSoftwareFrom n b calls = true →
      b = true ∨ n ∈ returnedIds Endpoint.localOMX calls := by
  induction calls with
  | nil => intro b h; exact Or.inl h
  | cons c cs ih =>
    intro b h
    cases c with
    | allocateNode name err k =>
      simp only [liveSoftwareFrom] at h
      by_cases hc : err = OK ∧ isSoftwareName name = true ∧ k = n
      · obtain ⟨herr, hsw, hk⟩ := hc
        right
        simp [returnedIds, herr, endpointFor, hsw, hk]
      · rw [if_neg hc] at h
        rcases ih b h with h1 | h1
        · exact Or.inl h1
        · right
          simp only [returnedIds]
          split_ifs
          · exact List.mem_cons_of_mem _ h1
          · exact h1
    | freeNode k err =>
      simp only [liveSoftwareFrom] at h
      by_cases hc : err = OK ∧ k = n
      · rw [if_pos hc] at h
        rcases ih false h with h1 | h1
        · exact absurd h1 (by decide)
        · exact Or.inr h1
      · rw [if_neg hc] at h
        exact ih b h

theorem allocatedByFrom_returned (n : node_id) (calls : List Call) :
    ∀ a : Option Endpoint, allocatedByFrom n a calls = some Endpoint.remoteOMX →
      a = some Endpoint.remoteOMX ∨ n ∈ returnedIds Endpoint.remoteOMX calls := by
  induction calls with
  | nil => intro a h; exact Or.inl h
  | cons c cs ih =>
    intro a h
    cases c with
    | allocateNode name err k =>
      simp only [allocatedByFrom] at h
      by_cases hc : err = OK ∧ k = n
      · rw [if_pos hc] at h
        obtain ⟨herr, hk⟩ := hc
        right
        rcases ih _ h with h1 | h1
        · have he : endpointFor name = Endpoint.remoteOMX := Option.some.inj h1
          simp [returnedIds, herr, he, hk]
        · simp only [returnedIds]
          split_ifs
          · exact List.mem_cons_of_mem _ h1
          · exact h1
      · rw [if_neg hc] at h
        rcases ih a h with h1 | h1
        · exact Or.inl h1
        · right
          simp only [returnedIds]
          split_ifs
          · exact List.mem_cons_of_mem _ h1
          · exact h1
    | freeNode k err =>
      simp only [allocatedByFrom] at h
      by_cases hc : err = OK ∧ k = n
      · rw [if_pos hc] at h
        rcases ih none h with h1 | h1
        · exact absurd h1 (by decide)
        · exact Or.inr h1
      · rw [if_neg hc] at h
        exact ih a h

theorem allocatedByFrom_local (n : node_id) (calls : List Call) :
    ∀ (a : Option Endpoint) (b : Bool), (a = some Endpoint.localOMX → b = true) →
      allocatedByFrom n a calls = some Endpoint.localOMX → liveSoftwareFrom n b calls = true := by
  induction calls with
  | nil => intro a b hab h; exact hab h
  | cons c cs ih =>
    intro a b hab h
    cases c with
    | allocateNode name err k =>
      simp only [allocatedByFrom] at h
      simp only [liveSoftwareFrom]
      refine ih _ _ ?_ h
      intro hnew
      by_cases hc : err = OK ∧ k = n
      · rw [if_pos hc] at hnew
        have he : endpointFor name = Endpoint.localOMX := Option.some.inj hnew
        have hsw : isSoftwareName name = true := by
          unfold endpointFor at he
          cases hs : isSoftwareName name with
          | true => rfl
          | false => rw [hs] at he; exact absurd he (by decide)
        rw [if_pos ⟨hc.1, hsw, hc.2⟩]
      · rw [if_neg hc] at hnew
        have hb := hab hnew
        rw [hb]
        split_ifs <;> rfl
    | freeNode k err =>
      simp only [allocatedByFrom] at h
      simp only [liveSoftwareFrom]
      refine ih _ _ ?_ h
      intro hnew
      by_cases hc : err = OK ∧ k = n
      · rw [if_pos hc] at hnew
        exact absurd hnew (by decide)
      · rw [if_neg hc] at hnew ⊢
        exact hab hnew

/-- The endpoint a per-node call is routed to after a sequence of calls in
which the two endpoints never return equal ids: the endpoint that allocated
the node. -/
theorem getOMX_allocatedBy {calls : List Call} {n : node_id} {e : Endpoint}
    (hids : DistinctIds calls) (h : allocatedBy calls n = some e) :
    (run calls {}).getOMX n = e := by
  unfold getOMX
  rw [run_isLocalNode]
  have h0 : ({} : MuxOMX).isLocalNode n = false := rfl
  rw [h0]
  cases e with
  | localOMX =>
    rw [allocatedByFrom_local n calls none false (fun hx => absurd hx (by decide)) h]
    rfl
  | remoteOMX =>
    have hrem : n ∈ returnedIds Endpoint.remoteOMX calls := by
      rcases allocatedByFrom_returned n calls none h with h1 | h1
      · exact absurd h1 (by decide)
      · exact h1
    cases hl : liveSoftwareFrom n false calls with
    | false => rfl
    | true =>
      rcases liveSoftwareFrom_returned n calls false hl with h1 | h1
      · exact absurd h1 (by decide)
      · exact absurd hrem (hids n h1)

theorem created_step (m : MuxOMX) (c : Call) (h : Created m) : Created (m.step c) := by
  cases c with
  | allocateNode name err k =>
    cases hsw : IsSoftwareComponent name with
    | true =>
      intro _
      by_cases herr : err = OK <;> simp [step, allocateNode, hsw, herr]
    | false =>
      have hsame : m.step (Call.allocateNode name err k) = m := by
        by_cases herr : err = OK <;> simp [step, allocateNode, hsw, herr]
      rw [hsame]
      exact h
  | freeNode k err =>
    unfold Created step freeNode
    by_cases herr : err = OK
    · intro hne
      simp only [herr, ne_eq, not_true_eq_false, if_false] at hne ⊢
      apply h
      intro hnil
      apply hne
      unfold removeKey
      rw [hnil]
      rfl
    · simpa [herr] using h

theorem created_run (calls : List Call) : ∀ m : MuxOMX, Created m → Created (run calls m) := by
  induction calls with
  | nil => intro m h; exact h
  | cons c cs ih =>
    intro m h
    rw [run_cons]
    exact ih _ (created_step m c h)

theorem created_of_local {m : MuxOMX} {n : node_id} (h : Created m)
    (hl : m.isLocalNode n = true) : m.mLocalOMX = true := by
  apply h
  intro hnil
  unfold isLocalNode isLocalNode_l at hl
  rw [hnil] at hl
  simp at hl

theorem request_forwarded (steHardware : Bool) (m : MuxOMX) (member : Member) (node : node_id)
    (index : OMX_INDEXTYPE) (nProfileIndex : Nat) (answer : status_t)
    (h : ¬ (steHardware = true ∧ member = Member.getParameter ∧
      index = OMX_INDEXTYPE.OMX_IndexParamVideoProfileLevelQuerySupported ∧ nProfileIndex = 0)) :
    m.request steHardware member node index nProfileIndex answer =
      (some (m.getOMX node), answer) := by
  cases member
  case getParameter =>
    have hc : (steHardware &&
        decide (index = OMX_INDEXTYPE.OMX_IndexParamVideoProfileLevelQuerySupported) &&
        decide (nProfileIndex = 0)) = false := by
      cases hb : (steHardware &&
        decide (index = OMX_INDEXTYPE.OMX_IndexParamVideoProfileLevelQuerySupported) &&
        decide (nProfileIndex = 0)) with
      | false => rfl
      | true =>
        simp only [Bool.and_eq_true, decide_eq_true_eq] at hb
        exact absurd ⟨hb.1.1, rfl, hb.1.2, hb.2⟩ h
    simp only [request, getParameter, hc, Bool.false_eq_true, if_false, forward]
  all_goals rfl

/-- C30, with the one per-node request that is not passed on set apart.  After
every sequence of `allocateNode` and `freeNode` calls on a new `MuxOMX` in
which the local and the remote endpoint never return equal node ids: a node is
recorded as local if and only if it was successfully allocated for a component
whose name starts with `OMX.google.` or `OMX.ffmpeg.` (letter case ignored)
and has not since been successfully freed, and `mLocalOMX` exists whenever a
node is recorded; `livesLocally`, `sendCommand`, `freeNode` and every other
per-node request on a node is passed to the endpoint that allocated the node
and returns that endpoint's answer, except `getParameter` for
`OMX_IndexParamVideoProfileLevelQuerySupported` with profile index 0 in an
`STE_HARDWARE` build, which returns -1 and reaches no endpoint; an
`allocateNode` is passed to the local endpoint exactly for such a component
name; a failing `allocateNode` or `freeNode` returns the endpoint's error and
leaves the local-node map unchanged, and a successful `allocateNode` returns
`OK` with the id the endpoint wrote. -/
theorem allocateNode_freeNode_routing (steHardware : Bool) (calls : List Call) (node : node_id)
    (hids : DistinctIds calls) :
    ((run calls {}).isLocalNode node = true ↔ liveSoftware calls node = true) ∧
    ((run calls {}).isLocalNode node = true → (run calls {}).mLocalOMX = true) ∧
    (∀ e, allocatedBy calls node = some e →
      (run calls {}).getOMX node = e ∧
      (∀ answer, (run calls {}).livesLocally node answer = (some e, answer)) ∧
      (∀ answer, (run calls {}).sendCommand node answer = (some e, answer)) ∧
      (∀ member index nProfileIndex answer,
        ¬ (steHardware = true ∧ member = Member.getParameter ∧
            index = OMX_INDEXTYPE.OMX_IndexParamVideoProfileLevelQuerySupported ∧
            nProfileIndex = 0) →
        (run calls {}).request steHardware member node index nProfileIndex answer =
          (some e, answer)) ∧
      (∀ err, ((run calls {}).freeNode node err).1 = e ∧
        ((run calls {}).freeNode node err).2.1 = err)) ∧
    (∀ answer, (run calls {}).request true Member.getParameter node
        OMX_INDEXTYPE.OMX_IndexParamVideoProfileLevelQuerySupported 0 answer = (none, -1)) ∧
    (∀ name err k,
      ((run calls {}).allocateNode name (err, k)).1 = endpointFor name ∧
      ((run calls {}).allocateNode name (err, k)).2.1 = err ∧
      (err = OK → ((run calls {}).allocateNode name (err, k)).2.2.1 = some k) ∧
      (err ≠ OK →
        ((run calls {}).allocateNode name (err, k)).2.2.2.mIsLocalNode =
          (run calls {}).mIsLocalNode)) ∧
    (∀ k err, err ≠ OK →
      ((run calls {}).freeNode k err).2 = (err, run calls {})) := by
  refine ⟨?_, ?_, ?_, ?_, ?_, ?_⟩
  · rw [run_isLocalNode]
    exact Iff.rfl
  · exact created_of_local (created_run calls {} (fun h => absurd rfl h))
  · intro e he
    have hroute := getOMX_allocatedBy hids he
    refine ⟨hroute, ?_, ?_, ?_, ?_⟩
    · intro answer
      simp only [livesLocally, forward, hroute]
    · intro answer
      simp only [sendCommand, forward, hroute]
    · intro member index nProfileIndex answer hx
      rw [request_forwarded steHardware _ member node index nProfileIndex answer hx, hroute]
    · intro err
      have hl : (run calls {}).getOMX_l node = e := hroute
      unfold freeNode
      by_cases herr : err = OK
      · simp [herr, hl]
      · simp [herr, hl]
  · intro answer
    rfl
  · intro name err k
    unfold allocateNode
    rw [IsSoftwareComponent_eq]
    unfold endpointFor
    by_cases herr : err = OK
    · cases hsw : isSoftwareName name <;> simp [herr]
    · cases hsw : isSoftwareName name <;> simp [herr]
  · intro k err herr
    unfold freeNode
    simp [herr]

/-- C30 as stated fails in an `STE_HARDWARE` build: after the allocation of a
vendor decoder, which the remote endpoint answers with node 7, the
`getParameter` request for `OMX_IndexParamVideoProfileLevelQuerySupported`
with profile index 0 on that node reaches no endpoint and returns -1, whatever
the endpoint that allocated the node would answer. -/
theorem getParameter_guard_counterexample :
    DistinctIds [Call.allocateNode "OMX.ST.VFM.H264Dec" OK 7] ∧
    allocatedBy [Call.allocateNode "OMX.ST.VFM.H264Dec" OK 7] 7 = some Endpoint.remoteOMX ∧
    (run [Call.allocateNode "OMX.ST.VFM.H264Dec" OK 7] {}).getOMX 7 = Endpoint.remoteOMX ∧
    (run [Call.allocateNode "OMX.ST.VFM.H264Dec" OK 7] {}).request true Member.getParameter 7
      OMX_INDEXTYPE.OMX_IndexParamVideoProfileLevelQuerySupported 0 OK = (none, -1) ∧
    (run [Call.allocateNode "OMX.ST.VFM.H264Dec" OK 7] {}).sendCommand 7 OK =
      (some Endpoint.remoteOMX, OK) := by
  refine ⟨by decide, by decide, by decide, by decide, by decide⟩

/-- C30 at a session with a software decoder (node 1), a vendor decoder
(node 2) and a freed software component (node 3): node 1 is recorded as local
and its requests go to the local endpoint, also after the failed `freeNode`. -/
theorem allocateNode_freeNode_routing_witness :
    DistinctIds session ∧
    allocatedBy session 1 = some Endpoint.localOMX ∧
    (run session {}).isLocalNode 1 = true ∧
    (run session {}).sendCommand 1 OK = (some Endpoint.localOMX, OK) ∧
    (run session {}).request true Member.getParameter 1
      OMX_INDEXTYPE.OMX_IndexParamVideoProfileLevelQuerySupported 1 OK =
        (some Endpoint.localOMX, OK) :=
  have h := allocateNode_freeNode_routing true session 1 (by decide)
  have ha : allocatedBy session 1 = some Endpoint.localOMX := by decide
  ⟨by decide, ha, h.1.mpr (by decide), (h.2.2.1 _ ha).2.2.1 OK,
    (h.2.2.1 _ ha).2.2.2.1 Member.getParameter
      OMX_INDEXTYPE.OMX_IndexParamVideoProfileLevelQuerySupported 1 OK
      (fun hx => absurd hx.2.2.2 (by decide))⟩

end MuxOMX
